import Mathlib

/-!
# HgtReader: tile cache, quadtree, geographic grid, file formats and colour ramp

A shallow embedding of the core of HgtReader (`src/HgtReader`).

Modelling conventions

* A C++ `double` holding a geographic coordinate, a distance or a colour component is a
  rational number (`ℚ`) with exact arithmetic; `(int)` applied to a double is truncation
  towards zero. Where the rounding of a `double` operation of the source matters to a
  statement, the statement keeps the distance from the point where it matters (the bound
  `-90 + 2^-45` on latitudes, the factor `1 - 2^-53` on the level thresholds).
* A pointer to a heap object is the object itself together with an address field (`ptr`);
  the null pointer is `none` (for a `CEarth*`, which is only compared, the address `0`).
* `qFatal` aborts the program: an operation that can reach it returns `Option`, `none`
  being the abort.
* `QTime::elapsed()` of the cache clock is an input of every operation that reads it.
* Square roots and trigonometric functions are not computed: what `QVector3D` arithmetic
  and the spherical conversions yield enters as a parameter (`CamView`,
  `getSphericalFromCartesian`).
* The recursion of `CTerrain::updateTerrainTree` runs on a fuel argument; `fuelFor` gives
  an amount that suffices.
* `CTerrain::draw` returns, besides its result, the drawing calls it makes, in their order.
-/

namespace HgtReader

/-! ## Tiles and cache entries -/

/-- The part of `CTerrainData` the cache looks at: the object's address, its key
`(topLeftLon, topLeftLat, LOD)`, its degree size and its OpenGL texture id. -/
structure CTerrainData where
  ptr : Nat
  topLeftLon : ℚ
  topLeftLat : ℚ
  LOD : Int
  degreeSize : ℚ
  textureID : Nat
  deriving DecidableEq

/-- Modelled from the spec: `CCachedTerrainData.h` is not among the sources. An entry is
`data: Tile | TOMBSTONE`, `usedA`, `usedB`, `lastTouched`; the field names are the ones
`CCachedTerrainDataGroup.cpp` uses, `time` is an `unsigned int` as `deleteNotInUse`
compares it with one. A null `terrainData` is a tombstone. -/
structure CCachedTerrainData where
  terrainData : Option CTerrainData
  terrainAinUse : Bool
  terrainBinUse : Bool
  time : Nat
  deriving DecidableEq

/-- Modelled from the spec: the default constructor of `CCachedTerrainData` (header not
among the sources): no tile, both in-use flags clear. -/
def CCachedTerrainData.new : CCachedTerrainData :=
  { terrainData := none, terrainAinUse := false, terrainBinUse := false, time := 0 }

/-- The three comparisons of the search loops, counted as the source counts them. -/
def matchCount (td : CTerrainData) (tlLon tlLat : ℚ) (lod : Int) : Nat :=
  (if td.topLeftLon = tlLon then 1 else 0) + (if td.topLeftLat = tlLat then 1 else 0)
    + (if td.LOD = lod then 1 else 0)

/-- The search loop shared by find, register and free: the index of the first entry that is
not a tombstone and whose tile matches all three key components (`match==3`), if any. -/
def searchEntry (tlLon tlLat : ℚ) (lod : Int) : List CCachedTerrainData → Option Nat
  | [] => none
  | e :: rest =>
    match e.terrainData with
    | none => (searchEntry tlLon tlLat lod rest).map (· + 1)
    | some td =>
      if matchCount td tlLon tlLat lod = 3 then some 0
      else (searchEntry tlLon tlLat lod rest).map (· + 1)

/-- The branch `if (earth==cacheManager->earthBufferA) A = v; else B = v;`. -/
def setInUse (earthBufferA earth : Nat) (v : Bool) (e : CCachedTerrainData) :
    CCachedTerrainData :=
  if earth = earthBufferA then { e with terrainAinUse := v } else { e with terrainBinUse := v }

/-- What find, register and free do to the entry they work on: set or clear the consumer's
flag, then `i->time = cacheManager->cacheTime.elapsed()`. -/
def touchEntry (earthBufferA earth : Nat) (v : Bool) (now : Nat) (e : CCachedTerrainData) :
    CCachedTerrainData :=
  { setInUse earthBufferA earth v e with time := now }

/-- `CCachedTerrainDataGroup::deleteNotInUse` on one entry: the new entry and the texture id
appended to `earth->textureIDListToRemoveFromVRAM`, if any. -/
def deleteNotInUseEntry (earth olderThan : Nat) (e : CCachedTerrainData) :
    CCachedTerrainData × List Nat :=
  if !e.terrainAinUse && !e.terrainBinUse && decide (e.time < olderThan) then
    match e.terrainData with
    | some td =>
      ({ e with terrainData := none },
        if earth ≠ 0 ∧ td.textureID ≠ 0 then [td.textureID] else [])
    | none => (e, [])
  else (e, [])

/-- `CCachedTerrainDataGroup::deleteNotInUse`: the shard after the sweep and the texture ids
queued on `earth` (a null `earth` is `0`). -/
def deleteNotInUse (earth olderThan : Nat) :
    List CCachedTerrainData → List CCachedTerrainData × List Nat
  | [] => ([], [])
  | e :: rest =>
    let r := deleteNotInUseEntry earth olderThan e
    let rs := deleteNotInUse earth olderThan rest
    (r.1 :: rs.1, r.2 ++ rs.2)

/-- `CCachedTerrainDataGroup::cachedTerrainDataListFind`. `none` is the `qFatal` of the
integrity check; otherwise the shard, the returned `found` and the handle `*terrainData`. -/
def cachedTerrainDataListFind (earthBufferA earthBufferB now : Nat)
    (l : List CCachedTerrainData) (tlLon tlLat : ℚ) (lod : Int) (earth : Nat) :
    Option (List CCachedTerrainData × Bool × Option CTerrainData) :=
  if earth ≠ earthBufferA ∧ earth ≠ earthBufferB then none
  else
    match searchEntry tlLon tlLat lod l with
    | some i =>
      match l[i]? with
      | some e =>
        some (l.set i (touchEntry earthBufferA earth true now e), true,
          e.terrainData)
      | none => none
    | none => some (l, false, none)

/-- `CCachedTerrainDataGroup::cachedTerrainDataListRegister`. `none` is a `qFatal` (integrity
check, or "double register same terrain data"); otherwise the shard and the handle
`*terrainData` after the call. -/
def cachedTerrainDataListRegister (earthBufferA earthBufferB now : Nat)
    (l : List CCachedTerrainData) (earth : Nat) (terrainData : CTerrainData) :
    Option (List CCachedTerrainData × CTerrainData) :=
  if earth ≠ earthBufferA ∧ earth ≠ earthBufferB then none
  else
    match searchEntry terrainData.topLeftLon terrainData.topLeftLat terrainData.LOD l with
    | some i =>
      match l[i]? with
      | some e =>
        match e.terrainData with
        | some td =>
          if terrainData.ptr = td.ptr then none
          else some (l.set i (touchEntry earthBufferA earth true now e), td)
        | none => none
      | none => none
    | none =>
      some (l ++ [{ touchEntry earthBufferA earth true now CCachedTerrainData.new with
                    terrainData := some terrainData }], terrainData)

/-- `CCachedTerrainDataGroup::cachedTerrainDataListFree`. `none` is the `qFatal` of the
integrity check; otherwise the shard and whether the caller's tile object was deleted (the
"zombie" branch). The parameter `dontSaveJustDelete` is not read by the source. -/
def cachedTerrainDataListFree (earthBufferA earthBufferB now : Nat)
    (l : List CCachedTerrainData) (earth : Nat) (terrainData : CTerrainData)
    (_dontSaveJustDelete : Bool) : Option (List CCachedTerrainData × Bool) :=
  if earth ≠ earthBufferA ∧ earth ≠ earthBufferB then none
  else
    match searchEntry terrainData.topLeftLon terrainData.topLeftLat terrainData.LOD l with
    | some i =>
      match l[i]? with
      | some e =>
        some (l.set i (touchEntry earthBufferA earth false now e), false)
      | none => none
    | none => some (l, true)

/-- The tile `t` is stored, not tombstoned, at position `k` of the shard. -/
def LiveAt (l : List CCachedTerrainData) (k : Nat) (t : CTerrainData) : Prop :=
  ∃ e, l[k]? = some e ∧ e.terrainData = some t

/-- Two tiles have the same key `(topLeftLon, topLeftLat, LOD)`. -/
def sameKey (t1 t2 : CTerrainData) : Prop :=
  t1.topLeftLon = t2.topLeftLon ∧ t1.topLeftLat = t2.topLeftLat ∧ t1.LOD = t2.LOD

/-- At most one live entry per key. -/
def AtMostOnePerKey (l : List CCachedTerrainData) : Prop :=
  ∀ i j t1 t2, LiveAt l i t1 → LiveAt l j t2 → sameKey t1 t2 → i = j

/-- Shard states reachable from the empty shard by completed calls of the four operations
(the cache manager's two `earth` buffers are fixed). -/
inductive Reachable (earthBufferA earthBufferB : Nat) : List CCachedTerrainData → Prop
  | empty : Reachable earthBufferA earthBufferB []
  | find {l l' : List CCachedTerrainData} {now earth : Nat} {tlLon tlLat : ℚ} {lod : Int}
      {found : Bool} {handle : Option CTerrainData} :
      Reachable earthBufferA earthBufferB l →
      cachedTerrainDataListFind earthBufferA earthBufferB now l tlLon tlLat lod earth
        = some (l', found, handle) →
      Reachable earthBufferA earthBufferB l'
  | register {l l' : List CCachedTerrainData} {now earth : Nat} {td handle : CTerrainData} :
      Reachable earthBufferA earthBufferB l →
      cachedTerrainDataListRegister earthBufferA earthBufferB now l earth td
        = some (l', handle) →
      Reachable earthBufferA earthBufferB l'
  | free {l l' : List CCachedTerrainData} {now earth : Nat} {td : CTerrainData}
      {dontSaveJustDelete deleted : Bool} :
      Reachable earthBufferA earthBufferB l →
      cachedTerrainDataListFree earthBufferA earthBufferB now l earth td dontSaveJustDelete
        = some (l', deleted) →
      Reachable earthBufferA earthBufferB l'
  | sweep {l : List CCachedTerrainData} (earth olderThan : Nat) :
      Reachable earthBufferA earthBufferB l →
      Reachable earthBufferA earthBufferB (deleteNotInUse earth olderThan l).1

/-- A LOD-0 tile object at address 100 with key `(0, 90, 0)`. -/
def tileNW : CTerrainData :=
  { ptr := 100, topLeftLon := 0, topLeftLat := 90, LOD := 0, degreeSize := 60, textureID := 7 }

/-- A second object (address 200) built for the same key `(0, 90, 0)`. -/
def tileNWrebuilt : CTerrainData :=
  { ptr := 200, topLeftLon := 0, topLeftLat := 90, LOD := 0, degreeSize := 60, textureID := 0 }

/-- A shard with a tile held by buffer B only, one held by both buffers and an unused one. -/
def shardMixed : List CCachedTerrainData :=
  [{ terrainData := some tileNW, terrainAinUse := false, terrainBinUse := true, time := 5 },
   { terrainData := some tileNWrebuilt, terrainAinUse := true, terrainBinUse := true,
     time := 6 },
   { terrainData := some tileNW, terrainAinUse := false, terrainBinUse := false, time := 7 }]

/-- A shard whose first entry is a tombstone and whose second holds `tileNW` for buffer A. -/
def shardTombstoneThenTile : List CCachedTerrainData :=
  [{ terrainData := none, terrainAinUse := false, terrainBinUse := false, time := 3 },
   { terrainData := some tileNW, terrainAinUse := true, terrainBinUse := false, time := 5 }]

/-- The shard after consumer `earth` registers `terrainData` (clock `now1`) and releases
the handle it got back (clock `now2`); `none` if a call aborts. -/
def registerRelease (earthBufferA earthBufferB now1 now2 : Nat)
    (l : List CCachedTerrainData) (earth : Nat) (terrainData : CTerrainData) :
    Option (List CCachedTerrainData) :=
  (cachedTerrainDataListRegister earthBufferA earthBufferB now1 l earth terrainData).bind
    fun r1 =>
      (cachedTerrainDataListFree earthBufferA earthBufferB now2 r1.1 earth r1.2 false).map
        fun r2 => r2.1

/-- The scenario of testable property 4 on one shard: `registerRelease`, then
`deleteNotInUse(sweepEarth, olderThan)`. -/
def registerReleaseSweep (earthBufferA earthBufferB now1 now2 : Nat)
    (l : List CCachedTerrainData) (earth : Nat) (terrainData : CTerrainData)
    (sweepEarth olderThan : Nat) : Option (List CCachedTerrainData) :=
  (registerRelease earthBufferA earthBufferB now1 now2 l earth terrainData).map
    fun l2 => (deleteNotInUse sweepEarth olderThan l2).1

/-! ## Geographic grid (`CCommons`) -/

/-- `(int)x` for a double `x`: truncation towards zero. -/
def castInt (x : ℚ) : Int :=
  if 0 ≤ x then ⌊x⌋ else ⌈x⌉

/-- `CCacheManager::LODdegreeSizeLookUp`, as the constructor fills it:
`[0] = 60.0`, `[i] = [i-1]/2.0`. The C++ array has the 14 entries `0..13`. -/
def LODdegreeSizeLookUp : Nat → ℚ
  | 0 => 60
  | i + 1 => LODdegreeSizeLookUp i / 2

/-- `CCommons::convertLonLatToCartesian`. -/
def convertLonLatToCartesian (lon lat : ℚ) : ℚ × ℚ :=
  (lon, 90 - lat)

/-- `CCommons::convertCartesianToLonLat`. -/
def convertCartesianToLonLat (lonX latY : ℚ) : ℚ × ℚ :=
  (lonX, 90 - latY)

/-- The longitude correction at the head of `findTopLeftCorner` and
`convertTopLeft2AvabilityIndex`:
`if (correctedLon>=360.0) correctedLon -= 360.0; if (correctedLon<0.0) correctedLon += 360.0;`. -/
def correctLon (lon : ℚ) : ℚ :=
  let correctedLon := if lon ≥ 360 then lon - 360 else lon
  if correctedLon < 0 then correctedLon + 360 else correctedLon

/-- `CCommons::findTopLeftCorner`: the pair `(*tlLon, *tlLat)`. -/
def findTopLeftCorner (lon lat degreeSize : ℚ) : ℚ × ℚ :=
  let correctedLon := correctLon lon
  let c := convertLonLatToCartesian correctedLon lat
  let lonX : ℚ := (⌊c.1 / degreeSize⌋ : Int) * degreeSize
  let latY : ℚ := (⌊c.2 / degreeSize⌋ : Int) * degreeSize
  convertCartesianToLonLat lonX latY

/-- `CCommons::convertTopLeft2AvabilityIndex`: the value stored in `*index`. -/
def convertTopLeft2AvabilityIndex (tlLon tlLat degreeSize : ℚ) : Int :=
  let correctedLon := correctLon tlLon
  let c := convertLonLatToCartesian correctedLon tlLat
  let tlLonIndexX := castInt (c.1 / degreeSize + 1 / 2)
  let tlLatIndexY := castInt (c.2 / degreeSize + 1 / 2)
  tlLatIndexY * castInt (360 / degreeSize + 1 / 2) + tlLonIndexX

/-! ## File names (`CCommons`): the Qt string functions the codecs use

`QString` is a list of characters. The Qt functions below are library code, modelled from the
Qt 4 documentation: `QString::number(double, 'f', prec)` prints in fixed notation, always
with `.` as decimal point; `toInt` and `toDouble` return 0 when the conversion fails;
`toDouble` first reads the string in the default locale (whose decimal point is a parameter
here), then falls back on the C locale, and does not accept group separators. Strings in
exponent notation are not in the model (they read as a failed conversion). -/

/-- The decimal digit `d % 10` as a character. -/
def digitChar (d : Nat) : Char :=
  Char.ofNat (48 + d % 10)

/-- The value of a decimal digit character. -/
def digitVal (c : Char) : Nat :=
  c.toNat - 48

/-- The decimal representation of a natural number, most significant digit first. -/
def natDigitChars (n : Nat) : List Char :=
  if n = 0 then ['0'] else (Nat.digits 10 n).reverse.map digitChar

/-- The `prec` decimals of `m / 10^prec`, most significant first. -/
def fracDigitChars (prec m : Nat) : List Char :=
  (List.range prec).map fun i => digitChar (m / 10 ^ (prec - 1 - i))

/-- Rounding to the nearest integer, ties to even. -/
def roundHalfEven (x : ℚ) : Int :=
  if x - ⌊x⌋ < 1 / 2 then ⌊x⌋
  else if 1 / 2 < x - ⌊x⌋ then ⌊x⌋ + 1
  else if ⌊x⌋ % 2 = 0 then ⌊x⌋ else ⌊x⌋ + 1

/-- `QString::number(x, 'f', prec)`. -/
def QString.number (x : ℚ) (prec : Nat) : List Char :=
  let n := (roundHalfEven (|x| * 10 ^ prec)).toNat
  (if x < 0 then ['-'] else []) ++ natDigitChars (n / 10 ^ prec) ++
    (if prec = 0 then [] else '.' :: fracDigitChars prec (n % 10 ^ prec))

/-- `QString::rightJustified(width, fill)` (without truncation). -/
def QString.rightJustified (s : List Char) (width : Nat) (fill : Char) : List Char :=
  List.replicate (width - s.length) fill ++ s

/-- `QString::right(n)`. -/
def QString.right (s : List Char) (n : Nat) : List Char :=
  s.drop (s.length - n)

/-- `QString::left(n)`. -/
def QString.left (s : List Char) (n : Nat) : List Char :=
  s.take n

/-- `QString::at(i)`; the position has to be valid. -/
def QString.at (s : List Char) (i : Nat) : Char :=
  s.getD i (Char.ofNat 0)

/-- A non-empty string of decimal digits as a number. -/
def parseNat (s : List Char) : Option Nat :=
  if s ≠ [] ∧ s.all Char.isDigit then some (s.foldl (fun acc c => 10 * acc + digitVal c) 0)
  else none

/-- An optional sign, then `parse`. -/
def parseSigned (parse : List Char → Option ℚ) (s : List Char) : Option ℚ :=
  match s with
  | [] => parse []
  | c :: t =>
    if c = '-' then (parse t).map fun v => -v
    else if c = '+' then parse t
    else parse (c :: t)

/-- Digits, optionally followed by the decimal point and digits. -/
def parseFixed (decimalPoint : Char) (s : List Char) : Option ℚ :=
  let ip := s.takeWhile Char.isDigit
  match s.dropWhile Char.isDigit with
  | [] => (parseNat ip).map fun n => (n : ℚ)
  | c :: fr =>
    if c = decimalPoint then
      match parseNat ip, parseNat fr with
      | some n, some m => some ((n : ℚ) + (m : ℚ) / 10 ^ fr.length)
      | some n, none => if fr = [] then some (n : ℚ) else none
      | none, some m => if ip = [] then some ((m : ℚ) / 10 ^ fr.length) else none
      | none, none => none
    else none

/-- `QString::toInt()`. -/
def QString.toInt (s : List Char) : Int :=
  match s with
  | [] => 0
  | c :: t =>
    if c = '-' then ((parseNat t).map fun n => -(n : Int)).getD 0
    else if c = '+' then ((parseNat t).map fun n => (n : Int)).getD 0
    else ((parseNat (c :: t)).map fun n => (n : Int)).getD 0

/-- `QString::toDouble()` when the default locale has the decimal point
`localeDecimalPoint`. -/
def QString.toDouble (localeDecimalPoint : Char) (s : List Char) : ℚ :=
  match parseSigned (parseFixed localeDecimalPoint) s with
  | some v => v
  | none => (parseSigned (parseFixed '.') s).getD 0

/-- `CCommons::convertSRTMfileNameToLonLat`: the pair `(*lon, *lat)`. -/
def convertSRTMfileNameToLonLat (name : List Char) : ℚ × ℚ :=
  let tmp := QString.left (QString.right name 11) 7
  let fnLatSide := QString.at tmp 0
  let fnLonSide := QString.at tmp 3
  let fnLat := QString.left (QString.right tmp 6) 2
  let fnLon := QString.right tmp 3
  let lat : ℚ := (QString.toInt fnLat : Int)
  let lon : ℚ := (QString.toInt fnLon : Int)
  let lon := if fnLonSide = 'W' then 360 - lon else lon
  let lat := if fnLatSide = 'S' then lat * (-1) else lat
  (lon, lat + 1)

/-- `CCommons::convertLonLatToSRTMfileName`. -/
def convertLonLatToSRTMfileName (lon lat : ℚ) : List Char :=
  let tmpLon := if lon ≥ 180 then 360 - lon else lon
  let fnLonSide := if lon ≥ 180 then 'W' else 'E'
  let tmpLat := if lat - 1 ≥ 0 then lat - 1 else -1 * (lat - 1)
  let fnLatSide := if lat - 1 ≥ 0 then 'N' else 'S'
  let fnLon := QString.rightJustified (QString.number tmpLon 0) 3 '0'
  let fnLat := QString.rightJustified (QString.number tmpLat 0) 2 '0'
  fnLatSide :: fnLat ++ fnLonSide :: fnLon ++ ".hgt".toList

/-- `CCommons::convertFileNameToLonLat` when the default locale has the decimal point
`localeDecimalPoint`: the pair `(*lon, *lat)`. -/
def convertFileNameToLonLat (localeDecimalPoint : Char) (name : List Char) : ℚ × ℚ :=
  let tmp := QString.left (QString.right name 18) 14
  let fnLatSide := QString.at tmp 0
  let fnLonSide := QString.at tmp 7
  let fnLat := QString.left (QString.right tmp 13) 5
  let fnLon := QString.right tmp 6
  let lat := QString.toDouble localeDecimalPoint fnLat
  let lon := QString.toDouble localeDecimalPoint fnLon
  let lon := if fnLonSide = 'W' then 360 - lon else lon
  let lat := if fnLatSide = 'S' then lat * (-1) else lat
  (lon, lat)

/-- `CCommons::convertLonLatToFileName`; the two assignments `(*name)[3] = ','` and
`(*name)[11] = ','` are the two `set`s. -/
def convertLonLatToFileName (lon lat : ℚ) : List Char :=
  let tmpLon := if lon ≥ 180 then 360 - lon else lon
  let fnLonSide := if lon ≥ 180 then 'W' else 'E'
  let tmpLat := if lat ≥ 0 then lat else -1 * lat
  let fnLatSide := if lat ≥ 0 then 'N' else 'S'
  let fnLon := QString.rightJustified (QString.number tmpLon 2) 6 '0'
  let fnLat := QString.rightJustified (QString.number tmpLat 2) 5 '0'
  ((fnLatSide :: fnLat ++ '_' :: fnLonSide :: fnLon ++ ".hgt".toList).set 3 ',').set 11 ','

/-- An SRTM name spelled out: side letter, two latitude digits, side letter, three longitude
digits, `.hgt`. -/
def srtmName (latSide lonSide : Char) (nLat nLon : Nat) : List Char :=
  [latSide, digitChar (nLat / 10), digitChar nLat, lonSide, digitChar (nLon / 100),
    digitChar (nLon / 10), digitChar nLon, '.', 'h', 'g', 't']

/-- A composite-pyramid name spelled out, for a latitude of `nLat` and a longitude of `nLon`
hundredths of a degree. -/
def compositeName (latSide lonSide : Char) (nLat nLon : Nat) : List Char :=
  [latSide, digitChar (nLat / 1000), digitChar (nLat / 100), ',', digitChar (nLat / 10),
    digitChar nLat, '_', lonSide, digitChar (nLon / 10000), digitChar (nLon / 1000),
    digitChar (nLon / 100), ',', digitChar (nLon / 10), digitChar nLon, '.', 'h', 'g', 't']

/-! ## Source reader (`CCacheManager::getTerrainPoints`)

The dataset on disk is a function from file path and byte offset to the byte stored there;
`CAvability` arrays are functions of the index. -/

/-- Modelled from the spec: `CAvability.h` is not among the sources. An availability entry
is "either absent or present with source filename"; the field names are the ones
`CCacheManager.cpp` uses. -/
structure CAvability where
  available : Bool
  name : List Char

/-- `CRawPixel`: three `unsigned char`s. -/
structure CRawPixel where
  r : Nat
  g : Nat
  b : Nat
  deriving DecidableEq

/-- `CRawPixel::CRawPixel(unsigned int rgb)`. -/
def CRawPixel.ofRgb (rgb : Nat) : CRawPixel :=
  { r := ((rgb &&& 0xFF0000) >>> 16) % 256,
    g := ((rgb &&& 0x00FF00) >>> 8) % 256,
    b := (rgb &&& 0x0000FF) % 256 }

/-- `qRgb(r, g, b)` of Qt: `0xff000000 | r << 16 | g << 8 | b` on the low bytes. -/
def qRgb (r g b : Nat) : Nat :=
  0xff000000 ||| ((r % 256) <<< 16) ||| ((g % 256) <<< 8) ||| (b % 256)

/-- `TEX_EMPTY_COLOR`. -/
def TEX_EMPTY_COLOR : Nat := 0xEEFFEE

/-- `TEX_TERRAIN_SIZE`. -/
def TEX_TERRAIN_SIZE : Int := 32

/-- `TEX_DEGREE_SIZE`. -/
def TEX_DEGREE_SIZE : ℚ := 45

/-- `TEX_SOURCE_MAX_LOD`. -/
def TEX_SOURCE_MAX_LOD : Nat := 10

/-- `HGT_DONT_USE_DISK_HEIGHT`. -/
def HGT_DONT_USE_DISK_HEIGHT : Int := 300

/-- `CCacheManager::HGTsourceLookUp`: `HGT_SOURCE_L00_L03 = 0` for LOD 0..3,
`HGT_SOURCE_L04_L08 = 1` for 4..8, `HGT_SOURCE_L09_L13 = 2` for 9..13. -/
def HGTsourceLookUp (lod : Nat) : Nat :=
  if lod ≤ 3 then 0 else if lod ≤ 8 then 1 else 2

/-- `CCacheManager::HGTsourceSizeLookUp`. -/
def HGTsourceSizeLookUp (lod : Nat) : Int :=
  if lod ≤ 3 then 65 else if lod ≤ 8 then 513 else 4097

/-- `CCacheManager::HGTsourceDegreeSizeLookUp`. -/
def HGTsourceDegreeSizeLookUp (lod : Nat) : ℚ :=
  if lod ≤ 3 then 60 else if lod ≤ 8 then 15 else 15 / 4

/-- `CCacheManager::HGTsourceSkippingLookUp`: `pow(2, 3-i)`, `pow(2, 8-i)`, `pow(2, 13-i)`. -/
def HGTsourceSkippingLookUp (lod : Nat) : Int :=
  if lod ≤ 3 then 2 ^ (3 - lod) else if lod ≤ 8 then 2 ^ (8 - lod) else 2 ^ (13 - lod)

/-- `CCacheManager::TEXsourceLookUp`. -/
def TEXsourceLookUp (lod : Nat) : Nat :=
  if lod ≤ 2 then 0 else if lod ≤ 5 then 1 else if lod ≤ 8 then 2 else 3

/-- `CCacheManager::TEXsourceSkippingLookUp`. -/
def TEXsourceSkippingLookUp (lod : Nat) : Int :=
  if lod ≤ 2 then 2 ^ (2 - lod) else if lod ≤ 5 then 2 ^ (5 - lod)
  else if lod ≤ 8 then 2 ^ (8 - lod)
  else if lod = 9 then 2 else if lod = 10 then 1 else if lod = 11 then -2
  else if lod = 12 then -4 else -8

/-- `CCacheManager::TEXsourcePxSizeLookUp`. -/
def TEXsourcePxSizeLookUp (lod : Nat) : Int :=
  if lod ≤ 2 then 96 else if lod ≤ 5 then 768 else if lod ≤ 8 then 6144 else 24576

/-- `CCacheManager`: the directory names, the availability arrays, the two `earth` buffers
and the three arrays of cache shards; `disk` is the dataset the manager reads. -/
structure CCacheManager where
  pathL00_L03 : List Char
  pathL04_L08 : List Char
  pathL09_L13 : List Char
  pathTexL00_L02 : List Char
  pathTexL03_L05 : List Char
  pathTexL06_L08 : List Char
  pathTexL09_L10 : List Char
  avability_L00_L03 : Int → CAvability
  avability_L04_L08 : Int → CAvability
  avability_L09_L13 : Int → CAvability
  avabilityTex_L00_L02 : Int → CAvability
  avabilityTex_L03_L05 : Int → CAvability
  avabilityTex_L06_L08 : Int → CAvability
  avabilityTex_L09_L10 : Int → CAvability
  earthBufferA : Nat
  earthBufferB : Nat
  cachedTerrainDataGroup_L00_L03 : Int → List CCachedTerrainData
  cachedTerrainDataGroup_L04_L08 : Int → List CCachedTerrainData
  cachedTerrainDataGroup_L09_L13 : Int → List CCachedTerrainData
  disk : List Char → Int → Nat

/-- A `for (i=0; i<n; i++)` loop over a state. -/
def forLoop {σ : Type} (n : Int) (body : Int → σ → σ) (s : σ) : σ :=
  (List.range n.toNat).foldl (fun st i => body (i : Int) st) s

/-- `CHgtFile::fileGetHeight` on the file `name` opened with row length `sizeX`. -/
def fileGetHeight (disk : List Char → Int → Nat) (name : List Char) (sizeX x y : Int) : Int :=
  let pos := (y * sizeX + x) * 2
  ((((disk name pos) % 256) <<< 8) + (disk name (pos + 1)) % 256 : Nat)

/-- `CHgtFile::fileGetHeightBlock(int *buffer, ...)`: the buffer, row by row. -/
def fileGetHeightBlock (disk : List Char → Int → Nat) (name : List Char)
    (sizeX x y : Int) (sx sy : Nat) (skip : Int) : List Int :=
  (List.range sy).flatMap fun Y => (List.range sx).map fun X =>
    fileGetHeight disk name sizeX (x + (X : Int) * skip) (y + (Y : Int) * skip)

/-- `CRawFile::fileGetPixel` on the file `name` opened with row length `sizeX`. -/
def fileGetPixel (disk : List Char → Int → Nat) (name : List Char) (sizeX x y : Int) :
    CRawPixel :=
  let pos := (y * sizeX + x) * 3
  { r := disk name pos % 256, g := disk name (pos + 1) % 256, b := disk name (pos + 2) % 256 }

/-- `CCommons::findTopLeftCornerOfHgtFile`. -/
def findTopLeftCornerOfHgtFile (lon lat : ℚ) (lod : Nat) : ℚ × ℚ :=
  findTopLeftCorner lon lat (HGTsourceDegreeSizeLookUp lod)

/-- `CCommons::findXYInHgtFile`: the pair `(*x, *y)`. -/
def findXYInHgtFile (tlLon tlLat lon lat : ℚ) (lod : Nat) : Int × Int :=
  let tlInHgt := findTopLeftCorner lon lat (LODdegreeSizeLookUp lod)
  let deltaLon := tlInHgt.1 - tlLon
  let deltaLat := tlLat - tlInHgt.2
  (castInt ((deltaLon / HGTsourceDegreeSizeLookUp lod) * ((HGTsourceSizeLookUp lod - 1 : Int) : ℚ)),
   castInt ((deltaLat / HGTsourceDegreeSizeLookUp lod) * ((HGTsourceSizeLookUp lod - 1 : Int) : ℚ)))

/-- The availability array of the height band of `lod` (the `switch (HGTsourceLookUp[lod])`
of `findHgtFileName`) with its directory. -/
def hgtBand (cm : CCacheManager) (lod : Nat) : Option ((Int → CAvability) × List Char) :=
  if HGTsourceLookUp lod = 0 then some (cm.avability_L00_L03, cm.pathL00_L03)
  else if HGTsourceLookUp lod = 1 then some (cm.avability_L04_L08, cm.pathL04_L08)
  else if HGTsourceLookUp lod = 2 then some (cm.avability_L09_L13, cm.pathL09_L13)
  else none

/-- The outputs of `CCacheManager::findHgtFileName`. -/
structure HgtFileName where
  filePath : List Char
  fileFound : Bool
  x : Int
  y : Int
  hgtSkipping : Int
  hgtSize : Int

/-- The index `findHgtFileName` looks up in the band's availability array. -/
def hgtSourceIndex (lon lat : ℚ) (lod : Nat) : Int :=
  convertTopLeft2AvabilityIndex (findTopLeftCornerOfHgtFile lon lat lod).1
    (findTopLeftCornerOfHgtFile lon lat lod).2 (HGTsourceDegreeSizeLookUp lod)

/-- `CCacheManager::findHgtFileName`. `*filePath` is assigned only when the file is found;
otherwise the model reports the empty path (the callers do not read it then). -/
def findHgtFileName (cm : CCacheManager) (lon lat : ℚ) (lod : Nat) : HgtFileName :=
  let tl := findTopLeftCornerOfHgtFile lon lat lod
  let index := hgtSourceIndex lon lat lod
  let xy := findXYInHgtFile tl.1 tl.2 lon lat lod
  let found : Option (List Char) :=
    match hgtBand cm lod with
    | some (avability, path) =>
      if (avability index).available then some (path ++ (avability index).name) else none
    | none => none
  { filePath := found.getD [], fileFound := found.isSome, x := xy.1, y := xy.2,
    hgtSkipping := HGTsourceSkippingLookUp lod, hgtSize := HGTsourceSizeLookUp lod }

/-- The availability array of the texture band of `lod` (the `switch (TEXsourceLookUp[lod])`
of `findRawFiles` and `buildTextureFromRawFiles`) with its directory. -/
def texBand (cm : CCacheManager) (lod : Nat) : Option ((Int → CAvability) × List Char) :=
  if TEXsourceLookUp lod = 0 then some (cm.avabilityTex_L00_L02, cm.pathTexL00_L02)
  else if TEXsourceLookUp lod = 1 then some (cm.avabilityTex_L03_L05, cm.pathTexL03_L05)
  else if TEXsourceLookUp lod = 2 then some (cm.avabilityTex_L06_L08, cm.pathTexL06_L08)
  else if TEXsourceLookUp lod = 3 then some (cm.avabilityTex_L09_L10, cm.pathTexL09_L10)
  else none

/-- The top-left corner of the 45° texture cell `findRawFiles` starts from. -/
def texTopLeft (tlLon tlLat : ℚ) (lod : Nat) : ℚ × ℚ :=
  let hgtTl := findTopLeftCorner tlLon tlLat
    (LODdegreeSizeLookUp (if lod ≤ TEX_SOURCE_MAX_LOD then lod else 10))
  findTopLeftCorner hgtTl.1 hgtTl.2 TEX_DEGREE_SIZE

/-- The index `findRawFiles` computes for the texture cell `(x, y)`, `x, y ∈ {0, 1}`, before
any check. -/
def texCellIndex (tlLon tlLat : ℚ) (lod : Nat) (x y : Int) : Int :=
  convertTopLeft2AvabilityIndex ((texTopLeft tlLon tlLat lod).1 + (x : ℚ) * TEX_DEGREE_SIZE)
    ((texTopLeft tlLon tlLat lod).2 - (y : ℚ) * TEX_DEGREE_SIZE) TEX_DEGREE_SIZE

/-- One pass of the body of the double loop of `findRawFiles` for the cell `(x, y)`: the
value stored in `RAWfilesIndex[y*2 + x]` and the new `hasAtLeastOneRAWFile`. -/
def findRawFilesCell (cm : CCacheManager) (tlLon tlLat : ℚ) (lod : Nat) (x y : Int)
    (hasAtLeastOneRAWFile : Bool) : Int × Bool :=
  let index := texCellIndex tlLon tlLat lod x y
  let index := if index ≥ 8 * 4 then -1 else index
  if index ≠ -1 then
    match texBand cm lod with
    | some (avability, _) =>
      if (avability index).available then (index, true) else (-1, hasAtLeastOneRAWFile)
    | none => (index, hasAtLeastOneRAWFile)
  else (index, hasAtLeastOneRAWFile)

/-- The outputs of `CCacheManager::findRawFiles`. -/
structure RawFiles where
  hasAtLeastOneRAWFile : Bool
  RAWfilesIndex : Int → Int
  pixOffsetLon : Int
  pixOffsetLat : Int

/-- `CCacheManager::findRawFiles`; `RAWfilesIndex` is given at the positions 0..3. -/
def findRawFiles (cm : CCacheManager) (tlLon tlLat : ℚ) (lod : Nat) : RawFiles :=
  let hgtTl := findTopLeftCorner tlLon tlLat
    (LODdegreeSizeLookUp (if lod ≤ TEX_SOURCE_MAX_LOD then lod else 10))
  let texTl := findTopLeftCorner hgtTl.1 hgtTl.2 TEX_DEGREE_SIZE
  let degreeDeltaLon := hgtTl.1 - texTl.1
  let degreeDeltaLat := hgtTl.2 - texTl.2
  let degreeDeltaLon := if degreeDeltaLon < 0 then degreeDeltaLon * (-1) else degreeDeltaLon
  let degreeDeltaLat := if degreeDeltaLat < 0 then degreeDeltaLat * (-1) else degreeDeltaLat
  let c00 := findRawFilesCell cm tlLon tlLat lod 0 0 false
  let c10 := findRawFilesCell cm tlLon tlLat lod 1 0 c00.2
  let c01 := findRawFilesCell cm tlLon tlLat lod 0 1 c10.2
  let c11 := findRawFilesCell cm tlLon tlLat lod 1 1 c01.2
  { hasAtLeastOneRAWFile := c11.2,
    RAWfilesIndex := fun k =>
      if k = 0 then c00.1 else if k = 1 then c10.1 else if k = 2 then c01.1 else c11.1,
    pixOffsetLon :=
      castInt ((degreeDeltaLon / TEX_DEGREE_SIZE) * ((TEXsourcePxSizeLookUp lod : Int) : ℚ)
        + 1 / 2),
    pixOffsetLat :=
      castInt ((degreeDeltaLat / TEX_DEGREE_SIZE) * ((TEXsourcePxSizeLookUp lod : Int) : ℚ)
        + 1 / 2) }

/-- `CRawFile::setPixel` on a buffer of row length `sizeX`. -/
def setPixel (pixel : Int → CRawPixel) (sizeX x y : Int) (pix : CRawPixel) : Int → CRawPixel :=
  Function.update pixel (y * sizeX + x) pix

/-- `QImage::setPixel`. -/
def imageSetPixel (image : Int → Int → Nat) (x y : Int) (rgb : Nat) : Int → Int → Nat :=
  fun x' y' => if x' = x ∧ y' = y then rgb else image x' y'

/-- One of the four copy blocks of `buildTextureFromRawFiles`: the source tile
`RAWfilesIndex[k]`, a window of `stopLon × stopLat` pixels read from `(srcX, srcY)` on and
written to the image from `(dstX, dstY)` on. -/
def copyTextureBlock (cm : CCacheManager) (lod : Nat) (index : Int) (TEXmult : Int)
    (srcX srcY dstX dstY stopLon stopLat : Int) (texture : Int → Int → Nat) :
    Int → Int → Nat :=
  let fileName : List Char :=
    if index ≠ -1 then
      match texBand cm lod with
      | some (avability, path) => path ++ (avability index).name
      | none => []
    else []
  forLoop stopLat (fun y tex =>
    forLoop stopLon (fun x tex' =>
      let pixel :=
        if index ≠ -1 then
          fileGetPixel cm.disk fileName (TEXsourcePxSizeLookUp lod) (srcX + x * TEXmult)
            (srcY + y * TEXmult)
        else CRawPixel.ofRgb TEX_EMPTY_COLOR
      imageSetPixel tex' (dstX + x) (dstY + y) (qRgb pixel.r pixel.g pixel.b)) tex) texture

/-- Filling the 32×32 buffer with the empty colour (the loop used when there is no file,
and when the disk is not to be used). -/
def fillEmpty (terrainTexture : Int → CRawPixel) : Int → CRawPixel :=
  forLoop TEX_TERRAIN_SIZE (fun y buf =>
    forLoop TEX_TERRAIN_SIZE (fun x buf' =>
      setPixel buf' TEX_TERRAIN_SIZE x y (CRawPixel.ofRgb TEX_EMPTY_COLOR)) buf) terrainTexture

/-- `CCacheManager::buildTextureFromRawFiles`: the tile's pixel buffer after the call.
`uninitialised` is the content of the freshly constructed `QImage`. -/
def buildTextureFromRawFiles (cm : CCacheManager) (tlLon tlLat : ℚ) (lod : Nat)
    (uninitialised : Int → Int → Nat) (terrainTexture : Int → CRawPixel) : Int → CRawPixel :=
  let rf := findRawFiles cm tlLon tlLat lod
  if !rf.hasAtLeastOneRAWFile then fillEmpty terrainTexture
  else
    let TEXskipping := TEXsourceSkippingLookUp lod
    let TEXpxSize := TEXsourcePxSizeLookUp lod
    let TEXmult : Int := if TEXskipping < 0 then 1 else TEXskipping
    let pixInBaseTileLon := (TEXpxSize - rf.pixOffsetLon).tdiv
      (if TEXskipping < 0 then 1 else TEXskipping)
    let pixInBaseTileLat := (TEXpxSize - rf.pixOffsetLat).tdiv
      (if TEXskipping < 0 then 1 else TEXskipping)
    let pixInBaseStopLon :=
      if pixInBaseTileLon ≥ TEX_TERRAIN_SIZE then TEX_TERRAIN_SIZE else pixInBaseTileLon
    let pixInNeighborStopLon :=
      if pixInBaseTileLon ≥ TEX_TERRAIN_SIZE then 0 else TEX_TERRAIN_SIZE - pixInBaseTileLon
    let pixInBaseStopLat :=
      if pixInBaseTileLat ≥ TEX_TERRAIN_SIZE then TEX_TERRAIN_SIZE else pixInBaseTileLat
    let pixInNeighborStopLat :=
      if pixInBaseTileLat ≥ TEX_TERRAIN_SIZE then 0 else TEX_TERRAIN_SIZE - pixInBaseTileLat
    let texture := copyTextureBlock cm lod (rf.RAWfilesIndex 0) TEXmult
      rf.pixOffsetLon rf.pixOffsetLat 0 0 pixInBaseStopLon pixInBaseStopLat uninitialised
    let texture := copyTextureBlock cm lod (rf.RAWfilesIndex 1) TEXmult
      0 rf.pixOffsetLat pixInBaseStopLon 0 pixInNeighborStopLon pixInBaseStopLat texture
    let texture := copyTextureBlock cm lod (rf.RAWfilesIndex 2) TEXmult
      rf.pixOffsetLon 0 0 pixInBaseStopLat pixInBaseStopLon pixInNeighborStopLat texture
    let texture := copyTextureBlock cm lod (rf.RAWfilesIndex 3) TEXmult
      0 0 pixInBaseStopLon pixInBaseStopLat pixInNeighborStopLon pixInNeighborStopLat texture
    forLoop TEX_TERRAIN_SIZE (fun y buf =>
      forLoop TEX_TERRAIN_SIZE (fun x buf' =>
        setPixel buf' TEX_TERRAIN_SIZE x y (CRawPixel.ofRgb (texture x y))) buf) terrainTexture

/-- The output buffers of `CCacheManager::getTerrainPoints`. -/
structure TerrainPoints where
  points : List Int
  pointNW : Int
  pointNE : Int
  pointSW : Int
  pointSE : Int
  pointsN : List Int
  pointsE : List Int
  pointsS : List Int
  pointsW : List Int
  texture : Int → CRawPixel

/-- A corner neighbour of `getTerrainPoints`: 0 beyond the pole (`beyondPole`) or when the
neighbour's file is absent, else the sample at `(x + fx*skip, y + fy*skip)`. -/
def neighborPoint (cm : CCacheManager) (neighborLon neighborLat : ℚ) (lod : Nat)
    (beyondPole : Bool) (fx fy : Int) : Int :=
  if beyondPole then 0
  else
    let f := findHgtFileName cm neighborLon neighborLat lod
    if f.fileFound then
      fileGetHeight cm.disk f.filePath f.hgtSize (f.x + fx * f.hgtSkipping)
        (f.y + fy * f.hgtSkipping)
    else 0

/-- An edge neighbour of `getTerrainPoints`: nine zeros beyond the pole or when the
neighbour's file is absent, else the samples at `(x + (ax*i + bx)*skip, y + (ay*i + by')*skip)`
for `i = 0..8`. -/
def neighborLine (cm : CCacheManager) (neighborLon neighborLat : ℚ) (lod : Nat)
    (beyondPole : Bool) (ax bx ay by' : Int) : List Int :=
  if beyondPole then List.replicate 9 0
  else
    let f := findHgtFileName cm neighborLon neighborLat lod
    if f.fileFound then
      (List.range 9).map fun i =>
        fileGetHeight cm.disk f.filePath f.hgtSize (f.x + (ax * (i : Int) + bx) * f.hgtSkipping)
          (f.y + (ay * (i : Int) + by') * f.hgtSkipping)
    else List.replicate 9 0

/-- `CCacheManager::getTerrainPoints`. `texture0` is the content of the tile's pixel buffer
before the call. -/
def getTerrainPoints (cm : CCacheManager) (lon lat : ℚ) (lod : Nat)
    (uninitialised : Int → Int → Nat) (texture0 : Int → CRawPixel)
    (dontUseDiskHgt dontUseDiskRaw : Bool) : TerrainPoints :=
  let texture :=
    if dontUseDiskRaw then fillEmpty texture0
    else buildTextureFromRawFiles cm lon lat lod uninitialised texture0
  if dontUseDiskHgt then
    { points := List.replicate 81 HGT_DONT_USE_DISK_HEIGHT,
      pointNW := HGT_DONT_USE_DISK_HEIGHT, pointNE := HGT_DONT_USE_DISK_HEIGHT,
      pointSW := HGT_DONT_USE_DISK_HEIGHT, pointSE := HGT_DONT_USE_DISK_HEIGHT,
      pointsN := List.replicate 9 HGT_DONT_USE_DISK_HEIGHT,
      pointsE := List.replicate 9 HGT_DONT_USE_DISK_HEIGHT,
      pointsS := List.replicate 9 HGT_DONT_USE_DISK_HEIGHT,
      pointsW := List.replicate 9 HGT_DONT_USE_DISK_HEIGHT,
      texture := texture }
  else
    let lodDegreeSize := LODdegreeSizeLookUp lod
    let f := findHgtFileName cm lon lat lod
    let west := if lon - lodDegreeSize < 0 then lon - lodDegreeSize + 360 else lon - lodDegreeSize
    let east :=
      if lon + lodDegreeSize ≥ 360 then lon + lodDegreeSize - 360 else lon + lodDegreeSize
    let north := lat + lodDegreeSize
    let south := lat - lodDegreeSize
    { points :=
        if f.fileFound then fileGetHeightBlock cm.disk f.filePath f.hgtSize f.x f.y 9 9 f.hgtSkipping
        else List.replicate 81 0,
      pointNW := neighborPoint cm west north lod (decide (north > 90)) 7 7,
      pointNE := neighborPoint cm east north lod (decide (north > 90)) 1 7,
      pointSE := neighborPoint cm east south lod (decide (south ≤ -90)) 1 1,
      pointSW := neighborPoint cm west south lod (decide (south ≤ -90)) 7 1,
      pointsN := neighborLine cm lon north lod (decide (north > 90)) 1 0 0 7,
      pointsE := neighborLine cm east lat lod false 0 1 1 0,
      pointsS := neighborLine cm lon south lod (decide (south ≤ -90)) 1 0 0 1,
      pointsW := neighborLine cm west lat lod false 0 7 1 0,
      texture := texture }

/-- The availability entry of the height source cell containing `(lon, lat)` at `lod`, as
the spec groups the bands: L00–L03, L04–L08, L09–L13. -/
def hgtAvailabilityEntry (cm : CCacheManager) (lon lat : ℚ) (lod : Nat) : CAvability :=
  if lod ≤ 3 then cm.avability_L00_L03 (hgtSourceIndex lon lat lod)
  else if lod ≤ 8 then cm.avability_L04_L08 (hgtSourceIndex lon lat lod)
  else cm.avability_L09_L13 (hgtSourceIndex lon lat lod)

/-- The availability entry `index` of the texture band of `lod`, as the spec groups the
bands: L00–L02, L03–L05, L06–L08, L09 and finer. -/
def texAvailabilityEntry (cm : CCacheManager) (lod : Nat) (index : Int) : CAvability :=
  if lod ≤ 2 then cm.avabilityTex_L00_L02 index
  else if lod ≤ 5 then cm.avabilityTex_L03_L05 index
  else if lod ≤ 8 then cm.avabilityTex_L06_L08 index
  else cm.avabilityTex_L09_L10 index

/-- A dataset with no file at all, with an empty cache; the two `earth` buffers are at the
addresses 1 and 2. -/
def emptyDataset : CCacheManager :=
  { pathL00_L03 := "L00-L03\\".toList, pathL04_L08 := "L04-L08\\".toList,
    pathL09_L13 := "L09-L13\\".toList, pathTexL00_L02 := "Textures\\L00_L02\\".toList,
    pathTexL03_L05 := "Textures\\L03_L05\\".toList,
    pathTexL06_L08 := "Textures\\L06_L08\\".toList,
    pathTexL09_L10 := "Textures\\L09_L10\\".toList,
    avability_L00_L03 := fun _ => { available := false, name := [] },
    avability_L04_L08 := fun _ => { available := false, name := [] },
    avability_L09_L13 := fun _ => { available := false, name := [] },
    avabilityTex_L00_L02 := fun _ => { available := false, name := [] },
    avabilityTex_L03_L05 := fun _ => { available := false, name := [] },
    avabilityTex_L06_L08 := fun _ => { available := false, name := [] },
    avabilityTex_L09_L10 := fun _ => { available := false, name := [] },
    earthBufferA := 1, earthBufferB := 2,
    cachedTerrainDataGroup_L00_L03 := fun _ => [],
    cachedTerrainDataGroup_L04_L08 := fun _ => [],
    cachedTerrainDataGroup_L09_L13 := fun _ => [],
    disk := fun _ _ => 0 }

/-! ## Cache manager operations and the quadtree (`CCacheManager`, `CTerrain`) -/

/-- The shard `index` of the band with code `band` (`HGT_SOURCE_L00_L03 = 0`,
`HGT_SOURCE_L04_L08 = 1`, `HGT_SOURCE_L09_L13 = 2`), as the `switch` statements of the cache
operations select it; no shard for another code. -/
def getShard (cm : CCacheManager) (band : Nat) (index : Int) :
    Option (List CCachedTerrainData) :=
  if band = 0 then some (cm.cachedTerrainDataGroup_L00_L03 index)
  else if band = 1 then some (cm.cachedTerrainDataGroup_L04_L08 index)
  else if band = 2 then some (cm.cachedTerrainDataGroup_L09_L13 index)
  else none

/-- The manager after the shard `index` of the band `band` has become `l`. -/
def setShard (cm : CCacheManager) (band : Nat) (index : Int) (l : List CCachedTerrainData) :
    CCacheManager :=
  if band = 0 then
    { cm with cachedTerrainDataGroup_L00_L03 :=
        Function.update cm.cachedTerrainDataGroup_L00_L03 index l }
  else if band = 1 then
    { cm with cachedTerrainDataGroup_L04_L08 :=
        Function.update cm.cachedTerrainDataGroup_L04_L08 index l }
  else if band = 2 then
    { cm with cachedTerrainDataGroup_L09_L13 :=
        Function.update cm.cachedTerrainDataGroup_L09_L13 index l }
  else cm

/-- `CCacheManager::cacheTerrainDataFind`; `now` is what `cacheTime.elapsed()` returns during
the call. `none` is an abort. -/
def cacheTerrainDataFind (cm : CCacheManager) (now : Nat) (lon lat : ℚ) (lod : Nat)
    (earth : Nat) : Option (CCacheManager × Bool × Option CTerrainData) :=
  let tl := findTopLeftCorner lon lat (LODdegreeSizeLookUp lod)
  let tlSource := findTopLeftCornerOfHgtFile lon lat lod
  let index := convertTopLeft2AvabilityIndex tlSource.1 tlSource.2
    (HGTsourceDegreeSizeLookUp lod)
  match getShard cm (HGTsourceLookUp lod) index with
  | some l =>
    (cachedTerrainDataListFind cm.earthBufferA cm.earthBufferB now l tl.1 tl.2 (lod : Int)
      earth).map fun r => (setShard cm (HGTsourceLookUp lod) index r.1, r.2.1, r.2.2)
  | none => some (cm, false, none)

/-- `CCacheManager::cacheTerrainDataRegister`: the manager and the handle after the call. -/
def cacheTerrainDataRegister (cm : CCacheManager) (now : Nat) (earth : Nat)
    (terrainData : CTerrainData) : Option (CCacheManager × CTerrainData) :=
  let tlSource := findTopLeftCornerOfHgtFile terrainData.topLeftLon terrainData.topLeftLat
    terrainData.LOD.toNat
  let index := convertTopLeft2AvabilityIndex tlSource.1 tlSource.2
    (HGTsourceDegreeSizeLookUp terrainData.LOD.toNat)
  match getShard cm (HGTsourceLookUp terrainData.LOD.toNat) index with
  | some l =>
    (cachedTerrainDataListRegister cm.earthBufferA cm.earthBufferB now l earth
      terrainData).map fun r =>
        (setShard cm (HGTsourceLookUp terrainData.LOD.toNat) index r.1, r.2)
  | none => some (cm, terrainData)

/-- `CCacheManager::cacheTerrainDataFree`: the manager after the call. -/
def cacheTerrainDataFree (cm : CCacheManager) (now : Nat) (earth : Nat)
    (terrainData : CTerrainData) (dontSaveJustDelete : Bool) : Option CCacheManager :=
  let tlSource := findTopLeftCornerOfHgtFile terrainData.topLeftLon terrainData.topLeftLat
    terrainData.LOD.toNat
  let index := convertTopLeft2AvabilityIndex tlSource.1 tlSource.2
    (HGTsourceDegreeSizeLookUp terrainData.LOD.toNat)
  match getShard cm (HGTsourceLookUp terrainData.LOD.toNat) index with
  | some l =>
    (cachedTerrainDataListFree cm.earthBufferA cm.earthBufferB now l earth terrainData
      dontSaveJustDelete).map fun r =>
        setShard cm (HGTsourceLookUp terrainData.LOD.toNat) index r.1
  | none => some cm

/-- The key part of `CTerrainData::initTerrainData(lon, lat, lod, dss)` on the object the
constructor made at address `ptr` (`textureID = 0`): degree size, snapped top-left corner and
LOD. The geometry the function then builds is not part of this model of the tile. -/
def CTerrainData.initTerrainData (ptr : Nat) (lon lat : ℚ) (lod : Nat) : CTerrainData :=
  { ptr := ptr,
    degreeSize := LODdegreeSizeLookUp lod,
    topLeftLon := (findTopLeftCorner lon lat (LODdegreeSizeLookUp lod)).1,
    topLeftLat := (findTopLeftCorner lon lat (LODdegreeSizeLookUp lod)).2,
    LOD := (lod : Int),
    textureID := 0 }

/-- What the tree operations work on: the cache manager, the address the next
`new CTerrainData()` returns, and the cache clock: `clock k` is what `cacheTime.elapsed()`
returns during the `k`-th cache operation, `ops` counts the operations so far. -/
structure World where
  cm : CCacheManager
  heapNext : Nat
  clock : Nat → Nat
  ops : Nat

/-- `CTerrain`, a quadtree node: the `earth` it belongs to, its tile (`none` is the null
pointer), `visible`, `terrainInCameraFOV`, and either no child or the four children. -/
inductive CTerrain where
  | leaf (earth : Nat) (terrainData : Option CTerrainData)
      (visible terrainInCameraFOV : Bool) : CTerrain
  | node (earth : Nat) (terrainData : Option CTerrainData)
      (visible terrainInCameraFOV : Bool) (NWchild NEchild SWchild SEchild : CTerrain) : CTerrain

/-- The node's tile. -/
def CTerrain.terrainData : CTerrain → Option CTerrainData
  | .leaf _ td _ _ => td
  | .node _ td _ _ _ _ _ _ => td

/-- `CTerrain::initTerrainData` on a node of `earth`: the world and the node's `terrainData`
after the call. `none` is an abort. -/
def CTerrain.initTerrainData (w : World) (earth : Nat) (lon lat : ℚ) (lod : Nat)
    (dontUseCache : Bool) : Option (World × Option CTerrainData) :=
  if !dontUseCache then
    match cacheTerrainDataFind w.cm (w.clock w.ops) lon lat lod earth with
    | none => none
    | some (cm1, TDfound, handle) =>
      if !TDfound then
        match cacheTerrainDataRegister cm1 (w.clock (w.ops + 1)) earth
            (CTerrainData.initTerrainData w.heapNext lon lat lod) with
        | none => none
        | some (cm2, handle2) =>
          some ({ w with cm := cm2, heapNext := w.heapNext + 1, ops := w.ops + 2 },
            some handle2)
      else some ({ w with cm := cm1, ops := w.ops + 1 }, handle)
  else
    some ({ w with heapNext := w.heapNext + 1 },
      some (CTerrainData.initTerrainData w.heapNext lon lat lod))

/-- `CTerrain::~CTerrain`: release the tile, then delete the children. `none` is an abort
(also the null dereference when the node has no tile). -/
def CTerrain.destroy (dontUseCache : Bool) : CTerrain → World → Option World
  | .leaf earth terrainData _ _, w =>
    match terrainData with
    | none => none
    | some td =>
      (cacheTerrainDataFree w.cm (w.clock w.ops) earth td dontUseCache).map fun cm =>
        { w with cm := cm, ops := w.ops + 1 }
  | .node earth terrainData _ _ NWchild NEchild SWchild SEchild, w =>
    match terrainData with
    | none => none
    | some td =>
      ((((cacheTerrainDataFree w.cm (w.clock w.ops) earth td dontUseCache).map fun cm =>
          { w with cm := cm, ops := w.ops + 1 }).bind
        (CTerrain.destroy dontUseCache NWchild)).bind
        (CTerrain.destroy dontUseCache NEchild)).bind
        (CTerrain.destroy dontUseCache SWchild) |>.bind
        (CTerrain.destroy dontUseCache SEchild)

/-- `CTerrain::split`: the world and the node after the call. The children are constructed
not visible and without tile, then initialised in the order NW, NE, SW, SE. `none` is an
abort (also the null dereference when the node has no tile). -/
def CTerrain.split (dontUseCache : Bool) (w : World) : CTerrain → Option (World × CTerrain)
  | .node earth terrainData visible fov NWchild NEchild SWchild SEchild =>
    some (w, .node earth terrainData visible fov NWchild NEchild SWchild SEchild)
  | .leaf earth terrainData visible fov =>
    match terrainData with
    | none => none
    | some td =>
      (CTerrain.initTerrainData w earth td.topLeftLon td.topLeftLat (td.LOD + 1).toNat
        dontUseCache).bind fun rNW =>
      (CTerrain.initTerrainData rNW.1 earth (td.topLeftLon + td.degreeSize / 2) td.topLeftLat
        (td.LOD + 1).toNat dontUseCache).bind fun rNE =>
      (CTerrain.initTerrainData rNE.1 earth td.topLeftLon (td.topLeftLat - td.degreeSize / 2)
        (td.LOD + 1).toNat dontUseCache).bind fun rSW =>
      (CTerrain.initTerrainData rSW.1 earth (td.topLeftLon + td.degreeSize / 2)
        (td.topLeftLat - td.degreeSize / 2) (td.LOD + 1).toNat dontUseCache).map fun rSE =>
      (rSE.1, .node earth terrainData visible fov
        (.leaf earth rNW.2 false false) (.leaf earth rNE.2 false false)
        (.leaf earth rSW.2 false false) (.leaf earth rSE.2 false false))

/-- `CTerrain::merge`: the world and the node after the call. -/
def CTerrain.merge (dontUseCache : Bool) (w : World) : CTerrain → Option (World × CTerrain)
  | .leaf earth terrainData visible fov => some (w, .leaf earth terrainData visible fov)
  | .node earth terrainData visible fov NWchild NEchild SWchild SEchild =>
    (((CTerrain.destroy dontUseCache NWchild w).bind
      (CTerrain.destroy dontUseCache NEchild)).bind
      (CTerrain.destroy dontUseCache SWchild)).bind
      (CTerrain.destroy dontUseCache SEchild) |>.map fun w' =>
        (w', .leaf earth terrainData visible fov)

/-- The in-use flag of consumer `earth` on an entry (`terrainAinUse` for `earthBufferA`,
`terrainBinUse` otherwise, as the cache operations choose). -/
def inUseBy (earthBufferA earth : Nat) (e : CCachedTerrainData) : Bool :=
  if earth = earthBufferA then e.terrainAinUse else e.terrainBinUse

/-- The in-use flag of the other consumer on an entry. -/
def inUseByOther (earthBufferA earth : Nat) (e : CCachedTerrainData) : Bool :=
  if earth = earthBufferA then e.terrainBinUse else e.terrainAinUse

/-- The cache key `(topLeftLon, topLeftLat, LOD)` of a tile. -/
def keyOf (t : CTerrainData) : ℚ × ℚ × Int :=
  (t.topLeftLon, t.topLeftLat, t.LOD)

/-- The cache key of the tile `CTerrain::initTerrainData(lon, lat, lod)` asks for. -/
def requestKey (lon lat : ℚ) (lod : Nat) : ℚ × ℚ × Int :=
  ((findTopLeftCorner lon lat (LODdegreeSizeLookUp lod)).1,
    (findTopLeftCorner lon lat (LODdegreeSizeLookUp lod)).2, (lod : Int))

/-- The keys of the four tiles `split` asks for on a node with tile `td`. -/
def childKeys (td : CTerrainData) : List (ℚ × ℚ × Int) :=
  [requestKey td.topLeftLon td.topLeftLat (td.LOD + 1).toNat,
   requestKey (td.topLeftLon + td.degreeSize / 2) td.topLeftLat (td.LOD + 1).toNat,
   requestKey td.topLeftLon (td.topLeftLat - td.degreeSize / 2) (td.LOD + 1).toNat,
   requestKey (td.topLeftLon + td.degreeSize / 2) (td.topLeftLat - td.degreeSize / 2)
     (td.LOD + 1).toNat]

/-- The band code of the shard that holds the tiles of key `k`. -/
def keyBand (k : ℚ × ℚ × Int) : Nat :=
  HGTsourceLookUp k.2.2.toNat

/-- The index of the shard that holds the tiles of key `k` (as register and free compute
it from the tile). -/
def keyIndex (k : ℚ × ℚ × Int) : Int :=
  hgtSourceIndex k.1 k.2.1 k.2.2.toNat

/-- How a shard `l` relates to its earlier state `l0` while consumer `earth` only acquires
and releases tiles with keys in `K`: entries are only appended; an old entry keeps its tile
and the other consumer's flag, and keeps `earth`'s flag unless its key is in `K`; an appended
entry is live with a key in `K` and free of the other consumer; and an entry with a key in `K`
that `earth` holds is the first live entry of its key in the shard of that key. -/
def ShardInv (a earth : Nat) (K : ℚ × ℚ × Int → Prop) (band : Nat) (index : Int)
    (l0 l : List CCachedTerrainData) : Prop :=
  l0.length ≤ l.length ∧
  (∀ (i : Nat) (e0 : CCachedTerrainData), l0[i]? = some e0 →
    ∃ e, l[i]? = some e ∧ e.terrainData = e0.terrainData ∧
      inUseByOther a earth e = inUseByOther a earth e0 ∧
      ((∀ t, e0.terrainData = some t → ¬ K (keyOf t)) →
        inUseBy a earth e = inUseBy a earth e0)) ∧
  (∀ (i : Nat) (e : CCachedTerrainData), l0.length ≤ i → l[i]? = some e →
    inUseByOther a earth e = false ∧ ∃ t, e.terrainData = some t ∧ K (keyOf t)) ∧
  (∀ (i : Nat) (e : CCachedTerrainData) (t : CTerrainData), l[i]? = some e →
    e.terrainData = some t → K (keyOf t) → inUseBy a earth e = true →
    band = keyBand (keyOf t) ∧ index = keyIndex (keyOf t) ∧
      searchEntry t.topLeftLon t.topLeftLat t.LOD l = some i)

/-- `ShardInv` for every shard of the cache, with unchanged `earth` buffers. -/
def CacheInv (earth : Nat) (K : ℚ × ℚ × Int → Prop) (cm0 cm : CCacheManager) : Prop :=
  cm.earthBufferA = cm0.earthBufferA ∧ cm.earthBufferB = cm0.earthBufferB ∧
  ∀ (band : Nat) (index : Int) (l0 : List CCachedTerrainData),
    getShard cm0 band index = some l0 →
    ∃ l, getShard cm band index = some l ∧ ShardInv cm0.earthBufferA earth K band index l0 l

/-- No live entry with key `k` is held by consumer `earth`, in any shard. -/
def AllClear (a earth : Nat) (k : ℚ × ℚ × Int) (cm : CCacheManager) : Prop :=
  ∀ (band : Nat) (index : Int) (l : List CCachedTerrainData) (i : Nat)
    (e : CCachedTerrainData) (t : CTerrainData), getShard cm band index = some l →
    l[i]? = some e → e.terrainData = some t → keyOf t = k → inUseBy a earth e = false

/-- A world with no file on disk and an empty cache. -/
def emptyWorld : World :=
  { cm := emptyDataset, heapNext := 1000, clock := fun k => 10 * k, ops := 0 }

/-! ## Elevation samples and level of detail (`CHgtFile`, `CTerrain::getLodToRender`) -/

/-- `CONST_1KM` of `CCommons.h`. -/
def CONST_1KM : ℚ := 1000

/-- `CTerrain::getLodToRender`, from the distance `terrainPointClosestToCamDistance` and
`dss->lodMultiplier`. -/
def getLodToRender (terrainPointClosestToCamDistance lodMultiplier : ℚ) : Int :=
  if terrainPointClosestToCamDistance < 5.2 * CONST_1KM * lodMultiplier then 13 else
  if terrainPointClosestToCamDistance < 10.4 * CONST_1KM * lodMultiplier then 12 else
  if terrainPointClosestToCamDistance < 20.8 * CONST_1KM * lodMultiplier then 11 else
  if terrainPointClosestToCamDistance < 41.6 * CONST_1KM * lodMultiplier then 10 else
  if terrainPointClosestToCamDistance < 83.2 * CONST_1KM * lodMultiplier then 9 else
  if terrainPointClosestToCamDistance < 166.4 * CONST_1KM * lodMultiplier then 8 else
  if terrainPointClosestToCamDistance < 332.8 * CONST_1KM * lodMultiplier then 7 else
  if terrainPointClosestToCamDistance < 665.6 * CONST_1KM * lodMultiplier then 6 else
  if terrainPointClosestToCamDistance < 1331.2 * CONST_1KM * lodMultiplier then 5 else
  if terrainPointClosestToCamDistance < 2662.5 * CONST_1KM * lodMultiplier then 4 else
  if terrainPointClosestToCamDistance < 5324.9 * CONST_1KM * lodMultiplier then 3 else
  if terrainPointClosestToCamDistance < 10649.9 * CONST_1KM * lodMultiplier then 2 else
  if terrainPointClosestToCamDistance < 21299.7 * CONST_1KM * lodMultiplier then 1 else
  0

/-- The threshold table of the specification, in metres: `lodThreshold L` is `T_L` for
`L = 1, ..., 13` (and `0` for any other `L`). -/
def lodThreshold (L : Int) : ℚ :=
  if L = 13 then 5200 else if L = 12 then 10400 else if L = 11 then 20800
  else if L = 10 then 41600 else if L = 9 then 83200 else if L = 8 then 166400
  else if L = 7 then 332800 else if L = 6 then 665600 else if L = 5 then 1331200
  else if L = 4 then 2662500 else if L = 3 then 5324900 else if L = 2 then 10649900
  else if L = 1 then 21299700 else 0

/-! ## Vertex colour (`CTerrainData::getTerrainData`) and the earth point (`CCamera`) -/

/-- The clamp `if (points[i]>9000) points[i] = 10;` of `CTerrainData::getTerrainData`
("SRTM data error marked as very hight altidute"). -/
def errorValueClamp (p : Int) : Int :=
  if p > 9000 then 10 else p

/-- What `getTerrainData` gives a vertex as colour: the constant set with `setRedF`,
`setGreenF`, `setBlueF`, or the arguments `hue`, `170`, `val` of the call
`c[i].setHsv(hue, 170, val)` (`hue` and `val` are `double` variables; `QColor::setHsv`
receives them converted to `int`). -/
inductive VertexColour where
  | rgbF (red green blue : ℚ) : VertexColour
  | hsv (hue : ℚ) (saturation : Int) (val : ℚ) : VertexColour
  deriving DecidableEq

/-- The colour branch of `CTerrainData::getTerrainData` for a vertex of grid elevation
`p = points[i]` (after the clamp). -/
def vertexColour (p : Int) : VertexColour :=
  if p = 0 then .rgbF 0.2784 0.6431 0.7216
  else
    let val : ℚ := 240
    let hue : ℚ := 170 - 170 * ((p : ℚ) / 1500)
    if hue < 0 then
      let hue : ℚ := 360 - 100 * (((p - 1500 : Int) : ℚ) / 1500)
      if hue < 260 then
        let hue : ℚ := 260
        let val : ℚ := 240 - 200 * (((p - 3000 : Int) : ℚ) / 5000)
        if val < 40 then
          .hsv hue 170 (40 + 215 * (((p - 8000 : Int) : ℚ) / 850))
        else .hsv hue 170 val
      else .hsv hue 170 val
    else .hsv hue 170 val

/-- The earth-point members of `CCamera`. -/
structure CCamera where
  earthPointLon : ℚ
  earthPointLat : ℚ
  earthPointAlt : ℚ
  earthPointX : ℚ
  earthPointY : ℚ
  earthPointZ : ℚ
  deriving DecidableEq

/-- `CCamera::getEarthPointXYZ`: the triple `(*x, *y, *z)`. -/
def CCamera.getEarthPointXYZ (cam : CCamera) : ℚ × ℚ × ℚ :=
  (cam.earthPointX, cam.earthPointY, cam.earthPointZ)

/-- `CCamera::setEarthPointXYZ`, the three assignments as the source has them. The
conversion `CCommons::getSphericalFromCartesian` (square root, arc sine) is a parameter,
returning `(azlon, ellat, radalt)`; the camera update that follows reads the earth point
and writes only camera and sun members, which are not part of `CCamera` here. -/
def CCamera.setEarthPointXYZ (getSphericalFromCartesian : ℚ → ℚ → ℚ → ℚ × ℚ × ℚ)
    (cam : CCamera) (x y z : ℚ) (_fromAnimation : Bool) : CCamera :=
  let cam := { cam with earthPointX := x }
  let cam := { cam with earthPointY := y }
  let cam := { cam with earthPointX := z }
  let s := getSphericalFromCartesian x y z
  { cam with earthPointLon := s.1, earthPointLat := s.2.1, earthPointAlt := s.2.2 }

/-- A camera whose earth point is the north pole at sea level (`CONST_EARTH_RADIUS` on the
y axis). -/
def cameraAtPole : CCamera :=
  { earthPointLon := 0, earthPointLat := 90, earthPointAlt := 6378100,
    earthPointX := 0, earthPointY := 6378100, earthPointZ := 0 }

/-- A stand-in for the spherical conversion where its result does not matter. -/
def sphericalStub : ℚ → ℚ → ℚ → ℚ × ℚ × ℚ :=
  fun _ _ _ => (0, 0, 0)

/-- A shard with one live entry for the key `(0, 90, 0)`, held by consumer B only, last
touched at time 40. -/
def shardHeldByB : List CCachedTerrainData :=
  [{ terrainData := some tileNW, terrainAinUse := false, terrainBinUse := true, time := 40 }]

/-! ## Cache statistics and the bounding pass (`cacheInfo`, `cacheKeepSize`) -/

/-- `CACHE_MAX_UNUSED_TERRAIN_DATA`. -/
def CACHE_MAX_UNUSED_TERRAIN_DATA : Int := 50000

/-- The five statistics members of `CCacheManager` that `cacheInfo` writes and
`cacheKeepSize` reads (also the five out-parameters of `cachedTerrainDataInfo`). -/
structure CacheInfo where
  cachedTerrainDataCount : Int
  cachedTerrainDataInUseCount : Int
  cachedTerrainDataNotInUseCount : Int
  cachedTerrainDataEmptyEntryCount : Int
  cacheMinNotInUseTime : Nat
  deriving DecidableEq

/-- The body of the loop of `CCachedTerrainDataGroup::cachedTerrainDataInfo` for the entry
`ctd`. -/
def cachedTerrainDataInfoEntry (s : CacheInfo) (ctd : CCachedTerrainData) : CacheInfo :=
  let s := if ctd.terrainData = none then
      { s with cachedTerrainDataEmptyEntryCount := s.cachedTerrainDataEmptyEntryCount + 1 }
    else s
  let s := if ctd.terrainAinUse || ctd.terrainBinUse then
      { s with cachedTerrainDataInUseCount := s.cachedTerrainDataInUseCount + 1 }
    else s
  if !ctd.terrainAinUse && !ctd.terrainBinUse && ctd.terrainData ≠ none then
    let s := { s with
      cachedTerrainDataNotInUseCount := s.cachedTerrainDataNotInUseCount + 1 }
    if ctd.time < s.cacheMinNotInUseTime then { s with cacheMinNotInUseTime := ctd.time }
    else s
  else s

/-- `CCachedTerrainDataGroup::cachedTerrainDataInfo` on the shard `l`; `s` holds what the
five pointers point at on entry. -/
def cachedTerrainDataInfo (l : List CCachedTerrainData) (s : CacheInfo) : CacheInfo :=
  l.foldl cachedTerrainDataInfoEntry { s with cachedTerrainDataCount := (l.length : Int) }

/-- The body of the three loops of `CCacheManager::cacheInfo` for the shard `l`: the
temporaries start at zero, the minimum is passed through, the totals are added up. -/
def cacheInfoShard (s : CacheInfo) (l : List CCachedTerrainData) : CacheInfo :=
  let tmp := cachedTerrainDataInfo l
    { cachedTerrainDataCount := 0, cachedTerrainDataInUseCount := 0,
      cachedTerrainDataNotInUseCount := 0, cachedTerrainDataEmptyEntryCount := 0,
      cacheMinNotInUseTime := s.cacheMinNotInUseTime }
  { cachedTerrainDataCount := s.cachedTerrainDataCount + tmp.cachedTerrainDataCount,
    cachedTerrainDataInUseCount :=
      s.cachedTerrainDataInUseCount + tmp.cachedTerrainDataInUseCount,
    cachedTerrainDataNotInUseCount :=
      s.cachedTerrainDataNotInUseCount + tmp.cachedTerrainDataNotInUseCount,
    cachedTerrainDataEmptyEntryCount :=
      s.cachedTerrainDataEmptyEntryCount + tmp.cachedTerrainDataEmptyEntryCount,
    cacheMinNotInUseTime := tmp.cacheMinNotInUseTime }

/-- The number of shards of the band with code `band`: `width * height` with
`width = (int)(360.0 / degreeSize)` and `height = (int)(180.0 / degreeSize)` for the degree
sizes `HGT_SOURCE_DEGREE_SIZE_L00_L03 = 60`, `..._L04_L08 = 15`, `..._L09_L13 = 3.75`. -/
def shardCount (band : Nat) : Int :=
  if band = 0 then castInt (360 / 60) * castInt (180 / 60)
  else if band = 1 then castInt (360 / 15) * castInt (180 / 15)
  else castInt (360 / (15 / 4)) * castInt (180 / (15 / 4))

/-- `CCacheManager::cacheInfo`: the statistics members after the call (the out-parameters
receive copies of them). -/
def cacheInfo (cm : CCacheManager) : CacheInfo :=
  let s : CacheInfo :=
    { cachedTerrainDataCount := 0, cachedTerrainDataInUseCount := 0,
      cachedTerrainDataNotInUseCount := 0, cachedTerrainDataEmptyEntryCount := 0,
      cacheMinNotInUseTime := 25 * 3600 * 1000 }
  let s := forLoop (shardCount 0)
    (fun i s => cacheInfoShard s (cm.cachedTerrainDataGroup_L00_L03 i)) s
  let s := forLoop (shardCount 1)
    (fun i s => cacheInfoShard s (cm.cachedTerrainDataGroup_L04_L08 i)) s
  forLoop (shardCount 2)
    (fun i s => cacheInfoShard s (cm.cachedTerrainDataGroup_L09_L13 i)) s

/-- One of the three loops of `cacheClear` and `cacheKeepSize`: `deleteNotInUse(earth,
olderThan)` on the shards `0 .. n-1` of the array `group`; the second component collects
the texture ids queued on `earth`. -/
def deleteNotInUseLoop (earth olderThan : Nat) (n : Int)
    (group : Int → List CCachedTerrainData) : (Int → List CCachedTerrainData) × List Nat :=
  forLoop n (fun i st =>
    (Function.update st.1 i (deleteNotInUse earth olderThan (st.1 i)).1,
      st.2 ++ (deleteNotInUse earth olderThan (st.1 i)).2)) (group, [])

/-- `CCacheManager::cacheKeepSize(earth)` with the statistics members `info`: the manager
after the call and the texture ids queued on `earth`. -/
def cacheKeepSize (cm : CCacheManager) (info : CacheInfo) (earth : Nat) :
    CCacheManager × List Nat :=
  if info.cacheMinNotInUseTime > 24 * 3600 * 1000 then (cm, [])
  else if info.cachedTerrainDataNotInUseCount > CACHE_MAX_UNUSED_TERRAIN_DATA then
    let r0 := deleteNotInUseLoop earth (info.cacheMinNotInUseTime + 5000) (shardCount 0)
      cm.cachedTerrainDataGroup_L00_L03
    let r1 := deleteNotInUseLoop earth (info.cacheMinNotInUseTime + 5000) (shardCount 1)
      cm.cachedTerrainDataGroup_L04_L08
    let r2 := deleteNotInUseLoop earth (info.cacheMinNotInUseTime + 5000) (shardCount 2)
      cm.cachedTerrainDataGroup_L09_L13
    ({ cm with cachedTerrainDataGroup_L00_L03 := r0.1, cachedTerrainDataGroup_L04_L08 := r1.1,
               cachedTerrainDataGroup_L09_L13 := r2.1 }, r0.2 ++ r1.2 ++ r2.2)
  else (cm, [])

/-- Whether an entry counts as "not in use": its tile is present and both in-use flags are
clear. -/
def notInUse (e : CCachedTerrainData) : Bool :=
  !e.terrainAinUse && !e.terrainBinUse && e.terrainData.isSome

/-- The number of entries of the first `n` shards of `group` whose tile is present and whose
two in-use flags are both clear. -/
def notInUseCountOf (n : Nat) (group : Int → List CCachedTerrainData) : Nat :=
  ((List.range n).map fun i => (group (i : Int)).countP notInUse).sum

/-- The number of entries of the cache whose tile is present and whose two in-use flags are
both clear, over the 18 + 288 + 4608 shards. -/
def cacheNotInUseCount (cm : CCacheManager) : Nat :=
  notInUseCountOf 18 cm.cachedTerrainDataGroup_L00_L03 +
  notInUseCountOf 288 cm.cachedTerrainDataGroup_L04_L08 +
  notInUseCountOf 4608 cm.cachedTerrainDataGroup_L09_L13

/-- The `k`-th of the LOD-13 tiles of the shard 0 of the band L09-L13, counted row by row
(512 tiles a row, each `60/8192` degrees wide), as an object at address `1000 + k`. -/
def tileL13 (k : Nat) : CTerrainData :=
  { ptr := 1000 + k, topLeftLon := ((k % 512 : Nat) : ℚ) * (60 / 8192),
    topLeftLat := 90 - ((k / 512 : Nat) : ℚ) * (60 / 8192), LOD := 13,
    degreeSize := 60 / 8192, textureID := 0 }

/-- A shard of 50002 entries, none in use: tile 0 last touched at time 0, the tiles
1 .. 50001 last touched at time 10000. -/
def crowdedShard : List CCachedTerrainData :=
  { terrainData := some (tileL13 0), terrainAinUse := false, terrainBinUse := false,
    time := 0 } ::
  (List.range 50001).map fun k =>
    { terrainData := some (tileL13 (k + 1)), terrainAinUse := false, terrainBinUse := false,
      time := 10000 }

/-- A cache whose only entries are those of `crowdedShard`, in the shard 0 of the band
L09-L13. -/
def crowdedCache : CCacheManager :=
  { emptyDataset with
    cachedTerrainDataGroup_L09_L13 := fun i => if i = 0 then crowdedShard else [] }

/-- How a running minimum `m` relates to its start value `m0` after scanning the entries
that satisfy `P`: it is at most `m0` and at most the time of every such entry, and it is
`m0` or the time of one of them. -/
def MinOver (P : CCachedTerrainData → Prop) (m0 m : Nat) : Prop :=
  m ≤ m0 ∧ (∀ e, P e → m ≤ e.time) ∧ (m = m0 ∨ ∃ e, P e ∧ e.time = m)

/-- The entries counted as "not in use" in the first `n` shards of `group`. -/
def NotInUseIn (n : Nat) (group : Int → List CCachedTerrainData) (e : CCachedTerrainData) :
    Prop :=
  ∃ i : Nat, i < n ∧ e ∈ group (i : Int) ∧ notInUse e = true

/-- The entries counted as "not in use" in the whole cache. -/
def NotInUseInCache (cm : CCacheManager) (e : CCachedTerrainData) : Prop :=
  NotInUseIn 18 cm.cachedTerrainDataGroup_L00_L03 e ∨
  NotInUseIn 288 cm.cachedTerrainDataGroup_L04_L08 e ∨
  NotInUseIn 4608 cm.cachedTerrainDataGroup_L09_L13 e

/-! ## Tree update and the root tiles (`CTerrain::updateTerrainTree`, `CEarth::initLOD_0`) -/

/-- `CONST_EARTH_CIRCUMFERENCE` of `CCommons.h`. -/
def CONST_EARTH_CIRCUMFERENCE : ℚ := 40074784.208

/-- The member `mustShowDistance` of a tile, as `CTerrainData::initTerrainData` computes it
from `degreeSize`. -/
def mustShowDistance (td : CTerrainData) : ℚ :=
  ((td.degreeSize / 8) / 360) * CONST_EARTH_CIRCUMFERENCE

/-- What the `QVector3D` arithmetic of `findTerrainPointClosestToCam` and
`getTerrainVisibility` (lengths, normalisation, dot products: floating point) yields for a
tile and the camera of a snapshot: `terrainPointClosestToCamDistance`, the dot product of
`vecCamPos2TerrainNormal` with `terrainPointClosestToCamNormal`, and the dot product of
`camLookingDirectionNormal` with `vecCamPos2TerrainBehindCameraNormal`. -/
structure CamView where
  closestDistance : ℚ
  horizonCosine : ℚ
  fovCosine : ℚ

/-- The members of `CDrawingStateSnapshot` the tree update reads. `camPosition` and
`camLookingDirectionNormal` enter through `camView` only. -/
structure CDrawingStateSnapshot where
  camView : CTerrainData → CamView
  camClippingAngleCosine : ℚ
  lodMultiplier : ℚ
  dontUseCache : Bool

/-- `CTerrain::getTerrainVisibility` on a node with tile `td`: the returned value and the
value it stores in `terrainInCameraFOV`. -/
def getTerrainVisibility (dss : CDrawingStateSnapshot) (td : CTerrainData) : Bool × Bool :=
  let v := dss.camView td
  let beyondTheHorizon : Bool := if v.horizonCosine < -0.01 then false else true
  let cameraCloseToTerrain : Bool :=
    if v.closestDistance ≤ mustShowDistance td then true else false
  let terrainInCameraFOV : Bool :=
    if v.fovCosine > dss.camClippingAngleCosine then true else false
  (cameraCloseToTerrain || !beyondTheHorizon, terrainInCameraFOV)

/-- The value `getLodToRender()` returns on a node with tile `td`: the closest-point
distance is the one `getTerrainVisibility` has just stored. -/
def lodToRenderOf (dss : CDrawingStateSnapshot) (td : CTerrainData) : Int :=
  getLodToRender (dss.camView td).closestDistance dss.lodMultiplier

/-- The two counters of `CPerformance` the tree update writes. -/
structure CPerformance where
  terrainsInTree : Int
  maxLOD : Int
  deriving DecidableEq

/-- The member `visible` of a node. -/
def CTerrain.visible : CTerrain → Bool
  | .leaf _ _ v _ => v
  | .node _ _ v _ _ _ _ _ => v

/-- Whether the node has children (`NWchild != 0`). -/
def CTerrain.hasChildren : CTerrain → Bool
  | .leaf _ _ _ _ => false
  | .node _ _ _ _ _ _ _ _ => true

/-- The node with `visible` and `terrainInCameraFOV` assigned. -/
def CTerrain.setFlags (visible terrainInCameraFOV : Bool) : CTerrain → CTerrain
  | .leaf earth td _ _ => .leaf earth td visible terrainInCameraFOV
  | .node earth td _ _ a b c d => .node earth td visible terrainInCameraFOV a b c d

/-- The node with `visible` assigned. -/
def CTerrain.setVisible (visible : Bool) : CTerrain → CTerrain
  | .leaf earth td _ f => .leaf earth td visible f
  | .node earth td _ f a b c d => .node earth td visible f a b c d

/-- The tail of `updateTerrainTree`: `performance->terrainsInTree++` and the update of
`performance->maxLOD` with the node's level. -/
def CPerformance.count (perf : CPerformance) (lod : Int) : CPerformance :=
  { terrainsInTree := perf.terrainsInTree + 1,
    maxLOD := if lod > perf.maxLOD then lod else perf.maxLOD }

/-- `CTerrain::updateTerrainTree`: the world, the counters and the node after the call.
The recursion of the source ends because a node is split only below level 13; here it runs
on `fuel`, one unit a level. `none` is an abort (`qFatal` on a node without tile, an abort
of a cache operation, a null dereference) or the end of the fuel. -/
def CTerrain.updateTerrainTree (dss : CDrawingStateSnapshot) :
    Nat → World × CPerformance → CTerrain → Option ((World × CPerformance) × CTerrain)
  | 0, _, _ => none
  | fuel + 1, s, n =>
    match n.terrainData with
    | none => none
    | some td =>
      let vis := getTerrainVisibility dss td
      let n1 := n.setFlags vis.1 vis.2
      if !vis.1 then
        (CTerrain.merge dss.dontUseCache s.1 n1).map fun r =>
          ((r.1, { s.2 with terrainsInTree := s.2.terrainsInTree + 1 }), r.2)
      else
        let LODtoRender := lodToRenderOf dss td
        let n2 := if LODtoRender < td.LOD then n1.setVisible false else n1
        if LODtoRender > td.LOD then
          match CTerrain.split dss.dontUseCache s.1 n2 with
          | some (w1, .node earth t v f NWchild NEchild SWchild SEchild) =>
            (CTerrain.updateTerrainTree dss fuel (w1, s.2) NWchild).bind fun rNW =>
            (CTerrain.updateTerrainTree dss fuel rNW.1 NEchild).bind fun rNE =>
            (CTerrain.updateTerrainTree dss fuel rNE.1 SWchild).bind fun rSW =>
            (CTerrain.updateTerrainTree dss fuel rSW.1 SEchild).map fun rSE =>
              ((rSE.1.1, rSE.1.2.count td.LOD), .node earth t v f rNW.2 rNE.2 rSW.2 rSE.2)
          | _ => none
        else if LODtoRender ≤ td.LOD then
          (CTerrain.merge dss.dontUseCache s.1 n2).map fun r =>
            ((r.1, s.2.count td.LOD), r.2)
        else some ((s.1, s.2.count td.LOD), n2)

/-- The fuel that suffices for `updateTerrainTree` on a node: one unit for the node and
one for each level a leaf can still be split down to level 13. -/
def CTerrain.fuelFor : CTerrain → Nat
  | .leaf _ td _ _ =>
    match td with
    | none => 1
    | some t => (13 - t.LOD).toNat + 1
  | .node _ _ _ _ a b c d =>
    1 + max (max a.fuelFor b.fuelFor) (max c.fuelFor d.fuelFor)

/-- A tile whose top-left longitude is within `[0, 360)` and whose degree size is within
`[0, 360]`, as every tile built by `CTerrainData::initTerrainData` for a level up to 13
is. -/
def TileWF (td : CTerrainData) : Prop :=
  0 ≤ td.topLeftLon ∧ td.topLeftLon < 360 ∧ 0 ≤ td.degreeSize ∧ td.degreeSize ≤ 360

/-- Every tile held by the cache satisfies `TileWF`. -/
def CacheWF (cm : CCacheManager) : Prop :=
  ∀ (band : Nat) (index : Int) (l : List CCachedTerrainData) (i : Nat)
    (e : CCachedTerrainData) (t : CTerrainData), getShard cm band index = some l →
    l[i]? = some e → e.terrainData = some t → TileWF t

/-- Every node of the tree belongs to one of the two consumers `a`, `b` and has a tile that
satisfies `TileWF`. -/
def TreeWF (a b : Nat) : CTerrain → Prop
  | .leaf earth td _ _ => (earth = a ∨ earth = b) ∧ ∃ t, td = some t ∧ TileWF t
  | .node earth td _ _ c1 c2 c3 c4 =>
    ((earth = a ∨ earth = b) ∧ ∃ t, td = some t ∧ TileWF t) ∧
      TreeWF a b c1 ∧ TreeWF a b c2 ∧ TreeWF a b c3 ∧ TreeWF a b c4

/-- Modelled from the spec: `CEarth.h` is not among the sources. A `CEarth` is one
consumer of the cache: `addr` is the object's address (what `this` and the `CEarth*`
arguments of the cache operations are), `terrain` the array of root nodes, and
`drawingStateSnapshot` the snapshot pointer (`none` is the null pointer the constructor
stores). -/
structure CEarth where
  addr : Nat
  terrain : List CTerrain
  drawingStateSnapshot : Option CDrawingStateSnapshot

/-- `CTerrain::CTerrain()`: no earth, no tile, not visible, no children. -/
def CTerrain.new : CTerrain :=
  .leaf 0 none false false

/-- `CTerrain::setEarth`. -/
def CTerrain.setEarth (earthPtr : Nat) : CTerrain → CTerrain
  | .leaf _ td v f => .leaf earthPtr td v f
  | .node _ td v f a b c d => .node earthPtr td v f a b c d

/-- The member `earth` of a node. -/
def CTerrain.earth : CTerrain → Nat
  | .leaf earth _ _ _ => earth
  | .node earth _ _ _ _ _ _ _ => earth

/-- The node with its `terrainData` pointer assigned. -/
def CTerrain.setTerrainData (td : Option CTerrainData) : CTerrain → CTerrain
  | .leaf earth _ v f => .leaf earth td v f
  | .node earth _ v f a b c d => .node earth td v f a b c d

/-- The body of the two loops of `CEarth::initLOD_0` for the column `lo` and the row `la`,
on the state `(world, terrain, i)`: `setEarth(this)` and
`initTerrainData(lo*60.0, 90.0 - la*60.0, 0, drawingStateSnapshot)` on `terrain[i]`, then
`i++`. `none` is an abort. -/
def initLOD_0Body (addr : Nat) (dontUseCache : Bool) (lo la : Int)
    (s : Option (World × List CTerrain × Nat)) : Option (World × List CTerrain × Nat) :=
  s.bind fun st =>
    let lon : ℚ := (lo : ℚ) * 60
    let lat : ℚ := 90 - (la : ℚ) * 60
    match st.2.1[st.2.2]? with
    | none => none
    | some n =>
      (CTerrain.initTerrainData st.1 addr lon lat 0 dontUseCache).map fun r =>
        (r.1, st.2.1.set st.2.2 ((n.setEarth addr).setTerrainData r.2), st.2.2 + 1)

/-- `CEarth::initLOD_0`: the world and the earth after the call; `none` is an abort (of a
cache operation, or the dereference of a null snapshot pointer). -/
def CEarth.initLOD_0 (earth : CEarth) (w : World) : Option (World × CEarth) :=
  match earth.drawingStateSnapshot with
  | none => none
  | some dss =>
    (forLoop 6 (fun lo s => forLoop 3 (fun la s =>
        initLOD_0Body earth.addr dss.dontUseCache lo la s) s)
      (some (w, List.replicate 18 CTerrain.new, 0))).map fun st =>
        (st.1, { earth with terrain := st.2.1 })

/-- The footprint of a tile key: the points `(lon, lat)` for which a request at the key's
level resolves to the key (`findTopLeftCorner` snaps them to its corner). -/
def covers (k : ℚ × ℚ × Int) (lon lat : ℚ) : Prop :=
  requestKey lon lat k.2.2.toNat = k

/-- A snapshot for which the level-0 tiles are seen from 15000 km and every other tile from
30000 km, all of them in front of the horizon and inside the field of view. -/
def farSnapshot : CDrawingStateSnapshot :=
  { camView := fun td =>
      { closestDistance := if td.LOD = 0 then 15000000 else 30000000,
        horizonCosine := -1, fovCosine := 1 },
    camClippingAngleCosine := 0, lodMultiplier := 1, dontUseCache := false }

/-- An earth at address 1 (the `earthBufferA` of `emptyWorld`) with the snapshot
`farSnapshot` and no root tile yet. -/
def earthA : CEarth :=
  { addr := 1, terrain := [], drawingStateSnapshot := some farSnapshot }

/-- The state of the world the tree operations rely on: the two consumers are `a` and `b`,
and the cache satisfies `CacheWF`. -/
def WorldOK (a b : Nat) (w : World) : Prop :=
  w.cm.earthBufferA = a ∧ w.cm.earthBufferB = b ∧ CacheWF w.cm

/-- The key of the root tile `terrain[j]`: column `j / 3`, row `j % 3`, level 0. -/
def rootKey (j : Nat) : ℚ × ℚ × Int :=
  (((j / 3 : Nat) : ℚ) * 60, 90 - ((j % 3 : Nat) : ℚ) * 60, 0)

/-- The state of the loops of `initLOD_0` after `k` root tiles: no abort so far, the
consumers still `a` and `b`, 18 root nodes of which the first `k` belong to `addr` and
hold a tile of their `rootKey`, the others being as constructed. -/
def RootsInv (addr a b : Nat) (k : Nat) (s : Option (World × List CTerrain × Nat)) : Prop :=
  ∃ w terrain, s = some (w, terrain, k) ∧
    w.cm.earthBufferA = a ∧ w.cm.earthBufferB = b ∧ terrain.length = 18 ∧
    (∀ j, j < k → ∃ t, terrain[j]? = some (.leaf addr (some t) false false) ∧
      keyOf t = rootKey j) ∧
    (∀ j, k ≤ j → j < 18 → terrain[j]? = some CTerrain.new)

/-! ## Triangle-strip tables (`CCacheManager::setupStripIndex`) -/

/-- `stripIndexListNW`, as `CCacheManager::setupStripIndex` fills it. -/
def stripIndexListNW : List Nat :=
  [ 0,  9,  1, 10,  2, 11,  3, 12,  4, 13,
   13, 22, 12, 21, 11, 20, 10, 19,  9, 18,
   18, 27, 19, 28, 20, 29, 21, 30, 22, 31,
   31, 40, 30, 39, 29, 38, 28, 37, 27, 36]

/-- `stripIndexListNE`, as `CCacheManager::setupStripIndex` fills it. -/
def stripIndexListNE : List Nat :=
  [ 4, 13,  5, 14,  6, 15,  7, 16,  8, 17,
   17, 26, 16, 25, 15, 24, 14, 23, 13, 22,
   22, 31, 23, 32, 24, 33, 25, 34, 26, 35,
   35, 44, 34, 43, 33, 42, 32, 41, 31, 40]

/-- `stripIndexListSW`, as `CCacheManager::setupStripIndex` fills it. -/
def stripIndexListSW : List Nat :=
  [36, 45, 37, 46, 38, 47, 39, 48, 40, 49,
   49, 58, 48, 57, 47, 56, 46, 55, 45, 54,
   54, 63, 55, 64, 56, 65, 57, 66, 58, 67,
   67, 76, 66, 75, 65, 74, 64, 73, 63, 72]

/-- `stripIndexListSE`, as `CCacheManager::setupStripIndex` fills it. -/
def stripIndexListSE : List Nat :=
  [40, 49, 41, 50, 42, 51, 43, 52, 44, 53,
   53, 62, 52, 61, 51, 60, 50, 59, 49, 58,
   58, 67, 59, 68, 60, 69, 61, 70, 62, 71,
   71, 80, 70, 79, 69, 78, 68, 77, 67, 76]

/-- The table `CTerrainData::drawSolidStrip` and `drawTextureStrip` select for the quadrant
that starts at `(xStart, yStart)`; `none` is the `qFatal` for another start. -/
def stripIndexOf (xStart yStart : Int) : Option (List Nat) :=
  if xStart = 0 ∧ yStart = 0 then some stripIndexListNW
  else if xStart = 4 ∧ yStart = 0 then some stripIndexListNE
  else if xStart = 0 ∧ yStart = 4 then some stripIndexListSW
  else if xStart = 4 ∧ yStart = 4 then some stripIndexListSE
  else none

/-- The triangles a `GL_TRIANGLE_STRIP` draws from an index sequence: one for every three
consecutive indices. -/
def stripTriangles : List Nat → List (Nat × Nat × Nat)
  | a :: b :: c :: rest => (a, b, c) :: stripTriangles (b :: c :: rest)
  | _ => []

/-- A triangle with three different vertices. -/
def nonDegenerate (t : Nat × Nat × Nat) : Bool :=
  decide (t.1 ≠ t.2.1 ∧ t.2.1 ≠ t.2.2 ∧ t.1 ≠ t.2.2)

/-- The four corners of the grid cell whose top-left vertex is `(cx, cy)`, as indices
`y*9 + x` into the 9×9 vertex arrays of a tile. -/
def cellCorners (c : Nat × Nat) : List Nat :=
  [c.2 * 9 + c.1, c.2 * 9 + (c.1 + 1), (c.2 + 1) * 9 + c.1, (c.2 + 1) * 9 + (c.1 + 1)]

/-- Whether the three vertices of a triangle are corners of the cell `c`. -/
def inCell (c : Nat × Nat) (t : Nat × Nat × Nat) : Bool :=
  decide (t.1 ∈ cellCorners c ∧ t.2.1 ∈ cellCorners c ∧ t.2.2 ∈ cellCorners c)

/-- The 5×5 vertices of the quadrant that starts at `(xStart, yStart)`. -/
def quadrantVertices (xStart yStart : Nat) : List Nat :=
  (List.range 5).flatMap fun y => (List.range 5).map fun x => (yStart + y) * 9 + (xStart + x)

/-- The 4×4 cells of the quadrant that starts at `(xStart, yStart)`. -/
def quadrantCells (xStart yStart : Nat) : List (Nat × Nat) :=
  (List.range 4).flatMap fun y => (List.range 4).map fun x => (xStart + x, yStart + y)

/-- The position `(x, y)` in the 9×9 grid of the vertex with the index `v = y*9 + x`. -/
def vertexPos (v : Nat) : ℚ × ℚ :=
  (((v % 9 : Nat) : ℚ), ((v / 9 : Nat) : ℚ))

/-- The point `p` of the grid plane lies in the closed triangle with the vertices `t`: it is
a convex combination of the three vertex positions. -/
def triangleContains (t : Nat × Nat × Nat) (p : ℚ × ℚ) : Prop :=
  ∃ a b c : ℚ, 0 ≤ a ∧ 0 ≤ b ∧ 0 ≤ c ∧ a + b + c = 1 ∧
    p.1 = a * (vertexPos t.1).1 + b * (vertexPos t.2.1).1 + c * (vertexPos t.2.2).1 ∧
    p.2 = a * (vertexPos t.1).2 + b * (vertexPos t.2.1).2 + c * (vertexPos t.2.2).2

/-- The point `p` lies in the interior of the triangle with the vertices `t`: it is a convex
combination of the three vertex positions with positive weights. -/
def triangleInterior (t : Nat × Nat × Nat) (p : ℚ × ℚ) : Prop :=
  ∃ a b c : ℚ, 0 < a ∧ 0 < b ∧ 0 < c ∧ a + b + c = 1 ∧
    p.1 = a * (vertexPos t.1).1 + b * (vertexPos t.2.1).1 + c * (vertexPos t.2.2).1 ∧
    p.2 = a * (vertexPos t.1).2 + b * (vertexPos t.2.1).2 + c * (vertexPos t.2.2).2

/-- The vertices of a triangle in ascending order. -/
def sortTriangle (t : Nat × Nat × Nat) : Nat × Nat × Nat :=
  if t.1 ≤ t.2.1 then
    if t.2.1 ≤ t.2.2 then (t.1, t.2.1, t.2.2)
    else if t.1 ≤ t.2.2 then (t.1, t.2.2, t.2.1) else (t.2.2, t.1, t.2.1)
  else
    if t.1 ≤ t.2.2 then (t.2.1, t.1, t.2.2)
    else if t.2.1 ≤ t.2.2 then (t.2.1, t.2.2, t.1) else (t.2.2, t.2.1, t.1)

/-- The two ways to cut the cell `c` along a diagonal into two triangles, each as the pair of
its halves in either order, the vertices of a half in ascending order. -/
def cellHalves (c : Nat × Nat) : List (List (Nat × Nat × Nat)) :=
  [[(c.2 * 9 + c.1, c.2 * 9 + (c.1 + 1), (c.2 + 1) * 9 + (c.1 + 1)),
    (c.2 * 9 + c.1, (c.2 + 1) * 9 + c.1, (c.2 + 1) * 9 + (c.1 + 1))],
   [(c.2 * 9 + c.1, (c.2 + 1) * 9 + c.1, (c.2 + 1) * 9 + (c.1 + 1)),
    (c.2 * 9 + c.1, c.2 * 9 + (c.1 + 1), (c.2 + 1) * 9 + (c.1 + 1))],
   [(c.2 * 9 + c.1, c.2 * 9 + (c.1 + 1), (c.2 + 1) * 9 + c.1),
    (c.2 * 9 + (c.1 + 1), (c.2 + 1) * 9 + c.1, (c.2 + 1) * 9 + (c.1 + 1))],
   [(c.2 * 9 + (c.1 + 1), (c.2 + 1) * 9 + c.1, (c.2 + 1) * 9 + (c.1 + 1)),
    (c.2 * 9 + c.1, c.2 * 9 + (c.1 + 1), (c.2 + 1) * 9 + c.1)]]

/-- The non-degenerate triangles of the strip `t` whose vertices are corners of the cell
`c`. -/
def cellTriangles (t : List Nat) (c : Nat × Nat) : List (Nat × Nat × Nat) :=
  ((stripTriangles t).filter nonDegenerate).filter (inCell c)

/-! ## Tiles of the level grids -/

/-- A tile of the grid of its level: the level is within `0..13`, the degree size is the one
of the level, and the top-left corner is the corner of the cell in column `i` (counted
eastwards from longitude 0) and row `j` (counted southwards from latitude 90) of the
`6·2^L × 3·2^L` cells of that level. -/
def GridTile (td : CTerrainData) : Prop :=
  ∃ L i j : Nat, L ≤ 13 ∧ td.LOD = (L : Int) ∧ td.degreeSize = LODdegreeSizeLookUp L ∧
    i < 6 * 2 ^ L ∧ j < 3 * 2 ^ L ∧
    td.topLeftLon = (i : ℚ) * LODdegreeSizeLookUp L ∧
    td.topLeftLat = 90 - (j : ℚ) * LODdegreeSizeLookUp L

/-- The tile `t` has the top-left corner, the level and the degree size that
`CTerrainData::initTerrainData(lon, lat, lod, dss)` assigns. -/
def builtFor (t : CTerrainData) (lon lat : ℚ) (lod : Nat) : Prop :=
  keyOf t = requestKey lon lat lod ∧ t.degreeSize = LODdegreeSizeLookUp lod

/-- The tiles the tree can hold: the 18 tiles `CEarth::initLOD_0` asks for (column `lo`,
row `la`), and for a tile below level 13 the four tiles `CTerrain::split` asks for. -/
inductive TreeTile : CTerrainData → Prop
  | root (lo la : Nat) (hlo : lo < 6) (hla : la < 3) (t : CTerrainData)
      (ht : builtFor t ((lo : ℚ) * 60) (90 - (la : ℚ) * 60) 0) : TreeTile t
  | NWchild (p : CTerrainData) (hp : TreeTile p) (hL : p.LOD < 13) (t : CTerrainData)
      (ht : builtFor t p.topLeftLon p.topLeftLat (p.LOD + 1).toNat) : TreeTile t
  | NEchild (p : CTerrainData) (hp : TreeTile p) (hL : p.LOD < 13) (t : CTerrainData)
      (ht : builtFor t (p.topLeftLon + p.degreeSize / 2) p.topLeftLat (p.LOD + 1).toNat) :
      TreeTile t
  | SWchild (p : CTerrainData) (hp : TreeTile p) (hL : p.LOD < 13) (t : CTerrainData)
      (ht : builtFor t p.topLeftLon (p.topLeftLat - p.degreeSize / 2) (p.LOD + 1).toNat) :
      TreeTile t
  | SEchild (p : CTerrainData) (hp : TreeTile p) (hL : p.LOD < 13) (t : CTerrainData)
      (ht : builtFor t (p.topLeftLon + p.degreeSize / 2) (p.topLeftLat - p.degreeSize / 2)
        (p.LOD + 1).toNat) : TreeTile t

/-- The number of tiles of level `lod` along one side of a source cell of the level's band:
`HGTsourceDegreeSizeLookUp[lod] / LODdegreeSizeLookUp[lod]`. -/
def tilesPerSourceCell (lod : Nat) : Nat :=
  if lod ≤ 3 then 2 ^ lod else if lod ≤ 8 then 2 ^ (lod - 2) else 2 ^ (lod - 4)

/-! ## Levels of the tree -/

/-- The node `c` holds a tile one level below the tile `t`. -/
def childLevel (t : CTerrainData) (c : CTerrain) : Prop :=
  ∃ tc, c.terrainData = some tc ∧ tc.LOD = t.LOD + 1

/-- The levels of a tree are in order: every node holds a tile of a level within `0..13`,
a node with children holds a tile of a level below 13, and its children hold tiles of the
next level. -/
def TreeLevels : CTerrain → Prop
  | .leaf _ td _ _ => ∃ t, td = some t ∧ 0 ≤ t.LOD ∧ t.LOD ≤ 13
  | .node _ td _ _ c1 c2 c3 c4 =>
    (∃ t, td = some t ∧ 0 ≤ t.LOD ∧ t.LOD < 13 ∧
      childLevel t c1 ∧ childLevel t c2 ∧ childLevel t c3 ∧ childLevel t c4) ∧
    TreeLevels c1 ∧ TreeLevels c2 ∧ TreeLevels c3 ∧ TreeLevels c4

/-! ## Drawing the tree (`CTerrain::draw`) -/

/-- The member `terrainInCameraFOV` of a node. -/
def CTerrain.terrainInCameraFOV : CTerrain → Bool
  | .leaf _ _ _ f => f
  | .node _ _ _ f _ _ _ _ => f

/-- The texture coordinate `uv[i]` of the vertex `(x, y)`, `i = y*9 + x`, as
`CTerrainData::getTerrainData` computes it for a tile with the given top-left corner and
level (`pow(2.0, lodMAXTEXDiff)` is taken for the positive difference it is called with). -/
def vertexUV (topLeftLon topLeftLat : ℚ) (LOD : Int) (x y : Int) : ℚ × ℚ :=
  if LOD > (TEX_SOURCE_MAX_LOD : Int) then
    let tl := findTopLeftCorner topLeftLon topLeftLat (LODdegreeSizeLookUp TEX_SOURCE_MAX_LOD)
    let lodMAXTEXdeltaLon := topLeftLon - tl.1
    let lodMAXTEXdeltaLat := tl.2 - topLeftLat
    let lodMAXTEXDiff := LOD - (TEX_SOURCE_MAX_LOD : Int)
    let lodMAXTEXoffsetLon := lodMAXTEXdeltaLon / LODdegreeSizeLookUp TEX_SOURCE_MAX_LOD
    let lodMAXTEXoffsetLat := lodMAXTEXdeltaLat / LODdegreeSizeLookUp TEX_SOURCE_MAX_LOD
    let lodMAXTEXuvSize : ℚ := 1 / 2 ^ lodMAXTEXDiff.toNat
    ((lodMAXTEXoffsetLon + ((x : ℚ) / 8) * lodMAXTEXuvSize) * 0.973 + 0.0135,
     (lodMAXTEXoffsetLat + ((y : ℚ) / 8) * lodMAXTEXuvSize) * 0.973 + 0.0135)
  else (((x : ℚ) / 8) * 0.973 + 0.0135, ((y : ℚ) / 8) * 0.973 + 0.0135)

/-! ## Keys per shard -/

/-- The key of the tile in the cell `(i, j)` of the grid of level `L`. -/
def gridKey (L i j : Nat) : ℚ × ℚ × Int :=
  ((i : ℚ) * LODdegreeSizeLookUp L, 90 - (j : ℚ) * LODdegreeSizeLookUp L, (L : Int))

/-- The level, column and row a key stands for. -/
def gridCoord (k : ℚ × ℚ × Int) : Nat × Nat × Nat :=
  (k.2.2.toNat, ⌊k.1 / LODdegreeSizeLookUp k.2.2.toNat⌋.toNat,
    ⌊(90 - k.2.1) / LODdegreeSizeLookUp k.2.2.toNat⌋.toNat)

/-- The number of source cells of the band of level `lod` in a row:
`360 / HGTsourceDegreeSizeLookUp[lod]`. -/
def sourceCellsPerRow (lod : Nat) : Nat :=
  if lod ≤ 3 then 6 else if lod ≤ 8 then 24 else 96

/-- The level and the position within its source cell of the tile a key stands for. -/
def cellCode (k : ℚ × ℚ × Int) : (_ : Nat) × (Nat × Nat) :=
  ⟨(gridCoord k).1, ((gridCoord k).2.1 % tilesPerSourceCell (gridCoord k).1,
    (gridCoord k).2.2 % tilesPerSourceCell (gridCoord k).1)⟩

/-- The levels and positions within a source cell that the band with code `band` has. -/
def cellCodes (band : Nat) : Finset ((_ : Nat) × (Nat × Nat)) :=
  ((Finset.range 14).filter fun L => HGTsourceLookUp L = band).sigma fun L =>
    Finset.range (tilesPerSourceCell L) ×ˢ Finset.range (tilesPerSourceCell L)

/-- The tile object at address 0 with the key of the cell `(i, j)` of level `L`. -/
def gridTileAt (L i j : Nat) : CTerrainData :=
  { ptr := 0, degreeSize := LODdegreeSizeLookUp L,
    topLeftLon := (i : ℚ) * LODdegreeSizeLookUp L,
    topLeftLat := 90 - (j : ℚ) * LODdegreeSizeLookUp L, LOD := (L : Int), textureID := 0 }

/-- The keys of the 342 level-8 tiles in the columns `0..63` and the rows `0..5` (the
first 22 tiles of row 5). -/
def crowdedKeys : Finset (ℚ × ℚ × Int) :=
  (Finset.range 342).image fun n => gridKey 8 (n % 64) (n / 64)

/-! # Theorems -/

theorem matchCount_eq_three (td : CTerrainData) (tlLon tlLat : ℚ) (lod : Int) :
    matchCount td tlLon tlLat lod = 3 ↔
      td.topLeftLon = tlLon ∧ td.topLeftLat = tlLat ∧ td.LOD = lod := by
  unfold matchCount
  by_cases h1 : td.topLeftLon = tlLon <;> by_cases h2 : td.topLeftLat = tlLat <;>
    by_cases h3 : td.LOD = lod <;> simp [h1, h2, h3]

theorem searchEntry_some {tlLon tlLat : ℚ} {lod : Int} :
    ∀ {l : List CCachedTerrainData} {i : Nat}, searchEntry tlLon tlLat lod l = some i →
      (∃ e td, l[i]? = some e ∧ e.terrainData = some td ∧ td.topLeftLon = tlLon ∧
        td.topLeftLat = tlLat ∧ td.LOD = lod) ∧
      ∀ j, j < i → ∀ (e : CCachedTerrainData) (td : CTerrainData), l[j]? = some e →
        e.terrainData = some td →
        ¬ (td.topLeftLon = tlLon ∧ td.topLeftLat = tlLat ∧ td.LOD = lod) := by
  intro l
  induction l with
  | nil => intro i h; simp [searchEntry] at h
  | cons e rest ih =>
    intro i h
    unfold searchEntry at h
    cases hd : e.terrainData with
    | none =>
      rw [hd] at h
      simp only [Option.map_eq_some'] at h
      obtain ⟨k, hk, rfl⟩ := h
      obtain ⟨⟨e', td, h1, h2⟩, h3⟩ := ih hk
      refine ⟨⟨e', td, by simpa using h1, h2⟩, ?_⟩
      intro j hj e'' td'' hget hlive
      cases j with
      | zero => simp at hget; subst hget; rw [hd] at hlive; cases hlive
      | succ j => exact h3 j (by omega) e'' td'' (by simpa using hget) hlive
    | some td0 =>
      rw [hd] at h
      simp only at h
      by_cases hm : matchCount td0 tlLon tlLat lod = 3
      · rw [if_pos hm] at h
        cases h
        refine ⟨⟨e, td0, by simp, hd, (matchCount_eq_three _ _ _ _).1 hm⟩, ?_⟩
        intro j hj; omega
      · rw [if_neg hm] at h
        simp only [Option.map_eq_some'] at h
        obtain ⟨k, hk, rfl⟩ := h
        obtain ⟨⟨e', td, h1, h2⟩, h3⟩ := ih hk
        refine ⟨⟨e', td, by simpa using h1, h2⟩, ?_⟩
        intro j hj e'' td'' hget hlive
        cases j with
        | zero =>
          simp at hget; subst hget; rw [hd] at hlive; cases hlive
          exact fun hc => hm ((matchCount_eq_three _ _ _ _).2 hc)
        | succ j => exact h3 j (by omega) e'' td'' (by simpa using hget) hlive

theorem searchEntry_none {tlLon tlLat : ℚ} {lod : Int} :
    ∀ {l : List CCachedTerrainData}, searchEntry tlLon tlLat lod l = none →
      ∀ (j : Nat) (e : CCachedTerrainData) (td : CTerrainData), l[j]? = some e →
        e.terrainData = some td →
        ¬ (td.topLeftLon = tlLon ∧ td.topLeftLat = tlLat ∧ td.LOD = lod) := by
  intro l
  induction l with
  | nil => intro _ j e td h; simp at h
  | cons e rest ih =>
    intro h j e' td' hget hlive
    unfold searchEntry at h
    cases hd : e.terrainData with
    | none =>
      rw [hd] at h
      simp only [Option.map_eq_none'] at h
      cases j with
      | zero => simp at hget; subst hget; rw [hd] at hlive; cases hlive
      | succ j => exact ih h j e' td' (by simpa using hget) hlive
    | some td0 =>
      rw [hd] at h
      simp only at h
      by_cases hm : matchCount td0 tlLon tlLat lod = 3
      · rw [if_pos hm] at h; cases h
      · rw [if_neg hm] at h
        simp only [Option.map_eq_none'] at h
        cases j with
        | zero =>
          simp at hget; subst hget; rw [hd] at hlive; cases hlive
          exact fun hc => hm ((matchCount_eq_three _ _ _ _).2 hc)
        | succ j => exact ih h j e' td' (by simpa using hget) hlive

/-- A live entry with the key exists iff the search finds one. -/
theorem searchEntry_isSome_of_live {tlLon tlLat : ℚ} {lod : Int}
    {l : List CCachedTerrainData} {j : Nat} {e : CCachedTerrainData} {td : CTerrainData}
    (hget : l[j]? = some e) (hlive : e.terrainData = some td)
    (hk : td.topLeftLon = tlLon ∧ td.topLeftLat = tlLat ∧ td.LOD = lod) :
    ∃ i, searchEntry tlLon tlLat lod l = some i := by
  cases h : searchEntry tlLon tlLat lod l with
  | none => exact absurd hk (searchEntry_none h j e td hget hlive)
  | some i => exact ⟨i, rfl⟩

@[simp] theorem setInUse_terrainData (a earth : Nat) (v : Bool) (e : CCachedTerrainData) :
    (setInUse a earth v e).terrainData = e.terrainData := by
  unfold setInUse; split <;> rfl

@[simp] theorem setInUse_time (a earth : Nat) (v : Bool) (e : CCachedTerrainData) :
    (setInUse a earth v e).time = e.time := by
  unfold setInUse; split <;> rfl

@[simp] theorem touchEntry_terrainData (a earth : Nat) (v : Bool) (now : Nat)
    (e : CCachedTerrainData) : (touchEntry a earth v now e).terrainData = e.terrainData := by
  simp [touchEntry]

@[simp] theorem touchEntry_time (a earth : Nat) (v : Bool) (now : Nat)
    (e : CCachedTerrainData) : (touchEntry a earth v now e).time = now := rfl

theorem touchEntry_terrainAinUse (a earth : Nat) (v : Bool) (now : Nat)
    (e : CCachedTerrainData) :
    (touchEntry a earth v now e).terrainAinUse = if earth = a then v else e.terrainAinUse := by
  unfold touchEntry setInUse; split <;> rfl

theorem touchEntry_terrainBinUse (a earth : Nat) (v : Bool) (now : Nat)
    (e : CCachedTerrainData) :
    (touchEntry a earth v now e).terrainBinUse = if earth = a then e.terrainBinUse else v := by
  unfold touchEntry setInUse; split <;> rfl

theorem setInUse_terrainAinUse (a earth : Nat) (v : Bool) (e : CCachedTerrainData) :
    (setInUse a earth v e).terrainAinUse = if earth = a then v else e.terrainAinUse := by
  unfold setInUse; split <;> rfl

theorem setInUse_terrainBinUse (a earth : Nat) (v : Bool) (e : CCachedTerrainData) :
    (setInUse a earth v e).terrainBinUse = if earth = a then e.terrainBinUse else v := by
  unfold setInUse; split <;> rfl

theorem liveAt_set {l : List CCachedTerrainData} {i : Nat} {e e' : CCachedTerrainData}
    (hi : l[i]? = some e) (hd : e'.terrainData = e.terrainData) (k : Nat) (t : CTerrainData) :
    LiveAt (l.set i e') k t ↔ LiveAt l k t := by
  have hlt : i < l.length := by
    rcases Nat.lt_or_ge i l.length with h | h
    · exact h
    · rw [List.getElem?_eq_none h] at hi; cases hi
  unfold LiveAt
  by_cases hik : i = k
  · subst hik
    simp only [List.getElem?_set_self hlt, hi, Option.some.injEq]
    constructor
    · rintro ⟨x, rfl, hx⟩; exact ⟨e, rfl, hd ▸ hx⟩
    · rintro ⟨x, rfl, hx⟩; exact ⟨e', rfl, hd ▸ hx⟩
  · simp only [List.getElem?_set_ne hik]

theorem deleteNotInUse_length (earth olderThan : Nat) (l : List CCachedTerrainData) :
    (deleteNotInUse earth olderThan l).1.length = l.length := by
  induction l with
  | nil => rfl
  | cons e rest ih => simp [deleteNotInUse, ih]

theorem deleteNotInUse_getElem? (earth olderThan : Nat) (l : List CCachedTerrainData)
    (k : Nat) :
    (deleteNotInUse earth olderThan l).1[k]? =
      (l[k]?).map (fun e => (deleteNotInUseEntry earth olderThan e).1) := by
  induction l generalizing k with
  | nil => simp [deleteNotInUse]
  | cons e rest ih =>
    cases k with
    | zero => simp [deleteNotInUse]
    | succ k => simpa [deleteNotInUse] using ih k

theorem deleteNotInUseEntry_cases (earth olderThan : Nat) (e : CCachedTerrainData) :
    (deleteNotInUseEntry earth olderThan e).1 = e ∨
      ((deleteNotInUseEntry earth olderThan e).1 = { e with terrainData := none } ∧
        e.terrainAinUse = false ∧ e.terrainBinUse = false ∧ e.time < olderThan) := by
  unfold deleteNotInUseEntry
  split
  · rename_i h
    simp only [Bool.and_eq_true, Bool.not_eq_true', decide_eq_true_eq] at h
    cases hd : e.terrainData with
    | none => left; rfl
    | some td => right; exact ⟨rfl, h.1.1, h.1.2, h.2⟩
  · left; rfl

theorem liveAt_deleteNotInUse {earth olderThan : Nat} {l : List CCachedTerrainData}
    {k : Nat} {t : CTerrainData} (h : LiveAt (deleteNotInUse earth olderThan l).1 k t) :
    LiveAt l k t := by
  obtain ⟨e', he', ht⟩ := h
  rw [deleteNotInUse_getElem?] at he'
  cases hk : l[k]? with
  | none => rw [hk] at he'; cases he'
  | some e =>
    rw [hk] at he'
    simp only [Option.map_some', Option.some.injEq] at he'
    subst he'
    rcases deleteNotInUseEntry_cases earth olderThan e with h1 | ⟨h1, -⟩
    · rw [h1] at ht; exact ⟨e, hk, ht⟩
    · rw [h1] at ht; cases ht

theorem atMostOnePerKey_of_sub {l l' : List CCachedTerrainData}
    (hsub : ∀ k t, LiveAt l' k t → LiveAt l k t) (h : AtMostOnePerKey l) :
    AtMostOnePerKey l' :=
  fun i j t1 t2 h1 h2 hk => h i j t1 t2 (hsub i t1 h1) (hsub j t2 h2) hk

theorem atMostOnePerKey_append {l : List CCachedTerrainData} {e : CCachedTerrainData}
    {td : CTerrainData} (h : AtMostOnePerKey l) (he : e.terrainData = some td)
    (hnone : searchEntry td.topLeftLon td.topLeftLat td.LOD l = none) :
    AtMostOnePerKey (l ++ [e]) := by
  have key : ∀ k t, LiveAt (l ++ [e]) k t → (k < l.length ∧ LiveAt l k t) ∨
      (k = l.length ∧ t = td) := by
    intro k t ⟨x, hx, ht⟩
    rcases Nat.lt_trichotomy k l.length with hlt | heq | hgt
    · left
      rw [List.getElem?_append_left hlt] at hx
      exact ⟨hlt, x, hx, ht⟩
    · right
      subst heq
      simp at hx
      subst hx
      rw [he] at ht
      exact ⟨rfl, (Option.some.inj ht).symm⟩
    · rw [List.getElem?_eq_none (by simp; omega)] at hx; cases hx
  intro i j t1 t2 h1 h2 hk
  rcases key i t1 h1 with ⟨hi, h1'⟩ | ⟨hi, rfl⟩ <;> rcases key j t2 h2 with ⟨hj, h2'⟩ | ⟨hj, rfl⟩
  · exact h i j t1 t2 h1' h2' hk
  · obtain ⟨x, hx, ht⟩ := h1'
    exact absurd hk (searchEntry_none hnone i x t1 hx ht)
  · obtain ⟨x, hx, ht⟩ := h2'
    exact absurd ⟨hk.1.symm, hk.2.1.symm, hk.2.2.symm⟩ (searchEntry_none hnone j x t2 hx ht)
  · omega

theorem find_hit {a b now earth : Nat} {l : List CCachedTerrainData} {tlLon tlLat : ℚ}
    {lod : Int} {i : Nat} {e : CCachedTerrainData} (hv : earth = a ∨ earth = b)
    (hs : searchEntry tlLon tlLat lod l = some i) (hg : l[i]? = some e) :
    cachedTerrainDataListFind a b now l tlLon tlLat lod earth =
      some (l.set i (touchEntry a earth true now e), true, e.terrainData) := by
  have hv' : ¬ (earth ≠ a ∧ earth ≠ b) := by
    intro h; rcases hv with h1 | h1
    · exact h.1 h1
    · exact h.2 h1
  simp only [cachedTerrainDataListFind, if_neg hv', hs, hg]

theorem find_miss {a b now earth : Nat} {l : List CCachedTerrainData} {tlLon tlLat : ℚ}
    {lod : Int} (hv : earth = a ∨ earth = b)
    (hs : searchEntry tlLon tlLat lod l = none) :
    cachedTerrainDataListFind a b now l tlLon tlLat lod earth = some (l, false, none) := by
  have hv' : ¬ (earth ≠ a ∧ earth ≠ b) := by
    intro h; rcases hv with h1 | h1
    · exact h.1 h1
    · exact h.2 h1
  simp only [cachedTerrainDataListFind, if_neg hv', hs]

theorem free_hit {a b now earth : Nat} {l : List CCachedTerrainData} {td : CTerrainData}
    {d : Bool} {i : Nat} {e : CCachedTerrainData} (hv : earth = a ∨ earth = b)
    (hs : searchEntry td.topLeftLon td.topLeftLat td.LOD l = some i) (hg : l[i]? = some e) :
    cachedTerrainDataListFree a b now l earth td d =
      some (l.set i (touchEntry a earth false now e), false) := by
  have hv' : ¬ (earth ≠ a ∧ earth ≠ b) := by
    intro h; rcases hv with h1 | h1
    · exact h.1 h1
    · exact h.2 h1
  simp only [cachedTerrainDataListFree, if_neg hv', hs, hg]

theorem free_miss {a b now earth : Nat} {l : List CCachedTerrainData} {td : CTerrainData}
    {d : Bool} (hv : earth = a ∨ earth = b)
    (hs : searchEntry td.topLeftLon td.topLeftLat td.LOD l = none) :
    cachedTerrainDataListFree a b now l earth td d = some (l, true) := by
  have hv' : ¬ (earth ≠ a ∧ earth ≠ b) := by
    intro h; rcases hv with h1 | h1
    · exact h.1 h1
    · exact h.2 h1
  simp only [cachedTerrainDataListFree, if_neg hv', hs]

theorem register_hit {a b now earth : Nat} {l : List CCachedTerrainData}
    {td t : CTerrainData} {i : Nat} {e : CCachedTerrainData} (hv : earth = a ∨ earth = b)
    (hs : searchEntry td.topLeftLon td.topLeftLat td.LOD l = some i) (hg : l[i]? = some e)
    (hd : e.terrainData = some t) (hp : td.ptr ≠ t.ptr) :
    cachedTerrainDataListRegister a b now l earth td =
      some (l.set i (touchEntry a earth true now e), t) := by
  have hv' : ¬ (earth ≠ a ∧ earth ≠ b) := by
    intro h; rcases hv with h1 | h1
    · exact h.1 h1
    · exact h.2 h1
  simp only [cachedTerrainDataListRegister, if_neg hv', hs, hg, hd, if_neg hp]

theorem register_same_object {a b now earth : Nat} {l : List CCachedTerrainData}
    {td t : CTerrainData} {i : Nat} {e : CCachedTerrainData}
    (hs : searchEntry td.topLeftLon td.topLeftLat td.LOD l = some i) (hg : l[i]? = some e)
    (hd : e.terrainData = some t) (hp : td.ptr = t.ptr) :
    cachedTerrainDataListRegister a b now l earth td = none := by
  simp only [cachedTerrainDataListRegister, hs, hg, hd, if_pos hp]
  split <;> rfl

theorem register_miss {a b now earth : Nat} {l : List CCachedTerrainData}
    {td : CTerrainData} (hv : earth = a ∨ earth = b)
    (hs : searchEntry td.topLeftLon td.topLeftLat td.LOD l = none) :
    cachedTerrainDataListRegister a b now l earth td =
      some (l ++ [{ touchEntry a earth true now CCachedTerrainData.new with
                    terrainData := some td }], td) := by
  have hv' : ¬ (earth ≠ a ∧ earth ≠ b) := by
    intro h; rcases hv with h1 | h1
    · exact h.1 h1
    · exact h.2 h1
  simp only [cachedTerrainDataListRegister, if_neg hv', hs]

theorem valid_of_find {a b now earth : Nat} {l : List CCachedTerrainData} {tlLon tlLat : ℚ}
    {lod : Int} {r : List CCachedTerrainData × Bool × Option CTerrainData}
    (h : cachedTerrainDataListFind a b now l tlLon tlLat lod earth = some r) :
    earth = a ∨ earth = b := by
  by_contra hv
  simp only [not_or] at hv
  simp [cachedTerrainDataListFind, hv] at h

theorem valid_of_free {a b now earth : Nat} {l : List CCachedTerrainData} {td : CTerrainData}
    {d : Bool} {r : List CCachedTerrainData × Bool}
    (h : cachedTerrainDataListFree a b now l earth td d = some r) :
    earth = a ∨ earth = b := by
  by_contra hv
  simp only [not_or] at hv
  simp [cachedTerrainDataListFree, hv] at h

theorem valid_of_register {a b now earth : Nat} {l : List CCachedTerrainData}
    {td : CTerrainData} {r : List CCachedTerrainData × CTerrainData}
    (h : cachedTerrainDataListRegister a b now l earth td = some r) :
    earth = a ∨ earth = b := by
  by_contra hv
  simp only [not_or] at hv
  simp [cachedTerrainDataListRegister, hv] at h

theorem searchEntry_get {tlLon tlLat : ℚ} {lod : Int} {l : List CCachedTerrainData} {i : Nat}
    (h : searchEntry tlLon tlLat lod l = some i) :
    ∃ e td, l[i]? = some e ∧ e.terrainData = some td ∧ td.topLeftLon = tlLon ∧
      td.topLeftLat = tlLat ∧ td.LOD = lod :=
  (searchEntry_some h).1

theorem find_cases {a b now earth : Nat} {l : List CCachedTerrainData} {tlLon tlLat : ℚ}
    {lod : Int} {r : List CCachedTerrainData × Bool × Option CTerrainData}
    (h : cachedTerrainDataListFind a b now l tlLon tlLat lod earth = some r) :
    r.1 = l ∨ ∃ i e, l[i]? = some e ∧
      r.1 = l.set i (touchEntry a earth true now e) := by
  have hv := valid_of_find h
  cases hs : searchEntry tlLon tlLat lod l with
  | none => rw [find_miss hv hs] at h; cases h; left; rfl
  | some i =>
    obtain ⟨e, td, hg, -⟩ := searchEntry_get hs
    rw [find_hit hv hs hg] at h; cases h; right; exact ⟨i, e, hg, rfl⟩

theorem free_cases {a b now earth : Nat} {l : List CCachedTerrainData} {td : CTerrainData}
    {d : Bool} {r : List CCachedTerrainData × Bool}
    (h : cachedTerrainDataListFree a b now l earth td d = some r) :
    r.1 = l ∨ ∃ i e, l[i]? = some e ∧
      r.1 = l.set i (touchEntry a earth false now e) := by
  have hv := valid_of_free h
  cases hs : searchEntry td.topLeftLon td.topLeftLat td.LOD l with
  | none => rw [free_miss hv hs] at h; cases h; left; rfl
  | some i =>
    obtain ⟨e, t, hg, -⟩ := searchEntry_get hs
    rw [free_hit hv hs hg] at h; cases h; right; exact ⟨i, e, hg, rfl⟩

theorem register_cases {a b now earth : Nat} {l : List CCachedTerrainData}
    {td : CTerrainData} {r : List CCachedTerrainData × CTerrainData}
    (h : cachedTerrainDataListRegister a b now l earth td = some r) :
    (searchEntry td.topLeftLon td.topLeftLat td.LOD l = none ∧
      r.1 = l ++ [{ touchEntry a earth true now CCachedTerrainData.new with
                    terrainData := some td }]) ∨
    ∃ i e, l[i]? = some e ∧ r.1 = l.set i (touchEntry a earth true now e) := by
  have hv := valid_of_register h
  cases hs : searchEntry td.topLeftLon td.topLeftLat td.LOD l with
  | none => rw [register_miss hv hs] at h; cases h; left; exact ⟨rfl, rfl⟩
  | some i =>
    obtain ⟨e, t, hg, hd, -⟩ := searchEntry_get hs
    by_cases hp : td.ptr = t.ptr
    · rw [register_same_object hs hg hd hp] at h; cases h
    · rw [register_hit hv hs hg hd hp] at h; cases h; right; exact ⟨i, e, hg, rfl⟩

theorem reachable_atMostOnePerKey {a b : Nat} {l : List CCachedTerrainData}
    (h : Reachable a b l) : AtMostOnePerKey l := by
  induction h with
  | empty => intro i j t1 t2 h1; obtain ⟨e, he, -⟩ := h1; simp at he
  | find _ hstep ih =>
    rcases find_cases hstep with h | ⟨i, e, hg, h⟩
    · simp only at h; subst h; exact ih
    · simp only at h; subst h
      exact atMostOnePerKey_of_sub (fun k t hk => (liveAt_set hg (by simp) k t).1 hk) ih
  | register _ hstep ih =>
    rcases register_cases hstep with ⟨hn, h⟩ | ⟨i, e, hg, h⟩
    · simp only at h; subst h; exact atMostOnePerKey_append ih rfl hn
    · simp only at h; subst h
      exact atMostOnePerKey_of_sub (fun k t hk => (liveAt_set hg (by simp) k t).1 hk) ih
  | free _ hstep ih =>
    rcases free_cases hstep with h | ⟨i, e, hg, h⟩
    · simp only at h; subst h; exact ih
    · simp only at h; subst h
      exact atMostOnePerKey_of_sub (fun k t hk => (liveAt_set hg (by simp) k t).1 hk) ih
  | sweep earth olderThan _ ih =>
    exact atMostOnePerKey_of_sub (fun k t hk => liveAt_deleteNotInUse hk) ih

theorem searchEntry_of_unique {l : List CCachedTerrainData} (hu : AtMostOnePerKey l)
    {i : Nat} {e : CCachedTerrainData} {t : CTerrainData} {tlLon tlLat : ℚ} {lod : Int}
    (hg : l[i]? = some e) (hd : e.terrainData = some t)
    (hk : t.topLeftLon = tlLon ∧ t.topLeftLat = tlLat ∧ t.LOD = lod) :
    searchEntry tlLon tlLat lod l = some i := by
  obtain ⟨i', hi'⟩ := searchEntry_isSome_of_live hg hd hk
  obtain ⟨e', t', hg', hd', hk'⟩ := searchEntry_get hi'
  have := hu i' i t' t ⟨e', hg', hd'⟩ ⟨e, hg, hd⟩
    ⟨hk'.1.trans hk.1.symm, hk'.2.1.trans hk.2.1.symm, hk'.2.2.trans hk.2.2.symm⟩
  rw [hi', this]

theorem reachable_example : Reachable 1 2
    [{ terrainData := some tileNW, terrainAinUse := true, terrainBinUse := false, time := 5 }] := by
  have h : cachedTerrainDataListRegister 1 2 5 [] 1 tileNW =
      some ([{ terrainData := some tileNW, terrainAinUse := true, terrainBinUse := false,
               time := 5 }], tileNW) := by
    decide
  exact Reachable.register Reachable.empty h

/-- C1 (as stated, refuted): the shard holding `tileNW` for consumer A is reachable and its
key has a live entry, yet registering that very object again does not redirect the handle:
the call aborts (`qFatal("REGISTER - double register same terrain data")`). -/
theorem register_same_object_aborts :
    Reachable 1 2
      [{ terrainData := some tileNW, terrainAinUse := true, terrainBinUse := false,
         time := 5 }] ∧
    LiveAt [{ terrainData := some tileNW, terrainAinUse := true, terrainBinUse := false,
              time := 5 }] 0 tileNW ∧
    cachedTerrainDataListRegister 1 2 9
      [{ terrainData := some tileNW, terrainAinUse := true, terrainBinUse := false,
         time := 5 }] 2 tileNW = none := by
  refine ⟨reachable_example, ⟨_, rfl, rfl⟩, ?_⟩
  decide

/-- C1 (amended): in every shard state reachable from the empty shard by completed find,
register, free and deleteNotInUse calls no two live entries have the same key; and
registering, for consumer `earth`, a tile whose key already has a live entry at position `i`
aborts when the caller's tile is the very object stored there, and otherwise does not
append: the handle becomes the stored tile, the consumer's flag is set on that entry, the
other flag and the tile are kept, and the list length is unchanged. -/
theorem reachable_at_most_one_per_key (earthBufferA earthBufferB : Nat)
    (l : List CCachedTerrainData) (hreach : Reachable earthBufferA earthBufferB l) :
    AtMostOnePerKey l ∧
    ∀ (earth now i : Nat) (terrainData t : CTerrainData) (e : CCachedTerrainData),
      (earth = earthBufferA ∨ earth = earthBufferB) →
      l[i]? = some e → e.terrainData = some t → sameKey t terrainData →
      (terrainData.ptr = t.ptr →
        cachedTerrainDataListRegister earthBufferA earthBufferB now l earth terrainData
          = none) ∧
      (terrainData.ptr ≠ t.ptr →
        ∃ e', cachedTerrainDataListRegister earthBufferA earthBufferB now l earth terrainData
            = some (l.set i e', t) ∧
          (l.set i e').length = l.length ∧
          e'.terrainData = some t ∧ e'.time = now ∧
          e'.terrainAinUse = (if earth = earthBufferA then true else e.terrainAinUse) ∧
          e'.terrainBinUse = (if earth = earthBufferA then e.terrainBinUse else true)) := by
  have hu := reachable_atMostOnePerKey hreach
  refine ⟨hu, ?_⟩
  intro earth now i terrainData t e hv hg hd hk
  have hs := searchEntry_of_unique hu hg hd hk
  refine ⟨fun hp => register_same_object hs hg hd hp, fun hp => ?_⟩
  refine ⟨(touchEntry earthBufferA earth true now e),
    register_hit hv hs hg hd hp, List.length_set _ _ _, ?_, rfl, ?_, ?_⟩
  · simp [hd]
  · simp [touchEntry_terrainAinUse]
  · simp [touchEntry_terrainBinUse]

/-- C1 (amended), at a concrete reachable shard: consumer B registers a rebuilt copy of a
tile consumer A holds. -/
theorem reachable_at_most_one_per_key_witness :
    AtMostOnePerKey
      [{ terrainData := some tileNW, terrainAinUse := true, terrainBinUse := false,
         time := 5 }] ∧
    ∃ e', cachedTerrainDataListRegister 1 2 9
        [{ terrainData := some tileNW, terrainAinUse := true, terrainBinUse := false,
           time := 5 }] 2 tileNWrebuilt
        = some (([{ terrainData := some tileNW, terrainAinUse := true, terrainBinUse := false,
                    time := 5 }] : List CCachedTerrainData).set 0 e', tileNW) ∧
      e'.terrainAinUse = true ∧ e'.terrainBinUse = true := by
  have h := reachable_at_most_one_per_key 1 2 _ reachable_example
  refine ⟨h.1, ?_⟩
  obtain ⟨e', h1, -, -, -, h2, h3⟩ :=
    (h.2 2 9 0 tileNWrebuilt tileNW _ (Or.inr rfl) rfl rfl ⟨rfl, rfl, rfl⟩).2 (by decide)
  exact ⟨e', h1, by simpa using h2, by simpa using h3⟩

/-- C2: `deleteNotInUse` keeps the length of the shard and leaves every entry that has
`terrainAinUse` or `terrainBinUse` set exactly as it was (tile, both flags, time); an entry
that does change had both flags clear and differs only by its tile having become a
tombstone. -/
theorem deleteNotInUse_spares_in_use (earth olderThan : Nat) (l : List CCachedTerrainData) :
    (deleteNotInUse earth olderThan l).1.length = l.length ∧
    ∀ (i : Nat) (e : CCachedTerrainData), l[i]? = some e →
      ((e.terrainAinUse = true ∨ e.terrainBinUse = true) →
        (deleteNotInUse earth olderThan l).1[i]? = some e) ∧
      ((deleteNotInUse earth olderThan l).1[i]? ≠ some e →
        e.terrainAinUse = false ∧ e.terrainBinUse = false ∧
        (deleteNotInUse earth olderThan l).1[i]? = some { e with terrainData := none }) := by
  refine ⟨deleteNotInUse_length earth olderThan l, ?_⟩
  intro i e hg
  rw [deleteNotInUse_getElem?, hg]
  simp only [Option.map_some', Option.some.injEq]
  rcases deleteNotInUseEntry_cases earth olderThan e with h | ⟨h, ha, hb, -⟩
  · exact ⟨fun _ => h, fun hne => absurd (congrArg some h) hne⟩
  · refine ⟨fun hab => ?_, fun _ => ⟨ha, hb, h⟩⟩
    rcases hab with hab | hab
    · rw [ha] at hab; cases hab
    · rw [hb] at hab; cases hab

/-- C2, on `shardMixed`: a sweep with the largest threshold keeps the tile held by B only
and the tile held by both buffers, and the entry it changes (the third) had both flags
clear and became a tombstone. -/
theorem deleteNotInUse_spares_in_use_witness :
    (deleteNotInUse 1 4294967295 shardMixed).1[0]? = shardMixed[0]? ∧
    (deleteNotInUse 1 4294967295 shardMixed).1[1]? = shardMixed[1]? ∧
    (deleteNotInUse 1 4294967295 shardMixed).1[2]? =
      some { terrainData := none, terrainAinUse := false, terrainBinUse := false,
             time := 7 } :=
  ⟨((deleteNotInUse_spares_in_use 1 4294967295 shardMixed).2 0 _ rfl).1 (Or.inr rfl),
   ((deleteNotInUse_spares_in_use 1 4294967295 shardMixed).2 1 _ rfl).1 (Or.inl rfl),
   (((deleteNotInUse_spares_in_use 1 4294967295 shardMixed).2 2 _ rfl).2 (by decide)).2.2⟩

theorem searchEntry_eq_of_first {tlLon tlLat : ℚ} {lod : Int} {l : List CCachedTerrainData}
    {i : Nat} {e : CCachedTerrainData} {td : CTerrainData}
    (hg : l[i]? = some e) (hd : e.terrainData = some td)
    (hk : td.topLeftLon = tlLon ∧ td.topLeftLat = tlLat ∧ td.LOD = lod)
    (hfirst : ∀ j, j < i → ∀ (e' : CCachedTerrainData) (td' : CTerrainData),
      l[j]? = some e' → e'.terrainData = some td' →
      ¬ (td'.topLeftLon = tlLon ∧ td'.topLeftLat = tlLat ∧ td'.LOD = lod)) :
    searchEntry tlLon tlLat lod l = some i := by
  obtain ⟨i', hi'⟩ := searchEntry_isSome_of_live hg hd hk
  obtain ⟨⟨e', t', hg', hd', hk'⟩, hmin⟩ := searchEntry_some hi'
  rcases Nat.lt_trichotomy i' i with h | h | h
  · exact absurd hk' (hfirst i' h e' t' hg' hd')
  · rw [hi', h]
  · exact absurd hk (hmin i h e td hg hd)

theorem searchEntry_set {tlLon tlLat : ℚ} {lod : Int} :
    ∀ {l : List CCachedTerrainData} {i : Nat} {e e' : CCachedTerrainData},
      l[i]? = some e → e'.terrainData = e.terrainData →
      searchEntry tlLon tlLat lod (l.set i e') = searchEntry tlLon tlLat lod l := by
  intro l
  induction l with
  | nil => intro i e e' h; simp at h
  | cons x rest ih =>
    intro i e e' hg hd
    cases i with
    | zero =>
      simp only [List.getElem?_cons_zero, Option.some.injEq] at hg
      subst hg
      simp only [List.set_cons_zero, searchEntry, hd]
    | succ i =>
      simp only [List.getElem?_cons_succ] at hg
      simp only [List.set_cons_succ, searchEntry, ih hg hd]

theorem searchEntry_append_new {tlLon tlLat : ℚ} {lod : Int} :
    ∀ {l : List CCachedTerrainData} {e : CCachedTerrainData} {td : CTerrainData},
      searchEntry tlLon tlLat lod l = none → e.terrainData = some td →
      (td.topLeftLon = tlLon ∧ td.topLeftLat = tlLat ∧ td.LOD = lod) →
      searchEntry tlLon tlLat lod (l ++ [e]) = some l.length := by
  intro l
  induction l with
  | nil =>
    intro e td _ hd hk
    simp [searchEntry, hd, (matchCount_eq_three td tlLon tlLat lod).2 hk]
  | cons x rest ih =>
    intro e td hn hd hk
    unfold searchEntry at hn
    cases hx : x.terrainData with
    | none =>
      rw [hx] at hn
      simp only [Option.map_eq_none'] at hn
      simp [searchEntry, hx, ih hn hd hk]
    | some t =>
      rw [hx] at hn
      simp only at hn
      by_cases hm : matchCount t tlLon tlLat lod = 3
      · rw [if_pos hm] at hn; cases hn
      · rw [if_neg hm] at hn
        simp only [Option.map_eq_none'] at hn
        simp [searchEntry, hx, hm, ih hn hd hk]

/-- C3: for a consumer `earth` (one of the two buffers), if the first live entry whose tile
key equals `(tlLon, tlLat, lod)` is entry `i`, the call returns `true` with that entry's
tile, and the shard differs only at `i`, where the tile is kept, the consumer's flag is set,
the other flag is unchanged and the time is the clock value; if no live entry has the key
(tombstones never match) it returns `false` with a null tile and the shard unchanged. -/
theorem cachedTerrainDataListFind_spec (earthBufferA earthBufferB now : Nat)
    (l : List CCachedTerrainData) (tlLon tlLat : ℚ) (lod : Int) (earth : Nat)
    (hv : earth = earthBufferA ∨ earth = earthBufferB) :
    (∀ (i : Nat) (e : CCachedTerrainData) (td : CTerrainData),
      l[i]? = some e → e.terrainData = some td →
      (td.topLeftLon = tlLon ∧ td.topLeftLat = tlLat ∧ td.LOD = lod) →
      (∀ j, j < i → ∀ (e' : CCachedTerrainData) (td' : CTerrainData),
        l[j]? = some e' → e'.terrainData = some td' →
        ¬ (td'.topLeftLon = tlLon ∧ td'.topLeftLat = tlLat ∧ td'.LOD = lod)) →
      ∃ e', cachedTerrainDataListFind earthBufferA earthBufferB now l tlLon tlLat lod earth
          = some (l.set i e', true, some td) ∧
        e'.terrainData = some td ∧ e'.time = now ∧
        e'.terrainAinUse = (if earth = earthBufferA then true else e.terrainAinUse) ∧
        e'.terrainBinUse = (if earth = earthBufferA then e.terrainBinUse else true)) ∧
    ((∀ (j : Nat) (e : CCachedTerrainData) (td : CTerrainData),
        l[j]? = some e → e.terrainData = some td →
        ¬ (td.topLeftLon = tlLon ∧ td.topLeftLat = tlLat ∧ td.LOD = lod)) →
      cachedTerrainDataListFind earthBufferA earthBufferB now l tlLon tlLat lod earth
        = some (l, false, none)) := by
  constructor
  · intro i e td hg hd hk hfirst
    have hs := searchEntry_eq_of_first hg hd hk hfirst
    refine ⟨touchEntry earthBufferA earth true now e, ?_, ?_, rfl, ?_, ?_⟩
    · rw [find_hit hv hs hg, hd]
    · simp [hd]
    · simp [touchEntry_terrainAinUse]
    · simp [touchEntry_terrainBinUse]
  · intro hnone
    cases hs : searchEntry tlLon tlLat lod l with
    | none => exact find_miss hv hs
    | some i =>
      obtain ⟨e, td, hg, hd, hk⟩ := searchEntry_get hs
      exact absurd hk (hnone i e td hg hd)

/-- C3, on `shardTombstoneThenTile`: buffer B (address 2) finds key `(0, 90, 0)` at clock 9
in the second entry, and a search for key `(60, 90, 0)` misses. -/
theorem cachedTerrainDataListFind_spec_witness :
    (∃ e', cachedTerrainDataListFind 1 2 9 shardTombstoneThenTile 0 90 0 2
        = some (shardTombstoneThenTile.set 1 e', true, some tileNW) ∧
      e'.terrainData = some tileNW ∧ e'.time = 9 ∧
      e'.terrainAinUse = true ∧ e'.terrainBinUse = true) ∧
    cachedTerrainDataListFind 1 2 9 shardTombstoneThenTile 60 90 0 2
      = some (shardTombstoneThenTile, false, none) := by
  have h := cachedTerrainDataListFind_spec 1 2 9 shardTombstoneThenTile
  constructor
  · exact (h 0 90 0 2 (Or.inr rfl)).1 1 _ tileNW rfl rfl ⟨rfl, rfl, rfl⟩ (by
      intro j hj e' td' hg hd
      have : j = 0 := by omega
      subst this
      simp [shardTombstoneThenTile] at hg
      subst hg
      cases hd)
  · refine (h 60 90 0 2 (Or.inr rfl)).2 ?_
    intro j e td hg hd
    match j, hg with
    | 0, hg => simp [shardTombstoneThenTile] at hg; subst hg; cases hd
    | 1, hg =>
      simp [shardTombstoneThenTile] at hg; subst hg; cases hd
      simp [tileNW]
    | (n + 2), hg => simp [shardTombstoneThenTile] at hg

theorem deleteNotInUseEntry_evict {earth olderThan : Nat} {e : CCachedTerrainData}
    (ha : e.terrainAinUse = false) (hb : e.terrainBinUse = false) (ht : e.time < olderThan) :
    (deleteNotInUseEntry earth olderThan e).1 = { e with terrainData := none } := by
  unfold deleteNotInUseEntry
  simp only [ha, hb, ht, Bool.not_false, Bool.and_self, decide_True, if_true]
  cases hd : e.terrainData with
  | none => cases e; simp_all
  | some td => rfl

theorem deleteNotInUseEntry_keep {earth olderThan : Nat} {e : CCachedTerrainData}
    (h : e.terrainAinUse = true ∨ e.terrainBinUse = true ∨ olderThan ≤ e.time) :
    (deleteNotInUseEntry earth olderThan e).1 = e := by
  rcases deleteNotInUseEntry_cases earth olderThan e with h1 | ⟨-, ha, hb, ht⟩
  · exact h1
  · rcases h with h | h | h
    · rw [ha] at h; cases h
    · rw [hb] at h; cases h
    · omega

theorem register_then_search {a b now earth : Nat} {l : List CCachedTerrainData}
    {td : CTerrainData} (hv : earth = a ∨ earth = b)
    (hfresh : ∀ (i : Nat) (e : CCachedTerrainData) (t : CTerrainData), l[i]? = some e →
      e.terrainData = some t → t.ptr ≠ td.ptr) :
    ∃ l1 i e1 t, cachedTerrainDataListRegister a b now l earth td = some (l1, t) ∧
      searchEntry td.topLeftLon td.topLeftLat td.LOD l1 = some i ∧ l1[i]? = some e1 ∧
      e1.terrainData = some t ∧ sameKey t td := by
  cases hs : searchEntry td.topLeftLon td.topLeftLat td.LOD l with
  | none =>
    exact ⟨l ++ [{ touchEntry a earth true now CCachedTerrainData.new with
        terrainData := some td }], l.length,
      { touchEntry a earth true now CCachedTerrainData.new with terrainData := some td }, td,
      register_miss hv hs, searchEntry_append_new hs rfl ⟨rfl, rfl, rfl⟩,
      by simp, rfl, rfl, rfl, rfl⟩
  | some i =>
    obtain ⟨e, t, hg, hd, hk⟩ := searchEntry_get hs
    have hlt : i < l.length := by
      rcases Nat.lt_or_ge i l.length with h | h
      · exact h
      · rw [List.getElem?_eq_none h] at hg; cases hg
    refine ⟨l.set i (touchEntry a earth true now e), i, touchEntry a earth true now e, t,
      register_hit hv hs hg hd (fun h => hfresh i e t hg hd h.symm), ?_,
      List.getElem?_set_self hlt, by simp [hd], hk⟩
    rw [searchEntry_set hg (by simp)]
    exact hs

/-- C4 (as stated, refuted): consumer A (address 1) registers `tileNW` in an empty shard at
clock 5 and releases it at clock 6; `deleteNotInUse(_, 0)` then leaves the entry live although
neither consumer holds it, since no `time` is below 0. -/
theorem sweep_zero_does_not_evict :
    registerReleaseSweep 1 2 5 6 [] 1 tileNW 1 0 =
      some [{ terrainData := some tileNW, terrainAinUse := false, terrainBinUse := false,
              time := 6 }] := by
  decide

/-- C4 (amended): a consumer `earth` registers a newly built tile and releases it at clock
`now2`. Both calls complete, and the entry `e` that is then the shard's live entry for the
tile's key has the consumer's flag clear and time `now2`. A following
`deleteNotInUse(_, olderThan)` turns that entry into a tombstone when the other consumer's
flag is clear and `now2 < olderThan`; it leaves the entry untouched when the other consumer's
flag is set, and also whenever `olderThan ≤ now2`, in particular for `olderThan = 0`. -/
theorem registerReleaseSweep_spec (earthBufferA earthBufferB now1 now2 : Nat)
    (l : List CCachedTerrainData) (earth : Nat) (terrainData : CTerrainData)
    (sweepEarth olderThan : Nat)
    (hv : earth = earthBufferA ∨ earth = earthBufferB)
    (hfresh : ∀ (i : Nat) (e : CCachedTerrainData) (t : CTerrainData), l[i]? = some e →
      e.terrainData = some t → t.ptr ≠ terrainData.ptr) :
    ∃ (l2 l3 : List CCachedTerrainData) (i : Nat) (e : CCachedTerrainData) (t : CTerrainData),
      registerRelease earthBufferA earthBufferB now1 now2 l earth terrainData = some l2 ∧
      registerReleaseSweep earthBufferA earthBufferB now1 now2 l earth terrainData
        sweepEarth olderThan = some l3 ∧
      searchEntry terrainData.topLeftLon terrainData.topLeftLat terrainData.LOD l2 = some i ∧
      l2[i]? = some e ∧ e.terrainData = some t ∧ sameKey t terrainData ∧ e.time = now2 ∧
      (if earth = earthBufferA then e.terrainAinUse else e.terrainBinUse) = false ∧
      ((if earth = earthBufferA then e.terrainBinUse else e.terrainAinUse) = false →
        now2 < olderThan → l3[i]? = some { e with terrainData := none }) ∧
      ((if earth = earthBufferA then e.terrainBinUse else e.terrainAinUse) = true →
        l3[i]? = some e) ∧
      (olderThan ≤ now2 → l3[i]? = some e) := by
  obtain ⟨l1, i, e1, t, hreg, hs1, hg1, hd1, hk⟩ :=
    @register_then_search earthBufferA earthBufferB now1 earth l terrainData hv hfresh
  have hlt : i < l1.length := by
    rcases Nat.lt_or_ge i l1.length with h | h
    · exact h
    · rw [List.getElem?_eq_none h] at hg1; cases hg1
  have hs1' : searchEntry t.topLeftLon t.topLeftLat t.LOD l1 = some i := by
    rw [hk.1, hk.2.1, hk.2.2]; exact hs1
  have hfree : cachedTerrainDataListFree earthBufferA earthBufferB now2 l1 earth t false =
      some (l1.set i (touchEntry earthBufferA earth false now2 e1), false) :=
    free_hit hv hs1' hg1
  have hrr : registerRelease earthBufferA earthBufferB now1 now2 l earth terrainData =
      some (l1.set i (touchEntry earthBufferA earth false now2 e1)) := by
    simp only [registerRelease, hreg, Option.some_bind, hfree, Option.map_some']
  have hg2 : (l1.set i (touchEntry earthBufferA earth false now2 e1))[i]? =
      some (touchEntry earthBufferA earth false now2 e1) :=
    List.getElem?_set_self hlt
  refine ⟨l1.set i (touchEntry earthBufferA earth false now2 e1),
    (deleteNotInUse sweepEarth olderThan
      (l1.set i (touchEntry earthBufferA earth false now2 e1))).1,
    i, touchEntry earthBufferA earth false now2 e1, t, hrr, ?_, ?_,
    hg2, by simp [hd1], hk, rfl, ?_, ?_, ?_, ?_⟩
  · simp only [registerReleaseSweep, hrr, Option.map_some']
  · rw [searchEntry_set hg1 (by simp)]; exact hs1
  · by_cases h : earth = earthBufferA <;> simp [h, touchEntry_terrainAinUse, touchEntry_terrainBinUse]
  · intro hother hlt'
    rw [deleteNotInUse_getElem?, hg2]
    simp only [Option.map_some', Option.some.injEq]
    apply deleteNotInUseEntry_evict
    · by_cases h : earth = earthBufferA
      · simp [h, touchEntry_terrainAinUse]
      · simpa [h, touchEntry_terrainAinUse, touchEntry_terrainBinUse] using hother
    · by_cases h : earth = earthBufferA
      · simpa [h, touchEntry_terrainAinUse, touchEntry_terrainBinUse] using hother
      · simp [h, touchEntry_terrainBinUse]
    · exact hlt'
  · intro hother
    rw [deleteNotInUse_getElem?, hg2]
    simp only [Option.map_some', Option.some.injEq]
    apply deleteNotInUseEntry_keep
    by_cases h : earth = earthBufferA
    · right; left; simpa [h, touchEntry_terrainAinUse, touchEntry_terrainBinUse] using hother
    · left; simpa [h, touchEntry_terrainAinUse, touchEntry_terrainBinUse] using hother
  · intro hle
    rw [deleteNotInUse_getElem?, hg2]
    simp only [Option.map_some', Option.some.injEq]
    exact deleteNotInUseEntry_keep (Or.inr (Or.inr hle))

/-- C4 (amended), for consumer A registering `tileNW` in an empty shard and releasing it at
clock 6: the scenario completes for every threshold. -/
theorem registerReleaseSweep_spec_witness :
    ∃ (l2 l3 : List CCachedTerrainData),
      registerRelease 1 2 5 6 [] 1 tileNW = some l2 ∧
      registerReleaseSweep 1 2 5 6 [] 1 tileNW 1 7 = some l3 := by
  obtain ⟨l2, l3, -, -, -, h1, h2, -⟩ :=
    registerReleaseSweep_spec 1 2 5 6 [] 1 tileNW 1 7 (Or.inl rfl)
      (by intro i e t h; simp at h)
  exact ⟨l2, l3, h1, h2⟩

theorem LODdegreeSizeLookUp_eq (lod : Nat) : LODdegreeSizeLookUp lod = 60 / 2 ^ lod := by
  induction lod with
  | zero => simp [LODdegreeSizeLookUp]
  | succ n ih => rw [LODdegreeSizeLookUp, ih, pow_succ]; field_simp

theorem LODdegreeSizeLookUp_pos (lod : Nat) : 0 < LODdegreeSizeLookUp lod := by
  rw [LODdegreeSizeLookUp_eq]; positivity

theorem correctLon_of_mem {lon : ℚ} (h0 : 0 ≤ lon) (h1 : lon < 360) : correctLon lon = lon := by
  unfold correctLon
  simp only [ge_iff_le, not_le.mpr h1, if_false, not_lt.mpr h0]

theorem floor_mul_div_self (k : Int) {d : ℚ} (hd : 0 < d) : ⌊((k : ℚ) * d) / d⌋ = k := by
  rw [mul_div_assoc, div_self hd.ne', mul_one, Int.floor_intCast]

theorem findTopLeftCorner_fst {lon lat d : ℚ} (h0 : 0 ≤ lon) (h1 : lon < 360) :
    (findTopLeftCorner lon lat d).1 = (⌊lon / d⌋ : Int) * d := by
  simp [findTopLeftCorner, correctLon_of_mem h0 h1, convertLonLatToCartesian,
    convertCartesianToLonLat]

theorem findTopLeftCorner_snd (lon lat d : ℚ) :
    (findTopLeftCorner lon lat d).2 = 90 - (⌊(90 - lat) / d⌋ : Int) * d := by
  simp [findTopLeftCorner, convertLonLatToCartesian, convertCartesianToLonLat]

theorem findTopLeftCorner_fst_range {lon d : ℚ} (lat : ℚ) (hd : 0 < d) (h0 : 0 ≤ lon)
    (h1 : lon < 360) :
    0 ≤ (findTopLeftCorner lon lat d).1 ∧ (findTopLeftCorner lon lat d).1 < 360 := by
  rw [findTopLeftCorner_fst h0 h1]
  have hfl : ((⌊lon / d⌋ : Int) : ℚ) ≤ lon / d := Int.floor_le _
  have hnn : (0 : ℚ) ≤ (⌊lon / d⌋ : Int) := by
    exact_mod_cast Int.floor_nonneg.2 (div_nonneg h0 hd.le)
  constructor
  · exact mul_nonneg hnn hd.le
  · have : ((⌊lon / d⌋ : Int) : ℚ) * d ≤ lon := by
      rw [← le_div_iff₀ hd]; exact hfl
    linarith

/-- Snapping is idempotent for every positive degree size (in exact arithmetic). -/
theorem findTopLeftCorner_idem {lon lat d : ℚ} (hd : 0 < d) (h0 : 0 ≤ lon) (h1 : lon < 360) :
    findTopLeftCorner (findTopLeftCorner lon lat d).1 (findTopLeftCorner lon lat d).2 d =
      findTopLeftCorner lon lat d := by
  obtain ⟨r0, r1⟩ := findTopLeftCorner_fst_range lat hd h0 h1
  apply Prod.ext
  · rw [findTopLeftCorner_fst r0 r1, findTopLeftCorner_fst h0 h1, floor_mul_div_self _ hd]
  · rw [findTopLeftCorner_snd, findTopLeftCorner_snd]
    have : (90 : ℚ) - (90 - (⌊(90 - lat) / d⌋ : Int) * d) = (⌊(90 - lat) / d⌋ : Int) * d := by
      ring
    rw [this, floor_mul_div_self _ hd]

/-- C6: for every `lon` in `[0, 360)`, `lat` in `[-90, 90]` and LOD in `0..13`, the degree
size `d` of the LOD is `60 / 2^LOD`, and applying `findTopLeftCorner` with `d` to the result
of `findTopLeftCorner(lon, lat, d)` returns that same `(tlLon, tlLat)`. -/
theorem findTopLeftCorner_idempotent (lon lat : ℚ) (lod : Nat)
    (hlon0 : 0 ≤ lon) (hlon1 : lon < 360) (_hlat0 : -90 ≤ lat) (_hlat1 : lat ≤ 90)
    (_hlod : lod ≤ 13) :
    LODdegreeSizeLookUp lod = 60 / 2 ^ lod ∧
    findTopLeftCorner (findTopLeftCorner lon lat (LODdegreeSizeLookUp lod)).1
        (findTopLeftCorner lon lat (LODdegreeSizeLookUp lod)).2 (LODdegreeSizeLookUp lod) =
      findTopLeftCorner lon lat (LODdegreeSizeLookUp lod) :=
  ⟨LODdegreeSizeLookUp_eq lod, findTopLeftCorner_idem (LODdegreeSizeLookUp_pos lod) hlon0 hlon1⟩

/-- C6 at the point of the spec's second scenario, `(20.088333, 49.179444)`, at LOD 13. -/
theorem findTopLeftCorner_idempotent_witness :
    findTopLeftCorner
        (findTopLeftCorner (20088333 / 1000000) (49179444 / 1000000) (LODdegreeSizeLookUp 13)).1
        (findTopLeftCorner (20088333 / 1000000) (49179444 / 1000000) (LODdegreeSizeLookUp 13)).2
        (LODdegreeSizeLookUp 13) =
      findTopLeftCorner (20088333 / 1000000) (49179444 / 1000000) (LODdegreeSizeLookUp 13) :=
  (findTopLeftCorner_idempotent (20088333 / 1000000) (49179444 / 1000000) 13
    (by norm_num) (by norm_num) (by norm_num) (by norm_num) (by norm_num)).2

theorem castInt_int_add_half (k : Int) (hk : 0 ≤ k) : castInt ((k : ℚ) + 1 / 2) = k := by
  have h0 : (0 : ℚ) ≤ (k : ℚ) + 1 / 2 := by
    have : (0 : ℚ) ≤ (k : ℚ) := by exact_mod_cast hk
    linarith
  rw [castInt, if_pos h0, Int.floor_eq_iff]
  constructor <;> linarith

theorem convertTopLeft2AvabilityIndex_snapped {lon lat deg : ℚ} {w : Int} (hd : 0 < deg)
    (hw : (w : ℚ) * deg = 360) (h0 : 0 ≤ lon) (h1 : lon < 360) (hlat : lat ≤ 90) :
    convertTopLeft2AvabilityIndex (findTopLeftCorner lon lat deg).1
        (findTopLeftCorner lon lat deg).2 deg =
      ⌊(90 - lat) / deg⌋ * w + ⌊lon / deg⌋ := by
  obtain ⟨r0, r1⟩ := findTopLeftCorner_fst_range lat hd h0 h1
  have hw0 : 0 ≤ w := by
    by_contra hneg
    have : (w : ℚ) < 0 := by exact_mod_cast not_le.mp hneg
    nlinarith
  have hx : 0 ≤ ⌊lon / deg⌋ := Int.floor_nonneg.2 (div_nonneg h0 hd.le)
  have hy : 0 ≤ ⌊(90 - lat) / deg⌋ := Int.floor_nonneg.2 (div_nonneg (by linarith) hd.le)
  have e1 : (findTopLeftCorner lon lat deg).1 / deg = (⌊lon / deg⌋ : Int) := by
    rw [findTopLeftCorner_fst h0 h1, mul_div_assoc, div_self hd.ne', mul_one]
  have e2 : (90 - (findTopLeftCorner lon lat deg).2) / deg = (⌊(90 - lat) / deg⌋ : Int) := by
    rw [findTopLeftCorner_snd]
    field_simp
  have e3 : (360 : ℚ) / deg = (w : ℚ) := by
    rw [← hw, mul_div_assoc, div_self hd.ne', mul_one]
  simp only [convertTopLeft2AvabilityIndex, correctLon_of_mem r0 r1, convertLonLatToCartesian,
    e1, e2, e3, castInt_int_add_half _ hx, castInt_int_add_half _ hy,
    castInt_int_add_half _ hw0]

theorem convertTopLeft2AvabilityIndex_range {lon lat deg : ℚ} {w h : Int} (hd : 0 < deg)
    (hw : (w : ℚ) * deg = 360) (hh : (h : ℚ) * deg = 180) (h0 : 0 ≤ lon) (h1 : lon < 360)
    (hlat0 : -90 < lat) (hlat1 : lat ≤ 90) :
    0 ≤ convertTopLeft2AvabilityIndex (findTopLeftCorner lon lat deg).1
        (findTopLeftCorner lon lat deg).2 deg ∧
    convertTopLeft2AvabilityIndex (findTopLeftCorner lon lat deg).1
        (findTopLeftCorner lon lat deg).2 deg < w * h := by
  rw [convertTopLeft2AvabilityIndex_snapped hd hw h0 h1 hlat1]
  have hw0 : 0 ≤ w := by
    by_contra hneg
    have : (w : ℚ) < 0 := by exact_mod_cast not_le.mp hneg
    nlinarith
  have hx : 0 ≤ ⌊lon / deg⌋ := Int.floor_nonneg.2 (div_nonneg h0 hd.le)
  have hy : 0 ≤ ⌊(90 - lat) / deg⌋ := Int.floor_nonneg.2 (div_nonneg (by linarith) hd.le)
  have hxw : ⌊lon / deg⌋ < w := by
    rw [Int.floor_lt, div_lt_iff₀ hd, hw]; exact h1
  have hyh : ⌊(90 - lat) / deg⌋ < h := by
    rw [Int.floor_lt, div_lt_iff₀ hd, hh]; linarith
  constructor
  · positivity
  · nlinarith

/-- C7 (as stated, refuted): at the south pole, `lat = -90`, with the 60° band the index of
the snapped corner is 18, which is not below `width*height = 6*3`. -/
theorem convertTopLeft2AvabilityIndex_south_pole :
    convertTopLeft2AvabilityIndex (findTopLeftCorner 0 (-90) 60).1
      (findTopLeftCorner 0 (-90) 60).2 60 = 18 ∧ ¬ ((18 : ℚ) < (360 / 60) * (180 / 60)) := by
  constructor
  · simp [convertTopLeft2AvabilityIndex, findTopLeftCorner, correctLon,
      convertLonLatToCartesian, convertCartesianToLonLat, castInt]
    norm_num
  · norm_num

/-- C7 (amended): for every `lon` in `[0, 360)`, every `lat` in `[-90 + 2^-45, 90]` and
every band degree size `deg` (60, 15, 3.75, 45 or 1), the index that
`convertTopLeft2AvabilityIndex` computes for the snapped corner
`findTopLeftCorner(lon, lat, deg)` lies in `[0, width*height)` with `width = 360/deg` and
`height = 180/deg`. The bound `-90 + 2^-45` leaves out the south pole and the one `double`
between it and the bound, `-90 + 2^-46`, for which the `double` difference `90.0 - lat` of
the source is `180.0` as at the pole. -/
theorem convertTopLeft2AvabilityIndex_in_range (lon lat deg : ℚ)
    (hdeg : deg = 60 ∨ deg = 15 ∨ deg = 15 / 4 ∨ deg = 45 ∨ deg = 1)
    (hlon0 : 0 ≤ lon) (hlon1 : lon < 360) (hlat0 : -90 + 1 / 2 ^ 45 ≤ lat)
    (hlat1 : lat ≤ 90) :
    0 ≤ convertTopLeft2AvabilityIndex (findTopLeftCorner lon lat deg).1
        (findTopLeftCorner lon lat deg).2 deg ∧
    ((convertTopLeft2AvabilityIndex (findTopLeftCorner lon lat deg).1
        (findTopLeftCorner lon lat deg).2 deg : Int) : ℚ) < (360 / deg) * (180 / deg) := by
  have key : ∀ (w h : Int), (w : ℚ) * deg = 360 → (h : ℚ) * deg = 180 → 0 < deg →
      0 ≤ convertTopLeft2AvabilityIndex (findTopLeftCorner lon lat deg).1
        (findTopLeftCorner lon lat deg).2 deg ∧
      ((convertTopLeft2AvabilityIndex (findTopLeftCorner lon lat deg).1
        (findTopLeftCorner lon lat deg).2 deg : Int) : ℚ) < (360 / deg) * (180 / deg) := by
    intro w h hw hh hd
    have hlat : -90 < lat := by
      have : (0 : ℚ) < 1 / 2 ^ 45 := by positivity
      linarith
    obtain ⟨r0, r1⟩ := convertTopLeft2AvabilityIndex_range hd hw hh hlon0 hlon1 hlat hlat1
    refine ⟨r0, ?_⟩
    have e3 : (360 : ℚ) / deg = (w : ℚ) := by
      rw [← hw, mul_div_assoc, div_self hd.ne', mul_one]
    have e4 : (180 : ℚ) / deg = (h : ℚ) := by
      rw [← hh, mul_div_assoc, div_self hd.ne', mul_one]
    rw [e3, e4]
    exact_mod_cast r1
  rcases hdeg with h | h | h | h | h <;> subst h
  · exact key 6 3 (by norm_num) (by norm_num) (by norm_num)
  · exact key 24 12 (by norm_num) (by norm_num) (by norm_num)
  · exact key 96 48 (by norm_num) (by norm_num) (by norm_num)
  · exact key 8 4 (by norm_num) (by norm_num) (by norm_num)
  · exact key 360 180 (by norm_num) (by norm_num) (by norm_num)

/-- C7 (amended) at `(359.9, -89.9)` in the 3.75° band. -/
theorem convertTopLeft2AvabilityIndex_in_range_witness :
    0 ≤ convertTopLeft2AvabilityIndex (findTopLeftCorner (3599 / 10) (-899 / 10) (15 / 4)).1
        (findTopLeftCorner (3599 / 10) (-899 / 10) (15 / 4)).2 (15 / 4) ∧
    ((convertTopLeft2AvabilityIndex (findTopLeftCorner (3599 / 10) (-899 / 10) (15 / 4)).1
        (findTopLeftCorner (3599 / 10) (-899 / 10) (15 / 4)).2 (15 / 4) : Int) : ℚ)
      < (360 / (15 / 4)) * (180 / (15 / 4)) :=
  convertTopLeft2AvabilityIndex_in_range (3599 / 10) (-899 / 10) (15 / 4)
    (Or.inr (Or.inr (Or.inl rfl))) (by norm_num) (by norm_num) (by norm_num) (by norm_num)

theorem digitChar_props (d : Nat) :
    (digitChar d).isDigit = true ∧ digitVal (digitChar d) = d % 10 ∧ digitChar d ≠ '-' ∧
      digitChar d ≠ '+' ∧ digitChar d ≠ ',' ∧ digitChar d ≠ '.' := by
  have h : ∀ k, k < 10 → (Char.ofNat (48 + k)).isDigit = true ∧
      digitVal (Char.ofNat (48 + k)) = k ∧ Char.ofNat (48 + k) ≠ '-' ∧
      Char.ofNat (48 + k) ≠ '+' ∧ Char.ofNat (48 + k) ≠ ',' ∧ Char.ofNat (48 + k) ≠ '.' := by
    decide
  exact h (d % 10) (Nat.mod_lt _ (by norm_num))

@[simp] theorem isDigit_digitChar (d : Nat) : (digitChar d).isDigit = true :=
  (digitChar_props d).1

@[simp] theorem digitVal_digitChar (d : Nat) : digitVal (digitChar d) = d % 10 :=
  (digitChar_props d).2.1

@[simp] theorem digitChar_ne_minus (d : Nat) : (digitChar d = '-') = False :=
  eq_false (digitChar_props d).2.2.1

@[simp] theorem digitChar_ne_plus (d : Nat) : (digitChar d = '+') = False :=
  eq_false (digitChar_props d).2.2.2.1

theorem digitChar_mod (d : Nat) : digitChar (d % 10) = digitChar d := by
  simp [digitChar]

theorem natDigitChars_lt_ten {n : Nat} (h : n < 10) : natDigitChars n = [digitChar n] := by
  unfold natDigitChars
  split
  · rename_i h0; subst h0; rfl
  · rename_i h0
    rw [Nat.digits_of_lt 10 n h0 h]; rfl

theorem natDigitChars_lt_hundred {n : Nat} (h1 : 10 ≤ n) (h : n < 100) :
    natDigitChars n = [digitChar (n / 10), digitChar n] := by
  unfold natDigitChars
  rw [if_neg (by omega), Nat.digits_def' (by norm_num) (by omega),
    Nat.digits_of_lt 10 (n / 10) (by omega) (by omega)]
  simp [digitChar_mod]

theorem natDigitChars_lt_thousand {n : Nat} (h1 : 100 ≤ n) (h : n < 1000) :
    natDigitChars n = [digitChar (n / 100), digitChar (n / 10), digitChar n] := by
  unfold natDigitChars
  rw [if_neg (by omega), Nat.digits_def' (by norm_num) (by omega),
    Nat.digits_def' (by norm_num) (by omega),
    Nat.digits_of_lt 10 (n / 10 / 10) (by omega) (by omega)]
  have : n / 10 / 10 = n / 100 := by omega
  simp [digitChar_mod, this]

theorem rightJustified_two {n : Nat} (h : n < 100) :
    QString.rightJustified (natDigitChars n) 2 '0' = [digitChar (n / 10), digitChar n] := by
  rcases Nat.lt_or_ge n 10 with h1 | h1
  · rw [natDigitChars_lt_ten h1]
    have : n / 10 = 0 := by omega
    rw [this]; rfl
  · rw [natDigitChars_lt_hundred h1 h]; rfl

theorem rightJustified_three {n : Nat} (h : n < 1000) :
    QString.rightJustified (natDigitChars n) 3 '0' =
      [digitChar (n / 100), digitChar (n / 10), digitChar n] := by
  rcases Nat.lt_or_ge n 10 with h1 | h1
  · rw [natDigitChars_lt_ten h1]
    have e1 : n / 10 = 0 := by omega
    have e2 : n / 100 = 0 := by omega
    rw [e1, e2]; rfl
  · rcases Nat.lt_or_ge n 100 with h2 | h2
    · rw [natDigitChars_lt_hundred h1 h2]
      have e2 : n / 100 = 0 := by omega
      rw [e2]; rfl
    · rw [natDigitChars_lt_thousand h2 h]; rfl

theorem rightJustified_append (a b : List Char) (w : Nat) (c : Char) :
    QString.rightJustified (a ++ b) (w + b.length) c = QString.rightJustified a w c ++ b := by
  unfold QString.rightJustified
  have : w + b.length - (a ++ b).length = w - a.length := by
    rw [List.length_append]; omega
  rw [this, List.append_assoc]

theorem roundHalfEven_intCast (k : Int) : roundHalfEven (k : ℚ) = k := by
  unfold roundHalfEven
  simp

theorem roundHalfEven_nonneg {x : ℚ} (h : 0 ≤ x) : 0 ≤ roundHalfEven x := by
  have hf : 0 ≤ ⌊x⌋ := Int.floor_nonneg.2 h
  unfold roundHalfEven
  split_ifs <;> omega

theorem roundHalfEven_le {x : ℚ} {k : Int} (h : x ≤ k) : roundHalfEven x ≤ k := by
  have hf : ⌊x⌋ ≤ k := by
    have : (⌊x⌋ : ℚ) ≤ k := (Int.floor_le x).trans h
    exact_mod_cast this
  unfold roundHalfEven
  by_cases h1 : x - ⌊x⌋ < 1 / 2
  · rw [if_pos h1]; exact hf
  · have hlt : (⌊x⌋ : ℚ) < k := by
      have : (1 : ℚ) / 2 ≤ x - ⌊x⌋ := not_lt.mp h1
      linarith
    have hlt' : ⌊x⌋ < k := by exact_mod_cast hlt
    rw [if_neg h1]
    split_ifs <;> omega

theorem number_zero {x : ℚ} (h : 0 ≤ x) :
    QString.number x 0 = natDigitChars (roundHalfEven x).toNat := by
  simp [QString.number, not_lt.mpr h, abs_of_nonneg h]

theorem number_two {x : ℚ} (h : 0 ≤ x) :
    QString.number x 2 = natDigitChars ((roundHalfEven (x * 100)).toNat / 100) ++
      ['.', digitChar ((roundHalfEven (x * 100)).toNat % 100 / 10),
        digitChar ((roundHalfEven (x * 100)).toNat % 100)] := by
  have e : fracDigitChars 2 ((roundHalfEven (x * 100)).toNat % 100) =
      [digitChar ((roundHalfEven (x * 100)).toNat % 100 / 10),
        digitChar ((roundHalfEven (x * 100)).toNat % 100)] := by
    simp [fracDigitChars, List.range_succ]
  have e2 : (10 : ℚ) ^ 2 = 100 := by norm_num
  simp only [QString.number, not_lt.mpr h, abs_of_nonneg h, if_false, List.nil_append, e2]
  norm_num [e]

theorem toInt_two (a b : Nat) :
    QString.toInt [digitChar a, digitChar b] = ((10 * (a % 10) + b % 10 : Nat) : Int) := by
  simp [QString.toInt, parseNat]

theorem toInt_three (a b c : Nat) :
    QString.toInt [digitChar a, digitChar b, digitChar c] =
      ((10 * (10 * (a % 10) + b % 10) + c % 10 : Nat) : Int) := by
  simp [QString.toInt, parseNat]

theorem convertLonLatToSRTMfileName_eq {lon lat : ℚ} (hlon0 : 0 ≤ lon) (hlon1 : lon ≤ 360)
    (hlat1 : lat ≤ 100)  (hlat0 : -98 ≤ lat) :
    convertLonLatToSRTMfileName lon lat =
      srtmName (if lat - 1 ≥ 0 then 'N' else 'S') (if lon ≥ 180 then 'W' else 'E')
        (roundHalfEven (if lat - 1 ≥ 0 then lat - 1 else -1 * (lat - 1))).toNat
        (roundHalfEven (if lon ≥ 180 then 360 - lon else lon)).toNat := by
  have h1 : (0 : ℚ) ≤ if lon ≥ 180 then 360 - lon else lon := by
    split_ifs <;> linarith
  have h2 : (0 : ℚ) ≤ if lat - 1 ≥ 0 then lat - 1 else -1 * (lat - 1) := by
    split_ifs with h
    · exact h
    · linarith [not_le.mp h]
  have b1 : (roundHalfEven (if lon ≥ 180 then 360 - lon else lon)).toNat < 1000 := by
    have : roundHalfEven (if lon ≥ 180 then 360 - lon else lon) ≤ 360 :=
      roundHalfEven_le (by split_ifs <;> push_cast <;> linarith)
    omega
  have b2 : (roundHalfEven (if lat - 1 ≥ 0 then lat - 1 else -1 * (lat - 1))).toNat < 100 := by
    have : roundHalfEven (if lat - 1 ≥ 0 then lat - 1 else -1 * (lat - 1)) ≤ 99 :=
      roundHalfEven_le (by split_ifs <;> push_cast <;> linarith)
    omega
  simp only [convertLonLatToSRTMfileName, number_zero h1, number_zero h2,
    rightJustified_three b1, rightJustified_two b2, srtmName]
  rfl

theorem convertSRTMfileNameToLonLat_srtmName (latSide lonSide : Char) {nLat nLon : Nat}
    (h1 : nLat < 100) (h2 : nLon < 1000) :
    convertSRTMfileNameToLonLat (srtmName latSide lonSide nLat nLon) =
      (if lonSide = 'W' then 360 - (nLon : ℚ) else nLon,
        (if latSide = 'S' then (nLat : ℚ) * (-1) else nLat) + 1) := by
  have e1 : 10 * (nLat / 10 % 10) + nLat % 10 = nLat := by omega
  have e2 : 10 * (10 * (nLon / 100 % 10) + nLon / 10 % 10) + nLon % 10 = nLon := by omega
  simp only [convertSRTMfileNameToLonLat, srtmName, QString.right, QString.left, QString.at,
    List.length_cons, List.length_nil, List.drop, List.take, List.getD_cons_zero,
    List.getD_cons_succ, Nat.reduceAdd, Nat.reduceSub, toInt_two, toInt_three, e1, e2,
    Int.cast_natCast]

theorem digitChar_congr {a b : Nat} (h : a % 10 = b % 10) : digitChar a = digitChar b := by
  simp [digitChar, h]

theorem rightJustified_five {ip : Nat} (h : ip < 100) (c1 c2 c3 : Char) :
    QString.rightJustified (natDigitChars ip ++ [c1, c2, c3]) 5 '0' =
      [digitChar (ip / 10), digitChar ip, c1, c2, c3] := by
  have := rightJustified_append (natDigitChars ip) [c1, c2, c3] 2 '0'
  simp only [List.length_cons, List.length_nil, Nat.reduceAdd] at this
  rw [this, rightJustified_two h]; rfl

theorem rightJustified_six {ip : Nat} (h : ip < 1000) (c1 c2 c3 : Char) :
    QString.rightJustified (natDigitChars ip ++ [c1, c2, c3]) 6 '0' =
      [digitChar (ip / 100), digitChar (ip / 10), digitChar ip, c1, c2, c3] := by
  have := rightJustified_append (natDigitChars ip) [c1, c2, c3] 3 '0'
  simp only [List.length_cons, List.length_nil, Nat.reduceAdd] at this
  rw [this, rightJustified_three h]; rfl

theorem roundHalfEven_eq_of_near {x : ℚ} {k : Int} (h1 : (k : ℚ) - 1 / 2 < x)
    (h2 : x < (k : ℚ) + 1 / 2) : roundHalfEven x = k := by
  unfold roundHalfEven
  rcases le_or_lt (k : ℚ) x with h | h
  · have hf : ⌊x⌋ = k := by
      rw [Int.floor_eq_iff]; constructor <;> linarith
    rw [hf, if_pos (by linarith)]
  · have hf : ⌊x⌋ = k - 1 := by
      rw [Int.floor_eq_iff]; push_cast; constructor <;> linarith
    rw [hf, if_neg (by push_cast; linarith), if_pos (by push_cast; linarith)]
    ring

theorem convertLonLatToFileName_eq {lon lat : ℚ} (hlon0 : 0 ≤ lon) (hlon1 : lon ≤ 360)
    (hlat0 : -90 ≤ lat) (hlat1 : lat ≤ 90) :
    convertLonLatToFileName lon lat =
      compositeName (if lat ≥ 0 then 'N' else 'S') (if lon ≥ 180 then 'W' else 'E')
        (roundHalfEven ((if lat ≥ 0 then lat else -1 * lat) * 100)).toNat
        (roundHalfEven ((if lon ≥ 180 then 360 - lon else lon) * 100)).toNat := by
  have h1 : (0 : ℚ) ≤ if lon ≥ 180 then 360 - lon else lon := by
    split_ifs <;> linarith
  have h2 : (0 : ℚ) ≤ if lat ≥ 0 then lat else -1 * lat := by
    split_ifs with h
    · exact h
    · linarith [not_le.mp h]
  have b1 : (roundHalfEven ((if lon ≥ 180 then 360 - lon else lon) * 100)).toNat ≤ 18000 := by
    have : roundHalfEven ((if lon ≥ 180 then 360 - lon else lon) * 100) ≤ 18000 :=
      roundHalfEven_le (by split_ifs <;> push_cast <;> linarith)
    omega
  have b2 : (roundHalfEven ((if lat ≥ 0 then lat else -1 * lat) * 100)).toNat ≤ 9000 := by
    have : roundHalfEven ((if lat ≥ 0 then lat else -1 * lat) * 100) ≤ 9000 :=
      roundHalfEven_le (by split_ifs <;> push_cast <;> linarith)
    omega
  simp only [convertLonLatToFileName, number_two h1, number_two h2]
  generalize (roundHalfEven ((if lon ≥ 180 then 360 - lon else lon) * 100)).toNat = nLon
    at b1 ⊢
  generalize (roundHalfEven ((if lat ≥ 0 then lat else -1 * lat) * 100)).toNat = nLat
    at b2 ⊢
  rw [rightJustified_five (by omega), rightJustified_six (by omega)]
  have d1 : digitChar (nLat / 100 / 10) = digitChar (nLat / 1000) :=
    digitChar_congr (by omega)
  have d2 : digitChar (nLat % 100 / 10) = digitChar (nLat / 10) := digitChar_congr (by omega)
  have d3 : digitChar (nLat % 100) = digitChar nLat := digitChar_congr (by omega)
  have d4 : digitChar (nLon / 100 / 100) = digitChar (nLon / 10000) :=
    digitChar_congr (by omega)
  have d5 : digitChar (nLon / 100 / 10) = digitChar (nLon / 1000) :=
    digitChar_congr (by omega)
  have d6 : digitChar (nLon % 100 / 10) = digitChar (nLon / 10) := digitChar_congr (by omega)
  have d7 : digitChar (nLon % 100) = digitChar nLon := digitChar_congr (by omega)
  rw [d1, d2, d3, d4, d5, d6, d7]
  rfl

theorem toDouble_comma_five (a b c d : Nat) :
    QString.toDouble ',' [digitChar a, digitChar b, ',', digitChar c, digitChar d] =
      ((10 * (a % 10) + b % 10 : Nat) : ℚ) + ((10 * (c % 10) + d % 10 : Nat) : ℚ) / 100 := by
  have hc : (',' : Char).isDigit = false := by decide
  simp [QString.toDouble, parseSigned, parseFixed, parseNat, List.takeWhile, List.dropWhile, hc]
  norm_num

theorem toDouble_comma_six (a b c d e : Nat) :
    QString.toDouble ',' [digitChar a, digitChar b, digitChar c, ',', digitChar d,
        digitChar e] =
      ((10 * (10 * (a % 10) + b % 10) + c % 10 : Nat) : ℚ)
        + ((10 * (d % 10) + e % 10 : Nat) : ℚ) / 100 := by
  have hc : (',' : Char).isDigit = false := by decide
  simp [QString.toDouble, parseSigned, parseFixed, parseNat, List.takeWhile, List.dropWhile, hc]
  norm_num

theorem convertFileNameToLonLat_compositeName (latSide lonSide : Char) {nLat nLon : Nat}
    (h1 : nLat < 10000) (h2 : nLon < 100000) :
    convertFileNameToLonLat ',' (compositeName latSide lonSide nLat nLon) =
      (if lonSide = 'W' then 360 - (nLon : ℚ) / 100 else (nLon : ℚ) / 100,
        if latSide = 'S' then (nLat : ℚ) / 100 * (-1) else (nLat : ℚ) / 100) := by
  have e1 : ((10 * (nLat / 1000 % 10) + nLat / 100 % 10 : Nat) : ℚ)
      + ((10 * (nLat / 10 % 10) + nLat % 10 : Nat) : ℚ) / 100 = (nLat : ℚ) / 100 := by
    have : 100 * (10 * (nLat / 1000 % 10) + nLat / 100 % 10)
        + (10 * (nLat / 10 % 10) + nLat % 10) = nLat := by omega
    have hq := congrArg (fun k : Nat => (k : ℚ)) this
    simp only [Nat.cast_add, Nat.cast_mul] at hq
    rw [← hq]; push_cast; ring
  have e2 : ((10 * (10 * (nLon / 10000 % 10) + nLon / 1000 % 10) + nLon / 100 % 10 : Nat) : ℚ)
      + ((10 * (nLon / 10 % 10) + nLon % 10 : Nat) : ℚ) / 100 = (nLon : ℚ) / 100 := by
    have : 100 * (10 * (10 * (nLon / 10000 % 10) + nLon / 1000 % 10) + nLon / 100 % 10)
        + (10 * (nLon / 10 % 10) + nLon % 10) = nLon := by omega
    have hq := congrArg (fun k : Nat => (k : ℚ)) this
    simp only [Nat.cast_add, Nat.cast_mul] at hq
    rw [← hq]; push_cast; ring
  simp only [convertFileNameToLonLat, compositeName, QString.right, QString.left, QString.at,
    List.length_cons, List.length_nil, List.drop, List.take, List.getD_cons_zero,
    List.getD_cons_succ, Nat.reduceAdd, Nat.reduceSub, toDouble_comma_five,
    toDouble_comma_six, e1, e2]

theorem roundHalfEven_natCast (n : Nat) : roundHalfEven (n : ℚ) = n := by
  have : ((n : ℚ)) = ((n : Int) : ℚ) := by push_cast; rfl
  rw [this, roundHalfEven_intCast]

theorem char_W_ne_E : ¬ ('E' = 'W') := by decide

theorem char_S_ne_N : ¬ ('N' = 'S') := by decide

/-- The longitude field of a name survives decoding and encoding again, unless it is an
eastern longitude that rounds to 180 (`scale` is 1 for the SRTM names, 100 for the composite
ones). -/
theorem lon_field_stable {lon : ℚ} (scale : ℚ) (hs : 0 < scale) (hlon0 : 0 ≤ lon) (hlon1 : lon < 360)
    (hE : lon < 180 → roundHalfEven (lon * scale) ≠ roundHalfEven (180 * scale))
    (hscale : roundHalfEven (180 * scale) = ⌊180 * scale⌋ ∧ (⌊180 * scale⌋ : ℚ) = 180 * scale) :
    let side : Char := if lon ≥ 180 then 'W' else 'E'
    let n : Nat := (roundHalfEven ((if lon ≥ 180 then 360 - lon else lon) * scale)).toNat
    let lon' : ℚ := if side = 'W' then 360 - (n : ℚ) / scale else (n : ℚ) / scale
    0 ≤ lon' ∧ lon' ≤ 360 ∧ (if lon' ≥ 180 then 'W' else 'E') = side ∧
      (roundHalfEven ((if lon' ≥ 180 then 360 - lon' else lon') * scale)).toNat = n := by
  intro side n lon'
  have hn0 : 0 ≤ roundHalfEven ((if lon ≥ 180 then 360 - lon else lon) * scale) :=
    roundHalfEven_nonneg (by split_ifs <;> nlinarith)
  have hnle : roundHalfEven ((if lon ≥ 180 then 360 - lon else lon) * scale) ≤ ⌊180 * scale⌋ :=
    roundHalfEven_le (by rw [hscale.2]; split_ifs <;> nlinarith)
  have hcast : ((n : Nat) : ℚ) =
      (roundHalfEven ((if lon ≥ 180 then 360 - lon else lon) * scale) : ℚ) := by
    have : ((n : Nat) : Int) = roundHalfEven ((if lon ≥ 180 then 360 - lon else lon) * scale) :=
      Int.toNat_of_nonneg hn0
    exact_mod_cast congrArg (fun k : Int => (k : ℚ)) this
  have hnq0 : (0 : ℚ) ≤ (n : ℚ) := Nat.cast_nonneg n
  have hnq1 : (n : ℚ) ≤ 180 * scale := by
    rw [hcast, ← hscale.2]; exact_mod_cast hnle
  have hdiv : (n : ℚ) / scale ≤ 180 := by
    rw [div_le_iff₀ hs]; exact hnq1
  have hdiv0 : 0 ≤ (n : ℚ) / scale := div_nonneg hnq0 hs.le
  have hback : (n : ℚ) / scale * scale = n := by field_simp
  by_cases hw : lon ≥ 180
  · have hside : side = 'W' := if_pos hw
    have hl : lon' = 360 - (n : ℚ) / scale := by
      show (if side = 'W' then _ else _) = _
      rw [if_pos hside]
    have hge : lon' ≥ 180 := by rw [hl]; linarith
    refine ⟨by linarith, by linarith, by rw [if_pos hge, hside], ?_⟩
    rw [if_pos hge, hl]
    have : (360 - (360 - (n : ℚ) / scale)) * scale = n := by
      rw [sub_sub_cancel, hback]
    rw [this, roundHalfEven_natCast]; rfl
  · have hside : side = 'E' := if_neg hw
    have hl : lon' = (n : ℚ) / scale := by
      show (if side = 'W' then _ else _) = _
      rw [hside, if_neg char_W_ne_E]
    have hne := hE (not_le.mp hw)
    have hnlt : (n : ℚ) < 180 * scale := by
      rcases lt_or_eq_of_le hnq1 with h | h
      · exact h
      · exfalso
        apply hne
        have h1 : roundHalfEven ((if lon ≥ 180 then 360 - lon else lon) * scale) =
            roundHalfEven (lon * scale) := by rw [if_neg hw]
        have h2 : (roundHalfEven (lon * scale) : ℚ) = (⌊180 * scale⌋ : ℚ) := by
          rw [← h1, ← hcast, h, hscale.2]
        rw [hscale.1]
        exact_mod_cast h2
    have hlt : ¬ lon' ≥ 180 := by
      rw [hl, ge_iff_le, not_le, div_lt_iff₀ hs]; exact hnlt
    refine ⟨by rw [hl]; exact hdiv0, by rw [hl]; linarith, by rw [if_neg hlt, hside], ?_⟩
    rw [if_neg hlt, hl, hback, roundHalfEven_natCast]; rfl

/-- The latitude field of a name survives decoding and encoding again, unless it is a
southern latitude that rounds to 0; `off` is the offset the codec applies (1 for the SRTM
names, 0 for the composite ones) and `scale` is as in `lon_field_stable`. -/
theorem lat_field_stable (lat scale off : ℚ) (hs : 0 < scale)
    (hS : lat - off < 0 → roundHalfEven (-1 * (lat - off) * scale) ≠ 0) :
    let side : Char := if lat - off ≥ 0 then 'N' else 'S'
    let n : Nat :=
      (roundHalfEven ((if lat - off ≥ 0 then lat - off else -1 * (lat - off)) * scale)).toNat
    let lat' : ℚ := (if side = 'S' then (n : ℚ) / scale * (-1) else (n : ℚ) / scale) + off
    (if lat' - off ≥ 0 then 'N' else 'S') = side ∧
      (roundHalfEven ((if lat' - off ≥ 0 then lat' - off else -1 * (lat' - off)) * scale)).toNat
        = n ∧ (n : ℚ) = roundHalfEven
          ((if lat - off ≥ 0 then lat - off else -1 * (lat - off)) * scale) := by
  intro side n lat'
  have habs : (0 : ℚ) ≤ if lat - off ≥ 0 then lat - off else -1 * (lat - off) := by
    split_ifs with h
    · exact h
    · linarith [not_le.mp h]
  have hn0 : 0 ≤ roundHalfEven
      ((if lat - off ≥ 0 then lat - off else -1 * (lat - off)) * scale) :=
    roundHalfEven_nonneg (mul_nonneg habs hs.le)
  have hcast : ((n : Nat) : ℚ) =
      (roundHalfEven ((if lat - off ≥ 0 then lat - off else -1 * (lat - off)) * scale) : ℚ) := by
    have : ((n : Nat) : Int) =
        roundHalfEven ((if lat - off ≥ 0 then lat - off else -1 * (lat - off)) * scale) :=
      Int.toNat_of_nonneg hn0
    exact_mod_cast congrArg (fun k : Int => (k : ℚ)) this
  have hnq0 : (0 : ℚ) ≤ (n : ℚ) := Nat.cast_nonneg n
  have hdiv0 : 0 ≤ (n : ℚ) / scale := div_nonneg hnq0 hs.le
  have hback : (n : ℚ) / scale * scale = n := by field_simp
  by_cases hw : lat - off ≥ 0
  · have hside : side = 'N' := if_pos hw
    have hl : lat' - off = (n : ℚ) / scale := by
      show (if side = 'S' then _ else _) + off - off = _
      rw [hside, if_neg char_S_ne_N]; ring
    have hge : lat' - off ≥ 0 := by rw [hl]; exact hdiv0
    refine ⟨by rw [if_pos hge, hside], ?_, hcast⟩
    rw [if_pos hge, hl, hback, roundHalfEven_natCast]; rfl
  · have hside : side = 'S' := if_neg hw
    have hl : lat' - off = (n : ℚ) / scale * (-1) := by
      show (if side = 'S' then _ else _) + off - off = _
      rw [if_pos hside]; ring
    have hne := hS (not_le.mp hw)
    have hnpos : (0 : ℚ) < (n : ℚ) := by
      rcases lt_or_eq_of_le hnq0 with h | h
      · exact h
      · exfalso
        apply hne
        have h1 : roundHalfEven ((if lat - off ≥ 0 then lat - off else -1 * (lat - off)) * scale)
            = roundHalfEven (-1 * (lat - off) * scale) := by rw [if_neg hw]
        have h2 : (roundHalfEven (-1 * (lat - off) * scale) : ℚ) = 0 := by
          rw [← h1, ← hcast, ← h]
        exact_mod_cast h2
    have hlt : ¬ lat' - off ≥ 0 := by
      rw [hl, ge_iff_le, not_le]
      have : 0 < (n : ℚ) / scale := div_pos hnpos hs
      linarith
    refine ⟨by rw [if_neg hlt, hside], ?_, hcast⟩
    rw [if_neg hlt, hl]
    have : -1 * ((n : ℚ) / scale * -1) * scale = n := by
      rw [show -1 * ((n : ℚ) / scale * -1) = (n : ℚ) / scale by ring, hback]
    rw [this, roundHalfEven_natCast]; rfl

theorem composite_roundtrip {lon lat : ℚ} (hlon0 : 0 ≤ lon) (hlon1 : lon < 360)
    (hlat0 : -90 ≤ lat) (hlat1 : lat ≤ 90)
    (hE : lon < 180 → roundHalfEven (lon * 100) ≠ 18000)
    (hS : lat < 0 → roundHalfEven (-1 * lat * 100) ≠ 0) :
    convertLonLatToFileName
        (convertFileNameToLonLat ',' (convertLonLatToFileName lon lat)).1
        (convertFileNameToLonLat ',' (convertLonLatToFileName lon lat)).2 =
      convertLonLatToFileName lon lat := by
  have h180 : roundHalfEven (180 * 100) = ⌊(180 : ℚ) * 100⌋ ∧
      (⌊(180 : ℚ) * 100⌋ : ℚ) = 180 * 100 := by
    have e : (180 : ℚ) * 100 = ((18000 : Int) : ℚ) := by norm_num
    rw [e, roundHalfEven_intCast, Int.floor_intCast]; exact ⟨rfl, rfl⟩
  have h18000 : roundHalfEven ((180 : ℚ) * 100) = 18000 := by
    have e : (180 : ℚ) * 100 = ((18000 : Int) : ℚ) := by norm_num
    rw [e, roundHalfEven_intCast]
  obtain ⟨a0, a1, a2, a3⟩ := lon_field_stable 100 (by norm_num) hlon0 hlon1
    (by rw [h18000]; exact hE) h180
  obtain ⟨b0, b1, b2⟩ := lat_field_stable lat 100 0 (by norm_num)
    (by simpa using hS)
  simp only [sub_zero, add_zero] at b0 b1 b2
  have hnLat : (roundHalfEven ((if lat ≥ 0 then lat else -1 * lat) * 100)).toNat ≤ 9000 := by
    have : roundHalfEven ((if lat ≥ 0 then lat else -1 * lat) * 100) ≤ 9000 :=
      roundHalfEven_le (by split_ifs <;> push_cast <;> linarith)
    omega
  have hnLon : (roundHalfEven ((if lon ≥ 180 then 360 - lon else lon) * 100)).toNat ≤ 18000 := by
    have : roundHalfEven ((if lon ≥ 180 then 360 - lon else lon) * 100) ≤ 18000 :=
      roundHalfEven_le (by split_ifs <;> push_cast <;> linarith)
    omega
  have hq : ((roundHalfEven ((if lat ≥ 0 then lat else -1 * lat) * 100)).toNat : ℚ) ≤ 9000 := by
    exact_mod_cast hnLat
  have hq0 : (0 : ℚ) ≤
      ((roundHalfEven ((if lat ≥ 0 then lat else -1 * lat) * 100)).toNat : ℚ) :=
    Nat.cast_nonneg _
  rw [convertLonLatToFileName_eq hlon0 hlon1.le hlat0 hlat1,
    convertFileNameToLonLat_compositeName _ _ (by omega) (by omega)]
  dsimp only
  generalize (roundHalfEven ((if lat ≥ 0 then lat else -1 * lat) * 100)).toNat = nLat at *
  generalize (roundHalfEven ((if lon ≥ 180 then 360 - lon else lon) * 100)).toNat = nLon at *
  have hl0 : -90 ≤ (if (if lat ≥ 0 then 'N' else 'S') = 'S' then (nLat : ℚ) / 100 * (-1)
      else (nLat : ℚ) / 100) := by
    split_ifs <;> linarith
  have hl1 : (if (if lat ≥ 0 then 'N' else 'S') = 'S' then (nLat : ℚ) / 100 * (-1)
      else (nLat : ℚ) / 100) ≤ 90 := by
    split_ifs <;> linarith
  rw [convertLonLatToFileName_eq a0 a1 hl0 hl1, a2, a3, b0, b1]

theorem srtm_roundtrip {lon lat : ℚ} (hlon0 : 0 ≤ lon) (hlon1 : lon < 360)
    (hlat0 : -90 ≤ lat) (hlat1 : lat ≤ 90)
    (hE : lon < 180 → roundHalfEven lon ≠ 180)
    (hS : lat - 1 < 0 → roundHalfEven (-1 * (lat - 1)) ≠ 0) :
    convertLonLatToSRTMfileName
        (convertSRTMfileNameToLonLat (convertLonLatToSRTMfileName lon lat)).1
        (convertSRTMfileNameToLonLat (convertLonLatToSRTMfileName lon lat)).2 =
      convertLonLatToSRTMfileName lon lat := by
  have h180 : roundHalfEven (180 * 1) = ⌊(180 : ℚ) * 1⌋ ∧
      (⌊(180 : ℚ) * 1⌋ : ℚ) = 180 * 1 := by
    have e : (180 : ℚ) * 1 = ((180 : Int) : ℚ) := by norm_num
    rw [e, roundHalfEven_intCast, Int.floor_intCast]; exact ⟨rfl, rfl⟩
  have h180' : roundHalfEven ((180 : ℚ) * 1) = 180 := by
    have e : (180 : ℚ) * 1 = ((180 : Int) : ℚ) := by norm_num
    rw [e, roundHalfEven_intCast]
  obtain ⟨a0, a1, a2, a3⟩ := lon_field_stable 1 (by norm_num) hlon0 hlon1
    (by rw [h180', mul_one]; exact hE) h180
  obtain ⟨b0, b1, b2⟩ := lat_field_stable lat 1 1 (by norm_num)
    (by simpa using hS)
  simp only [mul_one, div_one] at a0 a1 a2 a3 b0 b1 b2
  have hnLat : (roundHalfEven (if lat - 1 ≥ 0 then lat - 1 else -1 * (lat - 1))).toNat ≤ 91 := by
    have : roundHalfEven (if lat - 1 ≥ 0 then lat - 1 else -1 * (lat - 1)) ≤ 91 :=
      roundHalfEven_le (by split_ifs <;> push_cast <;> linarith)
    omega
  have hnLon : (roundHalfEven (if lon ≥ 180 then 360 - lon else lon)).toNat ≤ 180 := by
    have : roundHalfEven (if lon ≥ 180 then 360 - lon else lon) ≤ 180 :=
      roundHalfEven_le (by split_ifs <;> push_cast <;> linarith)
    omega
  have hq : ((roundHalfEven (if lat - 1 ≥ 0 then lat - 1 else -1 * (lat - 1))).toNat : ℚ)
      ≤ 91 := by
    exact_mod_cast hnLat
  have hq0 : (0 : ℚ) ≤
      ((roundHalfEven (if lat - 1 ≥ 0 then lat - 1 else -1 * (lat - 1))).toNat : ℚ) :=
    Nat.cast_nonneg _
  rw [convertLonLatToSRTMfileName_eq hlon0 hlon1.le (by linarith) (by linarith),
    convertSRTMfileNameToLonLat_srtmName _ _ (by omega) (by omega)]
  dsimp only
  generalize (roundHalfEven (if lat - 1 ≥ 0 then lat - 1 else -1 * (lat - 1))).toNat = nLat
    at *
  generalize (roundHalfEven (if lon ≥ 180 then 360 - lon else lon)).toNat = nLon at *
  have hl0 : -98 ≤ (if (if lat - 1 ≥ 0 then 'N' else 'S') = 'S' then (nLat : ℚ) * (-1)
      else (nLat : ℚ)) + 1 := by
    split_ifs <;> linarith
  have hl1 : (if (if lat - 1 ≥ 0 then 'N' else 'S') = 'S' then (nLat : ℚ) * (-1)
      else (nLat : ℚ)) + 1 ≤ 100 := by
    split_ifs <;> linarith
  rw [convertLonLatToSRTMfileName_eq a0 a1 hl1 hl0, a2, a3, b0, b1]

/-- C8 (as stated, refuted): the composite encoder turns `lon = 179.999`, `lat = 0` into
`N00,00_E180,00.hgt` (the longitude rounds up to 180.00 on the eastern side); the decoder
reads longitude 180 from it, which the encoder writes on the western side:
`N00,00_W180,00.hgt`. -/
theorem composite_roundtrip_fails_at_180 :
    convertLonLatToFileName (179999 / 1000) 0 = "N00,00_E180,00.hgt".toList ∧
    convertLonLatToFileName
        (convertFileNameToLonLat ',' (convertLonLatToFileName (179999 / 1000) 0)).1
        (convertFileNameToLonLat ',' (convertLonLatToFileName (179999 / 1000) 0)).2 =
      "N00,00_W180,00.hgt".toList ∧
    "N00,00_W180,00.hgt".toList ≠ "N00,00_E180,00.hgt".toList := by
  have r1 : roundHalfEven ((179999 / 1000 : ℚ) * 100) = 18000 :=
    roundHalfEven_eq_of_near (by norm_num) (by norm_num)
  have r2 : roundHalfEven ((0 : ℚ) * 100) = 0 :=
    roundHalfEven_eq_of_near (by norm_num) (by norm_num)
  have r3 : roundHalfEven (((360 : ℚ) - 180) * 100) = 18000 :=
    roundHalfEven_eq_of_near (by norm_num) (by norm_num)
  have e1 : convertLonLatToFileName (179999 / 1000) 0 = compositeName 'N' 'E' 0 18000 := by
    rw [convertLonLatToFileName_eq (by norm_num) (by norm_num) (by norm_num) (by norm_num)]
    rw [if_pos (by norm_num), if_neg (by norm_num), if_pos (by norm_num),
      if_neg (by norm_num), r1, r2]
    rfl
  have e2 : convertFileNameToLonLat ',' (compositeName 'N' 'E' 0 18000) = (180, 0) := by
    rw [convertFileNameToLonLat_compositeName _ _ (by norm_num) (by norm_num)]
    rw [if_neg (by decide), if_neg (by decide)]
    norm_num
  have e3 : convertLonLatToFileName 180 0 = compositeName 'N' 'W' 0 18000 := by
    rw [convertLonLatToFileName_eq (by norm_num) (by norm_num) (by norm_num) (by norm_num)]
    rw [if_pos (by norm_num), if_pos (by norm_num), if_pos (by norm_num),
      if_pos (by norm_num), r3, r2]
    rfl
  refine ⟨?_, ?_, by decide⟩
  · rw [e1]; decide
  · rw [e1, e2, e3]; decide

/-- C8 (amended): for every `lon` in `[0, 360)` and `lat` in `[-90, 90]`, encoding, decoding
and encoding again yields the first name, for the composite convention (its decoder reading
the comma the encoder writes as decimal point) unless the name reads `E180,00` (a longitude
below 180 that rounds to 180.00) or `S00,00` (a negative latitude that rounds to 0.00), and
for the SRTM convention unless the name reads `E180` (a longitude below 180 that rounds to
180) or `S00` (a lower edge `lat - 1` below 0 that rounds to 0). -/
theorem filename_roundtrip (lon lat : ℚ) (hlon0 : 0 ≤ lon) (hlon1 : lon < 360)
    (hlat0 : -90 ≤ lat) (hlat1 : lat ≤ 90) :
    ((lon < 180 → roundHalfEven (lon * 100) ≠ 18000) →
      (lat < 0 → roundHalfEven (-1 * lat * 100) ≠ 0) →
      convertLonLatToFileName
          (convertFileNameToLonLat ',' (convertLonLatToFileName lon lat)).1
          (convertFileNameToLonLat ',' (convertLonLatToFileName lon lat)).2 =
        convertLonLatToFileName lon lat) ∧
    ((lon < 180 → roundHalfEven lon ≠ 180) →
      (lat - 1 < 0 → roundHalfEven (-1 * (lat - 1)) ≠ 0) →
      convertLonLatToSRTMfileName
          (convertSRTMfileNameToLonLat (convertLonLatToSRTMfileName lon lat)).1
          (convertSRTMfileNameToLonLat (convertLonLatToSRTMfileName lon lat)).2 =
        convertLonLatToSRTMfileName lon lat) :=
  ⟨fun hE hS => composite_roundtrip hlon0 hlon1 hlat0 hlat1 hE hS,
    fun hE hS => srtm_roundtrip hlon0 hlon1 hlat0 hlat1 hE hS⟩

/-- C8 (amended) at `lon = 356.5`, `lat = -89.75`, for both conventions. -/
theorem filename_roundtrip_witness :
    convertLonLatToFileName
        (convertFileNameToLonLat ','
          (convertLonLatToFileName (3565 / 10) (-8975 / 100))).1
        (convertFileNameToLonLat ','
          (convertLonLatToFileName (3565 / 10) (-8975 / 100))).2 =
      convertLonLatToFileName (3565 / 10) (-8975 / 100) ∧
    convertLonLatToSRTMfileName
        (convertSRTMfileNameToLonLat
          (convertLonLatToSRTMfileName (3565 / 10) (-8975 / 100))).1
        (convertSRTMfileNameToLonLat
          (convertLonLatToSRTMfileName (3565 / 10) (-8975 / 100))).2 =
      convertLonLatToSRTMfileName (3565 / 10) (-8975 / 100) := by
  have h := filename_roundtrip (3565 / 10) (-8975 / 100) (by norm_num) (by norm_num)
    (by norm_num) (by norm_num)
  have r1 : roundHalfEven (-1 * (-8975 / 100 : ℚ) * 100) = 8975 :=
    roundHalfEven_eq_of_near (by norm_num) (by norm_num)
  have r2 : roundHalfEven (-1 * ((-8975 / 100 : ℚ) - 1)) = 91 :=
    roundHalfEven_eq_of_near (by norm_num) (by norm_num)
  refine ⟨h.1 (fun hlt => absurd hlt (by norm_num)) (fun _ => by rw [r1]; decide),
    h.2 (fun hlt => absurd hlt (by norm_num)) (fun _ => by rw [r2]; decide)⟩

/-- C9: for every integer `lon` in `[0, 360)` and integer upper-edge `lat` in `[-89, 90]`,
`convertLonLatToSRTMfileName` writes the lower edge `lat - 1` as two digits with side `N` when
`lat - 1 ≥ 0` and `S` otherwise, and the longitude as three digits with side `E` when
`lon < 180` and `W`, as `360 - lon`, otherwise; `convertSRTMfileNameToLonLat` applied to that
name returns exactly `(lon, lat)`. -/
theorem srtm_decode_encode (lon lat : Int) (hlon0 : 0 ≤ lon) (hlon1 : lon < 360)
    (hlat0 : -89 ≤ lat) (hlat1 : lat ≤ 90) :
    convertLonLatToSRTMfileName lon lat =
      srtmName (if 0 ≤ lat - 1 then 'N' else 'S') (if lon < 180 then 'E' else 'W')
        (lat - 1).natAbs (if lon < 180 then lon else 360 - lon).toNat ∧
    convertSRTMfileNameToLonLat (convertLonLatToSRTMfileName lon lat) = ((lon : ℚ), (lat : ℚ)) := by
  have q0 : (0 : ℚ) ≤ (lon : ℚ) := by exact_mod_cast hlon0
  have q1 : (lon : ℚ) ≤ 360 := by exact_mod_cast hlon1.le
  have q2 : (lat : ℚ) ≤ 100 := by
    have : (lat : ℚ) ≤ 90 := by exact_mod_cast hlat1
    linarith
  have q3 : (-98 : ℚ) ≤ (lat : ℚ) := by
    have : (-89 : ℚ) ≤ (lat : ℚ) := by exact_mod_cast hlat0
    linarith
  have c1 : ((lon : ℚ) ≥ 180) ↔ ¬ lon < 180 := by
    rw [not_lt, ge_iff_le]; exact_mod_cast Iff.rfl
  have c2 : ((lat : ℚ) - 1 ≥ 0) ↔ 0 ≤ lat - 1 := by
    rw [ge_iff_le]
    constructor
    · intro h; have : ((0 : Int) : ℚ) ≤ ((lat - 1 : Int) : ℚ) := by push_cast; linarith
      exact_mod_cast this
    · intro h; have : ((0 : Int) : ℚ) ≤ ((lat - 1 : Int) : ℚ) := by exact_mod_cast h
      push_cast at this; linarith
  have name_eq : convertLonLatToSRTMfileName lon lat =
      srtmName (if 0 ≤ lat - 1 then 'N' else 'S') (if lon < 180 then 'E' else 'W')
        (lat - 1).natAbs (if lon < 180 then lon else 360 - lon).toNat := by
    rw [convertLonLatToSRTMfileName_eq q0 q1 q2 q3]
    have r1 : roundHalfEven (if (lon : ℚ) ≥ 180 then 360 - (lon : ℚ) else lon) =
        if lon < 180 then lon else 360 - lon := by
      by_cases h : lon < 180
      · rw [if_neg (fun hc => (c1.1 hc) h), if_pos h, roundHalfEven_intCast]
      · rw [if_pos (c1.2 h), if_neg h]
        have : (360 : ℚ) - (lon : ℚ) = ((360 - lon : Int) : ℚ) := by push_cast; ring
        rw [this, roundHalfEven_intCast]
    have r2 : (roundHalfEven (if (lat : ℚ) - 1 ≥ 0 then (lat : ℚ) - 1
        else -1 * ((lat : ℚ) - 1))).toNat = (lat - 1).natAbs := by
      by_cases h : 0 ≤ lat - 1
      · rw [if_pos (c2.2 h)]
        have : (lat : ℚ) - 1 = ((lat - 1 : Int) : ℚ) := by push_cast; ring
        rw [this, roundHalfEven_intCast]; omega
      · rw [if_neg (fun hc => h (c2.1 hc))]
        have : -1 * ((lat : ℚ) - 1) = ((-(lat - 1) : Int) : ℚ) := by push_cast; ring
        rw [this, roundHalfEven_intCast]; omega
    have s1 : (if (lon : ℚ) ≥ 180 then 'W' else 'E') = if lon < 180 then 'E' else 'W' := by
      by_cases h : lon < 180
      · rw [if_neg (fun hc => (c1.1 hc) h), if_pos h]
      · rw [if_pos (c1.2 h), if_neg h]
    have s2 : (if (lat : ℚ) - 1 ≥ 0 then 'N' else 'S') = if 0 ≤ lat - 1 then 'N' else 'S' := by
      by_cases h : 0 ≤ lat - 1
      · rw [if_pos (c2.2 h), if_pos h]
      · rw [if_neg (fun hc => h (c2.1 hc)), if_neg h]
    rw [r1, r2, s1, s2]
  refine ⟨name_eq, ?_⟩
  rw [name_eq, convertSRTMfileNameToLonLat_srtmName _ _ (by omega) (by split_ifs <;> omega)]
  apply Prod.ext
  · by_cases h : lon < 180
    · simp only [if_pos h, if_neg char_W_ne_E]
      have : ((lon.toNat : Nat) : Int) = lon := Int.toNat_of_nonneg hlon0
      exact_mod_cast congrArg (fun k : Int => (k : ℚ)) this
    · simp only [if_neg h, if_true]
      have : (((360 - lon).toNat : Nat) : Int) = 360 - lon := Int.toNat_of_nonneg (by omega)
      have hq := congrArg (fun k : Int => (k : ℚ)) this
      push_cast at hq
      linarith
  · by_cases h : 0 ≤ lat - 1
    · simp only [if_pos h, if_neg char_S_ne_N]
      have : (((lat - 1).natAbs : Nat) : Int) = lat - 1 := by omega
      have hq : (((lat - 1).natAbs : Nat) : ℚ) = (lat : ℚ) - 1 := by
        rw [← Int.cast_natCast, this]; push_cast; ring
      linarith
    · simp only [if_neg h, if_true]
      have : (((lat - 1).natAbs : Nat) : Int) = -(lat - 1) := by omega
      have hq : (((lat - 1).natAbs : Nat) : ℚ) = -((lat : ℚ) - 1) := by
        rw [← Int.cast_natCast, this]; push_cast; ring
      linarith

/-- C9 at `lon = 343`, `lat = -33`: the name is `S34W017.hgt` and decodes to `(343, -33)`. -/
theorem srtm_decode_encode_witness :
    convertLonLatToSRTMfileName ((343 : Int) : ℚ) ((-33 : Int) : ℚ) = "S34W017.hgt".toList ∧
    convertSRTMfileNameToLonLat
      (convertLonLatToSRTMfileName ((343 : Int) : ℚ) ((-33 : Int) : ℚ)) =
        (((343 : Int) : ℚ), ((-33 : Int) : ℚ)) := by
  have h := srtm_decode_encode 343 (-33) (by decide) (by decide) (by decide) (by decide)
  refine ⟨?_, h.2⟩
  rw [h.1]; decide

theorem forLoop_succ {σ : Type} (m : Nat) (body : Int → σ → σ) (s : σ) :
    forLoop ((m + 1 : Nat) : Int) body s = body (m : Int) (forLoop ((m : Nat) : Int) body s) := by
  simp [forLoop, List.range_succ, List.foldl_append]

theorem forLoop_zero {σ : Type} (body : Int → σ → σ) (s : σ) :
    forLoop ((0 : Nat) : Int) body s = s := by
  simp [forLoop]

/-- A row loop that only stores `c` keeps every position that already holds `c`. -/
theorem rowLoop_keeps (c : CRawPixel) (w y j : Int) (m : Nat) (buf : Int → CRawPixel)
    (h : buf j = c) :
    forLoop ((m : Nat) : Int) (fun x b => setPixel b w x y c) buf j = c := by
  induction m with
  | zero => rw [forLoop_zero]; exact h
  | succ n ih =>
    rw [forLoop_succ]
    unfold setPixel
    by_cases hj : j = y * w + (n : Int)
    · rw [hj, Function.update_same]
    · rw [Function.update_noteq hj]; exact ih

/-- A row loop that stores `c` sets the positions of its row. -/
theorem rowLoop_sets (c : CRawPixel) (w y : Int) (m x0 : Nat) (hx : x0 < m)
    (buf : Int → CRawPixel) :
    forLoop ((m : Nat) : Int) (fun x b => setPixel b w x y c) buf (y * w + (x0 : Int)) = c := by
  induction m with
  | zero => omega
  | succ n ih =>
    rw [forLoop_succ]
    unfold setPixel
    by_cases hj : x0 = n
    · rw [hj, Function.update_same]
    · rw [Function.update_noteq (by
        intro hc
        have : (x0 : Int) = (n : Int) := by linarith
        exact hj (by exact_mod_cast this))]
      exact ih (by omega)

theorem fillLoop_sets (c : CRawPixel) (w : Int) (mx my x0 y0 : Nat) (hx : x0 < mx)
    (hy : y0 < my) (buf : Int → CRawPixel) :
    forLoop ((my : Nat) : Int) (fun y b =>
      forLoop ((mx : Nat) : Int) (fun x b' => setPixel b' w x y c) b) buf
        ((y0 : Int) * w + (x0 : Int)) = c := by
  induction my with
  | zero => omega
  | succ n ih =>
    rw [forLoop_succ]
    by_cases hj : y0 = n
    · rw [hj]; exact rowLoop_sets c w n mx x0 hx _
    · exact rowLoop_keeps c w n _ mx _ (ih (by omega))

theorem fillEmpty_apply (buf : Int → CRawPixel) (x y : Nat) (hx : x < 32) (hy : y < 32) :
    fillEmpty buf ((y : Int) * 32 + (x : Int)) = { r := 0xEE, g := 0xFF, b := 0xEE } := by
  have h := fillLoop_sets (CRawPixel.ofRgb TEX_EMPTY_COLOR) 32 32 32 x y hx hy buf
  have e : CRawPixel.ofRgb TEX_EMPTY_COLOR = { r := 0xEE, g := 0xFF, b := 0xEE } := by decide
  rw [e] at h
  exact h

theorem hgtBand_eq (cm : CCacheManager) (lod : Nat) :
    hgtBand cm lod =
      if lod ≤ 3 then some (cm.avability_L00_L03, cm.pathL00_L03)
      else if lod ≤ 8 then some (cm.avability_L04_L08, cm.pathL04_L08)
      else some (cm.avability_L09_L13, cm.pathL09_L13) := by
  unfold hgtBand HGTsourceLookUp
  split_ifs <;> simp_all

theorem texBand_eq (cm : CCacheManager) (lod : Nat) :
    texBand cm lod =
      if lod ≤ 2 then some (cm.avabilityTex_L00_L02, cm.pathTexL00_L02)
      else if lod ≤ 5 then some (cm.avabilityTex_L03_L05, cm.pathTexL03_L05)
      else if lod ≤ 8 then some (cm.avabilityTex_L06_L08, cm.pathTexL06_L08)
      else some (cm.avabilityTex_L09_L10, cm.pathTexL09_L10) := by
  unfold texBand TEXsourceLookUp
  split_ifs <;> simp_all

theorem isSome_ite_some {α : Type} (b : Bool) (a : α) :
    (if b = true then some a else none).isSome = b := by
  cases b <;> rfl

theorem findHgtFileName_fileFound (cm : CCacheManager) (lon lat : ℚ) (lod : Nat) :
    (findHgtFileName cm lon lat lod).fileFound =
      (hgtAvailabilityEntry cm lon lat lod).available := by
  unfold findHgtFileName hgtAvailabilityEntry
  simp only [hgtBand_eq]
  split_ifs <;> exact isSome_ite_some _ _

theorem findRawFilesCell_absent (cm : CCacheManager) (tlLon tlLat : ℚ) (lod : Nat) (x y : Int)
    (has : Bool)
    (h : texCellIndex tlLon tlLat lod x y < 32 →
      (texAvailabilityEntry cm lod (texCellIndex tlLon tlLat lod x y)).available = false) :
    (findRawFilesCell cm tlLon tlLat lod x y has).2 = has := by
  unfold findRawFilesCell
  simp only [texBand_eq]
  by_cases h32 : texCellIndex tlLon tlLat lod x y ≥ 8 * 4
  · rw [if_pos h32, if_neg (by simp)]
  · have hlt : texCellIndex tlLon tlLat lod x y < 32 := by omega
    have hav := h hlt
    unfold texAvailabilityEntry at hav
    rw [if_neg h32]
    by_cases hm : texCellIndex tlLon tlLat lod x y ≠ -1
    · rw [if_pos hm]
      split_ifs at hav ⊢ <;> simp_all
    · rw [if_neg hm]

/-- C10: with disk use enabled (both `dontUseDisk` flags false), if the availability entry of
the height source cell containing the tile is absent then the 81 grid elevations returned by
`getTerrainPoints` are all 0, and if none of the (up to four) 45° texture cells the tile
touches whose index is below `8*4` is available then each of the 32×32 pixels of the texture
buffer is `(0xEE, 0xFF, 0xEE)`. The call returns its buffers in both cases: the model of
`getTerrainPoints` is a total function. -/
theorem getTerrainPoints_absent_sources (cm : CCacheManager) (lon lat : ℚ) (lod : Nat)
    (uninitialised : Int → Int → Nat) (texture0 : Int → CRawPixel) (_hlod : lod ≤ 13) :
    ((hgtAvailabilityEntry cm lon lat lod).available = false →
      (getTerrainPoints cm lon lat lod uninitialised texture0 false false).points =
        List.replicate 81 0) ∧
    ((∀ x y : Int, (x = 0 ∨ x = 1) → (y = 0 ∨ y = 1) → texCellIndex lon lat lod x y < 32 →
        (texAvailabilityEntry cm lod (texCellIndex lon lat lod x y)).available = false) →
      ∀ x y : Nat, x < 32 → y < 32 →
        (getTerrainPoints cm lon lat lod uninitialised texture0 false false).texture
          ((y : Int) * 32 + (x : Int)) = { r := 0xEE, g := 0xFF, b := 0xEE }) := by
  constructor
  · intro h
    have hf : (findHgtFileName cm lon lat lod).fileFound = false := by
      rw [findHgtFileName_fileFound, h]
    simp [getTerrainPoints, hf]
  · intro h x y hx hy
    have h00 := findRawFilesCell_absent cm lon lat lod 0 0 false
      (h 0 0 (Or.inl rfl) (Or.inl rfl))
    have h10 := findRawFilesCell_absent cm lon lat lod 1 0
      (findRawFilesCell cm lon lat lod 0 0 false).2 (h 1 0 (Or.inr rfl) (Or.inl rfl))
    have h01 := findRawFilesCell_absent cm lon lat lod 0 1
      (findRawFilesCell cm lon lat lod 1 0 (findRawFilesCell cm lon lat lod 0 0 false).2).2
      (h 0 1 (Or.inl rfl) (Or.inr rfl))
    have h11 := findRawFilesCell_absent cm lon lat lod 1 1
      (findRawFilesCell cm lon lat lod 0 1
        (findRawFilesCell cm lon lat lod 1 0 (findRawFilesCell cm lon lat lod 0 0 false).2).2).2
      (h 1 1 (Or.inr rfl) (Or.inr rfl))
    have hhas : (findRawFiles cm lon lat lod).hasAtLeastOneRAWFile = false := by
      simp only [findRawFiles]
      rw [h11, h01, h10, h00]
    have ht : (getTerrainPoints cm lon lat lod uninitialised texture0 false false).texture =
        fillEmpty texture0 := by
      simp [getTerrainPoints, buildTextureFromRawFiles, hhas]
    rw [ht]
    exact fillEmpty_apply texture0 x y hx hy

/-- C10 on a dataset with no file at all, for the LOD-3 tile at `(200, 0)` in the
mid-Pacific: the elevations are 0 and the pixel `(5, 7)` is `(0xEE, 0xFF, 0xEE)`. -/
theorem getTerrainPoints_absent_sources_witness :
    (getTerrainPoints emptyDataset 200 0 3 (fun _ _ => 0) (fun _ => { r := 0, g := 0, b := 0 })
      false false).points = List.replicate 81 0 ∧
    (getTerrainPoints emptyDataset 200 0 3 (fun _ _ => 0) (fun _ => { r := 0, g := 0, b := 0 })
      false false).texture (((7 : Nat) : Int) * 32 + ((5 : Nat) : Int)) =
        { r := 0xEE, g := 0xFF, b := 0xEE } := by
  have h := getTerrainPoints_absent_sources emptyDataset 200 0 3 (fun _ _ => 0)
    (fun _ => { r := 0, g := 0, b := 0 }) (by decide)
  exact ⟨h.1 rfl, h.2 (fun _ _ _ _ _ => rfl) 5 7 (by decide) (by decide)⟩

theorem HGTsourceLookUp_lt (lod : Nat) : HGTsourceLookUp lod < 3 := by
  unfold HGTsourceLookUp; split_ifs <;> omega

theorem getShard_isSome (cm : CCacheManager) {band : Nat} (hb : band < 3) (index : Int) :
    ∃ l, getShard cm band index = some l := by
  unfold getShard
  have : band = 0 ∨ band = 1 ∨ band = 2 := by omega
  rcases this with h | h | h <;> subst h <;> simp

theorem getShard_lt {cm : CCacheManager} {band : Nat} {index : Int}
    {l : List CCachedTerrainData} (h : getShard cm band index = some l) : band < 3 := by
  unfold getShard at h
  by_contra hb
  rw [if_neg (by omega), if_neg (by omega), if_neg (by omega)] at h
  cases h

theorem getShard_setShard (cm : CCacheManager) {band : Nat} (hb : band < 3) (index : Int)
    (l : List CCachedTerrainData) (band' : Nat) (index' : Int) :
    getShard (setShard cm band index l) band' index' =
      if band' = band ∧ index' = index then some l else getShard cm band' index' := by
  have : band = 0 ∨ band = 1 ∨ band = 2 := by omega
  rcases this with h | h | h <;> subst h <;>
    by_cases hb' : band' = 0 <;> by_cases hb1 : band' = 1 <;> by_cases hb2 : band' = 2 <;>
    by_cases hi : index' = index <;>
    simp [getShard, setShard, hb', hb1, hb2, hi, Function.update_same]

@[simp] theorem setShard_earthBufferA (cm : CCacheManager) (band : Nat) (index : Int)
    (l : List CCachedTerrainData) : (setShard cm band index l).earthBufferA = cm.earthBufferA := by
  unfold setShard; split_ifs <;> rfl

@[simp] theorem setShard_earthBufferB (cm : CCacheManager) (band : Nat) (index : Int)
    (l : List CCachedTerrainData) : (setShard cm band index l).earthBufferB = cm.earthBufferB := by
  unfold setShard; split_ifs <;> rfl

theorem floor_floor_mul_div {x d : ℚ} (hd : 0 < d) {m : Nat} (hm : 0 < m) :
    ⌊((⌊x / d⌋ : Int) : ℚ) * d / ((m : ℚ) * d)⌋ = ⌊x / ((m : ℚ) * d)⌋ := by
  have hmq : (0 : ℚ) < (m : ℚ) := by exact_mod_cast hm
  have e1 : ((⌊x / d⌋ : Int) : ℚ) * d / ((m : ℚ) * d) = ((⌊x / d⌋ : Int) : ℚ) / (m : ℚ) := by
    field_simp; ring
  have e2 : x / ((m : ℚ) * d) = x / d / (m : ℚ) := by
    field_simp; left; ring
  rw [e1, e2]
  set y := x / d with hy
  rw [Int.floor_eq_iff]
  have h1 : ((⌊y / (m : ℚ)⌋ : Int) : ℚ) ≤ y / m := Int.floor_le _
  have h2 : y / m < ((⌊y / (m : ℚ)⌋ : Int) : ℚ) + 1 := Int.lt_floor_add_one _
  have h3 : ((⌊y⌋ : Int) : ℚ) ≤ y := Int.floor_le _
  constructor
  · rw [le_div_iff₀ hmq]
    have : ((⌊y / (m : ℚ)⌋ : Int) : ℚ) * m ≤ y := by
      rw [le_div_iff₀ hmq] at h1; exact h1
    have hz : ((⌊y / (m : ℚ)⌋ * (m : Int) : Int) : ℚ) ≤ y := by push_cast; exact this
    have := Int.le_floor.2 hz
    have hq : ((⌊y / (m : ℚ)⌋ * (m : Int) : Int) : ℚ) ≤ ((⌊y⌋ : Int) : ℚ) := by
      exact_mod_cast this
    push_cast at hq; exact hq
  · rw [div_lt_iff₀ hmq]
    rw [div_lt_iff₀ hmq] at h2
    linarith

theorem findTopLeftCorner_fst_eq (lon lat d : ℚ) :
    (findTopLeftCorner lon lat d).1 = (⌊correctLon lon / d⌋ : Int) * d := by
  simp [findTopLeftCorner, convertLonLatToCartesian, convertCartesianToLonLat]

theorem correctLon_range {lon : ℚ} (h0 : 0 ≤ lon) (h1 : lon < 720) :
    0 ≤ correctLon lon ∧ correctLon lon < 360 := by
  unfold correctLon
  by_cases h : lon ≥ 360
  · simp only [if_pos h]
    rw [if_neg (by linarith)]
    constructor <;> linarith
  · simp only [if_neg h]
    rw [if_neg (by linarith)]
    exact ⟨h0, not_le.mp h⟩

/-- Snapping to a grid and then to a coarser grid whose cell is a whole multiple of the first
gives the cell of snapping to the coarser grid directly. -/
theorem findTopLeftCorner_coarser {lon lat d : ℚ} (hd : 0 < d) {m : Nat} (hm : 0 < m)
    (h0 : 0 ≤ lon) (h1 : lon < 720) :
    findTopLeftCorner (findTopLeftCorner lon lat d).1 (findTopLeftCorner lon lat d).2
        ((m : ℚ) * d) = findTopLeftCorner lon lat ((m : ℚ) * d) := by
  obtain ⟨c0, c1⟩ := correctLon_range h0 h1
  have hs0 : 0 ≤ (findTopLeftCorner lon lat d).1 := by
    rw [findTopLeftCorner_fst_eq]
    have : (0 : ℚ) ≤ (⌊correctLon lon / d⌋ : Int) := by
      exact_mod_cast Int.floor_nonneg.2 (div_nonneg c0 hd.le)
    exact mul_nonneg this hd.le
  have hs1 : (findTopLeftCorner lon lat d).1 < 360 := by
    rw [findTopLeftCorner_fst_eq]
    have : ((⌊correctLon lon / d⌋ : Int) : ℚ) * d ≤ correctLon lon := by
      rw [← le_div_iff₀ hd]; exact Int.floor_le _
    linarith
  apply Prod.ext
  · rw [findTopLeftCorner_fst_eq, correctLon_of_mem hs0 hs1, findTopLeftCorner_fst_eq,
      findTopLeftCorner_fst_eq, floor_floor_mul_div hd hm]
  · rw [findTopLeftCorner_snd, findTopLeftCorner_snd, findTopLeftCorner_snd]
    have : (90 : ℚ) - (90 - (⌊(90 - lat) / d⌋ : Int) * d) = (⌊(90 - lat) / d⌋ : Int) * d := by
      ring
    rw [this, floor_floor_mul_div hd hm]

theorem HGTsourceDegreeSize_multiple (lod : Nat) (hlod : lod ≤ 13) :
    ∃ m : Nat, 0 < m ∧ HGTsourceDegreeSizeLookUp lod = (m : ℚ) * LODdegreeSizeLookUp lod := by
  rw [LODdegreeSizeLookUp_eq]
  unfold HGTsourceDegreeSizeLookUp
  interval_cases lod
  · exact ⟨1, by norm_num, by norm_num⟩
  · exact ⟨2, by norm_num, by norm_num⟩
  · exact ⟨4, by norm_num, by norm_num⟩
  · exact ⟨8, by norm_num, by norm_num⟩
  · exact ⟨4, by norm_num, by norm_num⟩
  · exact ⟨8, by norm_num, by norm_num⟩
  · exact ⟨16, by norm_num, by norm_num⟩
  · exact ⟨32, by norm_num, by norm_num⟩
  · exact ⟨64, by norm_num, by norm_num⟩
  · exact ⟨32, by norm_num, by norm_num⟩
  · exact ⟨64, by norm_num, by norm_num⟩
  · exact ⟨128, by norm_num, by norm_num⟩
  · exact ⟨256, by norm_num, by norm_num⟩
  · exact ⟨512, by norm_num, by norm_num⟩

/-- The shard index computed from the raw coordinates (as `cacheTerrainDataFind` does) is the
shard index computed from the snapped key (as register and free do). -/
theorem hgtSourceIndex_requestKey {lon lat : ℚ} {lod : Nat} (hlod : lod ≤ 13)
    (h0 : 0 ≤ lon) (h1 : lon < 720) :
    hgtSourceIndex (requestKey lon lat lod).1 (requestKey lon lat lod).2.1 lod =
      hgtSourceIndex lon lat lod := by
  obtain ⟨m, hm, he⟩ := HGTsourceDegreeSize_multiple lod hlod
  unfold hgtSourceIndex findTopLeftCornerOfHgtFile requestKey
  simp only
  rw [he, findTopLeftCorner_coarser (LODdegreeSizeLookUp_pos lod) hm h0 h1]

@[simp] theorem inUseBy_touchEntry (a earth : Nat) (v : Bool) (now : Nat)
    (e : CCachedTerrainData) : inUseBy a earth (touchEntry a earth v now e) = v := by
  unfold inUseBy
  rw [touchEntry_terrainAinUse, touchEntry_terrainBinUse]
  split_ifs <;> rfl

@[simp] theorem inUseByOther_touchEntry (a earth : Nat) (v : Bool) (now : Nat)
    (e : CCachedTerrainData) :
    inUseByOther a earth (touchEntry a earth v now e) = inUseByOther a earth e := by
  unfold inUseByOther
  rw [touchEntry_terrainAinUse, touchEntry_terrainBinUse]
  split_ifs <;> rfl

theorem getElem?_lt_length {l : List CCachedTerrainData} {i : Nat} {e : CCachedTerrainData}
    (h : l[i]? = some e) : i < l.length := by
  rcases Nat.lt_or_ge i l.length with h1 | h1
  · exact h1
  · rw [List.getElem?_eq_none h1] at h; cases h

theorem searchEntry_lt_length {tlLon tlLat : ℚ} {lod : Int} {l : List CCachedTerrainData}
    {i : Nat} (h : searchEntry tlLon tlLat lod l = some i) : i < l.length := by
  obtain ⟨e, _, hg, _⟩ := searchEntry_get h
  exact getElem?_lt_length hg

theorem searchEntry_append_of_some {tlLon tlLat : ℚ} {lod : Int} :
    ∀ {l : List CCachedTerrainData} {i : Nat} (e : CCachedTerrainData),
      searchEntry tlLon tlLat lod l = some i →
      searchEntry tlLon tlLat lod (l ++ [e]) = some i := by
  intro l
  induction l with
  | nil => intro i e h; simp [searchEntry] at h
  | cons x rest ih =>
    intro i e h
    unfold searchEntry at h
    cases hx : x.terrainData with
    | none =>
      rw [hx] at h
      simp only [Option.map_eq_some'] at h
      obtain ⟨k, hk, rfl⟩ := h
      simp [searchEntry, hx, ih e hk]
    | some t =>
      rw [hx] at h
      simp only at h
      by_cases hm : matchCount t tlLon tlLat lod = 3
      · rw [if_pos hm] at h; cases h
        simp [searchEntry, hx, hm]
      · rw [if_neg hm] at h
        simp only [Option.map_eq_some'] at h
        obtain ⟨k, hk, rfl⟩ := h
        simp [searchEntry, hx, hm, ih e hk]

/-- `ShardInv` survives a find, register-hit or free on the first live entry of a key of
`K`. -/
theorem shardInv_touch {a earth : Nat} {K : ℚ × ℚ × Int → Prop} {band : Nat} {index : Int}
    {l0 l : List CCachedTerrainData} (h : ShardInv a earth K band index l0 l)
    {tlLon tlLat : ℚ} {lod : Int} (hK : K (tlLon, tlLat, lod)) {j : Nat}
    {e : CCachedTerrainData} (hs : searchEntry tlLon tlLat lod l = some j)
    (hg : l[j]? = some e) (v : Bool) (now : Nat)
    (hshard : v = true → band = keyBand (tlLon, tlLat, lod) ∧
      index = keyIndex (tlLon, tlLat, lod)) :
    ShardInv a earth K band index l0 (l.set j (touchEntry a earth v now e)) := by
  obtain ⟨h1, h2, h3, h4⟩ := h
  have hjlt := getElem?_lt_length hg
  obtain ⟨e', t, hg', hd, hk1, hk2, hk3⟩ := searchEntry_get hs
  rw [hg] at hg'; cases hg'
  have hkey : keyOf t = (tlLon, tlLat, lod) := by
    unfold keyOf; rw [hk1, hk2, hk3]
  refine ⟨by rw [List.length_set]; exact h1, ?_, ?_, ?_⟩
  · intro i e0 hi
    obtain ⟨x, hx, hxd, hxo, hxm⟩ := h2 i e0 hi
    by_cases hij : j = i
    · subst hij
      rw [hg] at hx; cases hx
      refine ⟨_, List.getElem?_set_self hjlt, by simp [hxd], by simp [hxo], ?_⟩
      intro hno
      exact absurd (hkey ▸ hK) (hno t (hxd ▸ hd))
    · exact ⟨x, by rw [List.getElem?_set_ne hij]; exact hx, hxd, hxo, hxm⟩
  · intro i x hi hx
    by_cases hij : j = i
    · subst hij
      rw [List.getElem?_set_self hjlt] at hx; cases hx
      obtain ⟨ho, t', ht', hK'⟩ := h3 j e hi hg
      exact ⟨by simp [ho], t', by simp [ht'], hK'⟩
    · rw [List.getElem?_set_ne hij] at hx
      exact h3 i x hi hx
  · intro i x t' hx hd' hK' hmine
    by_cases hij : j = i
    · subst hij
      rw [List.getElem?_set_self hjlt] at hx; cases hx
      simp only [touchEntry_terrainData] at hd'
      rw [hd] at hd'; cases hd'
      simp only [inUseBy_touchEntry] at hmine
      rw [hkey]
      refine ⟨(hshard hmine).1, (hshard hmine).2, ?_⟩
      rw [searchEntry_set hg (by simp), hk1, hk2, hk3]; exact hs
    · rw [List.getElem?_set_ne hij] at hx
      obtain ⟨b1, b2, b3⟩ := h4 i x t' hx hd' hK' hmine
      exact ⟨b1, b2, by rw [searchEntry_set hg (by simp)]; exact b3⟩

/-- `ShardInv` survives the append of a register-miss for a key of `K` in the shard of that
key. -/
theorem shardInv_append {a earth : Nat} {K : ℚ × ℚ × Int → Prop} {band : Nat} {index : Int}
    {l0 l : List CCachedTerrainData} (h : ShardInv a earth K band index l0 l)
    {enew : CCachedTerrainData} {t : CTerrainData} (hd : enew.terrainData = some t)
    (hK : K (keyOf t)) (ho : inUseByOther a earth enew = false)
    (hs : searchEntry t.topLeftLon t.topLeftLat t.LOD l = none)
    (hb : band = keyBand (keyOf t)) (hi : index = keyIndex (keyOf t)) :
    ShardInv a earth K band index l0 (l ++ [enew]) := by
  obtain ⟨h1, h2, h3, h4⟩ := h
  refine ⟨by rw [List.length_append]; omega, ?_, ?_, ?_⟩
  · intro i e0 hi0
    obtain ⟨x, hx, rest⟩ := h2 i e0 hi0
    exact ⟨x, by rw [List.getElem?_append_left (getElem?_lt_length hx)]; exact hx, rest⟩
  · intro i x hi0 hx
    rcases Nat.lt_trichotomy i l.length with hlt | heq | hgt
    · rw [List.getElem?_append_left hlt] at hx
      exact h3 i x hi0 hx
    · subst heq
      simp at hx; subst hx
      exact ⟨ho, t, hd, hK⟩
    · rw [List.getElem?_eq_none (by simp; omega)] at hx; cases hx
  · intro i x t' hx hd' hK' hmine
    rcases Nat.lt_trichotomy i l.length with hlt | heq | hgt
    · rw [List.getElem?_append_left hlt] at hx
      obtain ⟨b1, b2, b3⟩ := h4 i x t' hx hd' hK' hmine
      exact ⟨b1, b2, searchEntry_append_of_some enew b3⟩
    · subst heq
      simp at hx; subst hx
      rw [hd] at hd'; cases hd'
      exact ⟨hb, hi, searchEntry_append_new hs hd ⟨rfl, rfl, rfl⟩⟩
    · rw [List.getElem?_eq_none (by simp; omega)] at hx; cases hx

theorem shardInv_refl (a earth : Nat) (K : ℚ × ℚ × Int → Prop) (band : Nat) (index : Int)
    (l : List CCachedTerrainData)
    (hclear : ∀ (i : Nat) (e : CCachedTerrainData) (t : CTerrainData), l[i]? = some e →
      e.terrainData = some t → K (keyOf t) → inUseBy a earth e = false) :
    ShardInv a earth K band index l l := by
  refine ⟨le_refl _, ?_, ?_, ?_⟩
  · intro i e0 hi; exact ⟨e0, hi, rfl, rfl, fun _ => rfl⟩
  · intro i e hi hg
    have := getElem?_lt_length hg
    omega
  · intro i e t hg hd hK hmine
    rw [hclear i e t hg hd hK] at hmine; cases hmine

theorem cacheInv_step {earth : Nat} {K : ℚ × ℚ × Int → Prop} {cm0 cm : CCacheManager}
    (h : CacheInv earth K cm0 cm) {band : Nat} {index : Int}
    {l l' : List CCachedTerrainData} (hl : getShard cm band index = some l)
    (hstep : ∀ l0, ShardInv cm0.earthBufferA earth K band index l0 l →
      ShardInv cm0.earthBufferA earth K band index l0 l') :
    CacheInv earth K cm0 (setShard cm band index l') := by
  obtain ⟨ha, hb, hs⟩ := h
  have hband := getShard_lt hl
  refine ⟨by simp [ha], by simp [hb], ?_⟩
  intro band' index' l0 hl0
  obtain ⟨x, hx, hinv⟩ := hs band' index' l0 hl0
  rw [getShard_setShard cm hband]
  by_cases hc : band' = band ∧ index' = index
  · obtain ⟨rfl, rfl⟩ := hc
    rw [if_pos ⟨rfl, rfl⟩]
    rw [hl] at hx; cases hx
    exact ⟨l', rfl, hstep l0 hinv⟩
  · rw [if_neg hc]
    exact ⟨x, hx, hinv⟩

theorem cacheInv_refl (earth : Nat) (K : ℚ × ℚ × Int → Prop) (cm : CCacheManager)
    (hclear : ∀ (band : Nat) (index : Int) (l : List CCachedTerrainData) (i : Nat)
      (e : CCachedTerrainData) (t : CTerrainData), getShard cm band index = some l →
      l[i]? = some e → e.terrainData = some t → K (keyOf t) →
      inUseBy cm.earthBufferA earth e = false) :
    CacheInv earth K cm cm :=
  ⟨rfl, rfl, fun band index l0 hl0 =>
    ⟨l0, hl0, shardInv_refl _ _ _ _ _ _ (fun i e t hg hd hK => hclear band index l0 i e t hl0 hg hd hK)⟩⟩

theorem requestKey_toNat (lon lat : ℚ) (lod : Nat) :
    (requestKey lon lat lod).2.2.toNat = lod := by
  simp [requestKey]

theorem cacheTerrainDataFind_eq (cm : CCacheManager) (now : Nat) (lon lat : ℚ) (lod : Nat)
    (earth : Nat) {l : List CCachedTerrainData}
    (hl : getShard cm (HGTsourceLookUp lod) (hgtSourceIndex lon lat lod) = some l) :
    cacheTerrainDataFind cm now lon lat lod earth =
      (cachedTerrainDataListFind cm.earthBufferA cm.earthBufferB now l
        (requestKey lon lat lod).1 (requestKey lon lat lod).2.1 (lod : Int) earth).map
        fun r => (setShard cm (HGTsourceLookUp lod) (hgtSourceIndex lon lat lod) r.1,
          r.2.1, r.2.2) := by
  have hl' : getShard cm (HGTsourceLookUp lod)
      (convertTopLeft2AvabilityIndex (findTopLeftCornerOfHgtFile lon lat lod).1
        (findTopLeftCornerOfHgtFile lon lat lod).2 (HGTsourceDegreeSizeLookUp lod)) = some l := hl
  simp only [cacheTerrainDataFind, hl']
  rfl

theorem cacheTerrainDataRegister_eq (cm : CCacheManager) (now earth : Nat) (td : CTerrainData)
    {l : List CCachedTerrainData}
    (hl : getShard cm (keyBand (keyOf td)) (keyIndex (keyOf td)) = some l) :
    cacheTerrainDataRegister cm now earth td =
      (cachedTerrainDataListRegister cm.earthBufferA cm.earthBufferB now l earth td).map
        fun r => (setShard cm (keyBand (keyOf td)) (keyIndex (keyOf td)) r.1, r.2) := by
  have hl' : getShard cm (HGTsourceLookUp td.LOD.toNat)
      (convertTopLeft2AvabilityIndex
        (findTopLeftCornerOfHgtFile td.topLeftLon td.topLeftLat td.LOD.toNat).1
        (findTopLeftCornerOfHgtFile td.topLeftLon td.topLeftLat td.LOD.toNat).2
        (HGTsourceDegreeSizeLookUp td.LOD.toNat)) = some l := hl
  simp only [cacheTerrainDataRegister, hl']
  rfl

theorem cacheTerrainDataFree_eq (cm : CCacheManager) (now earth : Nat) (td : CTerrainData)
    (d : Bool) {l : List CCachedTerrainData}
    (hl : getShard cm (keyBand (keyOf td)) (keyIndex (keyOf td)) = some l) :
    cacheTerrainDataFree cm now earth td d =
      (cachedTerrainDataListFree cm.earthBufferA cm.earthBufferB now l earth td d).map
        fun r => setShard cm (keyBand (keyOf td)) (keyIndex (keyOf td)) r.1 := by
  have hl' : getShard cm (HGTsourceLookUp td.LOD.toNat)
      (convertTopLeft2AvabilityIndex
        (findTopLeftCornerOfHgtFile td.topLeftLon td.topLeftLat td.LOD.toNat).1
        (findTopLeftCornerOfHgtFile td.topLeftLon td.topLeftLat td.LOD.toNat).2
        (HGTsourceDegreeSizeLookUp td.LOD.toNat)) = some l := hl
  simp only [cacheTerrainDataFree, hl']
  rfl

theorem keyBand_lt (k : ℚ × ℚ × Int) : keyBand k < 3 := HGTsourceLookUp_lt _

/-- A find for a key of `K` by consumer `earth` completes and keeps `CacheInv`; it either
hits a tile of that key, or misses and leaves the key without live entry in its shard. -/
theorem find_inv {earth : Nat} {K : ℚ × ℚ × Int → Prop} {cm0 cm : CCacheManager}
    (hinv : CacheInv earth K cm0 cm)
    (hv : earth = cm0.earthBufferA ∨ earth = cm0.earthBufferB) (now : Nat)
    {lon lat : ℚ} {lod : Nat} (hlod : lod ≤ 13) (h0 : 0 ≤ lon) (h1 : lon < 720)
    (hK : K (requestKey lon lat lod)) :
    ∃ cm1, CacheInv earth K cm0 cm1 ∧
      ((∃ t, cacheTerrainDataFind cm now lon lat lod earth = some (cm1, true, some t) ∧
          keyOf t = requestKey lon lat lod) ∨
       (cacheTerrainDataFind cm now lon lat lod earth = some (cm1, false, none) ∧
          ∃ l, getShard cm1 (keyBand (requestKey lon lat lod))
              (keyIndex (requestKey lon lat lod)) = some l ∧
            searchEntry (requestKey lon lat lod).1 (requestKey lon lat lod).2.1
              (requestKey lon lat lod).2.2 l = none)) := by
  have hv' : earth = cm.earthBufferA ∨ earth = cm.earthBufferB := by
    rw [hinv.1, hinv.2.1]; exact hv
  obtain ⟨l, hl⟩ := getShard_isSome cm (HGTsourceLookUp_lt lod)
    (hgtSourceIndex lon lat lod)
  have hkb : HGTsourceLookUp lod = keyBand (requestKey lon lat lod) := by
    simp [keyBand, requestKey_toNat]
  have hki : hgtSourceIndex lon lat lod = keyIndex (requestKey lon lat lod) := by
    simp only [keyIndex, requestKey_toNat]
    exact (hgtSourceIndex_requestKey hlod h0 h1).symm
  have hfind := cacheTerrainDataFind_eq cm now lon lat lod earth hl
  cases hsearch : searchEntry (requestKey lon lat lod).1 (requestKey lon lat lod).2.1
      (lod : Int) l with
  | some j =>
    obtain ⟨e, t, hg, hd, hk1, hk2, hk3⟩ := searchEntry_get hsearch
    rw [find_hit hv' hsearch hg, hd] at hfind
    refine ⟨_, ?_, Or.inl ⟨t, hfind, ?_⟩⟩
    · refine cacheInv_step hinv hl ?_
      intro l0 hl0
      rw [hinv.1]
      exact shardInv_touch hl0 hK hsearch hg true _ (fun _ => ⟨hkb, hki⟩)
    · unfold keyOf requestKey
      rw [hk1, hk2, hk3]; rfl
  | none =>
    rw [find_miss hv' hsearch] at hfind
    refine ⟨_, cacheInv_step hinv hl (fun _ h => h), Or.inr ⟨hfind, l, ?_, hsearch⟩⟩
    rw [← hkb, ← hki, getShard_setShard _ (HGTsourceLookUp_lt lod), if_pos ⟨rfl, rfl⟩]

/-- A register of a tile with a key of `K` that has no live entry in its shard completes,
keeps the caller's tile as handle and keeps `CacheInv`. -/
theorem register_inv {earth : Nat} {K : ℚ × ℚ × Int → Prop} {cm0 cm : CCacheManager}
    (hinv : CacheInv earth K cm0 cm)
    (hv : earth = cm0.earthBufferA ∨ earth = cm0.earthBufferB) (now : Nat)
    (td : CTerrainData) (hK : K (keyOf td)) {l : List CCachedTerrainData}
    (hl : getShard cm (keyBand (keyOf td)) (keyIndex (keyOf td)) = some l)
    (hsearch : searchEntry td.topLeftLon td.topLeftLat td.LOD l = none) :
    ∃ cm2, cacheTerrainDataRegister cm now earth td = some (cm2, td) ∧
      CacheInv earth K cm0 cm2 := by
  have hv' : earth = cm.earthBufferA ∨ earth = cm.earthBufferB := by
    rw [hinv.1, hinv.2.1]; exact hv
  have hreg := cacheTerrainDataRegister_eq cm now earth td hl
  rw [register_miss hv' hsearch] at hreg
  refine ⟨_, hreg, cacheInv_step hinv hl ?_⟩
  intro l0 hl0
  refine shardInv_append hl0 rfl hK ?_ hsearch rfl rfl
  rw [← hinv.1]
  simp [inUseByOther, touchEntry_terrainAinUse, touchEntry_terrainBinUse,
    CCachedTerrainData.new]

/-- `CTerrain::initTerrainData` with the cache in use, for a key of `K`: the call completes
with a tile of the requested key and keeps `CacheInv`. -/
theorem initTerrainData_inv {earth : Nat} {K : ℚ × ℚ × Int → Prop} {cm0 : CCacheManager}
    (w : World) (hinv : CacheInv earth K cm0 w.cm)
    (hv : earth = cm0.earthBufferA ∨ earth = cm0.earthBufferB)
    (lon lat : ℚ) {lod : Nat} (hlod : lod ≤ 13) (h0 : 0 ≤ lon) (h1 : lon < 720)
    (hK : K (requestKey lon lat lod)) :
    ∃ w' h, CTerrain.initTerrainData w earth lon lat lod false = some (w', some h) ∧
      keyOf h = requestKey lon lat lod ∧ CacheInv earth K cm0 w'.cm := by
  obtain ⟨cm1, hinv1, hcase⟩ := find_inv hinv hv (w.clock w.ops) hlod h0 h1 hK
  rcases hcase with ⟨t, hfind, hkey⟩ | ⟨hfind, l, hl, hsearch⟩
  · refine ⟨World.mk cm1 w.heapNext w.clock (w.ops + 1), t, ?_, hkey, hinv1⟩
    simp only [CTerrain.initTerrainData, hfind, Bool.not_false, Bool.not_true, if_true]
    rfl
  · have hkey : keyOf (CTerrainData.initTerrainData w.heapNext lon lat lod) =
        requestKey lon lat lod := rfl
    obtain ⟨cm2, hreg, hinv2⟩ := register_inv hinv1 hv (w.clock (w.ops + 1))
      (CTerrainData.initTerrainData w.heapNext lon lat lod) (by rw [hkey]; exact hK)
      (by rw [hkey]; exact hl) hsearch
    refine ⟨World.mk cm2 (w.heapNext + 1) w.clock (w.ops + 2),
      CTerrainData.initTerrainData w.heapNext lon lat lod, ?_, hkey, hinv2⟩
    simp only [CTerrain.initTerrainData, hfind, Bool.not_false, if_true, hreg]

theorem cacheInv_shard {earth : Nat} {K : ℚ × ℚ × Int → Prop} {cm0 cm : CCacheManager}
    (h : CacheInv earth K cm0 cm) {band : Nat} {index : Int} {l : List CCachedTerrainData}
    (hl : getShard cm band index = some l) :
    ∃ l0, getShard cm0 band index = some l0 ∧
      ShardInv cm0.earthBufferA earth K band index l0 l := by
  obtain ⟨l0, hl0⟩ := getShard_isSome cm0 (getShard_lt hl) index
  obtain ⟨x, hx, hinv⟩ := h.2.2 band index l0 hl0
  rw [hl] at hx; cases hx
  exact ⟨l0, hl0, hinv⟩

/-- A release of a tile with a key of `K` by consumer `earth` completes, keeps `CacheInv`,
leaves no live entry of that key held by `earth`, and keeps every key that was clear of
`earth` clear. -/
theorem free_inv {earth : Nat} {K : ℚ × ℚ × Int → Prop} {cm0 cm : CCacheManager}
    (hinv : CacheInv earth K cm0 cm)
    (hv : earth = cm0.earthBufferA ∨ earth = cm0.earthBufferB) (now : Nat)
    (td : CTerrainData) (d : Bool) (hK : K (keyOf td)) :
    ∃ cm', cacheTerrainDataFree cm now earth td d = some cm' ∧
      CacheInv earth K cm0 cm' ∧ AllClear cm0.earthBufferA earth (keyOf td) cm' ∧
      ∀ k, AllClear cm0.earthBufferA earth k cm → AllClear cm0.earthBufferA earth k cm' := by
  have hv' : earth = cm.earthBufferA ∨ earth = cm.earthBufferB := by
    rw [hinv.1, hinv.2.1]; exact hv
  obtain ⟨l, hl⟩ := getShard_isSome cm (keyBand_lt (keyOf td)) (keyIndex (keyOf td))
  have hfree := cacheTerrainDataFree_eq cm now earth td d hl
  cases hsearch : searchEntry td.topLeftLon td.topLeftLat td.LOD l with
  | some j =>
    obtain ⟨e, t, hg, hd, hk1, hk2, hk3⟩ := searchEntry_get hsearch
    have hjlt := getElem?_lt_length hg
    rw [free_hit hv' hsearch hg] at hfree
    have hinv' : CacheInv earth K cm0 (setShard cm (keyBand (keyOf td)) (keyIndex (keyOf td))
        (l.set j (touchEntry cm.earthBufferA earth false now e))) := by
      refine cacheInv_step hinv hl ?_
      intro l0 hl0
      rw [hinv.1]
      exact shardInv_touch hl0 hK hsearch hg false _ (fun hc => by cases hc)
    refine ⟨_, hfree, hinv', ?_, ?_⟩
    · intro band index l' i e' t' hl' hg' hd' hkey
      by_contra hne
      have hmine : inUseBy cm0.earthBufferA earth e' = true := by
        cases hb : inUseBy cm0.earthBufferA earth e' with
        | true => rfl
        | false => exact absurd hb hne
      obtain ⟨l0, -, hsh⟩ := cacheInv_shard hinv' hl'
      obtain ⟨b1, b2, b3⟩ := hsh.2.2.2 i e' t' hg' hd' (by rw [hkey]; exact hK) hmine
      rw [hkey] at b1 b2
      subst b1 b2
      rw [getShard_setShard _ (keyBand_lt _), if_pos ⟨rfl, rfl⟩] at hl'
      cases hl'
      have hk' : t'.topLeftLon = td.topLeftLon ∧ t'.topLeftLat = td.topLeftLat ∧
          t'.LOD = td.LOD := by
        unfold keyOf at hkey
        simp only [Prod.mk.injEq] at hkey
        exact hkey
      rw [hk'.1, hk'.2.1, hk'.2.2, searchEntry_set hg (by simp), hsearch] at b3
      cases b3
      rw [List.getElem?_set_self hjlt] at hg'
      cases hg'
      rw [hinv.1] at hmine
      simp at hmine
    · intro k hclear band index l' i e' t' hl' hg' hd' hkey
      rw [getShard_setShard _ (keyBand_lt _)] at hl'
      by_cases hc : band = keyBand (keyOf td) ∧ index = keyIndex (keyOf td)
      · rw [if_pos hc] at hl'
        cases hl'
        by_cases hij : j = i
        · subst hij
          rw [List.getElem?_set_self hjlt] at hg'
          cases hg'
          rw [← hinv.1]; simp
        · rw [List.getElem?_set_ne hij] at hg'
          exact hclear band index l i e' t' (hc.1 ▸ hc.2 ▸ hl) hg' hd' hkey
      · rw [if_neg hc] at hl'
        exact hclear band index l' i e' t' hl' hg' hd' hkey
  | none =>
    rw [free_miss hv' hsearch] at hfree
    have hinv' : CacheInv earth K cm0
        (setShard cm (keyBand (keyOf td)) (keyIndex (keyOf td)) l) :=
      cacheInv_step hinv hl (fun _ h => h)
    refine ⟨_, hfree, hinv', ?_, ?_⟩
    · intro band index l' i e' t' hl' hg' hd' hkey
      by_contra hne
      have hmine : inUseBy cm0.earthBufferA earth e' = true := by
        cases hb : inUseBy cm0.earthBufferA earth e' with
        | true => rfl
        | false => exact absurd hb hne
      obtain ⟨l0, -, hsh⟩ := cacheInv_shard hinv' hl'
      obtain ⟨b1, b2, b3⟩ := hsh.2.2.2 i e' t' hg' hd' (by rw [hkey]; exact hK) hmine
      rw [hkey] at b1 b2
      subst b1 b2
      rw [getShard_setShard _ (keyBand_lt _), if_pos ⟨rfl, rfl⟩] at hl'
      cases hl'
      have hk' : t'.topLeftLon = td.topLeftLon ∧ t'.topLeftLat = td.topLeftLat ∧
          t'.LOD = td.LOD := by
        unfold keyOf at hkey
        simp only [Prod.mk.injEq] at hkey
        exact hkey
      rw [hk'.1, hk'.2.1, hk'.2.2, hsearch] at b3
      cases b3
    · intro k hclear band index l' i e' t' hl' hg' hd' hkey
      rw [getShard_setShard _ (keyBand_lt _)] at hl'
      by_cases hc : band = keyBand (keyOf td) ∧ index = keyIndex (keyOf td)
      · rw [if_pos hc] at hl'
        cases hl'
        exact hclear band index l i e' t' (hc.1 ▸ hc.2 ▸ hl) hg' hd' hkey
      · rw [if_neg hc] at hl'
        exact hclear band index l' i e' t' hl' hg' hd' hkey

/-- Destroying a leaf whose tile has a key of `K`, as `free_inv`. -/
theorem destroy_leaf_inv {earth : Nat} {K : ℚ × ℚ × Int → Prop} {cm0 : CCacheManager}
    (w : World) (hinv : CacheInv earth K cm0 w.cm)
    (hv : earth = cm0.earthBufferA ∨ earth = cm0.earthBufferB)
    (td : CTerrainData) (d v f : Bool) (hK : K (keyOf td)) :
    ∃ w', CTerrain.destroy d (.leaf earth (some td) v f) w = some w' ∧
      CacheInv earth K cm0 w'.cm ∧ AllClear cm0.earthBufferA earth (keyOf td) w'.cm ∧
      ∀ k, AllClear cm0.earthBufferA earth k w.cm → AllClear cm0.earthBufferA earth k w'.cm := by
  obtain ⟨cm', hfree, h1, h2, h3⟩ := free_inv hinv hv (w.clock w.ops) td d hK
  refine ⟨World.mk cm' w.heapNext w.clock (w.ops + 1), ?_, h1, h2, h3⟩
  simp only [CTerrain.destroy, hfree, Option.map_some']

theorem flags_of_inUse {a earth : Nat} {e e' : CCachedTerrainData}
    (h1 : inUseBy a earth e' = inUseBy a earth e)
    (h2 : inUseByOther a earth e' = inUseByOther a earth e) :
    e'.terrainAinUse = e.terrainAinUse ∧ e'.terrainBinUse = e.terrainBinUse := by
  by_cases h : earth = a
  · simp only [inUseBy, inUseByOther, if_pos h] at h1 h2; exact ⟨h1, h2⟩
  · simp only [inUseBy, inUseByOther, if_neg h] at h1 h2; exact ⟨h2, h1⟩

/-- C5: let `N` be a leaf of consumer `earth`'s tree whose tile is as `initTerrainData` builds
it (LOD below 13, degree size of its LOD, top-left longitude in `[0, 360)`), with the cache in
use, and let no live cache entry with one of `N`'s four child keys be flagged by `earth`.
Then `split(N)` and the following `merge(N)` both complete, `N` is a leaf with its tile again,
and in every shard: each entry that existed before the split has the same two in-use flags
after the merge as before the split, and the other consumer's flag also after the split;
each entry the split appended has `earth`'s flag clear after the merge and the other
consumer's flag clear after the split and after the merge. -/
theorem split_merge_restores_flags (w : World) (earth : Nat) (td : CTerrainData)
    (visible terrainInCameraFOV : Bool)
    (hv : earth = w.cm.earthBufferA ∨ earth = w.cm.earthBufferB)
    (hlod : td.LOD < 13) (hdeg : td.degreeSize = LODdegreeSizeLookUp td.LOD.toNat)
    (hlon0 : 0 ≤ td.topLeftLon) (hlon1 : td.topLeftLon < 360)
    (hfree : ∀ (band : Nat) (index : Int) (l : List CCachedTerrainData) (i : Nat)
      (e : CCachedTerrainData) (t : CTerrainData), getShard w.cm band index = some l →
      l[i]? = some e → e.terrainData = some t → keyOf t ∈ childKeys td →
      inUseBy w.cm.earthBufferA earth e = false) :
    ∃ (w1 : World) (n1 : CTerrain) (w2 : World),
      CTerrain.split false w (.leaf earth (some td) visible terrainInCameraFOV)
        = some (w1, n1) ∧
      CTerrain.merge false w1 n1
        = some (w2, .leaf earth (some td) visible terrainInCameraFOV) ∧
      ∀ (band : Nat) (index : Int) (l : List CCachedTerrainData),
        getShard w.cm band index = some l →
        ∃ l1 l2, getShard w1.cm band index = some l1 ∧ getShard w2.cm band index = some l2 ∧
          (∀ (i : Nat) (e : CCachedTerrainData), l[i]? = some e →
            ∃ e1 e2, l1[i]? = some e1 ∧ l2[i]? = some e2 ∧
              e2.terrainAinUse = e.terrainAinUse ∧ e2.terrainBinUse = e.terrainBinUse ∧
              inUseByOther w.cm.earthBufferA earth e1 = inUseByOther w.cm.earthBufferA earth e) ∧
          (∀ (i : Nat) (e1 : CCachedTerrainData), l.length ≤ i → l1[i]? = some e1 →
            inUseByOther w.cm.earthBufferA earth e1 = false) ∧
          (∀ (i : Nat) (e2 : CCachedTerrainData), l.length ≤ i → l2[i]? = some e2 →
            inUseBy w.cm.earthBufferA earth e2 = false ∧
            inUseByOther w.cm.earthBufferA earth e2 = false) := by
  have hd0 : 0 < td.degreeSize := by rw [hdeg]; exact LODdegreeSizeLookUp_pos _
  have hd1 : td.degreeSize ≤ 60 := by
    rw [hdeg, LODdegreeSizeLookUp_eq]
    rw [div_le_iff₀ (by positivity)]
    have : (1 : ℚ) ≤ 2 ^ td.LOD.toNat := one_le_pow₀ (by norm_num)
    linarith
  have hl13 : (td.LOD + 1).toNat ≤ 13 := by omega
  have hinv0 : CacheInv earth (fun k => k ∈ childKeys td) w.cm w.cm :=
    cacheInv_refl earth _ w.cm hfree
  obtain ⟨wA, hA, eA, kA, iA⟩ := initTerrainData_inv w hinv0 hv
    td.topLeftLon td.topLeftLat hl13 hlon0 (by linarith) (by simp [childKeys])
  obtain ⟨wB, hB, eB, kB, iB⟩ := initTerrainData_inv wA iA hv
    (td.topLeftLon + td.degreeSize / 2) td.topLeftLat hl13
    (by linarith) (by linarith) (by simp [childKeys])
  obtain ⟨wC, hC, eC, kC, iC⟩ := initTerrainData_inv wB iB hv
    td.topLeftLon (td.topLeftLat - td.degreeSize / 2) hl13
    hlon0 (by linarith) (by simp [childKeys])
  obtain ⟨wD, hD, eD, kD, iD⟩ := initTerrainData_inv wC iC hv
    (td.topLeftLon + td.degreeSize / 2) (td.topLeftLat - td.degreeSize / 2) hl13
    (by linarith) (by linarith) (by simp [childKeys])
  obtain ⟨w5, d5, i5, c5, p5⟩ := destroy_leaf_inv wD iD hv hA false false false
    (by rw [kA]; simp [childKeys])
  obtain ⟨w6, d6, i6, c6, p6⟩ := destroy_leaf_inv w5 i5 hv hB false false false
    (by rw [kB]; simp [childKeys])
  obtain ⟨w7, d7, i7, c7, p7⟩ := destroy_leaf_inv w6 i6 hv hC false false false
    (by rw [kC]; simp [childKeys])
  obtain ⟨w8, d8, i8, c8, p8⟩ := destroy_leaf_inv w7 i7 hv hD false false false
    (by rw [kD]; simp [childKeys])
  have hclear : ∀ k ∈ childKeys td, AllClear w.cm.earthBufferA earth k w8.cm := by
    intro k hk
    simp only [childKeys, List.mem_cons, List.mem_singleton, List.not_mem_nil, or_false] at hk
    rcases hk with rfl | rfl | rfl | rfl
    · exact p8 _ (p7 _ (p6 _ (kA ▸ c5)))
    · exact p8 _ (p7 _ (kB ▸ c6))
    · exact p8 _ (kC ▸ c7)
    · exact kD ▸ c8
  refine ⟨wD, .node earth (some td) visible terrainInCameraFOV
    (.leaf earth (some hA) false false) (.leaf earth (some hB) false false)
    (.leaf earth (some hC) false false) (.leaf earth (some hD) false false), w8, ?_, ?_, ?_⟩
  · simp only [CTerrain.split, eA, eB, eC, eD, Option.some_bind, Option.map_some']
  · simp only [CTerrain.merge, d5, d6, d7, d8, Option.some_bind, Option.map_some']
  · intro band index l hl
    obtain ⟨l1, hl1, s1⟩ := iD.2.2 band index l hl
    obtain ⟨l2, hl2, s2⟩ := i8.2.2 band index l hl
    refine ⟨l1, l2, hl1, hl2, ?_, ?_, ?_⟩
    · intro i e hg
      obtain ⟨e1, hg1, -, ho1, -⟩ := s1.2.1 i e hg
      obtain ⟨e2, hg2, hd2, ho2, hm2⟩ := s2.2.1 i e hg
      refine ⟨e1, e2, hg1, hg2, ?_, ?_, ho1⟩
      · refine (flags_of_inUse ?_ ho2).1
        by_cases hk : ∀ t, e.terrainData = some t → ¬ keyOf t ∈ childKeys td
        · exact hm2 hk
        · push_neg at hk
          obtain ⟨t, ht, hkt⟩ := hk
          rw [hfree band index l i e t hl hg ht hkt]
          exact hclear _ hkt band index l2 i e2 t hl2 hg2 (hd2.trans ht) rfl
      · refine (flags_of_inUse ?_ ho2).2
        by_cases hk : ∀ t, e.terrainData = some t → ¬ keyOf t ∈ childKeys td
        · exact hm2 hk
        · push_neg at hk
          obtain ⟨t, ht, hkt⟩ := hk
          rw [hfree band index l i e t hl hg ht hkt]
          exact hclear _ hkt band index l2 i e2 t hl2 hg2 (hd2.trans ht) rfl
    · intro i e1 hi hg1
      exact (s1.2.2.1 i e1 hi hg1).1
    · intro i e2 hi hg2
      obtain ⟨ho, t, ht, hkt⟩ := s2.2.2.1 i e2 hi hg2
      exact ⟨hclear _ hkt band index l2 i e2 t hl2 hg2 ht rfl, ho⟩

/-- C5 on the LOD-0 tile at `(0, 90)` of buffer A (address 1) with an empty cache: split and
merge complete and the node is a leaf with its tile again. -/
theorem split_merge_restores_flags_witness :
    ∃ (w1 : World) (n1 : CTerrain) (w2 : World),
      CTerrain.split false emptyWorld (.leaf 1 (some tileNW) true true) = some (w1, n1) ∧
      CTerrain.merge false w1 n1 = some (w2, .leaf 1 (some tileNW) true true) := by
  obtain ⟨w1, n1, w2, h1, h2, -⟩ := split_merge_restores_flags emptyWorld 1 tileNW true true
    (Or.inl rfl) (by decide) (by simp [tileNW, LODdegreeSizeLookUp]) (by simp [tileNW])
    (by simp [tileNW])
    (by
      intro band index l i e t hl hg
      have : l = [] := by
        unfold getShard emptyWorld emptyDataset at hl
        split_ifs at hl <;> simp_all
      subst this
      simp at hg)
  exact ⟨w1, n1, w2, h1, h2⟩

/-- C12 (as stated, refuted): at a distance exactly equal to `T_13 * m` (5200 m with
multiplier 1) the comparison `<` fails and `getLodToRender` returns 12, not 13. -/
theorem getLodToRender_at_threshold :
    (5200 : ℚ) ≤ lodThreshold 13 * 1 ∧ getLodToRender 5200 1 = 12 := by
  constructor
  · norm_num [lodThreshold]
  · norm_num [getLodToRender, CONST_1KM]

/-- What `getLodToRender` returns, read off its cascade of comparisons: a level in `0..13`
that satisfies the strict inequality when it is not `0`, and that no level in `1..13` that
satisfies it exceeds. -/
theorem getLodToRender_largest (d m : ℚ) : ∀ r : Int, getLodToRender d m = r →
    0 ≤ r ∧ r ≤ 13 ∧ (1 ≤ r → d < lodThreshold r * m) ∧
      ∀ L : Int, 1 ≤ L → L ≤ 13 → d < lodThreshold L * m → L ≤ r := by
  have t13 : (5.2 : ℚ) * CONST_1KM * m = lodThreshold 13 * m := by
    norm_num [CONST_1KM, lodThreshold]
  have t12 : (10.4 : ℚ) * CONST_1KM * m = lodThreshold 12 * m := by
    norm_num [CONST_1KM, lodThreshold]
  have t11 : (20.8 : ℚ) * CONST_1KM * m = lodThreshold 11 * m := by
    norm_num [CONST_1KM, lodThreshold]
  have t10 : (41.6 : ℚ) * CONST_1KM * m = lodThreshold 10 * m := by
    norm_num [CONST_1KM, lodThreshold]
  have t9 : (83.2 : ℚ) * CONST_1KM * m = lodThreshold 9 * m := by
    norm_num [CONST_1KM, lodThreshold]
  have t8 : (166.4 : ℚ) * CONST_1KM * m = lodThreshold 8 * m := by
    norm_num [CONST_1KM, lodThreshold]
  have t7 : (332.8 : ℚ) * CONST_1KM * m = lodThreshold 7 * m := by
    norm_num [CONST_1KM, lodThreshold]
  have t6 : (665.6 : ℚ) * CONST_1KM * m = lodThreshold 6 * m := by
    norm_num [CONST_1KM, lodThreshold]
  have t5 : (1331.2 : ℚ) * CONST_1KM * m = lodThreshold 5 * m := by
    norm_num [CONST_1KM, lodThreshold]
  have t4 : (2662.5 : ℚ) * CONST_1KM * m = lodThreshold 4 * m := by
    norm_num [CONST_1KM, lodThreshold]
  have t3 : (5324.9 : ℚ) * CONST_1KM * m = lodThreshold 3 * m := by
    norm_num [CONST_1KM, lodThreshold]
  have t2 : (10649.9 : ℚ) * CONST_1KM * m = lodThreshold 2 * m := by
    norm_num [CONST_1KM, lodThreshold]
  have t1 : (21299.7 : ℚ) * CONST_1KM * m = lodThreshold 1 * m := by
    norm_num [CONST_1KM, lodThreshold]
  intro r hr
  unfold getLodToRender at hr
  rw [t13, t12, t11, t10, t9, t8, t7, t6, t5, t4, t3, t2, t1] at hr
  by_cases h13 : d < lodThreshold 13 * m
  · rw [if_pos h13] at hr
    subst hr
    refine ⟨by norm_num, by norm_num, fun _ => h13, ?_⟩
    intro L hL1 hL2 hL
    by_contra hc
    push_neg at hc
    omega
  rw [if_neg h13] at hr
  by_cases h12 : d < lodThreshold 12 * m
  · rw [if_pos h12] at hr
    subst hr
    refine ⟨by norm_num, by norm_num, fun _ => h12, ?_⟩
    intro L hL1 hL2 hL
    by_contra hc
    push_neg at hc
    interval_cases L
    · exact h13 hL
  rw [if_neg h12] at hr
  by_cases h11 : d < lodThreshold 11 * m
  · rw [if_pos h11] at hr
    subst hr
    refine ⟨by norm_num, by norm_num, fun _ => h11, ?_⟩
    intro L hL1 hL2 hL
    by_contra hc
    push_neg at hc
    interval_cases L
    · exact h12 hL
    · exact h13 hL
  rw [if_neg h11] at hr
  by_cases h10 : d < lodThreshold 10 * m
  · rw [if_pos h10] at hr
    subst hr
    refine ⟨by norm_num, by norm_num, fun _ => h10, ?_⟩
    intro L hL1 hL2 hL
    by_contra hc
    push_neg at hc
    interval_cases L
    · exact h11 hL
    · exact h12 hL
    · exact h13 hL
  rw [if_neg h10] at hr
  by_cases h9 : d < lodThreshold 9 * m
  · rw [if_pos h9] at hr
    subst hr
    refine ⟨by norm_num, by norm_num, fun _ => h9, ?_⟩
    intro L hL1 hL2 hL
    by_contra hc
    push_neg at hc
    interval_cases L
    · exact h10 hL
    · exact h11 hL
    · exact h12 hL
    · exact h13 hL
  rw [if_neg h9] at hr
  by_cases h8 : d < lodThreshold 8 * m
  · rw [if_pos h8] at hr
    subst hr
    refine ⟨by norm_num, by norm_num, fun _ => h8, ?_⟩
    intro L hL1 hL2 hL
    by_contra hc
    push_neg at hc
    interval_cases L
    · exact h9 hL
    · exact h10 hL
    · exact h11 hL
    · exact h12 hL
    · exact h13 hL
  rw [if_neg h8] at hr
  by_cases h7 : d < lodThreshold 7 * m
  · rw [if_pos h7] at hr
    subst hr
    refine ⟨by norm_num, by norm_num, fun _ => h7, ?_⟩
    intro L hL1 hL2 hL
    by_contra hc
    push_neg at hc
    interval_cases L
    · exact h8 hL
    · exact h9 hL
    · exact h10 hL
    · exact h11 hL
    · exact h12 hL
    · exact h13 hL
  rw [if_neg h7] at hr
  by_cases h6 : d < lodThreshold 6 * m
  · rw [if_pos h6] at hr
    subst hr
    refine ⟨by norm_num, by norm_num, fun _ => h6, ?_⟩
    intro L hL1 hL2 hL
    by_contra hc
    push_neg at hc
    interval_cases L
    · exact h7 hL
    · exact h8 hL
    · exact h9 hL
    · exact h10 hL
    · exact h11 hL
    · exact h12 hL
    · exact h13 hL
  rw [if_neg h6] at hr
  by_cases h5 : d < lodThreshold 5 * m
  · rw [if_pos h5] at hr
    subst hr
    refine ⟨by norm_num, by norm_num, fun _ => h5, ?_⟩
    intro L hL1 hL2 hL
    by_contra hc
    push_neg at hc
    interval_cases L
    · exact h6 hL
    · exact h7 hL
    · exact h8 hL
    · exact h9 hL
    · exact h10 hL
    · exact h11 hL
    · exact h12 hL
    · exact h13 hL
  rw [if_neg h5] at hr
  by_cases h4 : d < lodThreshold 4 * m
  · rw [if_pos h4] at hr
    subst hr
    refine ⟨by norm_num, by norm_num, fun _ => h4, ?_⟩
    intro L hL1 hL2 hL
    by_contra hc
    push_neg at hc
    interval_cases L
    · exact h5 hL
    · exact h6 hL
    · exact h7 hL
    · exact h8 hL
    · exact h9 hL
    · exact h10 hL
    · exact h11 hL
    · exact h12 hL
    · exact h13 hL
  rw [if_neg h4] at hr
  by_cases h3 : d < lodThreshold 3 * m
  · rw [if_pos h3] at hr
    subst hr
    refine ⟨by norm_num, by norm_num, fun _ => h3, ?_⟩
    intro L hL1 hL2 hL
    by_contra hc
    push_neg at hc
    interval_cases L
    · exact h4 hL
    · exact h5 hL
    · exact h6 hL
    · exact h7 hL
    · exact h8 hL
    · exact h9 hL
    · exact h10 hL
    · exact h11 hL
    · exact h12 hL
    · exact h13 hL
  rw [if_neg h3] at hr
  by_cases h2 : d < lodThreshold 2 * m
  · rw [if_pos h2] at hr
    subst hr
    refine ⟨by norm_num, by norm_num, fun _ => h2, ?_⟩
    intro L hL1 hL2 hL
    by_contra hc
    push_neg at hc
    interval_cases L
    · exact h3 hL
    · exact h4 hL
    · exact h5 hL
    · exact h6 hL
    · exact h7 hL
    · exact h8 hL
    · exact h9 hL
    · exact h10 hL
    · exact h11 hL
    · exact h12 hL
    · exact h13 hL
  rw [if_neg h2] at hr
  by_cases h1 : d < lodThreshold 1 * m
  · rw [if_pos h1] at hr
    subst hr
    refine ⟨by norm_num, by norm_num, fun _ => h1, ?_⟩
    intro L hL1 hL2 hL
    by_contra hc
    push_neg at hc
    interval_cases L
    · exact h2 hL
    · exact h3 hL
    · exact h4 hL
    · exact h5 hL
    · exact h6 hL
    · exact h7 hL
    · exact h8 hL
    · exact h9 hL
    · exact h10 hL
    · exact h11 hL
    · exact h12 hL
    · exact h13 hL
  rw [if_neg h1] at hr
  subst hr
  refine ⟨by norm_num, by norm_num, fun hpos => absurd hpos (by norm_num), ?_⟩
  intro L hL1 hL2 hL
  by_contra hc
  push_neg at hc
  interval_cases L
  · exact h1 hL
  · exact h2 hL
  · exact h3 hL
  · exact h4 hL
  · exact h5 hL
  · exact h6 hL
  · exact h7 hL
  · exact h8 hL
  · exact h9 hL
  · exact h10 hL
  · exact h11 hL
  · exact h12 hL
  · exact h13 hL

theorem lodThreshold_anti {L L' : Int} (h1 : 1 ≤ L) (h2 : L < L') (h3 : L' ≤ 13) :
    lodThreshold L' < lodThreshold L := by
  have hL : L ≤ 12 := by omega
  interval_cases L <;> interval_cases L' <;> norm_num [lodThreshold]

theorem lodThreshold_nonneg (L : Int) : 0 ≤ lodThreshold L := by
  have key : ∀ (c : Prop) [Decidable c] (a b : ℚ), 0 ≤ a → 0 ≤ b →
      0 ≤ (if c then a else b) := by
    intro c _ a b ha hb
    split <;> assumption
  unfold lodThreshold
  iterate 13 refine key _ _ _ (by norm_num) ?_
  exact le_refl _

/-- C12 (amended): `getLodToRender` returns a level in `0..13`, and it is the largest `L` in
`1..13` with `d < T_L * m` (strictly), `0` when there is none: the returned level, when not
`0`, satisfies the strict inequality, and every `L` in `1..13` whose threshold the distance
misses by more than the rounding of the `double` product, `d < T_L * m * (1 - 2^-53)` with
`m ≥ 2^-1000`, is at most the returned level; with `m ≤ 0` and `d ≥ 0` no level qualifies
and it returns `0`. For `m > 0` it returns `0` when `d` is at least `T_1 * m`, and a
distance exactly equal to `T_L * m` selects level `L - 1`. -/
theorem getLodToRender_spec (d m : ℚ) :
    0 ≤ getLodToRender d m ∧ getLodToRender d m ≤ 13 ∧
    (1 ≤ getLodToRender d m → d < lodThreshold (getLodToRender d m) * m) ∧
    (∀ L : Int, 1 ≤ L → L ≤ 13 → 1 / 2 ^ 1000 ≤ m →
      d < lodThreshold L * m * (1 - 1 / 2 ^ 53) → L ≤ getLodToRender d m) ∧
    (m ≤ 0 → 0 ≤ d → getLodToRender d m = 0) ∧
    (0 < m → lodThreshold 1 * m ≤ d → getLodToRender d m = 0) ∧
    (∀ L : Int, 0 < m → 1 ≤ L → L ≤ 13 → d = lodThreshold L * m →
      getLodToRender d m = L - 1) := by
  obtain ⟨h0, h13, hsat, hmax⟩ := getLodToRender_largest d m _ rfl
  have hno : ∀ L : Int, 0 < m → 1 ≤ L → L ≤ 13 → lodThreshold L * m ≤ d →
      getLodToRender d m < L := by
    intro L hm hL1 hL13 hd
    by_contra hc
    push_neg at hc
    have hr1 : 1 ≤ getLodToRender d m := by omega
    have hlt := hsat hr1
    rcases eq_or_lt_of_le hc with he | hl
    · rw [← he] at hlt; linarith
    · have := lodThreshold_anti hL1 hl h13
      have := mul_lt_mul_of_pos_right this hm
      linarith
  refine ⟨h0, h13, hsat, ?_, ?_, ?_, ?_⟩
  · intro L hL1 hL13 hm hd
    have hm0 : 0 < m := lt_of_lt_of_le (by positivity) hm
    have hT : 0 ≤ lodThreshold L * m := mul_nonneg (lodThreshold_nonneg L) hm0.le
    have hu : (1 : ℚ) - 1 / 2 ^ 53 ≤ 1 := by
      have : (0 : ℚ) ≤ 1 / 2 ^ 53 := by positivity
      linarith
    exact hmax L hL1 hL13 (lt_of_lt_of_le hd (mul_le_of_le_one_right hT hu))
  · intro hm hd
    by_contra hc
    have hr1 : 1 ≤ getLodToRender d m := by omega
    have hlt := hsat hr1
    have := mul_nonpos_of_nonneg_of_nonpos (lodThreshold_nonneg (getLodToRender d m)) hm
    linarith
  · intro hm hd
    have := hno 1 hm (le_refl _) (by norm_num) hd
    omega
  · intro L hm hL1 hL13 hd
    have hlt := hno L hm hL1 hL13 (le_of_eq hd.symm)
    rcases eq_or_lt_of_le hL1 with he | hl
    · omega
    · have hq : d < lodThreshold (L - 1) * m := by
        have := lodThreshold_anti (L := L - 1) (by omega) (by omega) hL13
        have := mul_lt_mul_of_pos_right this hm
        linarith
      have := hmax (L - 1) (by omega) (by omega) hq
      omega

/-- C12 (amended), at a concrete input: at 10000 m with multiplier 1 level 12 qualifies
(`10000 < 10400 * (1 - 2^-53)`), so the returned level is at least 12. -/
theorem getLodToRender_spec_witness : (12 : Int) ≤ getLodToRender 10000 1 :=
  (getLodToRender_spec 10000 1).2.2.2.1 12 (by norm_num) (by norm_num) (by norm_num)
    (by norm_num [lodThreshold])

/-- C16 (as stated, refuted): consumer A (`earthBufferA = 1`) releases the tile `tileNW`
on an empty shard, where its key has no live entry: the call completes (it does not abort)
and reports the caller's tile object as deleted. On `shardHeldByB`, where only consumer B
holds the key, the call of consumer A completes as well. -/
theorem release_without_acquire_completes :
    cachedTerrainDataListFree 1 2 50 [] 1 tileNW false = some ([], true) ∧
    cachedTerrainDataListFree 1 2 50 shardHeldByB 1 tileNWrebuilt false =
      some ([{ terrainData := some tileNW, terrainAinUse := false, terrainBinUse := true,
               time := 50 }], false) := by
  decide

/-- C16 (amended): when a consumer (A or B) calls release for a key on which its own in-use
flag is not set, the operation completes and no entry's flags or tile are modified. If the
key has no live entry the shard is unchanged and the caller's tile object is deleted;
otherwise the tile object is kept and only the time of the key's entry is set to the
current clock. -/
theorem cachedTerrainDataListFree_without_acquire (a b now earth : Nat)
    (l : List CCachedTerrainData) (td : CTerrainData) (d : Bool)
    (hv : earth = a ∨ earth = b)
    (hflag : ∀ (i : Nat) (e : CCachedTerrainData),
      searchEntry td.topLeftLon td.topLeftLat td.LOD l = some i → l[i]? = some e →
      inUseBy a earth e = false) :
    ∃ (l' : List CCachedTerrainData) (deleted : Bool),
      cachedTerrainDataListFree a b now l earth td d = some (l', deleted) ∧
      l'.length = l.length ∧
      (∀ (j : Nat) (e : CCachedTerrainData), l[j]? = some e →
        ∃ e', l'[j]? = some e' ∧ e'.terrainAinUse = e.terrainAinUse ∧
          e'.terrainBinUse = e.terrainBinUse ∧ e'.terrainData = e.terrainData ∧
          (searchEntry td.topLeftLon td.topLeftLat td.LOD l ≠ some j → e' = e) ∧
          (searchEntry td.topLeftLon td.topLeftLat td.LOD l = some j → e'.time = now)) ∧
      (searchEntry td.topLeftLon td.topLeftLat td.LOD l = none → l' = l ∧ deleted = true) ∧
      (searchEntry td.topLeftLon td.topLeftLat td.LOD l ≠ none → deleted = false) := by
  cases hs : searchEntry td.topLeftLon td.topLeftLat td.LOD l with
  | none =>
    refine ⟨l, true, free_miss hv hs, rfl, ?_, fun _ => ⟨rfl, rfl⟩, fun h => absurd rfl h⟩
    intro j e hj
    exact ⟨e, hj, rfl, rfl, rfl, (fun _ => rfl), (fun h => by cases h)⟩
  | some i =>
    obtain ⟨e, t, hg, -⟩ := searchEntry_get hs
    have hfl := hflag i e hs hg
    refine ⟨l.set i (touchEntry a earth false now e), false, free_hit hv hs hg, (by simp), ?_,
      (fun h => by cases h), (fun _ => rfl)⟩
    intro j e0 hj
    by_cases hji : j = i
    · subst hji
      have he : e0 = e := by rw [hg] at hj; cases hj; rfl
      subst he
      have hlt := getElem?_lt_length hg
      refine ⟨touchEntry a earth false now e0, (by simp [List.getElem?_set, hlt]), ?_, ?_,
        touchEntry_terrainData _ _ _ _ _, fun h => absurd rfl h, fun _ => touchEntry_time _ _ _ _ _⟩
      · unfold inUseBy at hfl
        unfold touchEntry setInUse
        by_cases hea : earth = a
        · rw [if_pos hea] at hfl; simp [hea, hfl]
        · simp [hea]
      · unfold inUseBy at hfl
        unfold touchEntry setInUse
        by_cases hea : earth = a
        · simp [hea]
        · rw [if_neg hea] at hfl; simp [hea, hfl]
    · refine ⟨e0, ?_, rfl, rfl, rfl, fun _ => rfl, fun h => ?_⟩
      · rw [List.getElem?_set_ne (Ne.symm hji)]; exact hj
      · exact absurd (Option.some.inj h).symm hji

/-- C16 (amended), at a concrete input: consumer A releases `tileNWrebuilt` on
`shardHeldByB`, where only B holds the key. -/
theorem cachedTerrainDataListFree_without_acquire_witness :
    ∃ (l' : List CCachedTerrainData) (deleted : Bool),
      cachedTerrainDataListFree 1 2 50 shardHeldByB 1 tileNWrebuilt false
        = some (l', deleted) ∧ l'.length = shardHeldByB.length := by
  obtain ⟨l', deleted, h1, h2, -⟩ :=
    cachedTerrainDataListFree_without_acquire 1 2 50 1 shardHeldByB tileNWrebuilt false
      (Or.inl rfl) (by
        intro i e hs hg
        have h0 : searchEntry tileNWrebuilt.topLeftLon tileNWrebuilt.topLeftLat
            tileNWrebuilt.LOD shardHeldByB = some 0 := by decide
        rw [h0] at hs
        cases hs
        simp only [shardHeldByB, List.getElem?_cons_zero, Option.some.injEq] at hg
        subst hg
        rfl)
  exact ⟨l', deleted, h1, h2⟩

/-- C17 (as stated, refuted): for `lon = 0`, `lat = 60` the encoder produces
`N60,00_E000,00.hgt` (commas as decimal marks, `_` as separator), not
`N60.00,E000.00.hgt`. -/
theorem convertLonLatToFileName_example :
    convertLonLatToFileName 0 60 = "N60,00_E000,00.hgt".toList ∧
    convertLonLatToFileName 0 60 ≠ "N60.00,E000.00.hgt".toList := by
  have r1 : roundHalfEven ((0 : ℚ) * 100) = 0 :=
    roundHalfEven_eq_of_near (by norm_num) (by norm_num)
  have r2 : roundHalfEven ((60 : ℚ) * 100) = 6000 :=
    roundHalfEven_eq_of_near (by norm_num) (by norm_num)
  have e1 : convertLonLatToFileName 0 60 = compositeName 'N' 'E' 6000 0 := by
    rw [convertLonLatToFileName_eq (by norm_num) (by norm_num) (by norm_num) (by norm_num)]
    rw [if_pos (by norm_num), if_neg (by norm_num), if_pos (by norm_num),
      if_neg (by norm_num), r1, r2]
    rfl
  rw [e1]
  decide

/-- C17 (amended): for every `lon` in `[0,360)` and `lat` in `[-90,90]`,
`convertLonLatToFileName` produces an 18-character name of the form
`[NS]LL,LL_[EW]LLL,LL.hgt`: side letter, two-digit latitude with `,` as decimal mark and two
decimals, a `_` separator, side letter, three-digit longitude with `,` as decimal mark and
two decimals, then `.hgt` (`compositeName` spells the eighteen characters out; `nLat` and
`nLon` are the absolute latitude and the longitude from the side's meridian in hundredths of
a degree). -/
theorem convertLonLatToFileName_format (lon lat : ℚ) (hlon0 : 0 ≤ lon) (hlon1 : lon < 360)
    (hlat0 : -90 ≤ lat) (hlat1 : lat ≤ 90) :
    ∃ (latSide lonSide : Char) (nLat nLon : Nat),
      (latSide = 'N' ∨ latSide = 'S') ∧ (lonSide = 'E' ∨ lonSide = 'W') ∧
      nLat ≤ 9000 ∧ nLon ≤ 18000 ∧
      convertLonLatToFileName lon lat = compositeName latSide lonSide nLat nLon ∧
      (convertLonLatToFileName lon lat).length = 18 := by
  have e := convertLonLatToFileName_eq hlon0 (le_of_lt hlon1) hlat0 hlat1
  have b1 : (roundHalfEven ((if lon ≥ 180 then 360 - lon else lon) * 100)).toNat ≤ 18000 := by
    have : roundHalfEven ((if lon ≥ 180 then 360 - lon else lon) * 100) ≤ 18000 :=
      roundHalfEven_le (by split_ifs <;> push_cast <;> linarith)
    omega
  have b2 : (roundHalfEven ((if lat ≥ 0 then lat else -1 * lat) * 100)).toNat ≤ 9000 := by
    have : roundHalfEven ((if lat ≥ 0 then lat else -1 * lat) * 100) ≤ 9000 :=
      roundHalfEven_le (by split_ifs <;> push_cast <;> linarith)
    omega
  refine ⟨if lat ≥ 0 then 'N' else 'S', if lon ≥ 180 then 'W' else 'E', _, _, ?_, ?_, b2, b1,
    e, ?_⟩
  · split_ifs
    · exact Or.inl rfl
    · exact Or.inr rfl
  · split_ifs
    · exact Or.inr rfl
    · exact Or.inl rfl
  · rw [e]; rfl

/-- C17 (amended), at a concrete input: `lon = 0`, `lat = 60`. -/
theorem convertLonLatToFileName_format_witness :
    ∃ (latSide lonSide : Char) (nLat nLon : Nat),
      (latSide = 'N' ∨ latSide = 'S') ∧ (lonSide = 'E' ∨ lonSide = 'W') ∧
      nLat ≤ 9000 ∧ nLon ≤ 18000 ∧
      convertLonLatToFileName 0 60 = compositeName latSide lonSide nLat nLon ∧
      (convertLonLatToFileName 0 60).length = 18 :=
  convertLonLatToFileName_format 0 60 (by norm_num) (by norm_num) (by norm_num)
    (by norm_num)

/-- C18: for every integer grid elevation `h`, the vertex gets the constant sea colour
exactly when `h = 0`; for `0 < h ≤ 1500` the HSV input is `H = 170 - 170*h/1500` (within
`[0, 170)`), `S = 170`, `V = 240`; for `1500 < h ≤ 3000` it is
`H = 360 - 100*(h-1500)/1500` (within `[260, 360)`), `S = 170`, `V = 240`; for
`3000 < h ≤ 8000` it is `H = 260`, `S = 170`, `V = 240 - 200*(h-3000)/5000` (within
`[40, 240)`). -/
theorem vertexColour_ramp (h : Int) :
    (vertexColour h = .rgbF 0.2784 0.6431 0.7216 ↔ h = 0) ∧
    (0 < h → h ≤ 1500 →
      vertexColour h = .hsv (170 - 170 * (h : ℚ) / 1500) 170 240 ∧
      0 ≤ 170 - 170 * (h : ℚ) / 1500 ∧ 170 - 170 * (h : ℚ) / 1500 < 170) ∧
    (1500 < h → h ≤ 3000 →
      vertexColour h = .hsv (360 - 100 * ((h : ℚ) - 1500) / 1500) 170 240 ∧
      260 ≤ 360 - 100 * ((h : ℚ) - 1500) / 1500 ∧ 360 - 100 * ((h : ℚ) - 1500) / 1500 < 360) ∧
    (3000 < h → h ≤ 8000 →
      vertexColour h = .hsv 260 170 (240 - 200 * ((h : ℚ) - 3000) / 5000) ∧
      40 ≤ 240 - 200 * ((h : ℚ) - 3000) / 5000 ∧ 240 - 200 * ((h : ℚ) - 3000) / 5000 < 240) := by
  refine ⟨?_, ?_, ?_, ?_⟩
  · constructor
    · intro hc
      by_contra h0
      unfold vertexColour at hc
      rw [if_neg h0] at hc
      simp only [] at hc
      split_ifs at hc
    · intro h0
      subst h0
      rfl
  · intro h0 h1
    have q0 : (0 : ℚ) < h := by exact_mod_cast h0
    have q1 : (h : ℚ) ≤ 1500 := by exact_mod_cast h1
    have hne : h ≠ 0 := by omega
    have c1 : ¬ (170 - 170 * ((h : ℚ) / 1500) < 0) := by
      rw [not_lt]; linarith [div_le_one_of_le₀ q1 (by norm_num : (0 : ℚ) ≤ 1500)]
    refine ⟨?_, by linarith [div_le_one_of_le₀ q1 (by norm_num : (0 : ℚ) ≤ 1500),
      mul_div_assoc (170 : ℚ) (h : ℚ) 1500], by
        have : (0 : ℚ) < 170 * (h : ℚ) / 1500 := by positivity
        linarith⟩
    unfold vertexColour
    rw [if_neg hne]
    simp only []
    rw [if_neg c1, mul_div_assoc]
  · intro h0 h1
    have q0 : (1500 : ℚ) < h := by exact_mod_cast h0
    have q1 : (h : ℚ) ≤ 3000 := by exact_mod_cast h1
    have hne : h ≠ 0 := by omega
    have c1 : 170 - 170 * ((h : ℚ) / 1500) < 0 := by
      have : (1 : ℚ) < (h : ℚ) / 1500 := by rw [lt_div_iff₀ (by norm_num)]; linarith
      linarith
    have hc : (((h - 1500 : Int) : ℚ)) = (h : ℚ) - 1500 := by push_cast; ring
    have c2 : ¬ (360 - 100 * (((h - 1500 : Int) : ℚ) / 1500) < 260) := by
      rw [not_lt, hc]
      have : ((h : ℚ) - 1500) / 1500 ≤ 1 := by rw [div_le_iff₀ (by norm_num)]; linarith
      linarith
    have e : (100 : ℚ) * ((h : ℚ) - 1500) / 1500 = 100 * (((h : ℚ) - 1500) / 1500) := by ring
    have p : (0 : ℚ) < ((h : ℚ) - 1500) / 1500 := by apply div_pos <;> linarith
    have p1 : ((h : ℚ) - 1500) / 1500 ≤ 1 := by rw [div_le_iff₀ (by norm_num)]; linarith
    refine ⟨?_, by rw [e]; linarith, by rw [e]; linarith⟩
    unfold vertexColour
    rw [if_neg hne]
    simp only []
    rw [if_pos c1, if_neg c2, hc, e]
  · intro h0 h1
    have q0 : (3000 : ℚ) < h := by exact_mod_cast h0
    have q1 : (h : ℚ) ≤ 8000 := by exact_mod_cast h1
    have hne : h ≠ 0 := by omega
    have c1 : 170 - 170 * ((h : ℚ) / 1500) < 0 := by
      have : (1 : ℚ) < (h : ℚ) / 1500 := by rw [lt_div_iff₀ (by norm_num)]; linarith
      linarith
    have hc : (((h - 1500 : Int) : ℚ)) = (h : ℚ) - 1500 := by push_cast; ring
    have hc3 : (((h - 3000 : Int) : ℚ)) = (h : ℚ) - 3000 := by push_cast; ring
    have c2 : 360 - 100 * (((h - 1500 : Int) : ℚ) / 1500) < 260 := by
      rw [hc]
      have : (1 : ℚ) < ((h : ℚ) - 1500) / 1500 := by rw [lt_div_iff₀ (by norm_num)]; linarith
      linarith
    have p : (0 : ℚ) < ((h : ℚ) - 3000) / 5000 := by apply div_pos <;> linarith
    have p1 : ((h : ℚ) - 3000) / 5000 ≤ 1 := by rw [div_le_iff₀ (by norm_num)]; linarith
    have c3 : ¬ (240 - 200 * (((h - 3000 : Int) : ℚ) / 5000) < 40) := by
      rw [not_lt, hc3]; linarith
    have e : (200 : ℚ) * ((h : ℚ) - 3000) / 5000 = 200 * (((h : ℚ) - 3000) / 5000) := by ring
    refine ⟨?_, by rw [e]; linarith, by rw [e]; linarith⟩
    unfold vertexColour
    rw [if_neg hne]
    simp only []
    rw [if_pos c1, if_pos c2, if_neg c3, hc3, e]

/-- C18, at concrete inputs: the knees `h = 1500`, `h = 3000` and `h = 8000` belong to the
lower segment. -/
theorem vertexColour_ramp_witness :
    vertexColour 1500 = .hsv (170 - 170 * ((1500 : Int) : ℚ) / 1500) 170 240 ∧
    vertexColour 3000 = .hsv (360 - 100 * (((3000 : Int) : ℚ) - 1500) / 1500) 170 240 ∧
    vertexColour 8000 = .hsv 260 170 (240 - 200 * (((8000 : Int) : ℚ) - 3000) / 5000) :=
  ⟨((vertexColour_ramp 1500).2.1 (by norm_num) (by norm_num)).1,
   ((vertexColour_ramp 3000).2.2.1 (by norm_num) (by norm_num)).1,
   ((vertexColour_ramp 8000).2.2.2 (by norm_num) (by norm_num)).1⟩

/-- C19 (the code at the failing input): the elevation 9000 survives the clamp, and its HSV
input has `V = 40 + 215*1000/850 = 4980/17`, which is above 255, the top of the range the
ramp is built for (`215 = 255 - 40`). -/
theorem vertexColour_9000_exceeds_255 :
    errorValueClamp 9000 = 9000 ∧ vertexColour 9000 = .hsv 260 170 (4980 / 17) ∧
    (255 : ℚ) < 4980 / 17 := by
  refine ⟨by decide, ?_, by norm_num⟩
  unfold vertexColour
  norm_num

/-- Above 8000 m: for every grid elevation `h` with `8000 < h ≤ 9000` (the largest value
that survives the clamp), the HSV input is `H = 260`, `S = 170` and
`V = 40 + 215*(h-8000)/850`, which rises from 40 and is within `40..255` exactly when
`h ≤ 8850`. -/
theorem vertexColour_above_8000 (h : Int) (h0 : 8000 < h) (h1 : h ≤ 9000) :
    errorValueClamp h = h ∧
    vertexColour h = .hsv 260 170 (40 + 215 * ((h : ℚ) - 8000) / 850) ∧
    40 < 40 + 215 * ((h : ℚ) - 8000) / 850 ∧
    (40 + 215 * ((h : ℚ) - 8000) / 850 ≤ 255 ↔ h ≤ 8850) := by
  have q0 : (8000 : ℚ) < h := by exact_mod_cast h0
  have hne : h ≠ 0 := by omega
  have c1 : 170 - 170 * ((h : ℚ) / 1500) < 0 := by
    have : (1 : ℚ) < (h : ℚ) / 1500 := by rw [lt_div_iff₀ (by norm_num)]; linarith
    linarith
  have hc : (((h - 1500 : Int) : ℚ)) = (h : ℚ) - 1500 := by push_cast; ring
  have hc3 : (((h - 3000 : Int) : ℚ)) = (h : ℚ) - 3000 := by push_cast; ring
  have hc8 : (((h - 8000 : Int) : ℚ)) = (h : ℚ) - 8000 := by push_cast; ring
  have c2 : 360 - 100 * (((h - 1500 : Int) : ℚ) / 1500) < 260 := by
    rw [hc]
    have : (1 : ℚ) < ((h : ℚ) - 1500) / 1500 := by rw [lt_div_iff₀ (by norm_num)]; linarith
    linarith
  have c3 : 240 - 200 * (((h - 3000 : Int) : ℚ) / 5000) < 40 := by
    rw [hc3]
    have : (1 : ℚ) < ((h : ℚ) - 3000) / 5000 := by rw [lt_div_iff₀ (by norm_num)]; linarith
    linarith
  have e : (215 : ℚ) * ((h : ℚ) - 8000) / 850 = 215 * (((h : ℚ) - 8000) / 850) := by ring
  have p : (0 : ℚ) < ((h : ℚ) - 8000) / 850 := by apply div_pos <;> linarith
  refine ⟨?_, ?_, by rw [e]; linarith, ?_⟩
  · unfold errorValueClamp
    rw [if_neg (by omega)]
  · unfold vertexColour
    rw [if_neg hne]
    simp only []
    rw [if_pos c1, if_pos c2, if_pos c3, hc8, e]
  · rw [e]
    constructor
    · intro hv
      have : ((h : ℚ) - 8000) / 850 ≤ 1 := by linarith
      rw [div_le_iff₀ (by norm_num)] at this
      have : (h : ℚ) ≤ 8850 := by linarith
      exact_mod_cast this
    · intro hv
      have q1 : (h : ℚ) ≤ 8850 := by exact_mod_cast hv
      have : ((h : ℚ) - 8000) / 850 ≤ 1 := by rw [div_le_iff₀ (by norm_num)]; linarith
      linarith

/-- The ramp above 8000 m at a concrete input: `h = 8850` gives `V = 255`. -/
theorem vertexColour_above_8000_witness :
    vertexColour 8850 = .hsv 260 170 (40 + 215 * (((8850 : Int) : ℚ) - 8000) / 850) ∧
    (40 + 215 * (((8850 : Int) : ℚ) - 8000) / 850 ≤ 255) :=
  ⟨(vertexColour_above_8000 8850 (by norm_num) (by norm_num)).2.1,
   (vertexColour_above_8000 8850 (by norm_num) (by norm_num)).2.2.2.2 (by norm_num)⟩

/-- What `setEarthPointXYZ` leaves in the three Cartesian members, for every camera and
every argument: `z` in `earthPointX`, `y` in `earthPointY`, and `earthPointZ` as it was. -/
theorem setEarthPointXYZ_stored (sph : ℚ → ℚ → ℚ → ℚ × ℚ × ℚ) (cam : CCamera) (x y z : ℚ)
    (fromAnimation : Bool) :
    CCamera.getEarthPointXYZ (CCamera.setEarthPointXYZ sph cam x y z fromAnimation) =
      (z, y, cam.earthPointZ) := rfl

/-- C20 (the code at the failing input): after `setEarthPointXYZ(1, 2, 3, false)` on
`cameraAtPole` (whose `earthPointZ` is 0), `getEarthPointXYZ` returns `(3, 2, 0)`, not
`(1, 2, 3)`: the third assignment writes `z` into `earthPointX` and `earthPointZ` is never
assigned. -/
theorem setEarthPointXYZ_writes_z_into_x :
    CCamera.getEarthPointXYZ
        (CCamera.setEarthPointXYZ sphericalStub cameraAtPole 1 2 3 false) = (3, 2, 0) ∧
    CCamera.getEarthPointXYZ
        (CCamera.setEarthPointXYZ sphericalStub cameraAtPole 1 2 3 false) ≠ (1, 2, 3) := by
  decide

theorem cachedTerrainDataInfoEntry_notInUse (s : CacheInfo) (e : CCachedTerrainData) :
    (cachedTerrainDataInfoEntry s e).cachedTerrainDataNotInUseCount =
      s.cachedTerrainDataNotInUseCount + (if notInUse e = true then 1 else 0) := by
  unfold cachedTerrainDataInfoEntry notInUse
  cases hd : e.terrainData <;> cases ha : e.terrainAinUse <;> cases hb : e.terrainBinUse <;>
    simp
  all_goals split_ifs <;> rfl

theorem cachedTerrainDataInfoEntry_min (s : CacheInfo) (e : CCachedTerrainData) :
    (cachedTerrainDataInfoEntry s e).cacheMinNotInUseTime =
      if notInUse e = true ∧ e.time < s.cacheMinNotInUseTime then e.time
      else s.cacheMinNotInUseTime := by
  unfold cachedTerrainDataInfoEntry notInUse
  cases hd : e.terrainData <;> cases ha : e.terrainAinUse <;> cases hb : e.terrainBinUse <;>
    simp
  all_goals split_ifs <;> rfl

theorem minOver_trans {P Q R : CCachedTerrainData → Prop} {m0 m1 m2 : Nat}
    (h1 : MinOver P m0 m1) (h2 : MinOver Q m1 m2) (hP : ∀ e, P e → R e)
    (hQ : ∀ e, Q e → R e) (hR : ∀ e, R e → P e ∨ Q e) : MinOver R m0 m2 := by
  obtain ⟨a1, b1, c1⟩ := h1
  obtain ⟨a2, b2, c2⟩ := h2
  refine ⟨a2.trans a1, ?_, ?_⟩
  · intro e he
    rcases hR e he with h | h
    · exact a2.trans (b1 e h)
    · exact b2 e h
  · rcases c2 with h | ⟨e, he, ht⟩
    · rcases c1 with h' | ⟨e, he, ht⟩
      · left; rw [h, h']
      · right; exact ⟨e, hP e he, by rw [h, ht]⟩
    · right; exact ⟨e, hQ e he, ht⟩

theorem minOver_refl (P : CCachedTerrainData → Prop) (hP : ∀ e, ¬ P e) (m : Nat) :
    MinOver P m m :=
  ⟨le_refl _, fun e he => absurd he (hP e), Or.inl rfl⟩

theorem foldl_infoEntry (l : List CCachedTerrainData) (s : CacheInfo) :
    (l.foldl cachedTerrainDataInfoEntry s).cachedTerrainDataNotInUseCount =
        s.cachedTerrainDataNotInUseCount + (l.countP notInUse : Nat) ∧
    MinOver (fun e => e ∈ l ∧ notInUse e = true) s.cacheMinNotInUseTime
      (l.foldl cachedTerrainDataInfoEntry s).cacheMinNotInUseTime := by
  induction l generalizing s with
  | nil =>
    refine ⟨by simp, minOver_refl _ (fun e h => by simp at h) _⟩
  | cons e rest ih =>
    obtain ⟨hc, hm⟩ := ih (cachedTerrainDataInfoEntry s e)
    rw [List.foldl_cons]
    constructor
    · rw [hc, cachedTerrainDataInfoEntry_notInUse, List.countP_cons]
      split_ifs <;> push_cast <;> ring
    · have h1 : MinOver (fun x => x = e ∧ notInUse x = true) s.cacheMinNotInUseTime
          (cachedTerrainDataInfoEntry s e).cacheMinNotInUseTime := by
        rw [cachedTerrainDataInfoEntry_min]
        split_ifs with h
        · exact ⟨le_of_lt h.2, fun x hx => by rw [hx.1], Or.inr ⟨e, ⟨rfl, h.1⟩, rfl⟩⟩
        · refine ⟨le_refl _, fun x hx => ?_, Or.inl rfl⟩
          rw [hx.1]
          by_contra hlt
          exact h ⟨by rw [← hx.1]; exact hx.2, by omega⟩
      refine minOver_trans h1 hm ?_ ?_ ?_
      · intro x hx; exact ⟨by rw [hx.1]; exact List.mem_cons_self _ _, hx.2⟩
      · intro x hx; exact ⟨List.mem_cons_of_mem _ hx.1, hx.2⟩
      · intro x hx
        rcases List.mem_cons.1 hx.1 with h | h
        · left; exact ⟨h, hx.2⟩
        · right; exact ⟨h, hx.2⟩

theorem cacheInfoShard_spec (s : CacheInfo) (l : List CCachedTerrainData) :
    (cacheInfoShard s l).cachedTerrainDataNotInUseCount =
        s.cachedTerrainDataNotInUseCount + (l.countP notInUse : Nat) ∧
    MinOver (fun e => e ∈ l ∧ notInUse e = true) s.cacheMinNotInUseTime
      (cacheInfoShard s l).cacheMinNotInUseTime := by
  obtain ⟨hc, hm⟩ := foldl_infoEntry l
    { cachedTerrainDataCount := (l.length : Int), cachedTerrainDataInUseCount := 0,
      cachedTerrainDataNotInUseCount := 0, cachedTerrainDataEmptyEntryCount := 0,
      cacheMinNotInUseTime := s.cacheMinNotInUseTime }
  constructor
  · simp only [cacheInfoShard, cachedTerrainDataInfo]
    rw [hc]; simp
  · exact hm

theorem notInUseCountOf_succ (n : Nat) (group : Int → List CCachedTerrainData) :
    notInUseCountOf (n + 1) group =
      notInUseCountOf n group + (group (n : Int)).countP notInUse := by
  simp [notInUseCountOf, List.range_succ]

theorem infoLoop_spec (group : Int → List CCachedTerrainData) (n : Nat) (s : CacheInfo) :
    (forLoop ((n : Nat) : Int) (fun i s => cacheInfoShard s (group i))
        s).cachedTerrainDataNotInUseCount =
        s.cachedTerrainDataNotInUseCount + (notInUseCountOf n group : Nat) ∧
    MinOver (NotInUseIn n group) s.cacheMinNotInUseTime
      (forLoop ((n : Nat) : Int) (fun i s => cacheInfoShard s (group i))
        s).cacheMinNotInUseTime := by
  induction n with
  | zero =>
    rw [forLoop_zero]
    refine ⟨by simp [notInUseCountOf], minOver_refl _ ?_ _⟩
    rintro e ⟨i, hi, -⟩
    omega
  | succ n ih =>
    obtain ⟨hc, hm⟩ := ih
    rw [forLoop_succ]
    obtain ⟨hc', hm'⟩ := cacheInfoShard_spec
      (forLoop ((n : Nat) : Int) (fun i s => cacheInfoShard s (group i)) s) (group (n : Int))
    constructor
    · rw [hc', hc, notInUseCountOf_succ]
      push_cast; ring
    · refine minOver_trans hm hm' ?_ ?_ ?_
      · rintro e ⟨i, hi, he⟩; exact ⟨i, by omega, he⟩
      · rintro e ⟨he, hu⟩; exact ⟨n, by omega, he, hu⟩
      · rintro e ⟨i, hi, he, hu⟩
        by_cases hin : i = n
        · right; subst hin; exact ⟨he, hu⟩
        · left; exact ⟨i, by omega, he, hu⟩

theorem shardCount_eq : shardCount 0 = ((18 : Nat) : Int) ∧ shardCount 1 = ((288 : Nat) : Int) ∧
    shardCount 2 = ((4608 : Nat) : Int) := by
  have f1 : ⌊(6 : ℚ)⌋ = 6 := by norm_num
  have f2 : ⌊(3 : ℚ)⌋ = 3 := by norm_num
  have f3 : ⌊(24 : ℚ)⌋ = 24 := by norm_num
  have f4 : ⌊(12 : ℚ)⌋ = 12 := by norm_num
  have f5 : ⌊(96 : ℚ)⌋ = 96 := by norm_num
  have f6 : ⌊(48 : ℚ)⌋ = 48 := by norm_num
  refine ⟨?_, ?_, ?_⟩ <;> simp only [shardCount, castInt] <;> norm_num [f1, f2, f3, f4, f5, f6]

/-- What `cacheInfo` reports: the number of entries not in use is the number of entries with
a tile and both flags clear, and the minimum is the least time among them, capped by
`25*3600*1000`. -/
theorem cacheInfo_spec (cm : CCacheManager) :
    (cacheInfo cm).cachedTerrainDataNotInUseCount = (cacheNotInUseCount cm : Nat) ∧
    MinOver (NotInUseInCache cm) (25 * 3600 * 1000) (cacheInfo cm).cacheMinNotInUseTime := by
  obtain ⟨e0, e1, e2⟩ := shardCount_eq
  simp only [cacheInfo, e0, e1, e2]
  obtain ⟨c0, m0⟩ := infoLoop_spec cm.cachedTerrainDataGroup_L00_L03 18
    { cachedTerrainDataCount := 0, cachedTerrainDataInUseCount := 0,
      cachedTerrainDataNotInUseCount := 0, cachedTerrainDataEmptyEntryCount := 0,
      cacheMinNotInUseTime := 25 * 3600 * 1000 }
  generalize forLoop ((18 : Nat) : Int) (fun i s =>
    cacheInfoShard s (cm.cachedTerrainDataGroup_L00_L03 i))
    { cachedTerrainDataCount := 0, cachedTerrainDataInUseCount := 0,
      cachedTerrainDataNotInUseCount := 0, cachedTerrainDataEmptyEntryCount := 0,
      cacheMinNotInUseTime := 25 * 3600 * 1000 } = s0 at c0 m0 ⊢
  obtain ⟨c1, m1⟩ := infoLoop_spec cm.cachedTerrainDataGroup_L04_L08 288 s0
  generalize forLoop ((288 : Nat) : Int) (fun i s =>
    cacheInfoShard s (cm.cachedTerrainDataGroup_L04_L08 i)) s0 = s1 at c1 m1 ⊢
  obtain ⟨c2, m2⟩ := infoLoop_spec cm.cachedTerrainDataGroup_L09_L13 4608 s1
  generalize forLoop ((4608 : Nat) : Int) (fun i s =>
    cacheInfoShard s (cm.cachedTerrainDataGroup_L09_L13 i)) s1 = s2 at c2 m2 ⊢
  constructor
  · rw [c2, c1, c0]
    simp only [cacheNotInUseCount]
    push_cast; ring
  · have m01 : MinOver (fun e => NotInUseIn 18 cm.cachedTerrainDataGroup_L00_L03 e ∨
        NotInUseIn 288 cm.cachedTerrainDataGroup_L04_L08 e) (25 * 3600 * 1000)
        s1.cacheMinNotInUseTime :=
      minOver_trans m0 m1 (fun e h => Or.inl h) (fun e h => Or.inr h) (fun e h => h)
    refine minOver_trans m01 m2 ?_ ?_ ?_
    · rintro e (h | h)
      · exact Or.inl h
      · exact Or.inr (Or.inl h)
    · intro e h; exact Or.inr (Or.inr h)
    · rintro e (h | h | h)
      · exact Or.inl (Or.inl h)
      · exact Or.inl (Or.inr h)
      · exact Or.inr h

theorem deleteNotInUse_eq_map (earth olderThan : Nat) (l : List CCachedTerrainData) :
    (deleteNotInUse earth olderThan l).1 =
      l.map (fun e => (deleteNotInUseEntry earth olderThan e).1) := by
  induction l with
  | nil => rfl
  | cons e rest ih => simp [deleteNotInUse, ih]

theorem notInUse_deleteNotInUseEntry (earth olderThan : Nat) (e : CCachedTerrainData) :
    notInUse (deleteNotInUseEntry earth olderThan e).1 =
      (notInUse e && decide (olderThan ≤ e.time)) := by
  by_cases ht : e.time < olderThan
  · have hd : decide (olderThan ≤ e.time) = false := by simp; omega
    rw [hd, Bool.and_false]
    rcases deleteNotInUseEntry_cases earth olderThan e with h | ⟨h, -⟩
    · cases hu : notInUse e with
      | false => rw [h, hu]
      | true =>
        have hu' := hu
        simp only [notInUse, Bool.and_eq_true, Bool.not_eq_true'] at hu'
        rw [deleteNotInUseEntry_evict hu'.1.1 hu'.1.2 ht]
        simp [notInUse]
    · rw [h]; simp [notInUse]
  · have hd : decide (olderThan ≤ e.time) = true := by simp; omega
    rw [hd, Bool.and_true, deleteNotInUseEntry_keep (Or.inr (Or.inr (by omega)))]

theorem countP_lt_of_exists {p q : CCachedTerrainData → Bool} :
    ∀ (l : List CCachedTerrainData), (∀ x, p x = true → q x = true) →
      (∃ x, x ∈ l ∧ q x = true ∧ p x = false) → l.countP p < l.countP q := by
  intro l hpq
  induction l with
  | nil => rintro ⟨x, hx, -⟩; simp at hx
  | cons e rest ih =>
    rintro ⟨x, hx, hq, hp⟩
    have hle : rest.countP p ≤ rest.countP q := List.countP_mono_left (fun y _ => hpq y)
    rcases List.mem_cons.1 hx with h | h
    · subst h
      rw [List.countP_cons_of_pos _ _ hq, List.countP_cons_of_neg _ _ (by simp [hp])]
      omega
    · have := ih ⟨x, h, hq, hp⟩
      rw [List.countP_cons, List.countP_cons]
      by_cases hpe : p e = true
      · rw [if_pos hpe, if_pos (hpq e hpe)]; omega
      · rw [if_neg hpe]; split_ifs <;> omega

theorem countP_deleteNotInUse (earth olderThan : Nat) (l : List CCachedTerrainData) :
    (deleteNotInUse earth olderThan l).1.countP notInUse =
      l.countP (fun e => notInUse e && decide (olderThan ≤ e.time)) := by
  rw [deleteNotInUse_eq_map, List.countP_map]
  congr 1
  funext e
  exact notInUse_deleteNotInUseEntry earth olderThan e

theorem countP_deleteNotInUse_le (earth olderThan : Nat) (l : List CCachedTerrainData) :
    (deleteNotInUse earth olderThan l).1.countP notInUse ≤ l.countP notInUse := by
  rw [countP_deleteNotInUse]
  exact List.countP_mono_left (fun e _ h => by
    simp only [Bool.and_eq_true] at h; exact h.1)

theorem countP_deleteNotInUse_lt (earth olderThan : Nat) {l : List CCachedTerrainData}
    {e : CCachedTerrainData} (he : e ∈ l) (hu : notInUse e = true) (ht : e.time < olderThan) :
    (deleteNotInUse earth olderThan l).1.countP notInUse < l.countP notInUse := by
  rw [countP_deleteNotInUse]
  refine countP_lt_of_exists l (fun x h => ?_) ⟨e, he, hu, ?_⟩
  · simp only [Bool.and_eq_true] at h; exact h.1
  · simp [hu]; omega

theorem mem_deleteNotInUse_time (earth olderThan : Nat) {l : List CCachedTerrainData}
    {e : CCachedTerrainData} (he : e ∈ (deleteNotInUse earth olderThan l).1)
    (hu : notInUse e = true) : olderThan ≤ e.time := by
  rw [deleteNotInUse_eq_map, List.mem_map] at he
  obtain ⟨e0, -, rfl⟩ := he
  rw [notInUse_deleteNotInUseEntry] at hu
  simp only [Bool.and_eq_true, decide_eq_true_eq] at hu
  rcases deleteNotInUseEntry_cases earth olderThan e0 with h | ⟨-, -, -, h⟩
  · rw [h]; exact hu.2
  · omega

theorem deleteNotInUseLoop_apply (earth olderThan : Nat) (n : Nat)
    (group : Int → List CCachedTerrainData) (i : Int) :
    (deleteNotInUseLoop earth olderThan (n : Int) group).1 i =
      if 0 ≤ i ∧ i < (n : Int) then (deleteNotInUse earth olderThan (group i)).1
      else group i := by
  unfold deleteNotInUseLoop
  induction n with
  | zero =>
    rw [forLoop_zero, if_neg]
    rintro ⟨h0, h1⟩; simp at h1; omega
  | succ n ih =>
    rw [forLoop_succ]
    by_cases hin : i = (n : Int)
    · subst hin
      have ih' := ih
      rw [if_neg (by omega)] at ih'
      simp only [Function.update_same]
      rw [if_pos (by push_cast; omega)]
      rw [ih']
    · simp only [Function.update_noteq hin]
      rw [ih]
      by_cases h : 0 ≤ i ∧ i < (n : Int)
      · rw [if_pos h, if_pos ⟨h.1, by push_cast; omega⟩]
      · rw [if_neg h, if_neg (by push_cast; omega)]

theorem sweptBand_le (earth olderThan : Nat) (n : Nat) (group : Int → List CCachedTerrainData) :
    ∀ m : Nat, m ≤ n →
      notInUseCountOf m (deleteNotInUseLoop earth olderThan (n : Int) group).1 ≤
        notInUseCountOf m group := by
  intro m
  induction m with
  | zero => intro _; simp [notInUseCountOf]
  | succ m ih =>
    intro hm
    rw [notInUseCountOf_succ, notInUseCountOf_succ, deleteNotInUseLoop_apply,
      if_pos ⟨by omega, by omega⟩]
    have := ih (by omega)
    have := countP_deleteNotInUse_le earth olderThan (group (m : Int))
    omega

theorem sweptBand_lt (earth olderThan : Nat) (n : Nat) (group : Int → List CCachedTerrainData)
    {e : CCachedTerrainData} (ht : e.time < olderThan) :
    ∀ m : Nat, m ≤ n → NotInUseIn m group e →
      notInUseCountOf m (deleteNotInUseLoop earth olderThan (n : Int) group).1 <
        notInUseCountOf m group := by
  intro m
  induction m with
  | zero => rintro _ ⟨i, hi, -⟩; omega
  | succ m ih =>
    rintro hm ⟨i, hi, he, hu⟩
    rw [notInUseCountOf_succ, notInUseCountOf_succ, deleteNotInUseLoop_apply,
      if_pos ⟨by omega, by omega⟩]
    by_cases him : i = m
    · subst him
      have := sweptBand_le earth olderThan n group i (by omega)
      have := countP_deleteNotInUse_lt earth olderThan he hu ht
      omega
    · have := ih (by omega) ⟨i, by omega, he, hu⟩
      have := countP_deleteNotInUse_le earth olderThan (group (m : Int))
      omega

theorem sweptBand_time (earth olderThan : Nat) (n : Nat)
    (group : Int → List CCachedTerrainData) {e : CCachedTerrainData}
    (h : NotInUseIn n (deleteNotInUseLoop earth olderThan (n : Int) group).1 e) :
    olderThan ≤ e.time := by
  obtain ⟨i, hi, he, hu⟩ := h
  rw [deleteNotInUseLoop_apply, if_pos ⟨by omega, by omega⟩] at he
  exact mem_deleteNotInUse_time earth olderThan he hu

theorem cacheKeepSize_eq_sweep (cm : CCacheManager) (info : CacheInfo) (earth : Nat)
    (h1 : info.cacheMinNotInUseTime ≤ 24 * 3600 * 1000)
    (h2 : 50000 < info.cachedTerrainDataNotInUseCount) :
    cacheKeepSize cm info earth =
      ({ cm with
          cachedTerrainDataGroup_L00_L03 := (deleteNotInUseLoop earth
            (info.cacheMinNotInUseTime + 5000) ((18 : Nat) : Int)
            cm.cachedTerrainDataGroup_L00_L03).1,
          cachedTerrainDataGroup_L04_L08 := (deleteNotInUseLoop earth
            (info.cacheMinNotInUseTime + 5000) ((288 : Nat) : Int)
            cm.cachedTerrainDataGroup_L04_L08).1,
          cachedTerrainDataGroup_L09_L13 := (deleteNotInUseLoop earth
            (info.cacheMinNotInUseTime + 5000) ((4608 : Nat) : Int)
            cm.cachedTerrainDataGroup_L09_L13).1 },
        (deleteNotInUseLoop earth (info.cacheMinNotInUseTime + 5000)
            ((18 : Nat) : Int) cm.cachedTerrainDataGroup_L00_L03).2 ++
          (deleteNotInUseLoop earth (info.cacheMinNotInUseTime + 5000)
            ((288 : Nat) : Int) cm.cachedTerrainDataGroup_L04_L08).2 ++
          (deleteNotInUseLoop earth (info.cacheMinNotInUseTime + 5000)
            ((4608 : Nat) : Int) cm.cachedTerrainDataGroup_L09_L13).2) := by
  obtain ⟨e0, e1, e2⟩ := shardCount_eq
  unfold cacheKeepSize
  rw [if_neg (by omega), if_pos (by unfold CACHE_MAX_UNUSED_TERRAIN_DATA; omega), e0, e1, e2]

/-- C15 (amended): `cacheInfo` counts the entries whose tile is present and whose two
in-use flags are both clear; after `cacheInfo` followed by `cacheKeepSize` their number
has not grown. The pass changes
nothing when that number is at most 50000 or when the least time among those entries is
above `24*3600*1000`; otherwise it evicts every such entry touched less than 5000 ms after
the oldest one, so the number strictly decreases and every such entry left has a time of at
least the least time plus 5000. -/
theorem cacheKeepSize_spec (cm : CCacheManager) (earth : Nat) :
    (cacheInfo cm).cachedTerrainDataNotInUseCount = (cacheNotInUseCount cm : Nat) ∧
    cacheNotInUseCount (cacheKeepSize cm (cacheInfo cm) earth).1 ≤ cacheNotInUseCount cm ∧
    (cacheNotInUseCount cm ≤ 50000 → cacheKeepSize cm (cacheInfo cm) earth = (cm, [])) ∧
    (24 * 3600 * 1000 < (cacheInfo cm).cacheMinNotInUseTime →
      cacheKeepSize cm (cacheInfo cm) earth = (cm, [])) ∧
    (50000 < cacheNotInUseCount cm →
      (cacheInfo cm).cacheMinNotInUseTime ≤ 24 * 3600 * 1000 →
      cacheNotInUseCount (cacheKeepSize cm (cacheInfo cm) earth).1 < cacheNotInUseCount cm ∧
      ∀ e, NotInUseInCache (cacheKeepSize cm (cacheInfo cm) earth).1 e →
        (cacheInfo cm).cacheMinNotInUseTime + 5000 ≤ e.time) := by
  obtain ⟨hcount, hmin⟩ := cacheInfo_spec cm
  obtain ⟨e0, e1, e2⟩ := shardCount_eq
  have hsmall : cacheNotInUseCount cm ≤ 50000 →
      cacheKeepSize cm (cacheInfo cm) earth = (cm, []) := by
    intro h
    unfold cacheKeepSize
    split_ifs with h1 h2
    · rfl
    · rw [hcount] at h2
      unfold CACHE_MAX_UNUSED_TERRAIN_DATA at h2
      omega
    · rfl
  have hold : 24 * 3600 * 1000 < (cacheInfo cm).cacheMinNotInUseTime →
      cacheKeepSize cm (cacheInfo cm) earth = (cm, []) := by
    intro h
    unfold cacheKeepSize
    rw [if_pos h]
  have hsweep : 50000 < cacheNotInUseCount cm →
      (cacheInfo cm).cacheMinNotInUseTime ≤ 24 * 3600 * 1000 →
      cacheNotInUseCount (cacheKeepSize cm (cacheInfo cm) earth).1 < cacheNotInUseCount cm ∧
      ∀ e, NotInUseInCache (cacheKeepSize cm (cacheInfo cm) earth).1 e →
        (cacheInfo cm).cacheMinNotInUseTime + 5000 ≤ e.time := by
    intro hbig hyoung
    have hk := cacheKeepSize_eq_sweep cm (cacheInfo cm) earth hyoung (by rw [hcount]; omega)
    rw [hk]
    simp only [NotInUseInCache, cacheNotInUseCount]
    have l0 := sweptBand_le earth ((cacheInfo cm).cacheMinNotInUseTime + 5000) 18
      cm.cachedTerrainDataGroup_L00_L03 18 (le_refl _)
    have l1 := sweptBand_le earth ((cacheInfo cm).cacheMinNotInUseTime + 5000) 288
      cm.cachedTerrainDataGroup_L04_L08 288 (le_refl _)
    have l2 := sweptBand_le earth ((cacheInfo cm).cacheMinNotInUseTime + 5000) 4608
      cm.cachedTerrainDataGroup_L09_L13 4608 (le_refl _)
    constructor
    · obtain ⟨-, -, hex⟩ := hmin
      rcases hex with h | ⟨e, he, ht⟩
      · omega
      · have ht' : e.time < (cacheInfo cm).cacheMinNotInUseTime + 5000 := by omega
        rcases he with h | h | h
        · have := sweptBand_lt earth _ 18 cm.cachedTerrainDataGroup_L00_L03 ht' 18
            (le_refl _) h
          omega
        · have := sweptBand_lt earth _ 288 cm.cachedTerrainDataGroup_L04_L08 ht' 288
            (le_refl _) h
          omega
        · have := sweptBand_lt earth _ 4608 cm.cachedTerrainDataGroup_L09_L13 ht' 4608
            (le_refl _) h
          omega
    · rintro e (h | h | h)
      · exact sweptBand_time earth ((cacheInfo cm).cacheMinNotInUseTime + 5000) 18
          cm.cachedTerrainDataGroup_L00_L03 h
      · exact sweptBand_time earth ((cacheInfo cm).cacheMinNotInUseTime + 5000) 288
          cm.cachedTerrainDataGroup_L04_L08 h
      · exact sweptBand_time earth ((cacheInfo cm).cacheMinNotInUseTime + 5000) 4608
          cm.cachedTerrainDataGroup_L09_L13 h
  refine ⟨hcount, ?_, hsmall, hold, hsweep⟩
  by_cases h1 : cacheNotInUseCount cm ≤ 50000
  · rw [hsmall h1]
  · by_cases h2 : 24 * 3600 * 1000 < (cacheInfo cm).cacheMinNotInUseTime
    · rw [hold h2]
    · exact le_of_lt (hsweep (by omega) (by omega)).1

theorem notInUseCountOf_congr (n : Nat) (g g' : Int → List CCachedTerrainData)
    (h : ∀ i : Nat, i < n → g (i : Int) = g' (i : Int)) :
    notInUseCountOf n g = notInUseCountOf n g' := by
  induction n with
  | zero => rfl
  | succ n ih =>
    rw [notInUseCountOf_succ, notInUseCountOf_succ, ih (fun i hi => h i (by omega)),
      h n (by omega)]

theorem notInUseCountOf_empty (n : Nat) : notInUseCountOf n (fun _ => []) = 0 := by
  induction n with
  | zero => rfl
  | succ n ih => rw [notInUseCountOf_succ, ih]; rfl

theorem notInUseCountOf_single (n : Nat) (hn : 0 < n) (l : List CCachedTerrainData) :
    notInUseCountOf n (fun i => if i = 0 then l else []) = l.countP notInUse := by
  induction n with
  | zero => omega
  | succ n ih =>
    rw [notInUseCountOf_succ]
    by_cases h0 : n = 0
    · subst h0
      show 0 + List.countP notInUse (if ((0 : Nat) : Int) = 0 then l else []) = _
      rw [if_pos (by norm_num), Nat.zero_add]
    · rw [ih (by omega)]
      show _ + List.countP notInUse (if (n : Int) = 0 then l else []) = _
      rw [if_neg (by omega)]
      rfl

/-- The count of a cache whose only entries are those of the shard 0 of the band L09-L13. -/
theorem cacheNotInUseCount_single (cm : CCacheManager) (l : List CCachedTerrainData)
    (h0 : cm.cachedTerrainDataGroup_L00_L03 = fun _ => [])
    (h1 : cm.cachedTerrainDataGroup_L04_L08 = fun _ => [])
    (h2 : cm.cachedTerrainDataGroup_L09_L13 = fun i => if i = 0 then l else []) :
    cacheNotInUseCount cm = l.countP notInUse := by
  unfold cacheNotInUseCount
  rw [h0, h1, h2, notInUseCountOf_empty, notInUseCountOf_empty,
    notInUseCountOf_single 4608 (by norm_num) l]
  omega

/-- The bounding pass on a cache whose only entries are those of the shard 0 of the band
L09-L13, when that shard holds more than 50000 entries not in use, one of them touched at
time 0: the entries not in use that are left are those touched at 5000 or later. -/
theorem cacheKeepSize_single (cm : CCacheManager) (l : List CCachedTerrainData) (earth : Nat)
    (h0 : cm.cachedTerrainDataGroup_L00_L03 = fun _ => [])
    (h1 : cm.cachedTerrainDataGroup_L04_L08 = fun _ => [])
    (h2 : cm.cachedTerrainDataGroup_L09_L13 = fun i => if i = 0 then l else [])
    (hbig : 50000 < l.countP notInUse) {e : CCachedTerrainData} (he : e ∈ l)
    (hu : notInUse e = true) (ht : e.time = 0) :
    cacheNotInUseCount (cacheKeepSize cm (cacheInfo cm) earth).1 =
      l.countP (fun x => notInUse x && decide (5000 ≤ x.time)) := by
  obtain ⟨hc, -, hm, -⟩ := cacheInfo_spec cm
  have hmin : (cacheInfo cm).cacheMinNotInUseTime = 0 := by
    have := hm e (Or.inr (Or.inr ⟨0, by norm_num, by
      rw [h2]
      show e ∈ (if ((0 : Nat) : Int) = 0 then l else [])
      rw [if_pos (by norm_num)]
      exact he, hu⟩))
    omega
  have hcnt := cacheNotInUseCount_single cm l h0 h1 h2
  rw [cacheKeepSize_eq_sweep cm (cacheInfo cm) earth (by omega) (by rw [hc]; omega), hmin]
  simp only [cacheNotInUseCount, Nat.zero_add]
  rw [h0, h1, h2]
  rw [notInUseCountOf_congr 18 _ (fun _ => []) (fun i hi => by
      rw [deleteNotInUseLoop_apply, if_pos ⟨by omega, by omega⟩]; rfl),
    notInUseCountOf_congr 288 _ (fun _ => []) (fun i hi => by
      rw [deleteNotInUseLoop_apply, if_pos ⟨by omega, by omega⟩]; rfl),
    notInUseCountOf_congr 4608 _
      (fun i => if i = 0 then (deleteNotInUse earth 5000 l).1 else [])
      (fun i hi => by
        rw [deleteNotInUseLoop_apply, if_pos ⟨by omega, by omega⟩]
        show (deleteNotInUse earth 5000 (if (i : Int) = 0 then l else [])).1 =
          if (i : Int) = 0 then (deleteNotInUse earth 5000 l).1 else []
        split_ifs
        · rfl
        · rfl),
    notInUseCountOf_empty, notInUseCountOf_empty,
    notInUseCountOf_single 4608 (by norm_num), countP_deleteNotInUse]
  omega

theorem countP_cons_map_range (p : CCachedTerrainData → Bool) (e0 : CCachedTerrainData)
    (f : Nat → CCachedTerrainData) (n : Nat) (hf : ∀ k, p (f k) = true) :
    (e0 :: (List.range n).map f).countP p = (if p e0 = true then 1 else 0) + n := by
  have h : List.countP (p ∘ f) (List.range n) = (List.range n).length :=
    List.countP_eq_length.2 (fun k _ => hf k)
  rw [List.countP_cons, List.countP_map, h, List.length_range]
  omega

/-- C15 (as stated, refuted): `crowdedCache` holds 50002 entries with a tile and both flags
clear, one touched at time 0 and 50001 touched at time 10000. `cacheInfo` reports the least
time 0; `cacheKeepSize` then sweeps once with `olderThan = 5000`, which evicts the oldest
entry only: 50001 such entries are left, more than 50000. -/
theorem cacheKeepSize_leaves_more_than_bound :
    cacheNotInUseCount crowdedCache = 50002 ∧
    cacheNotInUseCount (cacheKeepSize crowdedCache (cacheInfo crowdedCache) 1).1 = 50001 := by
  have c1 : crowdedShard.countP notInUse = 1 + 50001 :=
    countP_cons_map_range notInUse _ _ 50001 (fun _ => rfl)
  have c2 : crowdedShard.countP (fun x => notInUse x && decide (5000 ≤ x.time)) = 0 + 50001 :=
    countP_cons_map_range _ _ _ 50001 (fun _ => rfl)
  constructor
  · rw [cacheNotInUseCount_single crowdedCache crowdedShard rfl rfl rfl, c1]
  · rw [cacheKeepSize_single crowdedCache crowdedShard 1 rfl rfl rfl (by rw [c1]; norm_num)
      (List.mem_cons_self _ _) rfl rfl, c2]

/-- C15 (amended), at a concrete input: on `crowdedCache` the pass strictly lowers the
number of entries with a tile and both flags clear. -/
theorem cacheKeepSize_spec_witness :
    cacheNotInUseCount (cacheKeepSize crowdedCache (cacheInfo crowdedCache) 1).1 <
      cacheNotInUseCount crowdedCache := by
  have c1 : crowdedShard.countP notInUse = 1 + 50001 :=
    countP_cons_map_range notInUse _ _ 50001 (fun _ => rfl)
  have hcnt := cacheNotInUseCount_single crowdedCache crowdedShard rfl rfl rfl
  obtain ⟨-, -, hm, -⟩ := cacheInfo_spec crowdedCache
  have hmin : (cacheInfo crowdedCache).cacheMinNotInUseTime ≤ 0 :=
    hm { terrainData := some (tileL13 0), terrainAinUse := false, terrainBinUse := false,
         time := 0 }
      (Or.inr (Or.inr ⟨0, by norm_num, List.mem_cons_self _ _, rfl⟩))
  exact ((cacheKeepSize_spec crowdedCache 1).2.2.2.2 (by omega) (by omega)).1

theorem cacheWF_setShard {cm : CCacheManager} (hc : CacheWF cm) {band : Nat} (hb : band < 3)
    (index : Int) {l : List CCachedTerrainData}
    (hl : ∀ (i : Nat) (e : CCachedTerrainData) (t : CTerrainData), l[i]? = some e →
      e.terrainData = some t → TileWF t) :
    CacheWF (setShard cm band index l) := by
  intro band' index' l' i e t hg hi ht
  rw [getShard_setShard cm hb] at hg
  split_ifs at hg with h
  · cases hg; exact hl i e t hi ht
  · exact hc band' index' l' i e t hg hi ht

theorem shardWF_touch {l : List CCachedTerrainData}
    (hl : ∀ (i : Nat) (e : CCachedTerrainData) (t : CTerrainData), l[i]? = some e →
      e.terrainData = some t → TileWF t)
    {j : Nat} {e0 : CCachedTerrainData} (hj : l[j]? = some e0) (a earth : Nat) (v : Bool)
    (now : Nat) :
    ∀ (i : Nat) (e : CCachedTerrainData) (t : CTerrainData),
      (l.set j (touchEntry a earth v now e0))[i]? = some e → e.terrainData = some t →
      TileWF t := by
  intro i e t hi ht
  by_cases hij : i = j
  · subst hij
    rw [List.getElem?_set_self (getElem?_lt_length hj)] at hi
    cases hi
    rw [touchEntry_terrainData] at ht
    exact hl i e0 t hj ht
  · rw [List.getElem?_set_ne (Ne.symm hij)] at hi
    exact hl i e t hi ht

theorem shardWF_append {l : List CCachedTerrainData}
    (hl : ∀ (i : Nat) (e : CCachedTerrainData) (t : CTerrainData), l[i]? = some e →
      e.terrainData = some t → TileWF t)
    {enew : CCachedTerrainData} {tnew : CTerrainData} (hd : enew.terrainData = some tnew)
    (hw : TileWF tnew) :
    ∀ (i : Nat) (e : CCachedTerrainData) (t : CTerrainData),
      (l ++ [enew])[i]? = some e → e.terrainData = some t → TileWF t := by
  intro i e t hi ht
  by_cases hlt : i < l.length
  · rw [List.getElem?_append_left hlt] at hi
    exact hl i e t hi ht
  · rw [List.getElem?_append_right (by omega)] at hi
    have h0 : i - l.length = 0 := by
      by_contra hne
      rw [List.getElem?_eq_none (by simp; omega)] at hi
      cases hi
    rw [h0] at hi
    simp only [List.getElem?_cons_zero, Option.some.injEq] at hi
    subst hi
    rw [hd] at ht
    cases ht
    exact hw

theorem tileWF_initTerrainData (ptr : Nat) {lon : ℚ} (lat : ℚ) (lod : Nat) (h0 : 0 ≤ lon)
    (h1 : lon < 720) : TileWF (CTerrainData.initTerrainData ptr lon lat lod) := by
  have hd := LODdegreeSizeLookUp_pos lod
  have hr := correctLon_range h0 h1
  have hle : LODdegreeSizeLookUp lod ≤ 60 := by
    rw [LODdegreeSizeLookUp_eq, div_le_iff₀ (by positivity)]
    have : (1 : ℚ) ≤ 2 ^ lod := one_le_pow₀ (by norm_num)
    linarith
  refine ⟨?_, ?_, hd.le, le_trans hle (by norm_num)⟩
  · show 0 ≤ (findTopLeftCorner lon lat (LODdegreeSizeLookUp lod)).1
    rw [findTopLeftCorner_fst_eq]
    have hnn : (0 : ℚ) ≤ (⌊correctLon lon / LODdegreeSizeLookUp lod⌋ : Int) := by
      exact_mod_cast Int.floor_nonneg.2 (div_nonneg hr.1 hd.le)
    exact mul_nonneg hnn hd.le
  · show (findTopLeftCorner lon lat (LODdegreeSizeLookUp lod)).1 < 360
    rw [findTopLeftCorner_fst_eq]
    have hfl : ((⌊correctLon lon / LODdegreeSizeLookUp lod⌋ : Int) : ℚ) ≤
        correctLon lon / LODdegreeSizeLookUp lod := Int.floor_le _
    have : ((⌊correctLon lon / LODdegreeSizeLookUp lod⌋ : Int) : ℚ) * LODdegreeSizeLookUp lod ≤
        correctLon lon := by
      rwa [le_div_iff₀ hd] at hfl
    linarith [hr.2]

/-- `cacheTerrainDataFree` by one of the two consumers completes; it keeps the buffers and
`CacheWF`. -/
theorem free_total (cm : CCacheManager) (now earth : Nat) (td : CTerrainData) (d : Bool)
    (hv : earth = cm.earthBufferA ∨ earth = cm.earthBufferB) :
    ∃ cm', cacheTerrainDataFree cm now earth td d = some cm' ∧
      cm'.earthBufferA = cm.earthBufferA ∧ cm'.earthBufferB = cm.earthBufferB ∧
      (CacheWF cm → CacheWF cm') := by
  obtain ⟨l, hl⟩ := getShard_isSome cm (keyBand_lt (keyOf td)) (keyIndex (keyOf td))
  have hfree := cacheTerrainDataFree_eq cm now earth td d hl
  cases hs : searchEntry td.topLeftLon td.topLeftLat td.LOD l with
  | none =>
    rw [free_miss hv hs] at hfree
    refine ⟨_, hfree, by simp, by simp, fun hc => ?_⟩
    exact cacheWF_setShard hc (keyBand_lt _) _ (fun i e t hi ht => hc _ _ l i e t hl hi ht)
  | some j =>
    obtain ⟨e, t, hg, -⟩ := searchEntry_get hs
    rw [free_hit hv hs hg] at hfree
    refine ⟨_, hfree, by simp, by simp, fun hc => ?_⟩
    exact cacheWF_setShard hc (keyBand_lt _) _
      (shardWF_touch (fun i e t hi ht => hc _ _ l i e t hl hi ht) hg _ _ _ _)

/-- `CTerrain::initTerrainData` by one of the two consumers, for a level up to 13 and a
longitude within `[0, 720)`, completes with a tile of the requested key; it keeps the
buffers and `CacheWF`, and under `CacheWF` the tile satisfies `TileWF`. -/
theorem initTerrainData_total (w : World) (earth : Nat) (lon lat : ℚ) (lod : Nat) (d : Bool)
    (hv : earth = w.cm.earthBufferA ∨ earth = w.cm.earthBufferB)
    (hlod : lod ≤ 13) (h0 : 0 ≤ lon) (h1 : lon < 720) :
    ∃ w' t, CTerrain.initTerrainData w earth lon lat lod d = some (w', some t) ∧
      keyOf t = requestKey lon lat lod ∧
      w'.cm.earthBufferA = w.cm.earthBufferA ∧ w'.cm.earthBufferB = w.cm.earthBufferB ∧
      (CacheWF w.cm → CacheWF w'.cm ∧ TileWF t) := by
  have hkey : keyOf (CTerrainData.initTerrainData w.heapNext lon lat lod) =
      requestKey lon lat lod := rfl
  have hwf0 := tileWF_initTerrainData w.heapNext lat lod h0 h1
  cases d with
  | true =>
    exact ⟨_, _, rfl, hkey, rfl, rfl, fun hc => ⟨hc, hwf0⟩⟩
  | false =>
    obtain ⟨l, hl⟩ := getShard_isSome w.cm (HGTsourceLookUp_lt lod)
      (hgtSourceIndex lon lat lod)
    have hkb : HGTsourceLookUp lod = keyBand (requestKey lon lat lod) := by
      simp [keyBand, requestKey_toNat]
    have hki : hgtSourceIndex lon lat lod = keyIndex (requestKey lon lat lod) := by
      simp only [keyIndex, requestKey_toNat]
      exact (hgtSourceIndex_requestKey hlod h0 h1).symm
    have hfind := cacheTerrainDataFind_eq w.cm (w.clock w.ops) lon lat lod earth hl
    cases hsearch : searchEntry (requestKey lon lat lod).1 (requestKey lon lat lod).2.1
        (lod : Int) l with
    | some j =>
      obtain ⟨e, t, hg, hd, hk1, hk2, hk3⟩ := searchEntry_get hsearch
      rw [find_hit hv hsearch hg, hd] at hfind
      simp only [Option.map_some'] at hfind
      refine ⟨World.mk (setShard w.cm (HGTsourceLookUp lod) (hgtSourceIndex lon lat lod)
          (l.set j (touchEntry w.cm.earthBufferA earth true (w.clock w.ops) e)))
          w.heapNext w.clock (w.ops + 1), t, ?_, ?_, by simp, by simp,
        fun hc => ⟨?_, hc _ _ l j e t hl hg hd⟩⟩
      · simp only [CTerrain.initTerrainData, hfind, Bool.not_false, Bool.not_true, if_true]
        rfl
      · unfold keyOf requestKey
        rw [hk1, hk2, hk3]; rfl
      · exact cacheWF_setShard hc (HGTsourceLookUp_lt lod) _
          (shardWF_touch (fun i e t hi ht => hc _ _ l i e t hl hi ht) hg _ _ _ _)
    | none =>
      rw [find_miss hv hsearch] at hfind
      simp only [Option.map_some'] at hfind
      have hl1 : getShard (setShard w.cm (HGTsourceLookUp lod) (hgtSourceIndex lon lat lod) l)
          (keyBand (keyOf (CTerrainData.initTerrainData w.heapNext lon lat lod)))
          (keyIndex (keyOf (CTerrainData.initTerrainData w.heapNext lon lat lod))) =
          some l := by
        rw [hkey, ← hkb, ← hki, getShard_setShard _ (HGTsourceLookUp_lt lod),
          if_pos ⟨rfl, rfl⟩]
      have hreg := cacheTerrainDataRegister_eq
        (setShard w.cm (HGTsourceLookUp lod) (hgtSourceIndex lon lat lod) l)
        (w.clock (w.ops + 1)) earth (CTerrainData.initTerrainData w.heapNext lon lat lod) hl1
      rw [register_miss (by simpa using hv) hsearch] at hreg
      simp only [Option.map_some'] at hreg
      refine ⟨World.mk (setShard
          (setShard w.cm (HGTsourceLookUp lod) (hgtSourceIndex lon lat lod) l)
          (keyBand (keyOf (CTerrainData.initTerrainData w.heapNext lon lat lod)))
          (keyIndex (keyOf (CTerrainData.initTerrainData w.heapNext lon lat lod)))
          (l ++ [{ touchEntry
              (setShard w.cm (HGTsourceLookUp lod) (hgtSourceIndex lon lat lod) l).earthBufferA
              earth true (w.clock (w.ops + 1)) CCachedTerrainData.new with
            terrainData := some (CTerrainData.initTerrainData w.heapNext lon lat lod) }]))
          (w.heapNext + 1) w.clock (w.ops + 2),
        CTerrainData.initTerrainData w.heapNext lon lat lod, ?_, hkey, by simp, by simp,
        fun hc => ⟨?_, hwf0⟩⟩
      · simp only [CTerrain.initTerrainData, hfind, Bool.not_false, if_true, hreg]
      · refine cacheWF_setShard (cacheWF_setShard hc (HGTsourceLookUp_lt lod) _
          (fun i e t hi ht => hc _ _ l i e t hl hi ht)) (keyBand_lt _) _ ?_
        exact shardWF_append (fun i e t hi ht => hc _ _ l i e t hl hi ht) rfl hwf0

theorem initTerrainData_ok {a b : Nat} {w : World} (hw : WorldOK a b w) {earth : Nat}
    (hv : earth = a ∨ earth = b) (lon lat : ℚ) {lod : Nat} (d : Bool) (hlod : lod ≤ 13)
    (h0 : 0 ≤ lon) (h1 : lon < 720) :
    ∃ w' t, CTerrain.initTerrainData w earth lon lat lod d = some (w', some t) ∧
      keyOf t = requestKey lon lat lod ∧ WorldOK a b w' ∧ TileWF t := by
  obtain ⟨ha, hb, hc⟩ := hw
  obtain ⟨w', t, h, hk, ha', hb', hwf⟩ := initTerrainData_total w earth lon lat lod d
    (by rw [ha, hb]; exact hv) hlod h0 h1
  exact ⟨w', t, h, hk, ⟨ha'.trans ha, hb'.trans hb, (hwf hc).1⟩, (hwf hc).2⟩

theorem free_ok {a b : Nat} {w : World} (hw : WorldOK a b w) {earth : Nat}
    (hv : earth = a ∨ earth = b) (td : CTerrainData) (d : Bool) :
    ∃ cm', cacheTerrainDataFree w.cm (w.clock w.ops) earth td d = some cm' ∧
      WorldOK a b (World.mk cm' w.heapNext w.clock (w.ops + 1)) := by
  obtain ⟨ha, hb, hc⟩ := hw
  obtain ⟨cm', h, ha', hb', hwf⟩ := free_total w.cm (w.clock w.ops) earth td d
    (by rw [ha, hb]; exact hv)
  exact ⟨cm', h, ha'.trans ha, hb'.trans hb, hwf hc⟩

theorem destroy_ok {a b : Nat} (d : Bool) :
    ∀ (n : CTerrain) {w : World}, WorldOK a b w → TreeWF a b n →
      ∃ w', CTerrain.destroy d n w = some w' ∧ WorldOK a b w' := by
  intro n
  induction n with
  | leaf earth td v f =>
    intro w hw hn
    obtain ⟨hv, t, rfl, -⟩ := hn
    obtain ⟨cm', hfree, hok⟩ := free_ok hw hv t d
    refine ⟨_, ?_, hok⟩
    simp only [CTerrain.destroy, hfree, Option.map_some']
  | node earth td v f c1 c2 c3 c4 ih1 ih2 ih3 ih4 =>
    intro w hw hn
    obtain ⟨⟨hv, t, rfl, -⟩, h1, h2, h3, h4⟩ := hn
    obtain ⟨cm', hfree, hok⟩ := free_ok hw hv t d
    obtain ⟨w1, e1, ok1⟩ := ih1 hok h1
    obtain ⟨w2, e2, ok2⟩ := ih2 ok1 h2
    obtain ⟨w3, e3, ok3⟩ := ih3 ok2 h3
    obtain ⟨w4, e4, ok4⟩ := ih4 ok3 h4
    refine ⟨w4, ?_, ok4⟩
    simp only [CTerrain.destroy, hfree, Option.map_some', Option.some_bind, e1, e2, e3, e4]

theorem merge_ok {a b : Nat} (d : Bool) {w : World} (hw : WorldOK a b w) {n : CTerrain}
    (hn : TreeWF a b n) :
    ∃ w' n', CTerrain.merge d w n = some (w', n') ∧ WorldOK a b w' ∧ TreeWF a b n' := by
  cases n with
  | leaf earth td v f => exact ⟨w, _, rfl, hw, hn⟩
  | node earth td v f c1 c2 c3 c4 =>
    obtain ⟨hself, h1, h2, h3, h4⟩ := hn
    obtain ⟨w1, e1, ok1⟩ := destroy_ok d c1 hw h1
    obtain ⟨w2, e2, ok2⟩ := destroy_ok d c2 ok1 h2
    obtain ⟨w3, e3, ok3⟩ := destroy_ok d c3 ok2 h3
    obtain ⟨w4, e4, ok4⟩ := destroy_ok d c4 ok3 h4
    refine ⟨w4, .leaf earth td v f, ?_, ok4, hself⟩
    simp only [CTerrain.merge, e1, e2, e3, e4, Option.some_bind, Option.map_some']

/-- What `merge` leaves of the node, whenever it completes: no children, the same tile and
the same `visible`. -/
theorem merge_shape {d : Bool} {w : World} {n : CTerrain} {r : World × CTerrain}
    (h : CTerrain.merge d w n = some r) :
    r.2.hasChildren = false ∧ r.2.terrainData = n.terrainData ∧ r.2.visible = n.visible := by
  obtain ⟨w', n'⟩ := r
  cases n with
  | leaf earth td v f =>
    simp only [CTerrain.merge, Option.some.injEq, Prod.mk.injEq] at h
    rw [← h.2]
    exact ⟨rfl, rfl, rfl⟩
  | node earth td v f c1 c2 c3 c4 =>
    simp only [CTerrain.merge, Option.map_eq_some'] at h
    obtain ⟨w4, -, h4⟩ := h
    simp only [Prod.mk.injEq] at h4
    rw [← h4.2]
    exact ⟨rfl, rfl, rfl⟩

/-- What `split` leaves of the node, whenever it completes: four children, the same tile
and the same `visible`. -/
theorem split_shape {d : Bool} {w w' : World} {n n' : CTerrain}
    (h : CTerrain.split d w n = some (w', n')) :
    n'.hasChildren = true ∧ n'.terrainData = n.terrainData ∧ n'.visible = n.visible := by
  cases n with
  | node earth td v f c1 c2 c3 c4 =>
    simp only [CTerrain.split, Option.some.injEq, Prod.mk.injEq] at h
    rw [← h.2]
    exact ⟨rfl, rfl, rfl⟩
  | leaf earth td v f =>
    cases td with
    | none => simp [CTerrain.split] at h
    | some t =>
      simp only [CTerrain.split, Option.bind_eq_some, Option.map_eq_some'] at h
      obtain ⟨r1, -, r2, -, r3, -, r4, -, h4⟩ := h
      simp only [Prod.mk.injEq] at h4
      rw [← h4.2]
      exact ⟨rfl, rfl, rfl⟩

theorem keyOf_LOD {t : CTerrainData} {lon lat : ℚ} {lod : Nat}
    (h : keyOf t = requestKey lon lat lod) : t.LOD = (lod : Int) := by
  have := congrArg (fun k => k.2.2) h
  simpa [keyOf, requestKey] using this

/-- `split` on a well-formed node below level 13 completes with four children; each child
needs at least one unit of fuel less than the node. -/
theorem split_ok {a b : Nat} (d : Bool) {w : World} (hw : WorldOK a b w) {n : CTerrain}
    (hn : TreeWF a b n) (hlod : ∀ t, n.terrainData = some t → t.LOD < 13) :
    ∃ w1 e t v f c1 c2 c3 c4,
      CTerrain.split d w n = some (w1, .node e t v f c1 c2 c3 c4) ∧ WorldOK a b w1 ∧
      TreeWF a b (.node e t v f c1 c2 c3 c4) ∧
      c1.fuelFor + 1 ≤ n.fuelFor ∧ c2.fuelFor + 1 ≤ n.fuelFor ∧
      c3.fuelFor + 1 ≤ n.fuelFor ∧ c4.fuelFor + 1 ≤ n.fuelFor := by
  cases n with
  | node earth td v f c1 c2 c3 c4 =>
    refine ⟨w, earth, td, v, f, c1, c2, c3, c4, rfl, hw, hn, ?_, ?_, ?_, ?_⟩ <;>
      simp only [CTerrain.fuelFor] <;> omega
  | leaf earth td v f =>
    obtain ⟨hv, t, rfl, ht0, ht1, hd0, hd1⟩ := hn
    have hL : t.LOD < 13 := hlod t rfl
    have hlod' : (t.LOD + 1).toNat ≤ 13 := by omega
    obtain ⟨w1, t1, e1, k1, ok1, wf1⟩ := initTerrainData_ok hw hv t.topLeftLon t.topLeftLat d
      hlod' ht0 (by linarith)
    obtain ⟨w2, t2, e2, k2, ok2, wf2⟩ := initTerrainData_ok ok1 hv
      (t.topLeftLon + t.degreeSize / 2) t.topLeftLat d hlod' (by linarith) (by linarith)
    obtain ⟨w3, t3, e3, k3, ok3, wf3⟩ := initTerrainData_ok ok2 hv t.topLeftLon
      (t.topLeftLat - t.degreeSize / 2) d hlod' ht0 (by linarith)
    obtain ⟨w4, t4, e4, k4, ok4, wf4⟩ := initTerrainData_ok ok3 hv
      (t.topLeftLon + t.degreeSize / 2) (t.topLeftLat - t.degreeSize / 2) d hlod'
      (by linarith) (by linarith)
    have l1 := keyOf_LOD k1
    have l2 := keyOf_LOD k2
    have l3 := keyOf_LOD k3
    have l4 := keyOf_LOD k4
    refine ⟨w4, earth, some t, v, f, .leaf earth (some t1) false false,
      .leaf earth (some t2) false false, .leaf earth (some t3) false false,
      .leaf earth (some t4) false false, ?_, ok4,
      ⟨⟨hv, t, rfl, ht0, ht1, hd0, hd1⟩, ⟨hv, t1, rfl, wf1⟩, ⟨hv, t2, rfl, wf2⟩,
        ⟨hv, t3, rfl, wf3⟩, ⟨hv, t4, rfl, wf4⟩⟩, ?_, ?_, ?_, ?_⟩
    · simp only [CTerrain.split, e1, e2, e3, e4, Option.some_bind, Option.map_some']
    · simp only [CTerrain.fuelFor, l1]; omega
    · simp only [CTerrain.fuelFor, l2]; omega
    · simp only [CTerrain.fuelFor, l3]; omega
    · simp only [CTerrain.fuelFor, l4]; omega

theorem treeWF_setFlags {a b : Nat} {n : CTerrain} (h : TreeWF a b n) (v f : Bool) :
    TreeWF a b (n.setFlags v f) := by
  cases n <;> exact h

theorem treeWF_setVisible {a b : Nat} {n : CTerrain} (h : TreeWF a b n) (v : Bool) :
    TreeWF a b (n.setVisible v) := by
  cases n <;> exact h

theorem fuelFor_setFlags (n : CTerrain) (v f : Bool) : (n.setFlags v f).fuelFor = n.fuelFor := by
  cases n <;> rfl

theorem fuelFor_setVisible (n : CTerrain) (v : Bool) : (n.setVisible v).fuelFor = n.fuelFor := by
  cases n <;> rfl

theorem terrainData_setFlags (n : CTerrain) (v f : Bool) :
    (n.setFlags v f).terrainData = n.terrainData := by
  cases n <;> rfl

theorem terrainData_setVisible (n : CTerrain) (v : Bool) :
    (n.setVisible v).terrainData = n.terrainData := by
  cases n <;> rfl

theorem visible_setFlags (n : CTerrain) (v f : Bool) : (n.setFlags v f).visible = v := by
  cases n <;> rfl

theorem visible_setVisible (n : CTerrain) (v : Bool) : (n.setVisible v).visible = v := by
  cases n <;> rfl

theorem treeWF_terrainData {a b : Nat} {n : CTerrain} (h : TreeWF a b n) :
    ∃ t, n.terrainData = some t := by
  cases n with
  | leaf earth td v f => obtain ⟨-, t, rfl, -⟩ := h; exact ⟨t, rfl⟩
  | node earth td v f c1 c2 c3 c4 => obtain ⟨⟨-, t, rfl, -⟩, -⟩ := h; exact ⟨t, rfl⟩

theorem getLodToRender_le (x m : ℚ) : getLodToRender x m ≤ 13 :=
  (getLodToRender_largest x m _ rfl).2.1

/-- `updateTerrainTree` on a well-formed tree in a well-formed world, with the fuel
`fuelFor` asks for, completes and leaves both well-formed. -/
theorem updateTerrainTree_ok {a b : Nat} (dss : CDrawingStateSnapshot) :
    ∀ (fuel : Nat) (s : World × CPerformance) (n : CTerrain), WorldOK a b s.1 →
      TreeWF a b n → n.fuelFor ≤ fuel →
      ∃ s' n', CTerrain.updateTerrainTree dss fuel s n = some (s', n') ∧
        WorldOK a b s'.1 ∧ TreeWF a b n' := by
  intro fuel
  induction fuel with
  | zero =>
    intro s n _ _ hf
    cases n with
    | leaf earth td v f =>
      cases td <;> simp only [CTerrain.fuelFor] at hf <;> omega
    | node earth td v f c1 c2 c3 c4 => simp only [CTerrain.fuelFor] at hf; omega
  | succ fuel ih =>
    intro s n hw hn hf
    obtain ⟨td, htd⟩ := treeWF_terrainData hn
    have hn1 := treeWF_setFlags hn (getTerrainVisibility dss td).1
      (getTerrainVisibility dss td).2
    unfold CTerrain.updateTerrainTree
    simp only [htd]
    by_cases hvis : (getTerrainVisibility dss td).1 = true
    · rw [if_neg (by simp [hvis])]
      have hn2 : TreeWF a b
          (if lodToRenderOf dss td < td.LOD then
            (n.setFlags (getTerrainVisibility dss td).1
              (getTerrainVisibility dss td).2).setVisible false
          else n.setFlags (getTerrainVisibility dss td).1
            (getTerrainVisibility dss td).2) := by
        split_ifs
        · exact treeWF_setVisible hn1 false
        · exact hn1
      by_cases hgt : lodToRenderOf dss td > td.LOD
      · rw [if_pos hgt, if_neg (by omega)]
        have hL : td.LOD < 13 := lt_of_lt_of_le hgt (getLodToRender_le _ _)
        obtain ⟨w1, e, t, v, f, c1, c2, c3, c4, hsplit, ok1, hwf, f1, f2, f3, f4⟩ :=
          split_ok dss.dontUseCache hw hn1 (fun t' ht' => by
            rw [terrainData_setFlags, htd] at ht'
            cases ht'; exact hL)
        rw [if_neg (by omega)] at hn2
        rw [fuelFor_setFlags] at f1 f2 f3 f4
        obtain ⟨hself, h1, h2, h3, h4⟩ := hwf
        obtain ⟨s1, n1, u1, sok1, nok1⟩ := ih (w1, s.2) c1 ok1 h1 (by omega)
        obtain ⟨s2, n2, u2, sok2, nok2⟩ := ih s1 c2 sok1 h2 (by omega)
        obtain ⟨s3, n3, u3, sok3, nok3⟩ := ih s2 c3 sok2 h3 (by omega)
        obtain ⟨s4, n4, u4, sok4, nok4⟩ := ih s3 c4 sok3 h4 (by omega)
        refine ⟨(s4.1, s4.2.count td.LOD), .node e t v f n1 n2 n3 n4, ?_, sok4,
          ⟨hself, nok1, nok2, nok3, nok4⟩⟩
        simp only [hsplit, u1, u2, u3, u4, Option.some_bind, Option.map_some']
      · rw [if_neg hgt, if_pos (by omega)]
        obtain ⟨w', n', hm, ok, hwf⟩ := merge_ok dss.dontUseCache hw hn2
        refine ⟨(w', s.2.count td.LOD), n', ?_, ok, hwf⟩
        simp only [hm, Option.map_some']
    · rw [if_pos (by simpa using hvis)]
      obtain ⟨w', n', hm, ok, hwf⟩ := merge_ok dss.dontUseCache hw hn1
      refine ⟨(w', { s.2 with terrainsInTree := s.2.terrainsInTree + 1 }), n', ?_, ok, hwf⟩
      simp only [hm, Option.map_some']

/-- C13: after `updateTerrainTree` on a node with tile `td` of level `L = td.LOD`, the node
keeps its tile and (a) if the visibility test fails it is marked not visible and has no
children; (b) otherwise, with `L* = getLodToRender`, it is marked not visible exactly when
`L* < L`, it has four children exactly when `L* > L` (the four children `split` leaves,
each updated in the order NW, NE, SW, SE), and it has no children when `L* ≤ L`. The call
completes on every well-formed tree in a well-formed world, given the fuel `fuelFor` asks
for. -/
theorem updateTerrainTree_decision (dss : CDrawingStateSnapshot) (fuel : Nat)
    (s : World × CPerformance) (n : CTerrain) (td : CTerrainData)
    (htd : n.terrainData = some td) :
    (∀ s' n', CTerrain.updateTerrainTree dss fuel s n = some (s', n') →
      n'.terrainData = some td ∧
      ((getTerrainVisibility dss td).1 = false →
        n'.visible = false ∧ n'.hasChildren = false) ∧
      ((getTerrainVisibility dss td).1 = true →
        (n'.visible = false ↔ lodToRenderOf dss td < td.LOD) ∧
        (n'.hasChildren = true ↔ lodToRenderOf dss td > td.LOD) ∧
        (lodToRenderOf dss td ≤ td.LOD → n'.hasChildren = false) ∧
        (lodToRenderOf dss td > td.LOD →
          ∃ fuel0 w1 e t v f c1 c2 c3 c4 r1 r2 r3 r4, fuel = fuel0 + 1 ∧
            CTerrain.split dss.dontUseCache s.1
                (n.setFlags true (getTerrainVisibility dss td).2) =
              some (w1, .node e t v f c1 c2 c3 c4) ∧
            CTerrain.updateTerrainTree dss fuel0 (w1, s.2) c1 = some r1 ∧
            CTerrain.updateTerrainTree dss fuel0 r1.1 c2 = some r2 ∧
            CTerrain.updateTerrainTree dss fuel0 r2.1 c3 = some r3 ∧
            CTerrain.updateTerrainTree dss fuel0 r3.1 c4 = some r4 ∧
            n' = .node e t v f r1.2 r2.2 r3.2 r4.2))) ∧
    (∀ a b, WorldOK a b s.1 → TreeWF a b n → n.fuelFor ≤ fuel →
      ∃ s' n', CTerrain.updateTerrainTree dss fuel s n = some (s', n')) := by
  refine ⟨?_, fun a b hw hn hf => ?_⟩
  · intro s' n' h
    cases fuel with
    | zero => simp [CTerrain.updateTerrainTree] at h
    | succ fuel0 =>
      unfold CTerrain.updateTerrainTree at h
      simp only [htd] at h
      by_cases hvis : (getTerrainVisibility dss td).1 = true
      · rw [if_neg (by simp [hvis])] at h
        by_cases hgt : lodToRenderOf dss td > td.LOD
        · rw [if_pos hgt, if_neg (by omega), hvis] at h
          cases hsp : CTerrain.split dss.dontUseCache s.1
              (n.setFlags true (getTerrainVisibility dss td).2) with
          | none => rw [hsp] at h; cases h
          | some r =>
            obtain ⟨w1, m⟩ := r
            rw [hsp] at h
            cases m with
            | leaf e t v f => cases h
            | node e t v f c1 c2 c3 c4 =>
              simp only [Option.bind_eq_some, Option.map_eq_some'] at h
              obtain ⟨r1, u1, r2, u2, r3, u3, r4, u4, hres⟩ := h
              simp only [Prod.mk.injEq] at hres
              obtain ⟨hs', hn'⟩ := hres
              obtain ⟨-, ht, hv⟩ := split_shape hsp
              rw [terrainData_setFlags, htd] at ht
              rw [visible_setFlags] at hv
              have ht' : t = some td := ht
              have hv' : v = true := hv
              subst hn'
              refine ⟨ht', (fun hf => by rw [hvis] at hf; cases hf), fun _ => ⟨?_, ?_, ?_, ?_⟩⟩
              · constructor
                · intro hc
                  rw [show (CTerrain.node e t v f r1.2 r2.2 r3.2 r4.2).visible = v from rfl,
                    hv'] at hc
                  cases hc
                · intro hlt; omega
              · exact ⟨fun _ => hgt, fun _ => rfl⟩
              · intro hle; omega
              · intro _
                exact ⟨fuel0, w1, e, t, v, f, c1, c2, c3, c4, r1, r2, r3, r4, rfl, rfl, u1, u2,
                  u3, u4, rfl⟩
        · rw [if_neg hgt, if_pos (by omega)] at h
          simp only [Option.map_eq_some'] at h
          obtain ⟨r, hm, hres⟩ := h
          simp only [Prod.mk.injEq] at hres
          obtain ⟨-, ht, hv⟩ := merge_shape hm
          rw [← hres.2]
          refine ⟨?_, (fun hf => by rw [hvis] at hf; cases hf), fun _ => ⟨?_, ?_, ?_, ?_⟩⟩
          · rw [ht]
            split_ifs
            · rw [terrainData_setVisible, terrainData_setFlags, htd]
            · rw [terrainData_setFlags, htd]
          · rw [hv]
            split_ifs with hlt
            · rw [visible_setVisible]; exact ⟨fun _ => hlt, fun _ => rfl⟩
            · rw [visible_setFlags, hvis]
              exact ⟨(fun hc => by cases hc), fun hc => absurd hc hlt⟩
          · constructor
            · intro hc
              rw [(merge_shape hm).1] at hc
              cases hc
            · intro hc; exact absurd hc hgt
          · intro _; exact (merge_shape hm).1
          · intro hc; exact absurd hc hgt
      · have hvisf : (getTerrainVisibility dss td).1 = false := by
          cases hb : (getTerrainVisibility dss td).1 with
          | true => exact absurd hb hvis
          | false => rfl
        rw [if_pos (by simp [hvisf])] at h
        simp only [Option.map_eq_some'] at h
        obtain ⟨r, hm, hres⟩ := h
        simp only [Prod.mk.injEq] at hres
        obtain ⟨hc, ht, hv⟩ := merge_shape hm
        rw [← hres.2]
        refine ⟨?_, fun _ => ⟨?_, hc⟩, fun hf => by rw [hvisf] at hf; cases hf⟩
        · rw [ht, terrainData_setFlags, htd]
        · rw [hv, visible_setFlags, hvisf]
  · obtain ⟨s', n', h, -⟩ := updateTerrainTree_ok dss fuel s n hw hn hf
    exact ⟨s', n', h⟩

theorem worldOK_emptyWorld : WorldOK 1 2 emptyWorld := by
  refine ⟨rfl, rfl, ?_⟩
  intro band index l i e t hl hg
  have : l = [] := by
    unfold getShard emptyWorld emptyDataset at hl
    split_ifs at hl <;> simp_all
  subst this
  simp at hg

theorem tileWF_tileNW : TileWF tileNW := by
  unfold TileWF tileNW
  norm_num

/-- C13, at a concrete input: the level-0 leaf with tile `tileNW`, seen by `farSnapshot`
from 15000 km (`L* = 1 > 0`), in an empty cache: the update completes, the node stays
visible and has four children. -/
theorem updateTerrainTree_decision_witness :
    ∃ s' n', CTerrain.updateTerrainTree farSnapshot 14 (emptyWorld, ⟨0, -1⟩)
        (.leaf 1 (some tileNW) false false) = some (s', n') ∧
      n'.hasChildren = true ∧ n'.visible = true := by
  have hvis : (getTerrainVisibility farSnapshot tileNW).1 = true := by
    simp only [getTerrainVisibility, farSnapshot]
    norm_num
  have hlod : lodToRenderOf farSnapshot tileNW = 1 := by
    have hd : (farSnapshot.camView tileNW).closestDistance = 15000000 := by
      simp [farSnapshot, tileNW]
    unfold lodToRenderOf
    rw [hd]
    norm_num [getLodToRender, CONST_1KM, farSnapshot]
  obtain ⟨hpost, htotal⟩ := updateTerrainTree_decision farSnapshot 14 (emptyWorld, ⟨0, -1⟩)
    (.leaf 1 (some tileNW) false false) tileNW rfl
  obtain ⟨s', n', h⟩ := htotal 1 2 worldOK_emptyWorld
    ⟨Or.inl rfl, tileNW, rfl, tileWF_tileNW⟩ (by decide)
  obtain ⟨-, -, hb⟩ := hpost s' n' h
  obtain ⟨h1, h2, -⟩ := hb hvis
  refine ⟨s', n', h, h2.2 (by rw [hlod]; decide), ?_⟩
  cases hv : n'.visible with
  | true => rfl
  | false =>
    have := h1.1 hv
    rw [hlod] at this
    exact absurd this (by decide)

theorem requestKey_root {lo la : Nat} (hlo : lo < 6) :
    requestKey ((lo : ℚ) * 60) (90 - (la : ℚ) * 60) 0 = ((lo : ℚ) * 60, 90 - (la : ℚ) * 60, 0) := by
  have h0 : (0 : ℚ) ≤ (lo : ℚ) * 60 := by positivity
  have h1 : (lo : ℚ) * 60 < 360 := by
    have : (lo : ℚ) < 6 := by exact_mod_cast hlo
    linarith
  have e1 : ⌊(lo : ℚ) * 60 / 60⌋ = (lo : Int) := by
    simp
  have e2 : ⌊(90 - (90 - (la : ℚ) * 60)) / 60⌋ = (la : Int) := by
    have := floor_mul_div_self (la : Int) (d := (60 : ℚ)) (by norm_num)
    have e : (90 - (90 - (la : ℚ) * 60)) / 60 = ((la : Int) : ℚ) * 60 / 60 := by
      push_cast; ring
    rw [e]; exact this
  unfold requestKey
  have hd : LODdegreeSizeLookUp 0 = 60 := rfl
  rw [hd, findTopLeftCorner_fst h0 h1, findTopLeftCorner_snd, e1, e2]
  simp

theorem initLOD_0Body_step {addr a b : Nat} (d : Bool) (hv : addr = a ∨ addr = b) {k : Nat}
    (hk : k < 18) {s : Option (World × List CTerrain × Nat)} (h : RootsInv addr a b k s) :
    RootsInv addr a b (k + 1)
      (initLOD_0Body addr d ((k / 3 : Nat) : Int) ((k % 3 : Nat) : Int) s) := by
  obtain ⟨w, terrain, rfl, ha, hb, hlen, hdone, hrest⟩ := h
  have hnew := hrest k (le_refl _) hk
  have hlo : k / 3 < 6 := by omega
  obtain ⟨w', t, hinit, hkey, ha', hb', -⟩ := initTerrainData_total w addr
    (((k / 3 : Nat) : ℚ) * 60) (90 - ((k % 3 : Nat) : ℚ) * 60) 0 d
    (by rw [ha, hb]; exact hv) (by norm_num) (by positivity)
    (by have : ((k / 3 : Nat) : ℚ) < 6 := by exact_mod_cast hlo
        linarith)
  rw [requestKey_root hlo] at hkey
  refine ⟨w', terrain.set k (.leaf addr (some t) false false), ?_, ha'.trans ha,
    hb'.trans hb, by simp [hlen], ?_, ?_⟩
  · simp only [initLOD_0Body, Option.some_bind, hnew, Int.cast_natCast, hinit,
      Option.map_some']
    rfl
  · intro j hj
    by_cases hjk : j = k
    · subst hjk
      exact ⟨t, by rw [List.getElem?_set_self (by omega)], hkey⟩
    · obtain ⟨t', ht', hk'⟩ := hdone j (by omega)
      exact ⟨t', by rw [List.getElem?_set_ne (Ne.symm hjk)]; exact ht', hk'⟩
  · intro j hj hj18
    rw [List.getElem?_set_ne (by omega)]
    exact hrest j (by omega) hj18

theorem forLoop_three {σ : Type} (body : Int → σ → σ) (s : σ) :
    forLoop 3 body s = body 2 (body 1 (body 0 s)) := rfl

theorem forLoop_six {σ : Type} (body : Int → σ → σ) (s : σ) :
    forLoop 6 body s = body 5 (body 4 (body 3 (body 2 (body 1 (body 0 s))))) := rfl

theorem rootsInv_start (addr : Nat) (w : World) :
    RootsInv addr w.cm.earthBufferA w.cm.earthBufferB 0
      (some (w, List.replicate 18 CTerrain.new, 0)) := by
  refine ⟨w, _, rfl, rfl, rfl, by simp, fun j hj => by omega, fun j _ hj => ?_⟩
  rw [List.getElem?_replicate, if_pos hj]

theorem initLOD_0_loops (addr : Nat) (d : Bool) (w : World)
    (hv : addr = w.cm.earthBufferA ∨ addr = w.cm.earthBufferB) :
    RootsInv addr w.cm.earthBufferA w.cm.earthBufferB 18
      (forLoop 6 (fun lo s => forLoop 3 (fun la s => initLOD_0Body addr d lo la s) s)
        (some (w, List.replicate 18 CTerrain.new, 0))) := by
  have h0 := rootsInv_start addr w
  have h1 := initLOD_0Body_step d hv (k := 0) (by norm_num) h0
  have h2 := initLOD_0Body_step d hv (k := 1) (by norm_num) h1
  have h3 := initLOD_0Body_step d hv (k := 2) (by norm_num) h2
  have h4 := initLOD_0Body_step d hv (k := 3) (by norm_num) h3
  have h5 := initLOD_0Body_step d hv (k := 4) (by norm_num) h4
  have h6 := initLOD_0Body_step d hv (k := 5) (by norm_num) h5
  have h7 := initLOD_0Body_step d hv (k := 6) (by norm_num) h6
  have h8 := initLOD_0Body_step d hv (k := 7) (by norm_num) h7
  have h9 := initLOD_0Body_step d hv (k := 8) (by norm_num) h8
  have h10 := initLOD_0Body_step d hv (k := 9) (by norm_num) h9
  have h11 := initLOD_0Body_step d hv (k := 10) (by norm_num) h10
  have h12 := initLOD_0Body_step d hv (k := 11) (by norm_num) h11
  have h13 := initLOD_0Body_step d hv (k := 12) (by norm_num) h12
  have h14 := initLOD_0Body_step d hv (k := 13) (by norm_num) h13
  have h15 := initLOD_0Body_step d hv (k := 14) (by norm_num) h14
  have h16 := initLOD_0Body_step d hv (k := 15) (by norm_num) h15
  have h17 := initLOD_0Body_step d hv (k := 16) (by norm_num) h16
  have h18 := initLOD_0Body_step d hv (k := 17) (by norm_num) h17
  rw [forLoop_six]
  simp only [forLoop_three]
  exact h18

/-- `initLOD_0` by one of the two consumers, with a snapshot set, completes with 18 root
nodes; the node `terrain[j]` belongs to the earth, is not visible, has no children and
holds a tile of key `rootKey j`. -/
theorem initLOD_0_roots (earth : CEarth) (w : World) (dss : CDrawingStateSnapshot)
    (hd : earth.drawingStateSnapshot = some dss)
    (hv : earth.addr = w.cm.earthBufferA ∨ earth.addr = w.cm.earthBufferB) :
    ∃ w' earth', CEarth.initLOD_0 earth w = some (w', earth') ∧
      earth'.terrain.length = 18 ∧
      ∀ j, j < 18 → ∃ t, earth'.terrain[j]? = some (.leaf earth.addr (some t) false false) ∧
        keyOf t = rootKey j := by
  obtain ⟨w', terrain, hs, -, -, hlen, hdone, -⟩ :=
    initLOD_0_loops earth.addr dss.dontUseCache w hv
  refine ⟨w', { earth with terrain := terrain }, ?_, hlen, hdone⟩
  simp only [CEarth.initLOD_0, hd, hs, Option.map_some']

theorem rootKey_injective {i j : Nat} (h : rootKey i = rootKey j) : i = j := by
  unfold rootKey at h
  simp only [Prod.mk.injEq, and_true] at h
  obtain ⟨h1, h2⟩ := h
  have e1 : ((i / 3 : Nat) : ℚ) = ((j / 3 : Nat) : ℚ) := by linarith
  have e2 : ((i % 3 : Nat) : ℚ) = ((j % 3 : Nat) : ℚ) := by linarith
  have e1' : i / 3 = j / 3 := by exact_mod_cast e1
  have e2' : i % 3 = j % 3 := by exact_mod_cast e2
  omega

theorem requestKey_zero {lon : ℚ} (lat : ℚ) (h0 : 0 ≤ lon) (h1 : lon < 360) :
    requestKey lon lat 0 =
      (((⌊lon / 60⌋ : Int) : ℚ) * 60, 90 - ((⌊(90 - lat) / 60⌋ : Int) : ℚ) * 60, 0) := by
  unfold requestKey
  have hd : LODdegreeSizeLookUp 0 = 60 := rfl
  rw [hd, findTopLeftCorner_fst h0 h1, findTopLeftCorner_snd]
  simp

theorem covers_rootKey {lon lat : ℚ} (h0 : 0 ≤ lon) (h1 : lon < 360) (h2 : -90 < lat)
    (h3 : lat ≤ 90) : ∃ j, j < 18 ∧ covers (rootKey j) lon lat := by
  have a0 : 0 ≤ ⌊lon / 60⌋ := Int.floor_nonneg.2 (by positivity)
  have a1 : ⌊lon / 60⌋ < 6 := by
    rw [Int.floor_lt]; push_cast; rw [div_lt_iff₀ (by norm_num)]; linarith
  have b0 : 0 ≤ ⌊(90 - lat) / 60⌋ :=
    Int.floor_nonneg.2 (div_nonneg (by linarith) (by norm_num))
  have b1 : ⌊(90 - lat) / 60⌋ < 3 := by
    rw [Int.floor_lt]; push_cast; rw [div_lt_iff₀ (by norm_num)]; linarith
  refine ⟨⌊lon / 60⌋.toNat * 3 + ⌊(90 - lat) / 60⌋.toNat, by omega, ?_⟩
  unfold covers
  have hz : (rootKey (⌊lon / 60⌋.toNat * 3 + ⌊(90 - lat) / 60⌋.toNat)).2.2.toNat = 0 := rfl
  rw [hz, requestKey_zero lat h0 h1]
  unfold rootKey
  have q : (⌊lon / 60⌋.toNat * 3 + ⌊(90 - lat) / 60⌋.toNat) / 3 = ⌊lon / 60⌋.toNat := by omega
  have r : (⌊lon / 60⌋.toNat * 3 + ⌊(90 - lat) / 60⌋.toNat) % 3 = ⌊(90 - lat) / 60⌋.toNat := by
    omega
  rw [q, r]
  have c1 : ((⌊lon / 60⌋.toNat : Nat) : ℚ) = ((⌊lon / 60⌋ : Int) : ℚ) := by
    rw [← Int.cast_natCast, Int.toNat_of_nonneg a0]
  have c2 : ((⌊(90 - lat) / 60⌋.toNat : Nat) : ℚ) = ((⌊(90 - lat) / 60⌋ : Int) : ℚ) := by
    rw [← Int.cast_natCast, Int.toNat_of_nonneg b0]
  rw [c1, c2]

theorem not_covers_south_pole (j : Nat) : ¬ covers (rootKey j) 0 (-90) := by
  unfold covers
  have hz : (rootKey j).2.2.toNat = 0 := rfl
  rw [hz, requestKey_zero (-90) (le_refl _) (by norm_num)]
  have hf : ⌊((90 : ℚ) - -90) / 60⌋ = 3 := by norm_num
  rw [hf]
  unfold rootKey
  simp only [Prod.mk.injEq, and_true, not_and]
  intro _ h
  have hlt : ((j % 3 : Nat) : ℚ) < 3 := by
    have : j % 3 < 3 := Nat.mod_lt _ (by norm_num)
    exact_mod_cast this
  push_cast at h
  linarith

/-- C14 (as stated, refuted): `initLOD_0` of `earthA` in the empty world completes, and no
root tile's footprint contains the point `lon = 0`, `lat = -90`: a request at level 0
for that point resolves to the key `(0, -90, 0)`, which none of the 18 roots has. -/
theorem initLOD_0_misses_south_pole :
    ∃ w' earth', CEarth.initLOD_0 earthA emptyWorld = some (w', earth') ∧
      ∀ (n : CTerrain) (t : CTerrainData), n ∈ earth'.terrain → n.terrainData = some t →
        ¬ covers (keyOf t) 0 (-90) := by
  obtain ⟨w', earth', h, hlen, hroots⟩ := initLOD_0_roots earthA emptyWorld
    farSnapshot rfl (Or.inl rfl)
  refine ⟨w', earth', h, ?_⟩
  intro n t hn ht
  obtain ⟨j, hj, hget⟩ := List.getElem_of_mem hn
  obtain ⟨t', ht', hk⟩ := hroots j (by omega)
  rw [List.getElem?_eq_getElem hj, hget] at ht'
  cases ht'
  cases ht
  rw [hk]
  exact not_covers_south_pole j

/-- C14 (amended): `initLOD_0` (called by one of the two consumers, with a snapshot set)
creates exactly 18 root nodes, each holding a tile at LOD 0; `terrain[j]` has the key
`(topLeftLon, topLeftLat) = (60*(j/3), 90 - 60*(j%3))`, so the keys are pairwise distinct;
the footprints of the roots are pairwise disjoint and together cover every longitude in
`[0,360)` and every latitude in `[-90 + 2^-45, 90]`. The bound `-90 + 2^-45` leaves out the
south pole and the one `double` between it and the bound, `-90 + 2^-46`, for which the
`double` difference `90.0 - lat` of `findTopLeftCorner` is `180.0` as at the pole. -/
theorem initLOD_0_spec (earth : CEarth) (w : World) (dss : CDrawingStateSnapshot)
    (hd : earth.drawingStateSnapshot = some dss)
    (hv : earth.addr = w.cm.earthBufferA ∨ earth.addr = w.cm.earthBufferB) :
    ∃ w' earth', CEarth.initLOD_0 earth w = some (w', earth') ∧
      earth'.terrain.length = 18 ∧
      (∀ j, j < 18 → ∃ t, earth'.terrain[j]? = some (.leaf earth.addr (some t) false false) ∧
        t.LOD = 0 ∧ t.topLeftLon = 60 * ((j / 3 : Nat) : ℚ) ∧
        t.topLeftLat = 90 - 60 * ((j % 3 : Nat) : ℚ)) ∧
      (∀ (i j : Nat) (ni nj : CTerrain) (ti tj : CTerrainData),
        earth'.terrain[i]? = some ni → earth'.terrain[j]? = some nj →
        ni.terrainData = some ti → nj.terrainData = some tj → i ≠ j →
        keyOf ti ≠ keyOf tj ∧
        ∀ lon lat, ¬ (covers (keyOf ti) lon lat ∧ covers (keyOf tj) lon lat)) ∧
      (∀ lon lat : ℚ, 0 ≤ lon → lon < 360 → -90 + 1 / 2 ^ 45 ≤ lat → lat ≤ 90 →
        ∃ (n : CTerrain) (t : CTerrainData), n ∈ earth'.terrain ∧ n.terrainData = some t ∧
          covers (keyOf t) lon lat) := by
  obtain ⟨w', earth', h, hlen, hroots⟩ := initLOD_0_roots earth w dss hd hv
  have hkey : ∀ (i : Nat) (ni : CTerrain) (ti : CTerrainData), earth'.terrain[i]? = some ni →
      ni.terrainData = some ti → keyOf ti = rootKey i := by
    intro i ni ti hi hti
    have hi18 : i < 18 := by
      have := (List.getElem?_eq_some_iff.1 hi).1
      omega
    obtain ⟨t, ht, hk⟩ := hroots i hi18
    rw [hi] at ht
    cases ht
    cases hti
    exact hk
  refine ⟨w', earth', h, hlen, ?_, ?_, ?_⟩
  · intro j hj
    obtain ⟨t, ht, hk⟩ := hroots j hj
    have h1 := congrArg (fun k => k.1) hk
    have h2 := congrArg (fun k => k.2.1) hk
    have h3 := congrArg (fun k => k.2.2) hk
    simp only [keyOf, rootKey] at h1 h2 h3
    exact ⟨t, ht, h3, by rw [h1]; ring, by rw [h2]; ring⟩
  · intro i j ni nj ti tj hi hj hti htj hij
    have ki := hkey i ni ti hi hti
    have kj := hkey j nj tj hj htj
    have hne : keyOf ti ≠ keyOf tj := by
      rw [ki, kj]
      exact fun hc => hij (rootKey_injective hc)
    refine ⟨hne, ?_⟩
    rintro lon lat ⟨c1, c2⟩
    unfold covers at c1 c2
    have z1 : (keyOf ti).2.2.toNat = 0 := by rw [ki]; rfl
    have z2 : (keyOf tj).2.2.toNat = 0 := by rw [kj]; rfl
    rw [z1] at c1
    rw [z2] at c2
    exact hne (c1.symm.trans c2)
  · intro lon lat h0 h1 h2 h3
    have h2' : -90 < lat := by
      have : (0 : ℚ) < 1 / 2 ^ 45 := by positivity
      linarith
    obtain ⟨j, hj, hc⟩ := covers_rootKey h0 h1 h2' h3
    obtain ⟨t, ht, hk⟩ := hroots j hj
    refine ⟨.leaf earth.addr (some t) false false, t, List.getElem?_mem ht, rfl, ?_⟩
    rw [hk]; exact hc

/-- C14 (amended), at a concrete input: `earthA` in the empty world. -/
theorem initLOD_0_spec_witness :
    ∃ w' earth', CEarth.initLOD_0 earthA emptyWorld = some (w', earth') ∧
      earth'.terrain.length = 18 := by
  obtain ⟨w', earth', h, hlen, -⟩ := initLOD_0_spec earthA emptyWorld farSnapshot rfl
    (Or.inl rfl)
  exact ⟨w', earth', h, hlen⟩

theorem vertexPos_corner (x y : Nat) (hx : x < 9) : vertexPos (y * 9 + x) = ((x : ℚ), (y : ℚ)) := by
  have h1 : (y * 9 + x) % 9 = x := by omega
  have h2 : (y * 9 + x) / 9 = y := by omega
  simp only [vertexPos, h1, h2]

/-- Membership in a triangle does not depend on the order of the vertices. -/
theorem triangleContains_sort (t : Nat × Nat × Nat) (p : ℚ × ℚ) :
    triangleContains (sortTriangle t) p ↔ triangleContains t p := by
  unfold sortTriangle
  split_ifs
  · rfl
  · exact ⟨fun ⟨a, b, c, ha, hb, hc, hs, h1, h2⟩ =>
        ⟨a, c, b, ha, hc, hb, by linarith, by rw [h1]; simp only; ring, by rw [h2]; simp only; ring⟩,
      fun ⟨a, b, c, ha, hb, hc, hs, h1, h2⟩ =>
        ⟨a, c, b, ha, hc, hb, by linarith, by rw [h1]; simp only; ring, by rw [h2]; simp only; ring⟩⟩
  · exact ⟨fun ⟨a, b, c, ha, hb, hc, hs, h1, h2⟩ =>
        ⟨b, c, a, hb, hc, ha, by linarith, by rw [h1]; simp only; ring, by rw [h2]; simp only; ring⟩,
      fun ⟨a, b, c, ha, hb, hc, hs, h1, h2⟩ =>
        ⟨c, a, b, hc, ha, hb, by linarith, by rw [h1]; simp only; ring, by rw [h2]; simp only; ring⟩⟩
  · exact ⟨fun ⟨a, b, c, ha, hb, hc, hs, h1, h2⟩ =>
        ⟨b, a, c, hb, ha, hc, by linarith, by rw [h1]; simp only; ring, by rw [h2]; simp only; ring⟩,
      fun ⟨a, b, c, ha, hb, hc, hs, h1, h2⟩ =>
        ⟨b, a, c, hb, ha, hc, by linarith, by rw [h1]; simp only; ring, by rw [h2]; simp only; ring⟩⟩
  · exact ⟨fun ⟨a, b, c, ha, hb, hc, hs, h1, h2⟩ =>
        ⟨c, a, b, hc, ha, hb, by linarith, by rw [h1]; simp only; ring, by rw [h2]; simp only; ring⟩,
      fun ⟨a, b, c, ha, hb, hc, hs, h1, h2⟩ =>
        ⟨b, c, a, hb, hc, ha, by linarith, by rw [h1]; simp only; ring, by rw [h2]; simp only; ring⟩⟩
  · exact ⟨fun ⟨a, b, c, ha, hb, hc, hs, h1, h2⟩ =>
        ⟨c, b, a, hc, hb, ha, by linarith, by rw [h1]; simp only; ring, by rw [h2]; simp only; ring⟩,
      fun ⟨a, b, c, ha, hb, hc, hs, h1, h2⟩ =>
        ⟨c, b, a, hc, hb, ha, by linarith, by rw [h1]; simp only; ring, by rw [h2]; simp only; ring⟩⟩

/-- The interior of a triangle does not depend on the order of the vertices. -/
theorem triangleInterior_sort (t : Nat × Nat × Nat) (p : ℚ × ℚ) :
    triangleInterior (sortTriangle t) p ↔ triangleInterior t p := by
  unfold sortTriangle
  split_ifs
  · rfl
  · exact ⟨fun ⟨a, b, c, ha, hb, hc, hs, h1, h2⟩ =>
        ⟨a, c, b, ha, hc, hb, by linarith, by rw [h1]; simp only; ring, by rw [h2]; simp only; ring⟩,
      fun ⟨a, b, c, ha, hb, hc, hs, h1, h2⟩ =>
        ⟨a, c, b, ha, hc, hb, by linarith, by rw [h1]; simp only; ring, by rw [h2]; simp only; ring⟩⟩
  · exact ⟨fun ⟨a, b, c, ha, hb, hc, hs, h1, h2⟩ =>
        ⟨b, c, a, hb, hc, ha, by linarith, by rw [h1]; simp only; ring, by rw [h2]; simp only; ring⟩,
      fun ⟨a, b, c, ha, hb, hc, hs, h1, h2⟩ =>
        ⟨c, a, b, hc, ha, hb, by linarith, by rw [h1]; simp only; ring, by rw [h2]; simp only; ring⟩⟩
  · exact ⟨fun ⟨a, b, c, ha, hb, hc, hs, h1, h2⟩ =>
        ⟨b, a, c, hb, ha, hc, by linarith, by rw [h1]; simp only; ring, by rw [h2]; simp only; ring⟩,
      fun ⟨a, b, c, ha, hb, hc, hs, h1, h2⟩ =>
        ⟨b, a, c, hb, ha, hc, by linarith, by rw [h1]; simp only; ring, by rw [h2]; simp only; ring⟩⟩
  · exact ⟨fun ⟨a, b, c, ha, hb, hc, hs, h1, h2⟩ =>
        ⟨c, a, b, hc, ha, hb, by linarith, by rw [h1]; simp only; ring, by rw [h2]; simp only; ring⟩,
      fun ⟨a, b, c, ha, hb, hc, hs, h1, h2⟩ =>
        ⟨b, c, a, hb, hc, ha, by linarith, by rw [h1]; simp only; ring, by rw [h2]; simp only; ring⟩⟩
  · exact ⟨fun ⟨a, b, c, ha, hb, hc, hs, h1, h2⟩ =>
        ⟨c, b, a, hc, hb, ha, by linarith, by rw [h1]; simp only; ring, by rw [h2]; simp only; ring⟩,
      fun ⟨a, b, c, ha, hb, hc, hs, h1, h2⟩ =>
        ⟨c, b, a, hc, hb, ha, by linarith, by rw [h1]; simp only; ring, by rw [h2]; simp only; ring⟩⟩

/-- The two halves of a cell cut along a diagonal cover the cell. -/
theorem halves_cover {c : Nat × Nat} (hc : c.1 ≤ 7) {A B : Nat × Nat × Nat}
    (h : [A, B] ∈ cellHalves c) {p : ℚ × ℚ} (hx0 : (c.1 : ℚ) ≤ p.1) (hx1 : p.1 ≤ (c.1 : ℚ) + 1)
    (hy0 : (c.2 : ℚ) ≤ p.2) (hy1 : p.2 ≤ (c.2 : ℚ) + 1) :
    triangleContains A p ∨ triangleContains B p := by
  have e1 := vertexPos_corner c.1 c.2 (by omega)
  have e2 := vertexPos_corner (c.1 + 1) c.2 (by omega)
  have e3 := vertexPos_corner c.1 (c.2 + 1) (by omega)
  have e4 := vertexPos_corner (c.1 + 1) (c.2 + 1) (by omega)
  push_cast at e2 e3 e4
  simp only [cellHalves, List.mem_cons, List.cons.injEq, and_true, List.mem_singleton,
    List.not_mem_nil, or_false] at h
  unfold triangleContains
  rcases h with ⟨rfl, rfl⟩ | ⟨rfl, rfl⟩ | ⟨rfl, rfl⟩ | ⟨rfl, rfl⟩
  · simp only [e1, e2, e3, e4]
    by_cases huv : p.2 - c.2 ≤ p.1 - c.1
    · left
      exact ⟨1 - (p.1 - c.1), (p.1 - c.1) - (p.2 - c.2), p.2 - c.2, by linarith, by linarith,
        by linarith, by ring, by ring, by ring⟩
    · right
      exact ⟨1 - (p.2 - c.2), (p.2 - c.2) - (p.1 - c.1), p.1 - c.1, by linarith, by linarith,
        by linarith, by ring, by ring, by ring⟩
  · simp only [e1, e2, e3, e4]
    by_cases huv : p.2 - c.2 ≤ p.1 - c.1
    · right
      exact ⟨1 - (p.1 - c.1), (p.1 - c.1) - (p.2 - c.2), p.2 - c.2, by linarith, by linarith,
        by linarith, by ring, by ring, by ring⟩
    · left
      exact ⟨1 - (p.2 - c.2), (p.2 - c.2) - (p.1 - c.1), p.1 - c.1, by linarith, by linarith,
        by linarith, by ring, by ring, by ring⟩
  · simp only [e1, e2, e3, e4]
    by_cases huv : (p.1 - c.1) + (p.2 - c.2) ≤ 1
    · left
      exact ⟨1 - (p.1 - c.1) - (p.2 - c.2), p.1 - c.1, p.2 - c.2, by linarith, by linarith,
        by linarith, by ring, by ring, by ring⟩
    · right
      exact ⟨1 - (p.2 - c.2), 1 - (p.1 - c.1), (p.1 - c.1) + (p.2 - c.2) - 1, by linarith,
        by linarith, by linarith, by ring, by ring, by ring⟩
  · simp only [e1, e2, e3, e4]
    by_cases huv : (p.1 - c.1) + (p.2 - c.2) ≤ 1
    · right
      exact ⟨1 - (p.1 - c.1) - (p.2 - c.2), p.1 - c.1, p.2 - c.2, by linarith, by linarith,
        by linarith, by ring, by ring, by ring⟩
    · left
      exact ⟨1 - (p.2 - c.2), 1 - (p.1 - c.1), (p.1 - c.1) + (p.2 - c.2) - 1, by linarith,
        by linarith, by linarith, by ring, by ring, by ring⟩

/-- The interiors of the two halves of a cell cut along a diagonal lie inside the open cell
and do not meet. -/
theorem halves_interior {c : Nat × Nat} (hc : c.1 ≤ 7) {A B : Nat × Nat × Nat}
    (h : [A, B] ∈ cellHalves c) (p : ℚ × ℚ) :
    (triangleInterior A p ∨ triangleInterior B p →
      ((c.1 : ℚ) < p.1 ∧ p.1 < (c.1 : ℚ) + 1) ∧ ((c.2 : ℚ) < p.2 ∧ p.2 < (c.2 : ℚ) + 1)) ∧
    ¬ (triangleInterior A p ∧ triangleInterior B p) := by
  have e1 := vertexPos_corner c.1 c.2 (by omega)
  have e2 := vertexPos_corner (c.1 + 1) c.2 (by omega)
  have e3 := vertexPos_corner c.1 (c.2 + 1) (by omega)
  have e4 := vertexPos_corner (c.1 + 1) (c.2 + 1) (by omega)
  push_cast at e2 e3 e4
  simp only [cellHalves, List.mem_cons, List.cons.injEq, and_true, List.mem_singleton,
    List.not_mem_nil, or_false] at h
  unfold triangleInterior
  rcases h with ⟨rfl, rfl⟩ | ⟨rfl, rfl⟩ | ⟨rfl, rfl⟩ | ⟨rfl, rfl⟩ <;>
    simp only [e1, e2, e3, e4] <;>
    refine ⟨?_, ?_⟩
  all_goals first
    | (rintro (⟨a, b, c', ha, hb, hc', hs, h1, h2⟩ | ⟨a, b, c', ha, hb, hc', hs, h1, h2⟩) <;>
        obtain rfl : a = 1 - b - c' := by linarith
       all_goals refine ⟨⟨?_, ?_⟩, ?_, ?_⟩ <;> linarith)
    | (rintro ⟨⟨a, b, c', ha, hb, hc', hs, h1, h2⟩, ⟨a', b', c'', ha', hb', hc'', hs', h1', h2'⟩⟩
       obtain rfl : a = 1 - b - c' := by linarith
       obtain rfl : a' = 1 - b' - c'' := by linarith
       linarith)

/-- A list of triangles whose sorted forms are the two halves of a cell: the triangles cover
the cell, their interiors lie in the open cell, and two different ones have no interior
point in common. -/
theorem triangles_of_halves {c : Nat × Nat} (hc : c.1 ≤ 7) {l : List (Nat × Nat × Nat)}
    (h : l.map sortTriangle ∈ cellHalves c) (p : ℚ × ℚ) :
    ((c.1 : ℚ) ≤ p.1 → p.1 ≤ (c.1 : ℚ) + 1 → (c.2 : ℚ) ≤ p.2 → p.2 ≤ (c.2 : ℚ) + 1 →
      ∃ tr ∈ l, triangleContains tr p) ∧
    (∀ tr ∈ l, triangleInterior tr p →
      ((c.1 : ℚ) < p.1 ∧ p.1 < (c.1 : ℚ) + 1) ∧ ((c.2 : ℚ) < p.2 ∧ p.2 < (c.2 : ℚ) + 1)) ∧
    (∀ tr ∈ l, ∀ tr' ∈ l, tr ≠ tr' → ¬ (triangleInterior tr p ∧ triangleInterior tr' p)) := by
  match l, h with
  | [], h => simp [cellHalves] at h
  | [_], h => simp [cellHalves] at h
  | _ :: _ :: _ :: _, h => simp [cellHalves] at h
  | [t1, t2], h =>
    have h' : [sortTriangle t1, sortTriangle t2] ∈ cellHalves c := h
    obtain ⟨hin, hdis⟩ := halves_interior hc h' p
    refine ⟨?_, ?_, ?_⟩
    · intro hx0 hx1 hy0 hy1
      rcases halves_cover hc h' hx0 hx1 hy0 hy1 with hA | hB
      · exact ⟨t1, by simp, (triangleContains_sort t1 p).1 hA⟩
      · exact ⟨t2, by simp, (triangleContains_sort t2 p).1 hB⟩
    · intro tr htr hi
      simp only [List.mem_cons, List.mem_singleton, List.not_mem_nil, or_false] at htr
      rcases htr with rfl | rfl
      · exact hin (Or.inl ((triangleInterior_sort _ p).2 hi))
      · exact hin (Or.inr ((triangleInterior_sort _ p).2 hi))
    · intro tr htr tr' htr' hne ⟨hi, hi'⟩
      simp only [List.mem_cons, List.mem_singleton, List.not_mem_nil, or_false] at htr htr'
      rcases htr with rfl | rfl <;> rcases htr' with rfl | rfl
      · exact hne rfl
      · exact hdis ⟨(triangleInterior_sort _ p).2 hi, (triangleInterior_sort _ p).2 hi'⟩
      · exact hdis ⟨(triangleInterior_sort _ p).2 hi', (triangleInterior_sort _ p).2 hi⟩
      · exact hne rfl

/-- A strip whose non-degenerate triangles lie in the cells of a list, two to a cell as the
halves of the cell cut along a diagonal, triangulates the cells: every point of every cell
lies in one of the cell's triangles, and two different triangles have no interior point in
common. -/
theorem strip_triangulates (t : List Nat) (cells : List (Nat × Nat))
    (hc7 : ∀ c ∈ cells, c.1 ≤ 7)
    (hcell : ∀ tr ∈ (stripTriangles t).filter nonDegenerate, ∃ c ∈ cells, inCell c tr = true)
    (hhalves : ∀ c ∈ cells, (cellTriangles t c).map sortTriangle ∈ cellHalves c) :
    (∀ c ∈ cells, ∀ p : ℚ × ℚ, (c.1 : ℚ) ≤ p.1 → p.1 ≤ (c.1 : ℚ) + 1 → (c.2 : ℚ) ≤ p.2 →
      p.2 ≤ (c.2 : ℚ) + 1 → ∃ tr ∈ cellTriangles t c, triangleContains tr p) ∧
    (∀ tr ∈ (stripTriangles t).filter nonDegenerate,
      ∀ tr' ∈ (stripTriangles t).filter nonDegenerate, tr ≠ tr' →
      ∀ p : ℚ × ℚ, ¬ (triangleInterior tr p ∧ triangleInterior tr' p)) := by
  constructor
  · intro c hc p
    exact (triangles_of_halves (hc7 c hc) (hhalves c hc) p).1
  · intro tr htr tr' htr' hne p ⟨hi, hi'⟩
    obtain ⟨c, hc, hin⟩ := hcell tr htr
    obtain ⟨c', hc', hin'⟩ := hcell tr' htr'
    have hm : tr ∈ cellTriangles t c := List.mem_filter.2 ⟨htr, hin⟩
    have hm' : tr' ∈ cellTriangles t c' := List.mem_filter.2 ⟨htr', hin'⟩
    obtain ⟨-, ho, hd⟩ := triangles_of_halves (hc7 c hc) (hhalves c hc) p
    obtain ⟨-, ho', -⟩ := triangles_of_halves (hc7 c' hc') (hhalves c' hc') p
    obtain ⟨⟨x0, x1⟩, y0, y1⟩ := ho tr hm hi
    obtain ⟨⟨x0', x1'⟩, y0', y1'⟩ := ho' tr' hm' hi'
    have e1 : c.1 = c'.1 := by
      have a1 : (c.1 : ℚ) < (c'.1 : ℚ) + 1 := by linarith
      have a2 : (c'.1 : ℚ) < (c.1 : ℚ) + 1 := by linarith
      have b1 : c.1 < c'.1 + 1 := by exact_mod_cast a1
      have b2 : c'.1 < c.1 + 1 := by exact_mod_cast a2
      omega
    have e2 : c.2 = c'.2 := by
      have a1 : (c.2 : ℚ) < (c'.2 : ℚ) + 1 := by linarith
      have a2 : (c'.2 : ℚ) < (c.2 : ℚ) + 1 := by linarith
      have b1 : c.2 < c'.2 + 1 := by exact_mod_cast a1
      have b2 : c'.2 < c.2 + 1 := by exact_mod_cast a2
      omega
    have e : c = c' := Prod.ext e1 e2
    subst e
    exact hd tr hm tr' hm' hne ⟨hi, hi'⟩

/-- C30: each of the four strip tables, as `drawSolidStrip` selects it for its quadrant, has
40 indices, addresses only vertices of the quadrant's 5×5 block and all of them, and as a
triangle strip gives exactly 32 non-degenerate triangles, all different, each made of three
corners of one cell of the quadrant; every one of the 16 cells holds exactly two of them,
and these two are the halves of the cell cut along a diagonal. So the strip triangulates
the quadrant: every point of every cell lies in one of the cell's two triangles, and two
different triangles of the strip have no interior point in common. -/
theorem stripIndex_triangulates_quadrant :
    ∀ q ∈ [((0 : Nat), (0 : Nat)), (4, 0), (0, 4), (4, 4)],
      ∃ t, stripIndexOf (q.1 : Int) (q.2 : Int) = some t ∧ t.length = 40 ∧
        (∀ v ∈ t, v ∈ quadrantVertices q.1 q.2) ∧
        (∀ v ∈ quadrantVertices q.1 q.2, v ∈ t) ∧
        ((stripTriangles t).filter nonDegenerate).length = 32 ∧
        ((stripTriangles t).filter nonDegenerate).Nodup ∧
        (∀ tr ∈ (stripTriangles t).filter nonDegenerate,
          ∃ c ∈ quadrantCells q.1 q.2, inCell c tr = true) ∧
        (∀ c ∈ quadrantCells q.1 q.2,
          (((stripTriangles t).filter nonDegenerate).filter (inCell c)).length = 2) ∧
        (∀ c ∈ quadrantCells q.1 q.2,
          (cellTriangles t c).map sortTriangle ∈ cellHalves c) ∧
        (∀ c ∈ quadrantCells q.1 q.2, ∀ p : ℚ × ℚ, (c.1 : ℚ) ≤ p.1 → p.1 ≤ (c.1 : ℚ) + 1 →
          (c.2 : ℚ) ≤ p.2 → p.2 ≤ (c.2 : ℚ) + 1 →
          ∃ tr ∈ cellTriangles t c, triangleContains tr p) ∧
        (∀ tr ∈ (stripTriangles t).filter nonDegenerate,
          ∀ tr' ∈ (stripTriangles t).filter nonDegenerate, tr ≠ tr' →
          ∀ p : ℚ × ℚ, ¬ (triangleInterior tr p ∧ triangleInterior tr' p)) := by
  intro q hq
  simp only [List.mem_cons, List.mem_singleton, List.not_mem_nil, or_false] at hq
  rcases hq with rfl | rfl | rfl | rfl
  · have h := strip_triangulates stripIndexListNW (quadrantCells 0 0) (by decide) (by decide)
      (by decide)
    exact ⟨stripIndexListNW, rfl, rfl, by decide, by decide, by decide, by decide, by decide,
      by decide, by decide, h.1, h.2⟩
  · have h := strip_triangulates stripIndexListNE (quadrantCells 4 0) (by decide) (by decide)
      (by decide)
    exact ⟨stripIndexListNE, rfl, rfl, by decide, by decide, by decide, by decide, by decide,
      by decide, by decide, h.1, h.2⟩
  · have h := strip_triangulates stripIndexListSW (quadrantCells 0 4) (by decide) (by decide)
      (by decide)
    exact ⟨stripIndexListSW, rfl, rfl, by decide, by decide, by decide, by decide, by decide,
      by decide, by decide, h.1, h.2⟩
  · have h := strip_triangulates stripIndexListSE (quadrantCells 4 4) (by decide) (by decide)
      (by decide)
    exact ⟨stripIndexListSE, rfl, rfl, by decide, by decide, by decide, by decide, by decide,
      by decide, by decide, h.1, h.2⟩

/-- C30 at the south-east quadrant and the centre of its first cell. -/
theorem stripIndex_triangulates_quadrant_witness :
    ∃ t, stripIndexOf (((4 : Nat), (4 : Nat)).1 : Int) (((4 : Nat), (4 : Nat)).2 : Int) =
        some t ∧ t.length = 40 ∧ ((stripTriangles t).filter nonDegenerate).length = 32 ∧
      ∃ tr ∈ cellTriangles t (4, 4), triangleContains tr (9 / 2, 9 / 2) := by
  obtain ⟨t, h1, h2, -, -, h5, -, -, -, -, h10, -⟩ :=
    stripIndex_triangulates_quadrant (4, 4) (by decide)
  exact ⟨t, h1, h2, h5, h10 (4, 4) (by decide) (9 / 2, 9 / 2) (by norm_num) (by norm_num)
    (by norm_num) (by norm_num)⟩

theorem grid_lon_lt {L i : Nat} (hi : i < 6 * 2 ^ L) :
    (i : ℚ) * LODdegreeSizeLookUp L < 360 := by
  rw [LODdegreeSizeLookUp_eq]
  have h2 : (0 : ℚ) < 2 ^ L := by positivity
  have hq : (i : ℚ) < 6 * 2 ^ L := by exact_mod_cast hi
  rw [mul_div_assoc', div_lt_iff₀ h2]
  linarith

theorem grid_lon_nonneg (L i : Nat) : (0 : ℚ) ≤ (i : ℚ) * LODdegreeSizeLookUp L :=
  mul_nonneg (Nat.cast_nonneg i) (LODdegreeSizeLookUp_pos L).le

/-- Snapping the corner of a grid cell returns that corner. -/
theorem findTopLeftCorner_grid {d : ℚ} (hd : 0 < d) (i : Nat) (j : Int)
    (hlt : (i : ℚ) * d < 360) :
    findTopLeftCorner ((i : ℚ) * d) (90 - (j : ℚ) * d) d = ((i : ℚ) * d, 90 - (j : ℚ) * d) := by
  have h0 : (0 : ℚ) ≤ (i : ℚ) * d := mul_nonneg (Nat.cast_nonneg i) hd.le
  apply Prod.ext
  · rw [findTopLeftCorner_fst h0 hlt]
    have := floor_mul_div_self (i : Int) hd
    simp only [Int.cast_natCast] at this
    rw [this]; simp
  · rw [findTopLeftCorner_snd]
    have h : (90 : ℚ) - (90 - (j : ℚ) * d) = (j : ℚ) * d := by ring
    rw [h, floor_mul_div_self j hd]

theorem requestKey_grid (L i : Nat) (j : Int) (hi : i < 6 * 2 ^ L) :
    requestKey ((i : ℚ) * LODdegreeSizeLookUp L) (90 - (j : ℚ) * LODdegreeSizeLookUp L) L =
      ((i : ℚ) * LODdegreeSizeLookUp L, 90 - (j : ℚ) * LODdegreeSizeLookUp L, (L : Int)) := by
  unfold requestKey
  rw [findTopLeftCorner_grid (LODdegreeSizeLookUp_pos L) i j (grid_lon_lt hi)]

theorem LODdegreeSizeLookUp_succ (L : Nat) :
    LODdegreeSizeLookUp (L + 1) = LODdegreeSizeLookUp L / 2 := rfl

theorem LODdegreeSizeLookUp_double (L : Nat) :
    LODdegreeSizeLookUp L = 2 * LODdegreeSizeLookUp (L + 1) := by
  rw [LODdegreeSizeLookUp_succ]; ring

/-- A tile built for the cell `(i, j)` of level `L` is a grid tile. -/
theorem gridTile_of_builtFor {t : CTerrainData} {L i j : Nat} (hL : L ≤ 13)
    (hi : i < 6 * 2 ^ L) (hj : j < 3 * 2 ^ L)
    (h : builtFor t ((i : ℚ) * LODdegreeSizeLookUp L)
      (90 - (j : ℚ) * LODdegreeSizeLookUp L) L) : GridTile t := by
  obtain ⟨hk, hd⟩ := h
  have hk' := requestKey_grid L i (j : Int) hi
  simp only [Int.cast_natCast] at hk'
  rw [hk'] at hk
  simp only [keyOf, Prod.mk.injEq] at hk
  exact ⟨L, i, j, hL, hk.2.2, hd, hi, hj, hk.1, hk.2.1⟩

/-- What `split` asks for on a grid tile below level 13: the four cells `(2i, 2j)`,
`(2i+1, 2j)`, `(2i, 2j+1)`, `(2i+1, 2j+1)` of the next level. -/
theorem gridTile_requests {p : CTerrainData} {L i j : Nat} (hL : p.LOD = (L : Int))
    (hd : p.degreeSize = LODdegreeSizeLookUp L)
    (hlon : p.topLeftLon = (i : ℚ) * LODdegreeSizeLookUp L)
    (hlat : p.topLeftLat = 90 - (j : ℚ) * LODdegreeSizeLookUp L) :
    (p.LOD + 1).toNat = L + 1 ∧
    p.topLeftLon = ((2 * i : Nat) : ℚ) * LODdegreeSizeLookUp (L + 1) ∧
    p.topLeftLon + p.degreeSize / 2 = ((2 * i + 1 : Nat) : ℚ) * LODdegreeSizeLookUp (L + 1) ∧
    p.topLeftLat = 90 - ((2 * j : Nat) : ℚ) * LODdegreeSizeLookUp (L + 1) ∧
    p.topLeftLat - p.degreeSize / 2 =
      90 - ((2 * j + 1 : Nat) : ℚ) * LODdegreeSizeLookUp (L + 1) := by
  refine ⟨by rw [hL]; omega, ?_, ?_, ?_, ?_⟩
  · rw [hlon, LODdegreeSizeLookUp_double L]; push_cast; ring
  · rw [hlon, hd, LODdegreeSizeLookUp_double L]; push_cast; ring
  · rw [hlat, LODdegreeSizeLookUp_double L]; push_cast; ring
  · rw [hlat, hd, LODdegreeSizeLookUp_double L]; push_cast; ring

/-- Every tile the tree can hold is a grid tile. -/
theorem treeTile_grid {t : CTerrainData} (h : TreeTile t) : GridTile t := by
  induction h with
  | root lo la hlo hla t ht =>
    have h60 : LODdegreeSizeLookUp 0 = 60 := rfl
    refine gridTile_of_builtFor (le_of_lt (by norm_num : 0 < 13)) (by simpa using hlo)
      (by simpa using hla) ?_
    rw [h60]; exact ht
  | NWchild p _ hL t ht ih =>
    obtain ⟨L, i, j, _, hlod, hd, hi, hj, hlon, hlat⟩ := ih
    obtain ⟨e, r1, -, r3, -⟩ := gridTile_requests hlod hd hlon hlat
    rw [e, r1, r3] at ht
    have hL' : L + 1 ≤ 13 := by rw [hlod] at hL; omega
    exact gridTile_of_builtFor hL' (by rw [pow_succ]; omega) (by rw [pow_succ]; omega) ht
  | NEchild p _ hL t ht ih =>
    obtain ⟨L, i, j, _, hlod, hd, hi, hj, hlon, hlat⟩ := ih
    obtain ⟨e, -, r2, r3, -⟩ := gridTile_requests hlod hd hlon hlat
    rw [e, r2, r3] at ht
    have hL' : L + 1 ≤ 13 := by rw [hlod] at hL; omega
    exact gridTile_of_builtFor hL' (by rw [pow_succ]; omega) (by rw [pow_succ]; omega) ht
  | SWchild p _ hL t ht ih =>
    obtain ⟨L, i, j, _, hlod, hd, hi, hj, hlon, hlat⟩ := ih
    obtain ⟨e, r1, -, -, r4⟩ := gridTile_requests hlod hd hlon hlat
    rw [e, r1, r4] at ht
    have hL' : L + 1 ≤ 13 := by rw [hlod] at hL; omega
    exact gridTile_of_builtFor hL' (by rw [pow_succ]; omega) (by rw [pow_succ]; omega) ht
  | SEchild p _ hL t ht ih =>
    obtain ⟨L, i, j, _, hlod, hd, hi, hj, hlon, hlat⟩ := ih
    obtain ⟨e, -, r2, -, r4⟩ := gridTile_requests hlod hd hlon hlat
    rw [e, r2, r4] at ht
    have hL' : L + 1 ≤ 13 := by rw [hlod] at hL; omega
    exact gridTile_of_builtFor hL' (by rw [pow_succ]; omega) (by rw [pow_succ]; omega) ht

theorem floor_natCast_div (n d : Nat) : ⌊(n : ℚ) / (d : ℚ)⌋ = ((n / d : Nat) : Int) := by
  have := Rat.floor_intCast_div_natCast (n : Int) d
  simp only [Int.cast_natCast] at this
  rw [this]; norm_cast

theorem castInt_intCast (k : Int) : castInt (k : ℚ) = k := by
  unfold castInt
  split_ifs <;> simp

/-- The tables of a level agree: the source cell of the band is `tilesPerSourceCell` tiles
wide, and its `HGTsourceSize - 1` sample steps are `8 * skipping` a tile. -/
theorem band_tables (L : Nat) (hL : L ≤ 13) :
    0 < tilesPerSourceCell L ∧
    HGTsourceDegreeSizeLookUp L = (tilesPerSourceCell L : ℚ) * LODdegreeSizeLookUp L ∧
    HGTsourceSizeLookUp L - 1 = (tilesPerSourceCell L : Int) * (8 * HGTsourceSkippingLookUp L) ∧
    0 < HGTsourceSkippingLookUp L := by
  rw [LODdegreeSizeLookUp_eq]
  unfold tilesPerSourceCell HGTsourceDegreeSizeLookUp HGTsourceSizeLookUp
    HGTsourceSkippingLookUp
  interval_cases L <;> norm_num

/-- Snapping the corner of the grid cell `(i, j)` of degree size `d` to the grid of degree
size `m * d`. -/
theorem findTopLeftCorner_grid_coarse {d : ℚ} (hd : 0 < d) {m : Nat} (hm : 0 < m) (i j : Nat)
    (hlt : (i : ℚ) * d < 360) :
    findTopLeftCorner ((i : ℚ) * d) (90 - (j : ℚ) * d) ((m : ℚ) * d) =
      (((i / m : Nat) : ℚ) * ((m : ℚ) * d), 90 - ((j / m : Nat) : ℚ) * ((m : ℚ) * d)) := by
  have h0 : (0 : ℚ) ≤ (i : ℚ) * d := mul_nonneg (Nat.cast_nonneg i) hd.le
  have hmq : (0 : ℚ) < (m : ℚ) := by exact_mod_cast hm
  have hq : ∀ k : Nat, (k : ℚ) * d / ((m : ℚ) * d) = (k : ℚ) / (m : ℚ) := by
    intro k; field_simp; ring
  apply Prod.ext
  · rw [findTopLeftCorner_fst h0 hlt, hq, floor_natCast_div]; simp only [Int.cast_natCast]
  · rw [findTopLeftCorner_snd]
    have h : (90 : ℚ) - (90 - (j : ℚ) * d) = (j : ℚ) * d := by ring
    rw [h, hq, floor_natCast_div]; simp only [Int.cast_natCast]

/-- The source cell of the tile in the cell `(i, j)` of level `L`. -/
theorem findTopLeftCornerOfHgtFile_grid {L : Nat} (hL : L ≤ 13) {i : Nat} (j : Nat)
    (hi : i < 6 * 2 ^ L) :
    findTopLeftCornerOfHgtFile ((i : ℚ) * LODdegreeSizeLookUp L)
        (90 - (j : ℚ) * LODdegreeSizeLookUp L) L =
      (((i / tilesPerSourceCell L : Nat) : ℚ) * HGTsourceDegreeSizeLookUp L,
        90 - ((j / tilesPerSourceCell L : Nat) : ℚ) * HGTsourceDegreeSizeLookUp L) := by
  obtain ⟨hm, hD, -, -⟩ := band_tables L hL
  unfold findTopLeftCornerOfHgtFile
  rw [hD]
  exact findTopLeftCorner_grid_coarse (LODdegreeSizeLookUp_pos L) hm i j (grid_lon_lt hi)

theorem sample_offset {d : ℚ} (hd : 0 < d) {m : Nat} (hm : 0 < m) (q r : Nat) (s : Int)
    {n : ℚ} (hn : n = (q : ℚ) * (m : ℚ) + (r : ℚ)) :
    (n * d - (q : ℚ) * ((m : ℚ) * d)) / ((m : ℚ) * d) * (((m : Int) * (8 * s) : Int) : ℚ) =
      (((r : Int) * (8 * s) : Int) : ℚ) := by
  have hmq : (0 : ℚ) < (m : ℚ) := by exact_mod_cast hm
  subst hn
  push_cast
  field_simp
  ring

/-- The origin of the tile in the cell `(i, j)` of level `L` within its source file. -/
theorem findXYInHgtFile_grid {L : Nat} (hL : L ≤ 13) {i : Nat} (j : Nat)
    (hi : i < 6 * 2 ^ L) :
    findXYInHgtFile
        (findTopLeftCornerOfHgtFile ((i : ℚ) * LODdegreeSizeLookUp L)
          (90 - (j : ℚ) * LODdegreeSizeLookUp L) L).1
        (findTopLeftCornerOfHgtFile ((i : ℚ) * LODdegreeSizeLookUp L)
          (90 - (j : ℚ) * LODdegreeSizeLookUp L) L).2
        ((i : ℚ) * LODdegreeSizeLookUp L) (90 - (j : ℚ) * LODdegreeSizeLookUp L) L =
      (((i % tilesPerSourceCell L : Nat) : Int) * (8 * HGTsourceSkippingLookUp L),
        ((j % tilesPerSourceCell L : Nat) : Int) * (8 * HGTsourceSkippingLookUp L)) := by
  obtain ⟨hm, hD, hN, -⟩ := band_tables L hL
  have hd := LODdegreeSizeLookUp_pos L
  have hmq : (0 : ℚ) < (tilesPerSourceCell L : ℚ) := by exact_mod_cast hm
  rw [findTopLeftCornerOfHgtFile_grid hL j hi]
  unfold findXYInHgtFile
  have hg := findTopLeftCorner_grid hd i (j : Int) (grid_lon_lt hi)
  simp only [Int.cast_natCast] at hg
  simp only [hg, hN]
  have hi' : (i : ℚ) = ((i / tilesPerSourceCell L : Nat) : ℚ) * (tilesPerSourceCell L : ℚ) +
      ((i % tilesPerSourceCell L : Nat) : ℚ) := by
    exact_mod_cast (Nat.div_add_mod' i (tilesPerSourceCell L)).symm
  have hj' : (j : ℚ) = ((j / tilesPerSourceCell L : Nat) : ℚ) * (tilesPerSourceCell L : ℚ) +
      ((j % tilesPerSourceCell L : Nat) : ℚ) := by
    exact_mod_cast (Nat.div_add_mod' j (tilesPerSourceCell L)).symm
  rw [hD]
  have hx := sample_offset hd hm (i / tilesPerSourceCell L) (i % tilesPerSourceCell L)
    (HGTsourceSkippingLookUp L) hi'
  have hy := sample_offset hd hm (j / tilesPerSourceCell L) (j % tilesPerSourceCell L)
    (HGTsourceSkippingLookUp L) hj'
  have hy' : (90 : ℚ) - ((j / tilesPerSourceCell L : Nat) : ℚ) *
        ((tilesPerSourceCell L : ℚ) * LODdegreeSizeLookUp L) -
        (90 - (j : ℚ) * LODdegreeSizeLookUp L) =
      (j : ℚ) * LODdegreeSizeLookUp L - ((j / tilesPerSourceCell L : Nat) : ℚ) *
        ((tilesPerSourceCell L : ℚ) * LODdegreeSizeLookUp L) := by ring
  rw [hy', hx, hy, castInt_intCast, castInt_intCast]

theorem grid_width (L : Nat) : ((6 * 2 ^ L : Nat) : ℚ) * LODdegreeSizeLookUp L = 360 := by
  rw [LODdegreeSizeLookUp_eq]
  have h2 : (2 : ℚ) ^ L ≠ 0 := by positivity
  push_cast
  field_simp
  ring

theorem grid_height (L : Nat) : ((3 * 2 ^ L : Nat) : ℚ) * LODdegreeSizeLookUp L = 180 := by
  rw [LODdegreeSizeLookUp_eq]
  have h2 : (2 : ℚ) ^ L ≠ 0 := by positivity
  push_cast
  field_simp
  ring

/-- The longitudes `getTerrainPoints` looks up for a tile in column `i` of level `L` (its
own, and the wrapped ones one tile to the west and to the east) are grid columns. -/
theorem neighbor_lon_grid {L i : Nat} (hi : i < 6 * 2 ^ L) {nlon : ℚ}
    (h : nlon = (i : ℚ) * LODdegreeSizeLookUp L ∨
      nlon = (if (i : ℚ) * LODdegreeSizeLookUp L - LODdegreeSizeLookUp L < 0
        then (i : ℚ) * LODdegreeSizeLookUp L - LODdegreeSizeLookUp L + 360
        else (i : ℚ) * LODdegreeSizeLookUp L - LODdegreeSizeLookUp L) ∨
      nlon = (if (i : ℚ) * LODdegreeSizeLookUp L + LODdegreeSizeLookUp L ≥ 360
        then (i : ℚ) * LODdegreeSizeLookUp L + LODdegreeSizeLookUp L - 360
        else (i : ℚ) * LODdegreeSizeLookUp L + LODdegreeSizeLookUp L)) :
    ∃ i' : Nat, i' < 6 * 2 ^ L ∧ nlon = (i' : ℚ) * LODdegreeSizeLookUp L := by
  have hd := LODdegreeSizeLookUp_pos L
  have hw := grid_width L
  have hpos : 0 < 6 * 2 ^ L := by positivity
  rcases h with h | h | h
  · exact ⟨i, hi, h⟩
  · by_cases hz : i = 0
    · subst hz
      refine ⟨6 * 2 ^ L - 1, by omega, ?_⟩
      rw [h, if_pos (by simp; exact hd)]
      have : ((6 * 2 ^ L - 1 : Nat) : ℚ) = ((6 * 2 ^ L : Nat) : ℚ) - 1 := by
        rw [Nat.cast_sub hpos]; simp
      rw [this]; push_cast at hw ⊢; linarith
    · refine ⟨i - 1, by omega, ?_⟩
      have hi1 : (1 : ℚ) ≤ (i : ℚ) := by exact_mod_cast Nat.one_le_iff_ne_zero.2 hz
      have hc : ((i - 1 : Nat) : ℚ) = (i : ℚ) - 1 := by
        rw [Nat.cast_sub (Nat.one_le_iff_ne_zero.2 hz)]; simp
      rw [h, if_neg (by nlinarith), hc]; ring
  · by_cases hz : i + 1 = 6 * 2 ^ L
    · refine ⟨0, hpos, ?_⟩
      have he : (i : ℚ) * LODdegreeSizeLookUp L + LODdegreeSizeLookUp L = 360 := by
        rw [← hw, ← hz]; push_cast; ring
      rw [h, if_pos (by rw [he]), he]; simp
    · refine ⟨i + 1, by omega, ?_⟩
      have hlt : i + 1 < 6 * 2 ^ L := by omega
      have hl := grid_lon_lt hlt
      push_cast at hl
      rw [h, if_neg (by linarith)]; push_cast; ring

/-- The latitudes `getTerrainPoints` looks up for a tile in row `j` of level `L` (its own,
and the ones a tile to the north and to the south), when not beyond the north pole, are
grid rows. -/
theorem neighbor_lat_grid (L j : Nat) {nlat : ℚ}
    (h : nlat = 90 - (j : ℚ) * LODdegreeSizeLookUp L ∨
      nlat = 90 - (j : ℚ) * LODdegreeSizeLookUp L + LODdegreeSizeLookUp L ∨
      nlat = 90 - (j : ℚ) * LODdegreeSizeLookUp L - LODdegreeSizeLookUp L)
    (hn : ¬ nlat > 90) :
    ∃ j' : Nat, j' ≤ j + 1 ∧ nlat = 90 - (j' : ℚ) * LODdegreeSizeLookUp L := by
  have hd := LODdegreeSizeLookUp_pos L
  rcases h with h | h | h
  · exact ⟨j, by omega, h⟩
  · by_cases hz : j = 0
    · subst hz
      exfalso; apply hn; rw [h]; simp; exact hd
    · refine ⟨j - 1, by omega, ?_⟩
      have hc : ((j - 1 : Nat) : ℚ) = (j : ℚ) - 1 := by
        rw [Nat.cast_sub (Nat.one_le_iff_ne_zero.2 hz)]; simp
      rw [h, hc]; ring
  · exact ⟨j + 1, le_refl _, by rw [h]; push_cast; ring⟩

/-- The 9×9 samples of the tile in the cell `(i, j)` of level `L`, and everything between
them, lie inside the source grid. -/
theorem frame_in_range (cm : CCacheManager) {L : Nat} (hL : L ≤ 13) {i : Nat} (j : Nat)
    (hi : i < 6 * 2 ^ L) {a b : Int} (ha0 : 0 ≤ a) (ha : a ≤ 8) (hb0 : 0 ≤ b) (hb : b ≤ 8) :
    0 ≤ (findHgtFileName cm ((i : ℚ) * LODdegreeSizeLookUp L)
        (90 - (j : ℚ) * LODdegreeSizeLookUp L) L).x +
      a * (findHgtFileName cm ((i : ℚ) * LODdegreeSizeLookUp L)
        (90 - (j : ℚ) * LODdegreeSizeLookUp L) L).hgtSkipping ∧
    (findHgtFileName cm ((i : ℚ) * LODdegreeSizeLookUp L)
        (90 - (j : ℚ) * LODdegreeSizeLookUp L) L).x +
      a * (findHgtFileName cm ((i : ℚ) * LODdegreeSizeLookUp L)
        (90 - (j : ℚ) * LODdegreeSizeLookUp L) L).hgtSkipping ≤
      (findHgtFileName cm ((i : ℚ) * LODdegreeSizeLookUp L)
        (90 - (j : ℚ) * LODdegreeSizeLookUp L) L).hgtSize - 1 ∧
    0 ≤ (findHgtFileName cm ((i : ℚ) * LODdegreeSizeLookUp L)
        (90 - (j : ℚ) * LODdegreeSizeLookUp L) L).y +
      b * (findHgtFileName cm ((i : ℚ) * LODdegreeSizeLookUp L)
        (90 - (j : ℚ) * LODdegreeSizeLookUp L) L).hgtSkipping ∧
    (findHgtFileName cm ((i : ℚ) * LODdegreeSizeLookUp L)
        (90 - (j : ℚ) * LODdegreeSizeLookUp L) L).y +
      b * (findHgtFileName cm ((i : ℚ) * LODdegreeSizeLookUp L)
        (90 - (j : ℚ) * LODdegreeSizeLookUp L) L).hgtSkipping ≤
      (findHgtFileName cm ((i : ℚ) * LODdegreeSizeLookUp L)
        (90 - (j : ℚ) * LODdegreeSizeLookUp L) L).hgtSize - 1 := by
  obtain ⟨hm, -, hN, hs⟩ := band_tables L hL
  have hxy := findXYInHgtFile_grid hL j hi
  simp only [findHgtFileName, hxy, hN]
  have hi' : ((i % tilesPerSourceCell L : Nat) : Int) + 1 ≤ (tilesPerSourceCell L : Int) := by
    exact_mod_cast Nat.mod_lt i hm
  have hj' : ((j % tilesPerSourceCell L : Nat) : Int) + 1 ≤ (tilesPerSourceCell L : Int) := by
    exact_mod_cast Nat.mod_lt j hm
  have hi0 : (0 : Int) ≤ ((i % tilesPerSourceCell L : Nat) : Int) := Int.natCast_nonneg _
  have hj0 : (0 : Int) ≤ ((j % tilesPerSourceCell L : Nat) : Int) := Int.natCast_nonneg _
  have h8 : (0 : Int) ≤ 8 * HGTsourceSkippingLookUp L := by linarith
  refine ⟨?_, ?_, ?_, ?_⟩
  · linarith [mul_nonneg hi0 h8, mul_nonneg ha0 hs.le]
  · linarith [mul_le_mul_of_nonneg_right hi' h8, mul_le_mul_of_nonneg_right ha hs.le]
  · linarith [mul_nonneg hj0 h8, mul_nonneg hb0 hs.le]
  · linarith [mul_le_mul_of_nonneg_right hj' h8, mul_le_mul_of_nonneg_right hb hs.le]

/-- C26: for every level `L` in `0..13` and every tile in a cell `(i, j)` of the level's
grid, the tile spans exactly `8 * skip` sample steps of its source
(`deg(L) / bandDegree * (n - 1) = 8 * skip`), and for the tile itself and for each of the
positions `getTerrainPoints` looks up around it (one tile to the west or east, wrapped at
0 and 360, one tile to the north unless beyond the pole, one tile to the south) every
sample position `(x + a*skip, y + b*skip)` with `a, b` in `0..8`, `(x, y)` being what
`findHgtFileName` returns for that position, has both coordinates in `[0, n-1]`. These are
the positions of the 9×9 block (the tile's own frame) and of the ghost reads at the offsets
`1*skip` and `7*skip` (the neighbours' frames). -/
theorem height_reads_in_range (cm : CCacheManager) (L i j : Nat) (hL : L ≤ 13)
    (hi : i < 6 * 2 ^ L) :
    LODdegreeSizeLookUp L / HGTsourceDegreeSizeLookUp L *
        ((HGTsourceSizeLookUp L - 1 : Int) : ℚ) =
      ((8 * HGTsourceSkippingLookUp L : Int) : ℚ) ∧
    ∀ nlon nlat : ℚ,
      (nlon = (i : ℚ) * LODdegreeSizeLookUp L ∨
        nlon = (if (i : ℚ) * LODdegreeSizeLookUp L - LODdegreeSizeLookUp L < 0
          then (i : ℚ) * LODdegreeSizeLookUp L - LODdegreeSizeLookUp L + 360
          else (i : ℚ) * LODdegreeSizeLookUp L - LODdegreeSizeLookUp L) ∨
        nlon = (if (i : ℚ) * LODdegreeSizeLookUp L + LODdegreeSizeLookUp L ≥ 360
          then (i : ℚ) * LODdegreeSizeLookUp L + LODdegreeSizeLookUp L - 360
          else (i : ℚ) * LODdegreeSizeLookUp L + LODdegreeSizeLookUp L)) →
      (nlat = 90 - (j : ℚ) * LODdegreeSizeLookUp L ∨
        nlat = 90 - (j : ℚ) * LODdegreeSizeLookUp L + LODdegreeSizeLookUp L ∨
        nlat = 90 - (j : ℚ) * LODdegreeSizeLookUp L - LODdegreeSizeLookUp L) →
      ¬ nlat > 90 →
      ∀ a b : Int, 0 ≤ a → a ≤ 8 → 0 ≤ b → b ≤ 8 →
        0 ≤ (findHgtFileName cm nlon nlat L).x + a * (findHgtFileName cm nlon nlat L).hgtSkipping ∧
        (findHgtFileName cm nlon nlat L).x + a * (findHgtFileName cm nlon nlat L).hgtSkipping ≤
          (findHgtFileName cm nlon nlat L).hgtSize - 1 ∧
        0 ≤ (findHgtFileName cm nlon nlat L).y + b * (findHgtFileName cm nlon nlat L).hgtSkipping ∧
        (findHgtFileName cm nlon nlat L).y + b * (findHgtFileName cm nlon nlat L).hgtSkipping ≤
          (findHgtFileName cm nlon nlat L).hgtSize - 1 := by
  constructor
  · obtain ⟨hm, hD, hN, -⟩ := band_tables L hL
    have hd := LODdegreeSizeLookUp_pos L
    have hmq : (0 : ℚ) < (tilesPerSourceCell L : ℚ) := by exact_mod_cast hm
    rw [hD, hN]; push_cast; field_simp; ring
  · intro nlon nlat hlon hlat hn a b ha0 ha hb0 hb
    obtain ⟨i', hi', rfl⟩ := neighbor_lon_grid hi hlon
    obtain ⟨j', -, rfl⟩ := neighbor_lat_grid L j hlat hn
    exact frame_in_range cm hL j' hi' ha0 ha hb0 hb

/-- C26 at the level-13 tile in the cell `(0, 0)` and its own frame, for the sample
`(8, 8)`. -/
theorem height_reads_in_range_witness :
    0 ≤ (findHgtFileName emptyDataset (((0 : Nat) : ℚ) * LODdegreeSizeLookUp 13)
          (90 - ((0 : Nat) : ℚ) * LODdegreeSizeLookUp 13) 13).x +
        8 * (findHgtFileName emptyDataset (((0 : Nat) : ℚ) * LODdegreeSizeLookUp 13)
          (90 - ((0 : Nat) : ℚ) * LODdegreeSizeLookUp 13) 13).hgtSkipping ∧
      (findHgtFileName emptyDataset (((0 : Nat) : ℚ) * LODdegreeSizeLookUp 13)
          (90 - ((0 : Nat) : ℚ) * LODdegreeSizeLookUp 13) 13).x +
        8 * (findHgtFileName emptyDataset (((0 : Nat) : ℚ) * LODdegreeSizeLookUp 13)
          (90 - ((0 : Nat) : ℚ) * LODdegreeSizeLookUp 13) 13).hgtSkipping ≤
        (findHgtFileName emptyDataset (((0 : Nat) : ℚ) * LODdegreeSizeLookUp 13)
          (90 - ((0 : Nat) : ℚ) * LODdegreeSizeLookUp 13) 13).hgtSize - 1 :=
  have h := (height_reads_in_range emptyDataset 13 0 0 (by decide) (by decide)).2
    (((0 : Nat) : ℚ) * LODdegreeSizeLookUp 13) (90 - ((0 : Nat) : ℚ) * LODdegreeSizeLookUp 13)
    (Or.inl rfl) (Or.inl rfl) (by simp) 8 8 (by decide) (by decide) (by decide) (by decide)
  ⟨h.1, h.2.1⟩

theorem fileGetHeightBlock_get (disk : List Char → Int → Nat) (name : List Char)
    (sizeX x y skip : Int) {X Y : Nat} (hX : X < 9) (hY : Y < 9) :
    (fileGetHeightBlock disk name sizeX x y 9 9 skip)[Y * 9 + X]? =
      some (fileGetHeight disk name sizeX (x + (X : Int) * skip) (y + (Y : Int) * skip)) := by
  interval_cases X <;> interval_cases Y <;> rfl

theorem replicate_81_get (c : Int) {k : Nat} (hk : k < 81) :
    (List.replicate 81 c)[k]? = some c := by
  rw [List.getElem?_replicate, if_pos hk]

/-- The main block of `getTerrainPoints`, entry `(X, Y)`. -/
theorem getTerrainPoints_points_get (cm : CCacheManager) (lon lat : ℚ) (lod : Nat)
    (uninitialised : Int → Int → Nat) (texture0 : Int → CRawPixel)
    (dontUseDiskHgt dontUseDiskRaw : Bool) {X Y : Nat} (hX : X < 9) (hY : Y < 9) :
    (getTerrainPoints cm lon lat lod uninitialised texture0 dontUseDiskHgt
        dontUseDiskRaw).points[Y * 9 + X]? =
      some (if dontUseDiskHgt then HGT_DONT_USE_DISK_HEIGHT
        else if (findHgtFileName cm lon lat lod).fileFound then
          fileGetHeight cm.disk (findHgtFileName cm lon lat lod).filePath
            (findHgtFileName cm lon lat lod).hgtSize
            ((findHgtFileName cm lon lat lod).x +
              (X : Int) * (findHgtFileName cm lon lat lod).hgtSkipping)
            ((findHgtFileName cm lon lat lod).y +
              (Y : Int) * (findHgtFileName cm lon lat lod).hgtSkipping)
        else 0) := by
  have hk : Y * 9 + X < 81 := by omega
  cases dontUseDiskHgt with
  | true => simp only [getTerrainPoints, if_true]; exact replicate_81_get _ hk
  | false =>
    simp only [getTerrainPoints, Bool.false_eq_true, if_false]
    by_cases hf : (findHgtFileName cm lon lat lod).fileFound = true
    · rw [if_pos hf, if_pos hf]; exact fileGetHeightBlock_get _ _ _ _ _ _ hX hY
    · rw [if_neg hf, if_neg hf]; exact replicate_81_get _ hk

/-- Two positions in the same source cell get the same file. -/
theorem findHgtFileName_same_cell (cm : CCacheManager) {lon lat lon' lat' : ℚ} (lod : Nat)
    (h : findTopLeftCornerOfHgtFile lon' lat' lod = findTopLeftCornerOfHgtFile lon lat lod) :
    (findHgtFileName cm lon' lat' lod).filePath = (findHgtFileName cm lon lat lod).filePath ∧
    (findHgtFileName cm lon' lat' lod).fileFound = (findHgtFileName cm lon lat lod).fileFound ∧
    (findHgtFileName cm lon' lat' lod).hgtSize = (findHgtFileName cm lon lat lod).hgtSize ∧
    (findHgtFileName cm lon' lat' lod).hgtSkipping =
      (findHgtFileName cm lon lat lod).hgtSkipping := by
  have hidx : hgtSourceIndex lon' lat' lod = hgtSourceIndex lon lat lod := by
    unfold hgtSourceIndex; rw [h]
  simp only [findHgtFileName, hidx, and_self]

theorem mod_succ_of_div_eq {i m : Nat} (h : (i + 1) / m = i / m) :
    (i + 1) % m = i % m + 1 := by
  have h1 := Nat.div_add_mod (i + 1) m
  have h2 := Nat.div_add_mod i m
  rw [h] at h1
  omega

/-- The origins of two tiles of a level that lie in the same source cell, the second one
tile to the east of the first. -/
theorem findXY_east {L : Nat} (hL : L ≤ 13) {i : Nat} (j : Nat) (hi : i + 1 < 6 * 2 ^ L)
    (h : findTopLeftCornerOfHgtFile (((i + 1 : Nat) : ℚ) * LODdegreeSizeLookUp L)
        (90 - (j : ℚ) * LODdegreeSizeLookUp L) L =
      findTopLeftCornerOfHgtFile ((i : ℚ) * LODdegreeSizeLookUp L)
        (90 - (j : ℚ) * LODdegreeSizeLookUp L) L) (cm : CCacheManager) :
    (findHgtFileName cm (((i + 1 : Nat) : ℚ) * LODdegreeSizeLookUp L)
        (90 - (j : ℚ) * LODdegreeSizeLookUp L) L).x =
      (findHgtFileName cm ((i : ℚ) * LODdegreeSizeLookUp L)
        (90 - (j : ℚ) * LODdegreeSizeLookUp L) L).x + 8 * HGTsourceSkippingLookUp L ∧
    (findHgtFileName cm (((i + 1 : Nat) : ℚ) * LODdegreeSizeLookUp L)
        (90 - (j : ℚ) * LODdegreeSizeLookUp L) L).y =
      (findHgtFileName cm ((i : ℚ) * LODdegreeSizeLookUp L)
        (90 - (j : ℚ) * LODdegreeSizeLookUp L) L).y := by
  obtain ⟨hm, hD, -, -⟩ := band_tables L hL
  have hi0 : i < 6 * 2 ^ L := by omega
  have hDpos : 0 < HGTsourceDegreeSizeLookUp L := by
    rw [hD]; exact mul_pos (by exact_mod_cast hm) (LODdegreeSizeLookUp_pos L)
  have hq : (i + 1) / tilesPerSourceCell L = i / tilesPerSourceCell L := by
    rw [findTopLeftCornerOfHgtFile_grid hL j hi, findTopLeftCornerOfHgtFile_grid hL j hi0] at h
    have h1 := congrArg Prod.fst h
    simp only at h1
    have h2 := mul_right_cancel₀ hDpos.ne' h1
    exact_mod_cast h2
  have hxy1 := findXYInHgtFile_grid hL j hi
  have hxy0 := findXYInHgtFile_grid hL j hi0
  simp only [findHgtFileName, hxy1, hxy0, mod_succ_of_div_eq hq]
  constructor
  · push_cast; ring
  · trivial

/-- The origins of two tiles of a level that lie in the same source cell, the second one
tile to the south of the first. -/
theorem findXY_south {L : Nat} (hL : L ≤ 13) {i : Nat} (j : Nat) (hi : i < 6 * 2 ^ L)
    (h : findTopLeftCornerOfHgtFile ((i : ℚ) * LODdegreeSizeLookUp L)
        (90 - ((j + 1 : Nat) : ℚ) * LODdegreeSizeLookUp L) L =
      findTopLeftCornerOfHgtFile ((i : ℚ) * LODdegreeSizeLookUp L)
        (90 - (j : ℚ) * LODdegreeSizeLookUp L) L) (cm : CCacheManager) :
    (findHgtFileName cm ((i : ℚ) * LODdegreeSizeLookUp L)
        (90 - ((j + 1 : Nat) : ℚ) * LODdegreeSizeLookUp L) L).x =
      (findHgtFileName cm ((i : ℚ) * LODdegreeSizeLookUp L)
        (90 - (j : ℚ) * LODdegreeSizeLookUp L) L).x ∧
    (findHgtFileName cm ((i : ℚ) * LODdegreeSizeLookUp L)
        (90 - ((j + 1 : Nat) : ℚ) * LODdegreeSizeLookUp L) L).y =
      (findHgtFileName cm ((i : ℚ) * LODdegreeSizeLookUp L)
        (90 - (j : ℚ) * LODdegreeSizeLookUp L) L).y + 8 * HGTsourceSkippingLookUp L := by
  obtain ⟨hm, hD, -, -⟩ := band_tables L hL
  have hDpos : 0 < HGTsourceDegreeSizeLookUp L := by
    rw [hD]; exact mul_pos (by exact_mod_cast hm) (LODdegreeSizeLookUp_pos L)
  have hq : (j + 1) / tilesPerSourceCell L = j / tilesPerSourceCell L := by
    rw [findTopLeftCornerOfHgtFile_grid hL (j + 1) hi, findTopLeftCornerOfHgtFile_grid hL j hi]
      at h
    have h1 := congrArg Prod.snd h
    simp only [sub_right_inj] at h1
    have h2 := mul_right_cancel₀ hDpos.ne' h1
    exact_mod_cast h2
  have hxy1 := findXYInHgtFile_grid hL (j + 1) hi
  have hxy0 := findXYInHgtFile_grid hL j hi
  simp only [findHgtFileName, hxy1, hxy0, mod_succ_of_div_eq hq]
  constructor
  · trivial
  · push_cast; ring

/-- C27: for every level `L` in `0..13` and every tile in a cell `(i, j)` of the level's
grid: if the tile one cell to the east lies in the same source cell, `findHgtFileName`
gives it the same file (path, found flag and row length) and the origin `(x + 8*skip, y)`
of this tile's origin `(x, y)`, and for every row `r` of the 9×9 blocks, entry `(8, r)` of
this tile's block and entry `(0, r)` of the eastern tile's block are both the sample that
`fileGetHeight` reads from that file at `(x + 8*skip, y + r*skip)` (the constant
`HGT_DONT_USE_DISK_HEIGHT` when the disk is not used, 0 when the file is absent); if the
tile one cell to the south lies in the same source cell, it gets the same file and the
origin `(x, y + 8*skip)`, and for every column `c`, entry `(c, 8)` of this tile's block and
entry `(c, 0)` of the southern tile's block are both the sample of that file at
`(x + c*skip, y + 8*skip)`. -/
theorem edge_continuity (cm : CCacheManager) (L i j : Nat) (hL : L ≤ 13)
    (uninitialised : Int → Int → Nat) (texture0 : Int → CRawPixel)
    (dontUseDiskHgt dontUseDiskRaw : Bool) :
    (i + 1 < 6 * 2 ^ L →
      findTopLeftCornerOfHgtFile (((i + 1 : Nat) : ℚ) * LODdegreeSizeLookUp L)
          (90 - (j : ℚ) * LODdegreeSizeLookUp L) L =
        findTopLeftCornerOfHgtFile ((i : ℚ) * LODdegreeSizeLookUp L)
          (90 - (j : ℚ) * LODdegreeSizeLookUp L) L →
      (findHgtFileName cm (((i + 1 : Nat) : ℚ) * LODdegreeSizeLookUp L)
          (90 - (j : ℚ) * LODdegreeSizeLookUp L) L).x =
        (findHgtFileName cm ((i : ℚ) * LODdegreeSizeLookUp L)
          (90 - (j : ℚ) * LODdegreeSizeLookUp L) L).x + 8 * HGTsourceSkippingLookUp L ∧
      (findHgtFileName cm (((i + 1 : Nat) : ℚ) * LODdegreeSizeLookUp L)
          (90 - (j : ℚ) * LODdegreeSizeLookUp L) L).y =
        (findHgtFileName cm ((i : ℚ) * LODdegreeSizeLookUp L)
          (90 - (j : ℚ) * LODdegreeSizeLookUp L) L).y ∧
      (findHgtFileName cm (((i + 1 : Nat) : ℚ) * LODdegreeSizeLookUp L)
          (90 - (j : ℚ) * LODdegreeSizeLookUp L) L).filePath =
        (findHgtFileName cm ((i : ℚ) * LODdegreeSizeLookUp L)
          (90 - (j : ℚ) * LODdegreeSizeLookUp L) L).filePath ∧
      (findHgtFileName cm (((i + 1 : Nat) : ℚ) * LODdegreeSizeLookUp L)
          (90 - (j : ℚ) * LODdegreeSizeLookUp L) L).fileFound =
        (findHgtFileName cm ((i : ℚ) * LODdegreeSizeLookUp L)
          (90 - (j : ℚ) * LODdegreeSizeLookUp L) L).fileFound ∧
      (findHgtFileName cm (((i + 1 : Nat) : ℚ) * LODdegreeSizeLookUp L)
          (90 - (j : ℚ) * LODdegreeSizeLookUp L) L).hgtSize =
        (findHgtFileName cm ((i : ℚ) * LODdegreeSizeLookUp L)
          (90 - (j : ℚ) * LODdegreeSizeLookUp L) L).hgtSize ∧
      ∀ r : Nat, r < 9 →
        (getTerrainPoints cm ((i : ℚ) * LODdegreeSizeLookUp L)
          (90 - (j : ℚ) * LODdegreeSizeLookUp L) L uninitialised texture0 dontUseDiskHgt
          dontUseDiskRaw).points[r * 9 + 8]? =
          some (if dontUseDiskHgt then HGT_DONT_USE_DISK_HEIGHT
            else if (findHgtFileName cm ((i : ℚ) * LODdegreeSizeLookUp L)
                (90 - (j : ℚ) * LODdegreeSizeLookUp L) L).fileFound then
              fileGetHeight cm.disk
                (findHgtFileName cm ((i : ℚ) * LODdegreeSizeLookUp L)
                  (90 - (j : ℚ) * LODdegreeSizeLookUp L) L).filePath
                (findHgtFileName cm ((i : ℚ) * LODdegreeSizeLookUp L)
                  (90 - (j : ℚ) * LODdegreeSizeLookUp L) L).hgtSize
                ((findHgtFileName cm ((i : ℚ) * LODdegreeSizeLookUp L)
                  (90 - (j : ℚ) * LODdegreeSizeLookUp L) L).x + 8 * HGTsourceSkippingLookUp L)
                ((findHgtFileName cm ((i : ℚ) * LODdegreeSizeLookUp L)
                  (90 - (j : ℚ) * LODdegreeSizeLookUp L) L).y +
                  (r : Int) * HGTsourceSkippingLookUp L)
            else 0) ∧
        (getTerrainPoints cm (((i + 1 : Nat) : ℚ) * LODdegreeSizeLookUp L)
          (90 - (j : ℚ) * LODdegreeSizeLookUp L) L uninitialised texture0 dontUseDiskHgt
          dontUseDiskRaw).points[r * 9 + 0]? =
          some (if dontUseDiskHgt then HGT_DONT_USE_DISK_HEIGHT
            else if (findHgtFileName cm ((i : ℚ) * LODdegreeSizeLookUp L)
                (90 - (j : ℚ) * LODdegreeSizeLookUp L) L).fileFound then
              fileGetHeight cm.disk
                (findHgtFileName cm ((i : ℚ) * LODdegreeSizeLookUp L)
                  (90 - (j : ℚ) * LODdegreeSizeLookUp L) L).filePath
                (findHgtFileName cm ((i : ℚ) * LODdegreeSizeLookUp L)
                  (90 - (j : ℚ) * LODdegreeSizeLookUp L) L).hgtSize
                ((findHgtFileName cm ((i : ℚ) * LODdegreeSizeLookUp L)
                  (90 - (j : ℚ) * LODdegreeSizeLookUp L) L).x + 8 * HGTsourceSkippingLookUp L)
                ((findHgtFileName cm ((i : ℚ) * LODdegreeSizeLookUp L)
                  (90 - (j : ℚ) * LODdegreeSizeLookUp L) L).y +
                  (r : Int) * HGTsourceSkippingLookUp L)
            else 0)) ∧
    (i < 6 * 2 ^ L →
      findTopLeftCornerOfHgtFile ((i : ℚ) * LODdegreeSizeLookUp L)
          (90 - ((j + 1 : Nat) : ℚ) * LODdegreeSizeLookUp L) L =
        findTopLeftCornerOfHgtFile ((i : ℚ) * LODdegreeSizeLookUp L)
          (90 - (j : ℚ) * LODdegreeSizeLookUp L) L →
      (findHgtFileName cm ((i : ℚ) * LODdegreeSizeLookUp L)
          (90 - ((j + 1 : Nat) : ℚ) * LODdegreeSizeLookUp L) L).x =
        (findHgtFileName cm ((i : ℚ) * LODdegreeSizeLookUp L)
          (90 - (j : ℚ) * LODdegreeSizeLookUp L) L).x ∧
      (findHgtFileName cm ((i : ℚ) * LODdegreeSizeLookUp L)
          (90 - ((j + 1 : Nat) : ℚ) * LODdegreeSizeLookUp L) L).y =
        (findHgtFileName cm ((i : ℚ) * LODdegreeSizeLookUp L)
          (90 - (j : ℚ) * LODdegreeSizeLookUp L) L).y + 8 * HGTsourceSkippingLookUp L ∧
      (findHgtFileName cm ((i : ℚ) * LODdegreeSizeLookUp L)
          (90 - ((j + 1 : Nat) : ℚ) * LODdegreeSizeLookUp L) L).filePath =
        (findHgtFileName cm ((i : ℚ) * LODdegreeSizeLookUp L)
          (90 - (j : ℚ) * LODdegreeSizeLookUp L) L).filePath ∧
      (findHgtFileName cm ((i : ℚ) * LODdegreeSizeLookUp L)
          (90 - ((j + 1 : Nat) : ℚ) * LODdegreeSizeLookUp L) L).fileFound =
        (findHgtFileName cm ((i : ℚ) * LODdegreeSizeLookUp L)
          (90 - (j : ℚ) * LODdegreeSizeLookUp L) L).fileFound ∧
      (findHgtFileName cm ((i : ℚ) * LODdegreeSizeLookUp L)
          (90 - ((j + 1 : Nat) : ℚ) * LODdegreeSizeLookUp L) L).hgtSize =
        (findHgtFileName cm ((i : ℚ) * LODdegreeSizeLookUp L)
          (90 - (j : ℚ) * LODdegreeSizeLookUp L) L).hgtSize ∧
      ∀ c : Nat, c < 9 →
        (getTerrainPoints cm ((i : ℚ) * LODdegreeSizeLookUp L)
          (90 - (j : ℚ) * LODdegreeSizeLookUp L) L uninitialised texture0 dontUseDiskHgt
          dontUseDiskRaw).points[8 * 9 + c]? =
          some (if dontUseDiskHgt then HGT_DONT_USE_DISK_HEIGHT
            else if (findHgtFileName cm ((i : ℚ) * LODdegreeSizeLookUp L)
                (90 - (j : ℚ) * LODdegreeSizeLookUp L) L).fileFound then
              fileGetHeight cm.disk
                (findHgtFileName cm ((i : ℚ) * LODdegreeSizeLookUp L)
                  (90 - (j : ℚ) * LODdegreeSizeLookUp L) L).filePath
                (findHgtFileName cm ((i : ℚ) * LODdegreeSizeLookUp L)
                  (90 - (j : ℚ) * LODdegreeSizeLookUp L) L).hgtSize
                ((findHgtFileName cm ((i : ℚ) * LODdegreeSizeLookUp L)
                  (90 - (j : ℚ) * LODdegreeSizeLookUp L) L).x +
                  (c : Int) * HGTsourceSkippingLookUp L)
                ((findHgtFileName cm ((i : ℚ) * LODdegreeSizeLookUp L)
                  (90 - (j : ℚ) * LODdegreeSizeLookUp L) L).y + 8 * HGTsourceSkippingLookUp L)
            else 0) ∧
        (getTerrainPoints cm ((i : ℚ) * LODdegreeSizeLookUp L)
          (90 - ((j + 1 : Nat) : ℚ) * LODdegreeSizeLookUp L) L uninitialised texture0
          dontUseDiskHgt dontUseDiskRaw).points[0 * 9 + c]? =
          some (if dontUseDiskHgt then HGT_DONT_USE_DISK_HEIGHT
            else if (findHgtFileName cm ((i : ℚ) * LODdegreeSizeLookUp L)
                (90 - (j : ℚ) * LODdegreeSizeLookUp L) L).fileFound then
              fileGetHeight cm.disk
                (findHgtFileName cm ((i : ℚ) * LODdegreeSizeLookUp L)
                  (90 - (j : ℚ) * LODdegreeSizeLookUp L) L).filePath
                (findHgtFileName cm ((i : ℚ) * LODdegreeSizeLookUp L)
                  (90 - (j : ℚ) * LODdegreeSizeLookUp L) L).hgtSize
                ((findHgtFileName cm ((i : ℚ) * LODdegreeSizeLookUp L)
                  (90 - (j : ℚ) * LODdegreeSizeLookUp L) L).x +
                  (c : Int) * HGTsourceSkippingLookUp L)
                ((findHgtFileName cm ((i : ℚ) * LODdegreeSizeLookUp L)
                  (90 - (j : ℚ) * LODdegreeSizeLookUp L) L).y + 8 * HGTsourceSkippingLookUp L)
            else 0)) := by
  have hskip : ∀ lon lat, (findHgtFileName cm lon lat L).hgtSkipping =
      HGTsourceSkippingLookUp L := fun _ _ => rfl
  constructor
  · intro hi h
    obtain ⟨hx, hy⟩ := findXY_east hL j hi h cm
    obtain ⟨hp, hf, hn, hs⟩ := findHgtFileName_same_cell cm L h
    refine ⟨hx, hy, hp, hf, hn, fun r hr => ⟨?_, ?_⟩⟩
    · rw [getTerrainPoints_points_get cm _ _ L uninitialised texture0 dontUseDiskHgt
        dontUseDiskRaw (by norm_num : 8 < 9) hr, hskip]
      congr 4
    · rw [getTerrainPoints_points_get cm _ _ L uninitialised texture0 dontUseDiskHgt
        dontUseDiskRaw (by norm_num : 0 < 9) hr, hp, hf, hn, hx, hy, hskip]
      congr 4
      push_cast; ring
  · intro hi h
    obtain ⟨hx, hy⟩ := findXY_south hL j hi h cm
    obtain ⟨hp, hf, hn, hs⟩ := findHgtFileName_same_cell cm L h
    refine ⟨hx, hy, hp, hf, hn, fun c hc => ⟨?_, ?_⟩⟩
    · rw [getTerrainPoints_points_get cm _ _ L uninitialised texture0 dontUseDiskHgt
        dontUseDiskRaw hc (by norm_num : 8 < 9), hskip]
      congr 4
    · rw [getTerrainPoints_points_get cm _ _ L uninitialised texture0 dontUseDiskHgt
        dontUseDiskRaw hc (by norm_num : 0 < 9), hp, hf, hn, hx, hy, hskip]
      congr 4
      push_cast; ring

/-- C27 at the two level-1 tiles in the cells `(0, 0)` and `(1, 0)` of the 60° source cell
at the north-west corner: the eastern origin is `8 * skip` to the right. -/
theorem edge_continuity_witness :
    (findHgtFileName emptyDataset (((0 + 1 : Nat) : ℚ) * LODdegreeSizeLookUp 1)
        (90 - ((0 : Nat) : ℚ) * LODdegreeSizeLookUp 1) 1).x =
      (findHgtFileName emptyDataset (((0 : Nat) : ℚ) * LODdegreeSizeLookUp 1)
        (90 - ((0 : Nat) : ℚ) * LODdegreeSizeLookUp 1) 1).x + 8 * HGTsourceSkippingLookUp 1 :=
  ((edge_continuity emptyDataset 1 0 0 (by decide) (fun _ _ => 0)
      (fun _ => { r := 0, g := 0, b := 0 }) false false).1 (by decide)
    (by
      rw [findTopLeftCornerOfHgtFile_grid (by decide) 0 (by decide),
        findTopLeftCornerOfHgtFile_grid (by decide) 0 (by decide)]
      simp [tilesPerSourceCell])).1

/-- After `cacheTerrainDataRegister` has completed for the tile built for `(lon, lat, lod)`,
`cacheTerrainDataFind` for `(lon, lat, lod)` finds the handle that register returned. -/
theorem find_after_register {lon lat : ℚ} {lod : Nat} (hlod : lod ≤ 13) (h0 : 0 ≤ lon)
    (h1 : lon < 720) (cm : CCacheManager) (now earth ptr : Nat) {cm1 : CCacheManager}
    {t1 : CTerrainData}
    (hreg : cacheTerrainDataRegister cm now earth (CTerrainData.initTerrainData ptr lon lat lod) =
      some (cm1, t1)) (now' : Nat) :
    ∃ cm2, cacheTerrainDataFind cm1 now' lon lat lod earth = some (cm2, true, some t1) := by
  have hkey : keyOf (CTerrainData.initTerrainData ptr lon lat lod) = requestKey lon lat lod :=
    rfl
  have hkb : keyBand (requestKey lon lat lod) = HGTsourceLookUp lod := by
    simp [keyBand, requestKey_toNat]
  have hki : keyIndex (requestKey lon lat lod) = hgtSourceIndex lon lat lod := by
    simp only [keyIndex, requestKey_toNat]
    exact hgtSourceIndex_requestKey hlod h0 h1
  obtain ⟨l, hl⟩ := getShard_isSome cm (HGTsourceLookUp_lt lod) (hgtSourceIndex lon lat lod)
  have hl' : getShard cm (keyBand (keyOf (CTerrainData.initTerrainData ptr lon lat lod)))
      (keyIndex (keyOf (CTerrainData.initTerrainData ptr lon lat lod))) = some l := by
    rw [hkey, hkb, hki]; exact hl
  rw [cacheTerrainDataRegister_eq cm now earth _ hl', hkey, hkb, hki] at hreg
  cases hr : cachedTerrainDataListRegister cm.earthBufferA cm.earthBufferB now l earth
      (CTerrainData.initTerrainData ptr lon lat lod) with
  | none => rw [hr] at hreg; cases hreg
  | some r =>
    have hv := valid_of_register hr
    rw [hr] at hreg
    simp only [Option.map_some', Option.some.injEq, Prod.mk.injEq] at hreg
    obtain ⟨hcm, ht⟩ := hreg
    have hshard : getShard cm1 (HGTsourceLookUp lod) (hgtSourceIndex lon lat lod) = some r.1 := by
      rw [← hcm, getShard_setShard _ (HGTsourceLookUp_lt lod), if_pos ⟨rfl, rfl⟩]
    have hbuf : cm1.earthBufferA = cm.earthBufferA ∧ cm1.earthBufferB = cm.earthBufferB := by
      rw [← hcm]; simp
    have hfind := cacheTerrainDataFind_eq cm1 now' lon lat lod earth hshard
    rw [hbuf.1, hbuf.2] at hfind
    have hsome : ∃ j e, searchEntry (requestKey lon lat lod).1 (requestKey lon lat lod).2.1
        (lod : Int) r.1 = some j ∧ r.1[j]? = some e ∧ e.terrainData = some r.2 := by
      cases hs : searchEntry (CTerrainData.initTerrainData ptr lon lat lod).topLeftLon
          (CTerrainData.initTerrainData ptr lon lat lod).topLeftLat
          (CTerrainData.initTerrainData ptr lon lat lod).LOD l with
      | none =>
        rw [register_miss hv hs] at hr
        cases hr
        exact ⟨l.length, _, searchEntry_append_new hs rfl ⟨rfl, rfl, rfl⟩,
          List.getElem?_concat_length l _, rfl⟩
      | some j =>
        obtain ⟨e, t, hg, hd, -⟩ := searchEntry_get hs
        by_cases hp : (CTerrainData.initTerrainData ptr lon lat lod).ptr = t.ptr
        · rw [register_same_object hs hg hd hp] at hr; cases hr
        · rw [register_hit hv hs hg hd hp] at hr
          cases hr
          refine ⟨j, touchEntry cm.earthBufferA earth true now e, ?_,
            List.getElem?_set_self (getElem?_lt_length hg), by simp [hd]⟩
          rw [searchEntry_set hg (by simp)]
          exact hs
    obtain ⟨j, e, hs, hg, hd⟩ := hsome
    rw [find_hit hv hs hg, hd, ht] at hfind
    exact ⟨_, hfind⟩

/-- C24: for every `lon` in `[0, 360)`, `lat` in `(-90, 90]` and level in `0..13`, the tile
built for `(lon, lat, lod)` has the snapped top-left corner in the same source cell as
`(lon, lat)`; the band and the shard index that `cacheTerrainDataRegister` and
`cacheTerrainDataFree` compute from the tile are the band and the index that
`cacheTerrainDataFind` computes from `(lon, lat, lod)`; and once register has completed for
the tile, find for `(lon, lat, lod)` returns the registered handle. -/
theorem find_register_free_same_shard (lon lat : ℚ) (lod : Nat) (hlod : lod ≤ 13)
    (h0 : 0 ≤ lon) (h1 : lon < 360) (_h2 : -90 < lat) (_h3 : lat ≤ 90) (ptr : Nat) :
    findTopLeftCornerOfHgtFile (findTopLeftCorner lon lat (LODdegreeSizeLookUp lod)).1
        (findTopLeftCorner lon lat (LODdegreeSizeLookUp lod)).2 lod =
      findTopLeftCornerOfHgtFile lon lat lod ∧
    HGTsourceLookUp (CTerrainData.initTerrainData ptr lon lat lod).LOD.toNat =
      HGTsourceLookUp lod ∧
    convertTopLeft2AvabilityIndex
        (findTopLeftCornerOfHgtFile (CTerrainData.initTerrainData ptr lon lat lod).topLeftLon
          (CTerrainData.initTerrainData ptr lon lat lod).topLeftLat
          (CTerrainData.initTerrainData ptr lon lat lod).LOD.toNat).1
        (findTopLeftCornerOfHgtFile (CTerrainData.initTerrainData ptr lon lat lod).topLeftLon
          (CTerrainData.initTerrainData ptr lon lat lod).topLeftLat
          (CTerrainData.initTerrainData ptr lon lat lod).LOD.toNat).2
        (HGTsourceDegreeSizeLookUp (CTerrainData.initTerrainData ptr lon lat lod).LOD.toNat) =
      convertTopLeft2AvabilityIndex (findTopLeftCornerOfHgtFile lon lat lod).1
        (findTopLeftCornerOfHgtFile lon lat lod).2 (HGTsourceDegreeSizeLookUp lod) ∧
    ∀ (cm : CCacheManager) (now earth : Nat) (cm1 : CCacheManager) (t1 : CTerrainData),
      cacheTerrainDataRegister cm now earth (CTerrainData.initTerrainData ptr lon lat lod) =
        some (cm1, t1) →
      ∀ now' : Nat, ∃ cm2,
        cacheTerrainDataFind cm1 now' lon lat lod earth = some (cm2, true, some t1) := by
  have h720 : lon < 720 := by linarith
  refine ⟨?_, ?_, ?_, ?_⟩
  · obtain ⟨m, hm, he⟩ := HGTsourceDegreeSize_multiple lod hlod
    unfold findTopLeftCornerOfHgtFile
    rw [he, findTopLeftCorner_coarser (LODdegreeSizeLookUp_pos lod) hm h0 h720]
  · simp [CTerrainData.initTerrainData]
  · have h := @hgtSourceIndex_requestKey lon lat lod hlod h0 h720
    simpa [hgtSourceIndex, requestKey, CTerrainData.initTerrainData] using h
  · intro cm now earth cm1 t1 hreg now'
    exact find_after_register hlod h0 h720 cm now earth ptr hreg now'

/-- C24 at a point of the Tatra mountains and level 13. -/
theorem find_register_free_same_shard_witness :
    findTopLeftCornerOfHgtFile
        (findTopLeftCorner (20088333 / 1000000) (49179444 / 1000000) (LODdegreeSizeLookUp 13)).1
        (findTopLeftCorner (20088333 / 1000000) (49179444 / 1000000) (LODdegreeSizeLookUp 13)).2
        13 =
      findTopLeftCornerOfHgtFile (20088333 / 1000000) (49179444 / 1000000) 13 :=
  (find_register_free_same_shard (20088333 / 1000000) (49179444 / 1000000) 13 (by decide)
    (by norm_num) (by norm_num) (by norm_num) (by norm_num) 0).1

/-- The footprint of the key of the grid cell `(i, j)` of level `L`: the corrected longitude
lies in `[i·d, (i+1)·d)` and the latitude in `(90 - (j+1)·d, 90 - j·d]`, `d` being the
degree size of the level. -/
theorem covers_grid_iff (L : Nat) (i j : Nat) (lon lat : ℚ) :
    covers ((i : ℚ) * LODdegreeSizeLookUp L, 90 - (j : ℚ) * LODdegreeSizeLookUp L, (L : Int))
        lon lat ↔
      ((i : ℚ) * LODdegreeSizeLookUp L ≤ correctLon lon ∧
        correctLon lon < ((i : ℚ) + 1) * LODdegreeSizeLookUp L) ∧
      (90 - ((j : ℚ) + 1) * LODdegreeSizeLookUp L < lat ∧
        lat ≤ 90 - (j : ℚ) * LODdegreeSizeLookUp L) := by
  have hd := LODdegreeSizeLookUp_pos L
  unfold covers requestKey
  simp only [Int.toNat_ofNat, Prod.mk.injEq, and_true]
  rw [findTopLeftCorner_fst_eq, findTopLeftCorner_snd]
  have e1 : ((⌊correctLon lon / LODdegreeSizeLookUp L⌋ : Int) : ℚ) * LODdegreeSizeLookUp L =
      (i : ℚ) * LODdegreeSizeLookUp L ↔ ⌊correctLon lon / LODdegreeSizeLookUp L⌋ = (i : Int) := by
    constructor
    · intro h
      have := mul_right_cancel₀ hd.ne' h
      exact_mod_cast this
    · intro h; rw [h]; simp
  have e2 : (90 : ℚ) - ((⌊(90 - lat) / LODdegreeSizeLookUp L⌋ : Int) : ℚ) *
        LODdegreeSizeLookUp L = 90 - (j : ℚ) * LODdegreeSizeLookUp L ↔
      ⌊(90 - lat) / LODdegreeSizeLookUp L⌋ = (j : Int) := by
    constructor
    · intro h
      have h' := sub_right_injective h
      have := mul_right_cancel₀ hd.ne' h'
      exact_mod_cast this
    · intro h; rw [h]; simp
  rw [e1, e2, Int.floor_eq_iff, Int.floor_eq_iff, le_div_iff₀ hd, div_lt_iff₀ hd,
    le_div_iff₀ hd, div_lt_iff₀ hd]
  simp only [Int.cast_natCast]
  constructor
  · rintro ⟨⟨a, b⟩, c, e⟩
    exact ⟨⟨a, b⟩, by linarith, by linarith⟩
  · rintro ⟨⟨a, b⟩, c, e⟩
    exact ⟨⟨a, b⟩, by linarith, by linarith⟩

/-- `split` on a leaf whose tile is below level 13 and has a top-left longitude within
`[0, 360)` and a degree size within `[0, 360]`, by one of the two consumers, completes with
four leaves that hold tiles with the keys `split` asks for. -/
theorem split_leaf_total (d : Bool) (w : World) {earth : Nat}
    (hv : earth = w.cm.earthBufferA ∨ earth = w.cm.earthBufferB) {td : CTerrainData}
    (hwf : TileWF td) (hL : td.LOD < 13) (v f : Bool) :
    ∃ w' t1 t2 t3 t4,
      CTerrain.split d w (.leaf earth (some td) v f) =
        some (w', .node earth (some td) v f (.leaf earth (some t1) false false)
          (.leaf earth (some t2) false false) (.leaf earth (some t3) false false)
          (.leaf earth (some t4) false false)) ∧
      w'.cm.earthBufferA = w.cm.earthBufferA ∧ w'.cm.earthBufferB = w.cm.earthBufferB ∧
      (CacheWF w.cm → CacheWF w'.cm ∧ TileWF t1 ∧ TileWF t2 ∧ TileWF t3 ∧ TileWF t4) ∧
      keyOf t1 = requestKey td.topLeftLon td.topLeftLat (td.LOD + 1).toNat ∧
      keyOf t2 = requestKey (td.topLeftLon + td.degreeSize / 2) td.topLeftLat
        (td.LOD + 1).toNat ∧
      keyOf t3 = requestKey td.topLeftLon (td.topLeftLat - td.degreeSize / 2)
        (td.LOD + 1).toNat ∧
      keyOf t4 = requestKey (td.topLeftLon + td.degreeSize / 2)
        (td.topLeftLat - td.degreeSize / 2) (td.LOD + 1).toNat := by
  obtain ⟨ht0, ht1, hd0, hd1⟩ := hwf
  have hlod' : (td.LOD + 1).toNat ≤ 13 := by omega
  obtain ⟨w1, t1, e1, k1, a1, b1, c1⟩ := initTerrainData_total w earth td.topLeftLon
    td.topLeftLat (td.LOD + 1).toNat d hv hlod' ht0 (by linarith)
  obtain ⟨w2, t2, e2, k2, a2, b2, c2⟩ := initTerrainData_total w1 earth
    (td.topLeftLon + td.degreeSize / 2) td.topLeftLat (td.LOD + 1).toNat d
    (by rw [a1, b1]; exact hv) hlod' (by linarith) (by linarith)
  obtain ⟨w3, t3, e3, k3, a3, b3, c3⟩ := initTerrainData_total w2 earth td.topLeftLon
    (td.topLeftLat - td.degreeSize / 2) (td.LOD + 1).toNat d
    (by rw [a2, b2, a1, b1]; exact hv) hlod' ht0 (by linarith)
  obtain ⟨w4, t4, e4, k4, a4, b4, c4⟩ := initTerrainData_total w3 earth
    (td.topLeftLon + td.degreeSize / 2) (td.topLeftLat - td.degreeSize / 2)
    (td.LOD + 1).toNat d (by rw [a3, b3, a2, b2, a1, b1]; exact hv) hlod' (by linarith)
    (by linarith)
  refine ⟨w4, t1, t2, t3, t4, ?_, by rw [a4, a3, a2, a1], by rw [b4, b3, b2, b1], ?_,
    k1, k2, k3, k4⟩
  · simp only [CTerrain.split, e1, e2, e3, e4, Option.some_bind, Option.map_some']
  · intro hc
    obtain ⟨hc1, x1⟩ := c1 hc
    obtain ⟨hc2, x2⟩ := c2 hc1
    obtain ⟨hc3, x3⟩ := c3 hc2
    obtain ⟨hc4, x4⟩ := c4 hc3
    exact ⟨hc4, x1, x2, x3, x4⟩

theorem gridTile_tileWF {td : CTerrainData} (h : GridTile td) : TileWF td := by
  obtain ⟨L, i, j, -, -, hd, hi, -, hlon, -⟩ := h
  have hp := LODdegreeSizeLookUp_pos L
  have hle : LODdegreeSizeLookUp L ≤ 60 := by
    rw [LODdegreeSizeLookUp_eq, div_le_iff₀ (by positivity)]
    have : (1 : ℚ) ≤ 2 ^ L := one_le_pow₀ (by norm_num)
    linarith
  refine ⟨?_, ?_, ?_, ?_⟩
  · rw [hlon]; exact grid_lon_nonneg L i
  · rw [hlon]; exact grid_lon_lt hi
  · rw [hd]; exact hp.le
  · rw [hd]; linarith

/-- The footprint of a grid cell is the union of the footprints of the four cells of the
next level that `split` asks for. -/
theorem quadrants_cover (L i j : Nat) (lon lat : ℚ) :
    covers ((i : ℚ) * LODdegreeSizeLookUp L, 90 - (j : ℚ) * LODdegreeSizeLookUp L, (L : Int))
        lon lat ↔
      covers (((2 * i : Nat) : ℚ) * LODdegreeSizeLookUp (L + 1),
        90 - ((2 * j : Nat) : ℚ) * LODdegreeSizeLookUp (L + 1), ((L + 1 : Nat) : Int)) lon lat ∨
      covers (((2 * i + 1 : Nat) : ℚ) * LODdegreeSizeLookUp (L + 1),
        90 - ((2 * j : Nat) : ℚ) * LODdegreeSizeLookUp (L + 1), ((L + 1 : Nat) : Int)) lon lat ∨
      covers (((2 * i : Nat) : ℚ) * LODdegreeSizeLookUp (L + 1),
        90 - ((2 * j + 1 : Nat) : ℚ) * LODdegreeSizeLookUp (L + 1), ((L + 1 : Nat) : Int))
        lon lat ∨
      covers (((2 * i + 1 : Nat) : ℚ) * LODdegreeSizeLookUp (L + 1),
        90 - ((2 * j + 1 : Nat) : ℚ) * LODdegreeSizeLookUp (L + 1), ((L + 1 : Nat) : Int))
        lon lat := by
  rw [covers_grid_iff, covers_grid_iff, covers_grid_iff, covers_grid_iff, covers_grid_iff,
    LODdegreeSizeLookUp_double L]
  have hd := LODdegreeSizeLookUp_pos (L + 1)
  push_cast
  constructor
  · rintro ⟨⟨a, b⟩, c, e⟩
    by_cases hx : correctLon lon < (2 * (i : ℚ) + 1) * LODdegreeSizeLookUp (L + 1)
    · by_cases hy : 90 - (2 * (j : ℚ) + 1) * LODdegreeSizeLookUp (L + 1) < lat
      · left; exact ⟨⟨by linarith, by linarith⟩, by linarith, by linarith⟩
      · right; right; left
        exact ⟨⟨by linarith, by linarith⟩, by linarith, by linarith⟩
    · by_cases hy : 90 - (2 * (j : ℚ) + 1) * LODdegreeSizeLookUp (L + 1) < lat
      · right; left; exact ⟨⟨by linarith, by linarith⟩, by linarith, by linarith⟩
      · right; right; right
        exact ⟨⟨by linarith, by linarith⟩, by linarith, by linarith⟩
  · rintro (⟨⟨a, b⟩, c, e⟩ | ⟨⟨a, b⟩, c, e⟩ | ⟨⟨a, b⟩, c, e⟩ | ⟨⟨a, b⟩, c, e⟩) <;>
      exact ⟨⟨by linarith, by linarith⟩, by linarith, by linarith⟩

/-- A point lies in the footprint of at most one key of a level. -/
theorem covers_unique {k k' : ℚ × ℚ × Int} {lon lat : ℚ} (h : covers k lon lat)
    (h' : covers k' lon lat) (hl : k.2.2 = k'.2.2) : k = k' := by
  unfold covers at h h'
  rw [← h, ← h', hl]

/-- C21: for a leaf of one of the two consumers whose tile is a grid tile of level `L < 13`
with top-left corner `(tlLon, tlLat)`, `split` completes and makes exactly four children,
leaves with tiles of the keys NW = `(tlLon, tlLat, L+1)`, NE = `(tlLon+dz, tlLat, L+1)`,
SW = `(tlLon, tlLat-dz, L+1)`, SE = `(tlLon+dz, tlLat-dz, L+1)` with
`dz = degreeSize/2 = 60/2^(L+1)`; the footprint of the parent is the union of the four
children's footprints, which are pairwise disjoint; and `split` on the resulting node
changes nothing. -/
theorem split_geometry (d : Bool) (w : World) (earth : Nat) (td : CTerrainData) (v f : Bool)
    (hv : earth = w.cm.earthBufferA ∨ earth = w.cm.earthBufferB) (hg : GridTile td)
    (hL : td.LOD < 13) :
    ∃ w' tNW tNE tSW tSE,
      CTerrain.split d w (.leaf earth (some td) v f) =
        some (w', .node earth (some td) v f (.leaf earth (some tNW) false false)
          (.leaf earth (some tNE) false false) (.leaf earth (some tSW) false false)
          (.leaf earth (some tSE) false false)) ∧
      td.degreeSize / 2 = 60 / 2 ^ (td.LOD.toNat + 1) ∧
      keyOf tNW = (td.topLeftLon, td.topLeftLat, td.LOD + 1) ∧
      keyOf tNE = (td.topLeftLon + td.degreeSize / 2, td.topLeftLat, td.LOD + 1) ∧
      keyOf tSW = (td.topLeftLon, td.topLeftLat - td.degreeSize / 2, td.LOD + 1) ∧
      keyOf tSE =
        (td.topLeftLon + td.degreeSize / 2, td.topLeftLat - td.degreeSize / 2, td.LOD + 1) ∧
      (∀ lon lat : ℚ, covers (keyOf td) lon lat ↔
        (covers (keyOf tNW) lon lat ∨ covers (keyOf tNE) lon lat ∨
          covers (keyOf tSW) lon lat ∨ covers (keyOf tSE) lon lat)) ∧
      List.Pairwise (fun k k' => ∀ lon lat : ℚ, ¬ (covers k lon lat ∧ covers k' lon lat))
        [keyOf tNW, keyOf tNE, keyOf tSW, keyOf tSE] ∧
      CTerrain.split d w' (.node earth (some td) v f (.leaf earth (some tNW) false false)
          (.leaf earth (some tNE) false false) (.leaf earth (some tSW) false false)
          (.leaf earth (some tSE) false false)) =
        some (w', .node earth (some td) v f (.leaf earth (some tNW) false false)
          (.leaf earth (some tNE) false false) (.leaf earth (some tSW) false false)
          (.leaf earth (some tSE) false false)) := by
  obtain ⟨w', t1, t2, t3, t4, hsplit, -, -, -, k1, k2, k3, k4⟩ :=
    split_leaf_total d w hv (gridTile_tileWF hg) hL v f
  obtain ⟨L, i, j, hL13, hlod, hdeg, hi, hj, hlon, hlat⟩ := hg
  obtain ⟨e, r1, r2, r3, r4⟩ := gridTile_requests hlod hdeg hlon hlat
  have hi0 : 2 * i < 6 * 2 ^ (L + 1) := by rw [pow_succ]; omega
  have hi1 : 2 * i + 1 < 6 * 2 ^ (L + 1) := by rw [pow_succ]; omega
  have g1 := requestKey_grid (L + 1) (2 * i) ((2 * j : Nat) : Int) hi0
  have g2 := requestKey_grid (L + 1) (2 * i + 1) ((2 * j : Nat) : Int) hi1
  have g3 := requestKey_grid (L + 1) (2 * i) ((2 * j + 1 : Nat) : Int) hi0
  have g4 := requestKey_grid (L + 1) (2 * i + 1) ((2 * j + 1 : Nat) : Int) hi1
  simp only [Int.cast_natCast] at g1 g2 g3 g4
  rw [e, r1, r3, g1] at k1
  rw [e, r2, r3, g2] at k2
  rw [e, r1, r4, g3] at k3
  rw [e, r2, r4, g4] at k4
  have hkp : keyOf td =
      ((i : ℚ) * LODdegreeSizeLookUp L, 90 - (j : ℚ) * LODdegreeSizeLookUp L, (L : Int)) := by
    simp only [keyOf, hlon, hlat, hlod]
  have hlod1 : td.LOD + 1 = ((L + 1 : Nat) : Int) := by rw [hlod]; push_cast; ring
  have hdp := LODdegreeSizeLookUp_pos (L + 1)
  refine ⟨w', t1, t2, t3, t4, hsplit, ?_, ?_, ?_, ?_, ?_, ?_, ?_, rfl⟩
  · rw [hdeg, hlod, Int.toNat_ofNat, ← LODdegreeSizeLookUp_succ, LODdegreeSizeLookUp_eq]
  · rw [k1, ← r1, ← r3, hlod1]
  · rw [k2, ← r2, ← r3, hlod1]
  · rw [k3, ← r1, ← r4, hlod1]
  · rw [k4, ← r2, ← r4, hlod1]
  · intro lon lat
    rw [hkp, k1, k2, k3, k4]
    exact quadrants_cover L i j lon lat
  · rw [k1, k2, k3, k4]
    have hne : ∀ a b : ℚ, a ≠ b → ∀ (x y : ℚ) (l : Int) (lon lat : ℚ),
        ¬ (covers (a, x, l) lon lat ∧ covers (b, y, l) lon lat) := by
      intro a b hab x y l lon lat ⟨c1, c2⟩
      exact hab (congrArg Prod.fst (covers_unique c1 c2 rfl))
    have hne' : ∀ x y : ℚ, x ≠ y → ∀ (a b : ℚ) (l : Int) (lon lat : ℚ),
        ¬ (covers (a, x, l) lon lat ∧ covers (b, y, l) lon lat) := by
      intro x y hxy a b l lon lat ⟨c1, c2⟩
      exact hxy (congrArg (fun k => k.2.1) (covers_unique c1 c2 rfl))
    have hx : ((2 * i : Nat) : ℚ) * LODdegreeSizeLookUp (L + 1) ≠
        ((2 * i + 1 : Nat) : ℚ) * LODdegreeSizeLookUp (L + 1) := by
      push_cast; intro h; linarith
    have hy : (90 : ℚ) - ((2 * j : Nat) : ℚ) * LODdegreeSizeLookUp (L + 1) ≠
        90 - ((2 * j + 1 : Nat) : ℚ) * LODdegreeSizeLookUp (L + 1) := by
      push_cast; intro h; linarith
    simp only [List.pairwise_cons, List.mem_cons, List.mem_singleton, List.not_mem_nil,
      forall_eq_or_imp, forall_eq, false_implies, implies_true, and_true, List.Pairwise.nil]
    exact ⟨⟨hne _ _ hx _ _ _, hne' _ _ hy _ _ _, hne _ _ hx _ _ _⟩,
      ⟨hne' _ _ hy _ _ _, hne' _ _ hy _ _ _⟩, hne _ _ hx _ _ _⟩

theorem gridTile_tileNW : GridTile tileNW :=
  ⟨0, 0, 0, by decide, rfl, rfl, by decide, by decide, by simp [tileNW], by simp [tileNW]⟩

/-- C21 at the level-0 leaf with tile `tileNW` (key `(0, 90, 0)`) in an empty cache: the
north-east child gets the key `(30, 90, 1)`. -/
theorem split_geometry_witness :
    ∃ w' tNW tNE tSW tSE,
      CTerrain.split false emptyWorld (.leaf 1 (some tileNW) true true) =
        some (w', .node 1 (some tileNW) true true (.leaf 1 (some tNW) false false)
          (.leaf 1 (some tNE) false false) (.leaf 1 (some tSW) false false)
          (.leaf 1 (some tSE) false false)) ∧
      keyOf tNE = (30, 90, 1) := by
  obtain ⟨w', t1, t2, t3, t4, h, -, -, h2, -⟩ :=
    split_geometry false emptyWorld 1 tileNW true true (Or.inl rfl) gridTile_tileNW
      (by decide)
  refine ⟨w', t1, t2, t3, t4, h, ?_⟩
  rw [h2]
  norm_num [tileNW]

theorem treeLevels_tile {n : CTerrain} (h : TreeLevels n) :
    ∃ t, n.terrainData = some t ∧ 0 ≤ t.LOD ∧ t.LOD ≤ 13 := by
  cases n with
  | leaf earth td v f => exact h
  | node earth td v f c1 c2 c3 c4 =>
    obtain ⟨⟨t, ht, h0, h1, -⟩, -⟩ := h
    exact ⟨t, ht, h0, le_of_lt h1⟩

theorem treeLevels_of_leaf {n : CTerrain} {t : CTerrainData} (hc : n.hasChildren = false)
    (ht : n.terrainData = some t) (h0 : 0 ≤ t.LOD) (h1 : t.LOD ≤ 13) : TreeLevels n := by
  cases n with
  | leaf earth td v f => exact ⟨t, ht, h0, h1⟩
  | node earth td v f c1 c2 c3 c4 => cases hc

theorem treeLevels_setFlags {n : CTerrain} (h : TreeLevels n) (v f : Bool) :
    TreeLevels (n.setFlags v f) := by
  cases n <;> exact h

theorem treeLevels_setVisible {n : CTerrain} (h : TreeLevels n) (v : Bool) :
    TreeLevels (n.setVisible v) := by
  cases n <;> exact h

/-- In a tree with levels in order, the fuel a node asks for is fixed by its level. -/
theorem fuelFor_of_levels : ∀ {n : CTerrain}, TreeLevels n → ∀ {t : CTerrainData},
    n.terrainData = some t → n.fuelFor = (13 - t.LOD).toNat + 1 := by
  intro n
  induction n with
  | leaf earth td v f =>
    intro _ t ht
    simp only [CTerrain.terrainData] at ht
    subst ht
    rfl
  | node earth td v f c1 c2 c3 c4 ih1 ih2 ih3 ih4 =>
    intro h t ht
    obtain ⟨⟨t', ht', h0, h13, ⟨t1, e1, l1⟩, ⟨t2, e2, l2⟩, ⟨t3, e3, l3⟩, ⟨t4, e4, l4⟩⟩,
      g1, g2, g3, g4⟩ := h
    simp only [CTerrain.terrainData] at ht
    rw [ht'] at ht
    cases ht
    simp only [CTerrain.fuelFor, ih1 g1 e1, ih2 g2 e2, ih3 g3 e3, ih4 g4 e4, l1, l2, l3, l4]
    omega

theorem fuelFor_le_of_levels {n : CTerrain} (h : TreeLevels n) : n.fuelFor ≤ 14 := by
  obtain ⟨t, ht, h0, -⟩ := treeLevels_tile h
  rw [fuelFor_of_levels h ht]
  omega

/-- `split` on a well-formed node with levels in order and a tile below level 13 completes
with four children; the levels stay in order, the node keeps its tile. -/
theorem split_levels {a b : Nat} (d : Bool) {w : World} (hw : WorldOK a b w) {n : CTerrain}
    (hn : TreeWF a b n) (hl : TreeLevels n) {td : CTerrainData}
    (htd : n.terrainData = some td) (hL : td.LOD < 13) :
    ∃ w1 e v f c1 c2 c3 c4,
      CTerrain.split d w n = some (w1, .node e (some td) v f c1 c2 c3 c4) ∧ WorldOK a b w1 ∧
      TreeWF a b (.node e (some td) v f c1 c2 c3 c4) ∧
      TreeLevels (.node e (some td) v f c1 c2 c3 c4) := by
  cases n with
  | node earth td' v f c1 c2 c3 c4 =>
    simp only [CTerrain.terrainData] at htd
    subst htd
    exact ⟨w, earth, v, f, c1, c2, c3, c4, rfl, hw, hn, hl⟩
  | leaf earth td' v f =>
    simp only [CTerrain.terrainData] at htd
    subst htd
    obtain ⟨hv, t, ht, hwf⟩ := hn
    cases ht
    obtain ⟨t', ht', h0, -⟩ := hl
    cases ht'
    obtain ⟨ha, hb, hc⟩ := hw
    obtain ⟨w', t1, t2, t3, t4, hsplit, ea, eb, hcache, k1, k2, k3, k4⟩ :=
      split_leaf_total d w (by rw [ha, hb]; exact hv) hwf hL v f
    obtain ⟨hc', x1, x2, x3, x4⟩ := hcache hc
    have l1 := keyOf_LOD k1
    have l2 := keyOf_LOD k2
    have l3 := keyOf_LOD k3
    have l4 := keyOf_LOD k4
    have hnat : (((td.LOD + 1).toNat : Nat) : Int) = td.LOD + 1 := by omega
    rw [hnat] at l1 l2 l3 l4
    refine ⟨w', earth, v, f, _, _, _, _, hsplit, ⟨by rw [ea, ha], by rw [eb, hb], hc'⟩,
      ⟨⟨hv, td, rfl, hwf⟩, ⟨hv, t1, rfl, x1⟩, ⟨hv, t2, rfl, x2⟩, ⟨hv, t3, rfl, x3⟩,
        ⟨hv, t4, rfl, x4⟩⟩,
      ⟨⟨td, rfl, h0, hL, ⟨t1, rfl, l1⟩, ⟨t2, rfl, l2⟩, ⟨t3, rfl, l3⟩, ⟨t4, rfl, l4⟩⟩,
        ⟨t1, rfl, by omega, by omega⟩, ⟨t2, rfl, by omega, by omega⟩,
        ⟨t3, rfl, by omega, by omega⟩, ⟨t4, rfl, by omega, by omega⟩⟩⟩

/-- `updateTerrainTree` on a well-formed tree with levels in order, with the fuel that
`fuelFor` asks for, completes; the tree stays well-formed with levels in order and the node
keeps its tile. -/
theorem updateTerrainTree_levels {a b : Nat} (dss : CDrawingStateSnapshot) :
    ∀ (fuel : Nat) (s : World × CPerformance) (n : CTerrain), WorldOK a b s.1 →
      TreeWF a b n → TreeLevels n → n.fuelFor ≤ fuel →
      ∃ s' n', CTerrain.updateTerrainTree dss fuel s n = some (s', n') ∧
        WorldOK a b s'.1 ∧ TreeWF a b n' ∧ TreeLevels n' ∧
        n'.terrainData = n.terrainData := by
  intro fuel
  induction fuel with
  | zero =>
    intro s n _ _ _ hf
    cases n with
    | leaf earth td v f =>
      cases td <;> simp only [CTerrain.fuelFor] at hf <;> omega
    | node earth td v f c1 c2 c3 c4 => simp only [CTerrain.fuelFor] at hf; omega
  | succ fuel ih =>
    intro s n hw hn hl hf
    obtain ⟨td, htd, hl0, hl13⟩ := treeLevels_tile hl
    have hn1 := treeWF_setFlags hn (getTerrainVisibility dss td).1
      (getTerrainVisibility dss td).2
    have hl1 := treeLevels_setFlags hl (getTerrainVisibility dss td).1
      (getTerrainVisibility dss td).2
    have htd1 : (n.setFlags (getTerrainVisibility dss td).1
        (getTerrainVisibility dss td).2).terrainData = some td := by
      rw [terrainData_setFlags, htd]
    unfold CTerrain.updateTerrainTree
    simp only [htd]
    by_cases hvis : (getTerrainVisibility dss td).1 = true
    · rw [if_neg (by simp [hvis])]
      have hn2 : TreeWF a b
          (if lodToRenderOf dss td < td.LOD then
            (n.setFlags (getTerrainVisibility dss td).1
              (getTerrainVisibility dss td).2).setVisible false
          else n.setFlags (getTerrainVisibility dss td).1
            (getTerrainVisibility dss td).2) := by
        split_ifs
        · exact treeWF_setVisible hn1 false
        · exact hn1
      have htd2 : (if lodToRenderOf dss td < td.LOD then
            (n.setFlags (getTerrainVisibility dss td).1
              (getTerrainVisibility dss td).2).setVisible false
          else n.setFlags (getTerrainVisibility dss td).1
            (getTerrainVisibility dss td).2).terrainData = some td := by
        split_ifs
        · rw [terrainData_setVisible, htd1]
        · exact htd1
      by_cases hgt : lodToRenderOf dss td > td.LOD
      · rw [if_pos hgt, if_neg (by omega)]
        have hL : td.LOD < 13 := lt_of_lt_of_le hgt (getLodToRender_le _ _)
        obtain ⟨w1, e, v, f, c1, c2, c3, c4, hsplit, ok1, hwf, hlv⟩ :=
          split_levels dss.dontUseCache hw hn1 hl1 htd1 hL
        have hfn := fuelFor_of_levels hl htd
        obtain ⟨hself, h1, h2, h3, h4⟩ := hwf
        obtain ⟨⟨t', ht', -, -, ⟨t1, e1, l1⟩, ⟨t2, e2, l2⟩, ⟨t3, e3, l3⟩, ⟨t4, e4, l4⟩⟩,
          g1, g2, g3, g4⟩ := hlv
        cases ht'
        have f1 := fuelFor_of_levels g1 e1
        have f2 := fuelFor_of_levels g2 e2
        have f3 := fuelFor_of_levels g3 e3
        have f4 := fuelFor_of_levels g4 e4
        obtain ⟨s1, n1, u1, sok1, nok1, lv1, td1⟩ := ih (w1, s.2) c1 ok1 h1 g1 (by omega)
        obtain ⟨s2, n2, u2, sok2, nok2, lv2, td2⟩ := ih s1 c2 sok1 h2 g2 (by omega)
        obtain ⟨s3, n3, u3, sok3, nok3, lv3, td3⟩ := ih s2 c3 sok2 h3 g3 (by omega)
        obtain ⟨s4, n4, u4, sok4, nok4, lv4, td4⟩ := ih s3 c4 sok3 h4 g4 (by omega)
        refine ⟨(s4.1, s4.2.count td.LOD), .node e (some td) v f n1 n2 n3 n4, ?_, sok4,
          ⟨hself, nok1, nok2, nok3, nok4⟩,
          ⟨⟨td, rfl, hl0, hL, ⟨t1, by rw [td1, e1], l1⟩, ⟨t2, by rw [td2, e2], l2⟩,
            ⟨t3, by rw [td3, e3], l3⟩, ⟨t4, by rw [td4, e4], l4⟩⟩, lv1, lv2, lv3, lv4⟩, rfl⟩
        simp only [hsplit, u1, u2, u3, u4, Option.some_bind, Option.map_some']
      · rw [if_neg hgt, if_pos (by omega)]
        obtain ⟨w', n', hm, ok, hwf⟩ := merge_ok dss.dontUseCache hw hn2
        obtain ⟨hc, ht, -⟩ := merge_shape hm
        rw [htd2] at ht
        refine ⟨(w', s.2.count td.LOD), n', ?_, ok, hwf,
          treeLevels_of_leaf hc ht hl0 hl13, ht⟩
        simp only [hm, Option.map_some']
    · rw [if_pos (by simpa using hvis)]
      obtain ⟨w', n', hm, ok, hwf⟩ := merge_ok dss.dontUseCache hw hn1
      obtain ⟨hc, ht, -⟩ := merge_shape hm
      rw [htd1] at ht
      refine ⟨(w', { s.2 with terrainsInTree := s.2.terrainsInTree + 1 }), n', ?_, ok, hwf,
        treeLevels_of_leaf hc ht hl0 hl13, ht⟩
      simp only [hm, Option.map_some']

/-- C22: for every snapshot (every camera position, every `lodMultiplier`), on a
well-formed tree with levels in order (a root leaf with its level-0 tile, or the tree a
previous update has left), `updateTerrainTree` completes within recursion depth 14; the
guard of `split` (the level to render is above the tile's level) holds only below level 13;
and afterwards the levels are in order again: every node holds a tile of a level within
`0..13`, which is the range of the per-level tables, and every node with children is below
level 13. -/
theorem updateTerrainTree_terminates {a b : Nat} (dss : CDrawingStateSnapshot)
    (s : World × CPerformance) (n : CTerrain) (hw : WorldOK a b s.1) (hn : TreeWF a b n)
    (hl : TreeLevels n) :
    (∀ td : CTerrainData, lodToRenderOf dss td > td.LOD → td.LOD < 13) ∧
    ∃ s' n', CTerrain.updateTerrainTree dss 14 s n = some (s', n') ∧ WorldOK a b s'.1 ∧
      TreeWF a b n' ∧ TreeLevels n' ∧ n'.fuelFor ≤ 14 := by
  refine ⟨fun td h => lt_of_lt_of_le h (getLodToRender_le _ _), ?_⟩
  obtain ⟨s', n', h, ok, wf, lv, -⟩ :=
    updateTerrainTree_levels dss 14 s n hw hn hl (fuelFor_le_of_levels hl)
  exact ⟨s', n', h, ok, wf, lv, fuelFor_le_of_levels lv⟩

/-- C22 at the level-0 leaf with tile `tileNW` in an empty cache, seen by `farSnapshot`. -/
theorem updateTerrainTree_terminates_witness :
    ∃ s' n', CTerrain.updateTerrainTree farSnapshot 14 (emptyWorld, ⟨0, -1⟩)
        (.leaf 1 (some tileNW) false false) = some (s', n') ∧ TreeLevels n' := by
  obtain ⟨s', n', h, -, -, lv, -⟩ :=
    (updateTerrainTree_terminates farSnapshot (emptyWorld, ⟨0, -1⟩)
      (.leaf 1 (some tileNW) false false) worldOK_emptyWorld
      ⟨Or.inl rfl, tileNW, rfl, tileWF_tileNW⟩ ⟨tileNW, rfl, by decide, by decide⟩).2
  exact ⟨s', n', h, lv⟩

/-- For a position with longitude in `[0, 360)` and latitude in `(-90, 90]` the index
`findHgtFileName` and the cache operations compute lies within the band's array. -/
theorem hgtSourceIndex_range (L : Nat) {lon lat : ℚ} (h0 : 0 ≤ lon)
    (h1 : lon < 360) (h2 : -90 < lat) (h3 : lat ≤ 90) :
    0 ≤ hgtSourceIndex lon lat L ∧
    ((hgtSourceIndex lon lat L : Int) : ℚ) <
      (360 / HGTsourceDegreeSizeLookUp L) * (180 / HGTsourceDegreeSizeLookUp L) := by
  unfold hgtSourceIndex findTopLeftCornerOfHgtFile
  have key : ∀ (D : ℚ) (w h : Int), 0 < D → (w : ℚ) * D = 360 → (h : ℚ) * D = 180 →
      0 ≤ convertTopLeft2AvabilityIndex (findTopLeftCorner lon lat D).1
        (findTopLeftCorner lon lat D).2 D ∧
      ((convertTopLeft2AvabilityIndex (findTopLeftCorner lon lat D).1
        (findTopLeftCorner lon lat D).2 D : Int) : ℚ) < (360 / D) * (180 / D) := by
    intro D w h hD hw hh
    obtain ⟨r0, r1⟩ := convertTopLeft2AvabilityIndex_range hD hw hh h0 h1 h2 h3
    refine ⟨r0, ?_⟩
    have e : (360 / D) * (180 / D) = ((w * h : Int) : ℚ) := by
      rw [← hw, ← hh]; push_cast; field_simp
    rw [e]
    exact_mod_cast r1
  unfold HGTsourceDegreeSizeLookUp
  split_ifs
  · exact key 60 6 3 (by norm_num) (by norm_num) (by norm_num)
  · exact key 15 24 12 (by norm_num) (by norm_num) (by norm_num)
  · exact key (15 / 4) 96 48 (by norm_num) (by norm_num) (by norm_num)

theorem gridTile_lat {t : CTerrainData} (h : GridTile t) :
    -90 < t.topLeftLat ∧ t.topLeftLat ≤ 90 := by
  obtain ⟨L, i, j, -, -, -, -, hj, -, hlat⟩ := h
  have hh := grid_height L
  have hd := LODdegreeSizeLookUp_pos L
  have hjq : (j : ℚ) < ((3 * 2 ^ L : Nat) : ℚ) := by exact_mod_cast hj
  have hj0 : (0 : ℚ) ≤ (j : ℚ) := Nat.cast_nonneg j
  rw [hlat]
  constructor
  · nlinarith
  · nlinarith

/-- C25: every tile the tree can hold (a tile `initLOD_0` asks for, or one reached from it
through the tiles `split` asks for below level 13) has a level within `0..13`, a top-left
longitude in `[0, 360)` and a top-left latitude in `(-90, 90]`, and the index computed from
it by `findTopLeftCornerOfHgtFile` and `convertTopLeft2AvabilityIndex` lies in
`[0, (360/D)·(180/D))` for the degree size `D` of its band; the same holds for each position
`getTerrainPoints` looks up around the tile (one tile to the west or east, wrapped at 0 and
360, one tile to the north or south) that its pole tests (`> 90`, `<= -90`) do not
reject. -/
theorem treeTile_in_range (t : CTerrainData) (h : TreeTile t) :
    0 ≤ t.LOD ∧ t.LOD ≤ 13 ∧ 0 ≤ t.topLeftLon ∧ t.topLeftLon < 360 ∧
    -90 < t.topLeftLat ∧ t.topLeftLat ≤ 90 ∧
    ∀ nlon nlat : ℚ,
      (nlon = t.topLeftLon ∨
        nlon = (if t.topLeftLon - LODdegreeSizeLookUp t.LOD.toNat < 0
          then t.topLeftLon - LODdegreeSizeLookUp t.LOD.toNat + 360
          else t.topLeftLon - LODdegreeSizeLookUp t.LOD.toNat) ∨
        nlon = (if t.topLeftLon + LODdegreeSizeLookUp t.LOD.toNat ≥ 360
          then t.topLeftLon + LODdegreeSizeLookUp t.LOD.toNat - 360
          else t.topLeftLon + LODdegreeSizeLookUp t.LOD.toNat)) →
      (nlat = t.topLeftLat ∨ nlat = t.topLeftLat + LODdegreeSizeLookUp t.LOD.toNat ∨
        nlat = t.topLeftLat - LODdegreeSizeLookUp t.LOD.toNat) →
      ¬ nlat > 90 → ¬ nlat ≤ -90 →
      0 ≤ nlon ∧ nlon < 360 ∧ -90 < nlat ∧ nlat ≤ 90 ∧
      0 ≤ convertTopLeft2AvabilityIndex (findTopLeftCornerOfHgtFile nlon nlat t.LOD.toNat).1
        (findTopLeftCornerOfHgtFile nlon nlat t.LOD.toNat).2
        (HGTsourceDegreeSizeLookUp t.LOD.toNat) ∧
      ((convertTopLeft2AvabilityIndex (findTopLeftCornerOfHgtFile nlon nlat t.LOD.toNat).1
        (findTopLeftCornerOfHgtFile nlon nlat t.LOD.toNat).2
        (HGTsourceDegreeSizeLookUp t.LOD.toNat) : Int) : ℚ) <
        (360 / HGTsourceDegreeSizeLookUp t.LOD.toNat) *
          (180 / HGTsourceDegreeSizeLookUp t.LOD.toNat) := by
  have hg := treeTile_grid h
  obtain ⟨hlat0, hlat1⟩ := gridTile_lat hg
  obtain ⟨hlon0, hlon1, -, -⟩ := gridTile_tileWF hg
  obtain ⟨L, i, j, hL, hlod, -, hi, -, hlon, -⟩ := hg
  refine ⟨by omega, by omega, hlon0, hlon1, hlat0, hlat1, ?_⟩
  intro nlon nlat hnlon hnlat hn hs
  have hLn : t.LOD.toNat = L := by omega
  rw [hLn, hlon] at hnlon
  rw [hLn]
  obtain ⟨i', hi', rfl⟩ := neighbor_lon_grid hi hnlon
  have r0 := grid_lon_nonneg L i'
  have r1 := grid_lon_lt hi'
  have r2 : -90 < nlat := lt_of_not_ge hs
  have r3 : nlat ≤ 90 := le_of_not_gt hn
  obtain ⟨x0, x1⟩ := hgtSourceIndex_range L r0 r1 r2 r3
  exact ⟨r0, r1, r2, r3, x0, x1⟩

theorem treeTile_tileNW : TreeTile tileNW := by
  refine TreeTile.root 0 0 (by decide) (by decide) tileNW ⟨?_, rfl⟩
  rw [requestKey_root (by decide)]
  simp [keyOf, tileNW]

/-- C25 at the root tile with key `(0, 90, 0)`: the position one tile to the west wraps to
longitude 300, and its index is within the band's 18 entries. -/
theorem treeTile_in_range_witness :
    (0 : ℚ) ≤ (if tileNW.topLeftLon - LODdegreeSizeLookUp tileNW.LOD.toNat < 0
        then tileNW.topLeftLon - LODdegreeSizeLookUp tileNW.LOD.toNat + 360
        else tileNW.topLeftLon - LODdegreeSizeLookUp tileNW.LOD.toNat) ∧
      (if tileNW.topLeftLon - LODdegreeSizeLookUp tileNW.LOD.toNat < 0
        then tileNW.topLeftLon - LODdegreeSizeLookUp tileNW.LOD.toNat + 360
        else tileNW.topLeftLon - LODdegreeSizeLookUp tileNW.LOD.toNat) < 360 :=
  have h := (treeTile_in_range tileNW treeTile_tileNW).2.2.2.2.2.2 _ tileNW.topLeftLat
    (Or.inr (Or.inl rfl)) (Or.inl rfl) (by norm_num [tileNW]) (by norm_num [tileNW])
  ⟨h.1, h.2.1⟩

/-- Above level 10 `findRawFiles` works from the level-10 corner of the tile, with the
tables of level 10. -/
theorem findRawFiles_above_10 (cm : CCacheManager) {tlLon tlLat : ℚ} (h0 : 0 ≤ tlLon)
    (h1 : tlLon < 360) {L : Nat} (hL : L = 11 ∨ L = 12 ∨ L = 13) :
    findRawFiles cm tlLon tlLat L =
      findRawFiles cm (findTopLeftCorner tlLon tlLat (LODdegreeSizeLookUp 10)).1
        (findTopLeftCorner tlLon tlLat (LODdegreeSizeLookUp 10)).2 10 := by
  have hidem := @findTopLeftCorner_idem tlLon tlLat _ (LODdegreeSizeLookUp_pos 10) h0 h1
  have e10 : (if (10 : Nat) ≤ TEX_SOURCE_MAX_LOD then (10 : Nat) else 10) = 10 := rfl
  have eL : (if L ≤ TEX_SOURCE_MAX_LOD then L else 10) = 10 := by
    rcases hL with rfl | rfl | rfl <;> rfl
  have hpx : TEXsourcePxSizeLookUp L = TEXsourcePxSizeLookUp 10 := by
    rcases hL with rfl | rfl | rfl <;> rfl
  have hband : texBand cm L = texBand cm 10 := by
    rcases hL with rfl | rfl | rfl <;> rfl
  unfold findRawFiles findRawFilesCell texCellIndex texTopLeft
  simp only [e10, eL, hidem, hpx, hband]

/-- Above level 10 `buildTextureFromRawFiles` produces the image of the level-10 tile that
contains the tile. -/
theorem buildTexture_above_10 (cm : CCacheManager) {tlLon tlLat : ℚ} (h0 : 0 ≤ tlLon)
    (h1 : tlLon < 360) {L : Nat} (hL : L = 11 ∨ L = 12 ∨ L = 13)
    (uninitialised : Int → Int → Nat) (terrainTexture : Int → CRawPixel) :
    buildTextureFromRawFiles cm tlLon tlLat L uninitialised terrainTexture =
      buildTextureFromRawFiles cm (findTopLeftCorner tlLon tlLat (LODdegreeSizeLookUp 10)).1
        (findTopLeftCorner tlLon tlLat (LODdegreeSizeLookUp 10)).2 10 uninitialised
        terrainTexture := by
  have hfr := @findRawFiles_above_10 cm tlLon tlLat h0 h1 L hL
  have hpx : TEXsourcePxSizeLookUp L = TEXsourcePxSizeLookUp 10 := by
    rcases hL with rfl | rfl | rfl <;> rfl
  have hmult : (if TEXsourceSkippingLookUp L < 0 then (1 : Int) else TEXsourceSkippingLookUp L) =
      (if TEXsourceSkippingLookUp 10 < 0 then (1 : Int) else TEXsourceSkippingLookUp 10) := by
    rcases hL with rfl | rfl | rfl <;> rfl
  have hcopy : copyTextureBlock cm L = copyTextureBlock cm 10 := by
    have hband : texBand cm L = texBand cm 10 := by
      rcases hL with rfl | rfl | rfl <;> rfl
    funext index TEXmult srcX srcY dstX dstY stopLon stopLat texture
    unfold copyTextureBlock
    simp only [hband, hpx]
  unfold buildTextureFromRawFiles
  simp only [hfr, hpx, hmult, hcopy]

theorem deg10_multiple {L : Nat} (hL : L = 11 ∨ L = 12 ∨ L = 13) :
    LODdegreeSizeLookUp 10 = ((2 ^ (L - 10) : Nat) : ℚ) * LODdegreeSizeLookUp L := by
  rw [LODdegreeSizeLookUp_eq, LODdegreeSizeLookUp_eq]
  rcases hL with rfl | rfl | rfl <;> norm_num

/-- The offset of a tile within the level-10 tile that contains it, as a fraction of the
level-10 tile: it is `r / m` for a cell `i = q·m + r`. -/
theorem window_offset {d : ℚ} (hd : 0 < d) {m : Nat} (hm : 0 < m) (n : Nat) :
    0 ≤ ((n : ℚ) * d - ((n / m : Nat) : ℚ) * ((m : ℚ) * d)) / ((m : ℚ) * d) ∧
    ((n : ℚ) * d - ((n / m : Nat) : ℚ) * ((m : ℚ) * d)) / ((m : ℚ) * d) + 1 / (m : ℚ) ≤ 1 := by
  have hmq : (0 : ℚ) < (m : ℚ) := by exact_mod_cast hm
  have hn : (n : ℚ) = ((n / m : Nat) : ℚ) * (m : ℚ) + ((n % m : Nat) : ℚ) := by
    exact_mod_cast (Nat.div_add_mod' n m).symm
  have hr : ((n % m : Nat) : ℚ) + 1 ≤ (m : ℚ) := by exact_mod_cast Nat.mod_lt n hm
  have hr0 : (0 : ℚ) ≤ ((n % m : Nat) : ℚ) := Nat.cast_nonneg _
  have e : ((n : ℚ) * d - ((n / m : Nat) : ℚ) * ((m : ℚ) * d)) / ((m : ℚ) * d) =
      ((n % m : Nat) : ℚ) / (m : ℚ) := by
    nth_rewrite 1 [hn]
    field_simp
    ring
  rw [e]
  constructor
  · exact div_nonneg hr0 hmq.le
  · rw [← add_div, div_le_one hmq]; exact hr

/-- C28: for every availability map and file content and every grid tile of a level `L` in
`{11, 12, 13}`, `buildTextureFromRawFiles` produces the buffer it produces for the level-10
tile whose top-left corner is `findTopLeftCorner(tlLon, tlLat, deg(10))`, reading the source
with a step of one pixel; the tile's offsets `(tlLon - tl10Lon)/deg(10)` and
`(tl10Lat - tlLat)/deg(10)` with the size `1/2^(L-10)` describe a window inside the unit
square, and the texture coordinate of the vertex `(x, y)` is the point
`(offset + (x/8)·size, offset + (y/8)·size)` of that window under the map
`u ↦ 0.973·u + 0.0135` used for the whole image at the levels up to 10. -/
theorem texture_of_fine_tile (cm : CCacheManager) (L i j : Nat)
    (hL : L = 11 ∨ L = 12 ∨ L = 13) (hi : i < 6 * 2 ^ L)
    (uninitialised : Int → Int → Nat) (terrainTexture : Int → CRawPixel) :
    buildTextureFromRawFiles cm ((i : ℚ) * LODdegreeSizeLookUp L)
        (90 - (j : ℚ) * LODdegreeSizeLookUp L) L uninitialised terrainTexture =
      buildTextureFromRawFiles cm
        (findTopLeftCorner ((i : ℚ) * LODdegreeSizeLookUp L)
          (90 - (j : ℚ) * LODdegreeSizeLookUp L) (LODdegreeSizeLookUp 10)).1
        (findTopLeftCorner ((i : ℚ) * LODdegreeSizeLookUp L)
          (90 - (j : ℚ) * LODdegreeSizeLookUp L) (LODdegreeSizeLookUp 10)).2 10 uninitialised
        terrainTexture ∧
    (if TEXsourceSkippingLookUp L < 0 then (1 : Int) else TEXsourceSkippingLookUp L) = 1 ∧
    (0 ≤ ((i : ℚ) * LODdegreeSizeLookUp L -
        (findTopLeftCorner ((i : ℚ) * LODdegreeSizeLookUp L)
          (90 - (j : ℚ) * LODdegreeSizeLookUp L) (LODdegreeSizeLookUp 10)).1) /
        LODdegreeSizeLookUp 10 ∧
      ((i : ℚ) * LODdegreeSizeLookUp L -
        (findTopLeftCorner ((i : ℚ) * LODdegreeSizeLookUp L)
          (90 - (j : ℚ) * LODdegreeSizeLookUp L) (LODdegreeSizeLookUp 10)).1) /
        LODdegreeSizeLookUp 10 + 1 / 2 ^ (L - 10) ≤ 1) ∧
    (0 ≤ ((findTopLeftCorner ((i : ℚ) * LODdegreeSizeLookUp L)
          (90 - (j : ℚ) * LODdegreeSizeLookUp L) (LODdegreeSizeLookUp 10)).2 -
        (90 - (j : ℚ) * LODdegreeSizeLookUp L)) / LODdegreeSizeLookUp 10 ∧
      ((findTopLeftCorner ((i : ℚ) * LODdegreeSizeLookUp L)
          (90 - (j : ℚ) * LODdegreeSizeLookUp L) (LODdegreeSizeLookUp 10)).2 -
        (90 - (j : ℚ) * LODdegreeSizeLookUp L)) / LODdegreeSizeLookUp 10 +
        1 / 2 ^ (L - 10) ≤ 1) ∧
    ∀ x y : Int,
      vertexUV ((i : ℚ) * LODdegreeSizeLookUp L) (90 - (j : ℚ) * LODdegreeSizeLookUp L)
          (L : Int) x y =
        ((((i : ℚ) * LODdegreeSizeLookUp L -
            (findTopLeftCorner ((i : ℚ) * LODdegreeSizeLookUp L)
              (90 - (j : ℚ) * LODdegreeSizeLookUp L) (LODdegreeSizeLookUp 10)).1) /
            LODdegreeSizeLookUp 10 + ((x : ℚ) / 8) * (1 / 2 ^ (L - 10))) * 0.973 + 0.0135,
         (((findTopLeftCorner ((i : ℚ) * LODdegreeSizeLookUp L)
              (90 - (j : ℚ) * LODdegreeSizeLookUp L) (LODdegreeSizeLookUp 10)).2 -
            (90 - (j : ℚ) * LODdegreeSizeLookUp L)) / LODdegreeSizeLookUp 10 +
            ((y : ℚ) / 8) * (1 / 2 ^ (L - 10))) * 0.973 + 0.0135) := by
  have hd := LODdegreeSizeLookUp_pos L
  have hm : 0 < 2 ^ (L - 10) := by positivity
  have h10 := deg10_multiple hL
  have hcorner := findTopLeftCorner_grid_coarse hd hm i j (grid_lon_lt hi)
  rw [← h10] at hcorner
  have hcast : ((2 ^ (L - 10) : Nat) : ℚ) = 2 ^ (L - 10) := by push_cast; rfl
  refine ⟨buildTexture_above_10 cm (grid_lon_nonneg L i) (grid_lon_lt hi) hL _ _, ?_, ?_, ?_,
    ?_⟩
  · rcases hL with rfl | rfl | rfl <;> rfl
  · have hw := window_offset hd hm i
    rw [hcorner, h10]
    rw [hcast] at hw ⊢
    exact hw
  · have hw := window_offset hd hm j
    rw [hcorner, h10]
    rw [hcast] at hw ⊢
    have e : (90 : ℚ) - ((j / 2 ^ (L - 10) : Nat) : ℚ) * (2 ^ (L - 10) * LODdegreeSizeLookUp L) -
        (90 - (j : ℚ) * LODdegreeSizeLookUp L) =
        (j : ℚ) * LODdegreeSizeLookUp L -
          ((j / 2 ^ (L - 10) : Nat) : ℚ) * (2 ^ (L - 10) * LODdegreeSizeLookUp L) := by ring
    rw [e]
    exact hw
  · intro x y
    have hgt : (L : Int) > (TEX_SOURCE_MAX_LOD : Int) := by
      rcases hL with rfl | rfl | rfl <;> decide
    have hnat : ((L : Int) - (TEX_SOURCE_MAX_LOD : Int)).toNat = L - 10 := by
      rcases hL with rfl | rfl | rfl <;> rfl
    have h10' : LODdegreeSizeLookUp TEX_SOURCE_MAX_LOD = LODdegreeSizeLookUp 10 := rfl
    unfold vertexUV
    rw [if_pos hgt]
    simp only [hnat, h10']

/-- C28 at the level-11 tile in the cell `(1, 1)`: it lies in the level-10 tile of the cell
`(0, 0)`, at the offset one half. -/
theorem texture_of_fine_tile_witness :
    (((1 : Nat) : ℚ) * LODdegreeSizeLookUp 11 -
        (findTopLeftCorner (((1 : Nat) : ℚ) * LODdegreeSizeLookUp 11)
          (90 - ((1 : Nat) : ℚ) * LODdegreeSizeLookUp 11) (LODdegreeSizeLookUp 10)).1) /
        LODdegreeSizeLookUp 10 + 1 / 2 ^ (11 - 10) ≤ 1 :=
  (texture_of_fine_tile emptyDataset 11 1 1 (Or.inl rfl) (by decide) (fun _ _ => 0)
    (fun _ => { r := 0, g := 0, b := 0 })).2.2.1.2

theorem gridCoord_gridKey (L i j : Nat) : gridCoord (gridKey L i j) = (L, i, j) := by
  have hd := LODdegreeSizeLookUp_pos L
  unfold gridCoord gridKey
  simp only [Int.toNat_ofNat]
  have e : (90 : ℚ) - (90 - (j : ℚ) * LODdegreeSizeLookUp L) = ((j : Int) : ℚ) *
      LODdegreeSizeLookUp L := by push_cast; ring
  have e' : (i : ℚ) * LODdegreeSizeLookUp L = ((i : Int) : ℚ) * LODdegreeSizeLookUp L := by
    push_cast; ring
  rw [e, e', floor_mul_div_self _ hd, floor_mul_div_self _ hd]
  simp

theorem gridTile_key {t : CTerrainData} (h : GridTile t) :
    ∃ L i j : Nat, L ≤ 13 ∧ i < 6 * 2 ^ L ∧ j < 3 * 2 ^ L ∧ keyOf t = gridKey L i j := by
  obtain ⟨L, i, j, hL, hlod, -, hi, hj, hlon, hlat⟩ := h
  exact ⟨L, i, j, hL, hi, hj, by simp only [keyOf, gridKey, hlon, hlat, hlod]⟩

theorem band_width (L : Nat) (hL : L ≤ 13) :
    ((sourceCellsPerRow L : Int) : ℚ) * HGTsourceDegreeSizeLookUp L = 360 ∧
    6 * 2 ^ L = sourceCellsPerRow L * tilesPerSourceCell L := by
  unfold sourceCellsPerRow HGTsourceDegreeSizeLookUp tilesPerSourceCell
  interval_cases L <;> norm_num

/-- The shard index of the key of the cell `(i, j)` of level `L`: the row and the column of
its source cell. -/
theorem keyIndex_gridKey {L i : Nat} (hL : L ≤ 13) (j : Nat) (hi : i < 6 * 2 ^ L) :
    keyIndex (gridKey L i j) =
      ((j / tilesPerSourceCell L : Nat) : Int) * (sourceCellsPerRow L : Int) +
        ((i / tilesPerSourceCell L : Nat) : Int) := by
  obtain ⟨hm, hD, -, -⟩ := band_tables L hL
  obtain ⟨hw, -⟩ := band_width L hL
  have hd := LODdegreeSizeLookUp_pos L
  have hmq : (0 : ℚ) < (tilesPerSourceCell L : ℚ) := by exact_mod_cast hm
  have hDpos : 0 < HGTsourceDegreeSizeLookUp L := by rw [hD]; exact mul_pos hmq hd
  have hq : ∀ k : Nat, (k : ℚ) * LODdegreeSizeLookUp L / HGTsourceDegreeSizeLookUp L =
      (k : ℚ) / (tilesPerSourceCell L : ℚ) := by
    intro k; rw [hD]; field_simp; ring
  unfold keyIndex gridKey hgtSourceIndex findTopLeftCornerOfHgtFile
  simp only [Int.toNat_ofNat]
  rw [convertTopLeft2AvabilityIndex_snapped hDpos hw (grid_lon_nonneg L i) (grid_lon_lt hi)
    (by nlinarith [(Nat.cast_nonneg j : (0 : ℚ) ≤ (j : ℚ))])]
  have e : (90 : ℚ) - (90 - (j : ℚ) * LODdegreeSizeLookUp L) =
      (j : ℚ) * LODdegreeSizeLookUp L := by ring
  rw [e, hq, hq, floor_natCast_div, floor_natCast_div]

theorem keyBand_gridKey (L i j : Nat) : keyBand (gridKey L i j) = HGTsourceLookUp L := by
  simp [keyBand, gridKey]

/-- Two keys of grid tiles in the same shard with the same level and the same position
within the source cell are the same key. -/
theorem cellCode_injective {L i j L' i' j' : Nat} (hL : L ≤ 13) (hL' : L' ≤ 13)
    (hi : i < 6 * 2 ^ L) (hi' : i' < 6 * 2 ^ L')
    (hidx : keyIndex (gridKey L i j) = keyIndex (gridKey L' i' j'))
    (hcode : cellCode (gridKey L i j) = cellCode (gridKey L' i' j')) :
    gridKey L i j = gridKey L' i' j' := by
  unfold cellCode at hcode
  rw [gridCoord_gridKey, gridCoord_gridKey] at hcode
  simp only [Sigma.mk.inj_iff] at hcode
  obtain ⟨hLL, hrest⟩ := hcode
  subst hLL
  have hrest' := eq_of_heq hrest
  simp only [Prod.mk.injEq] at hrest'
  obtain ⟨hmi, hmj⟩ := hrest'
  rw [keyIndex_gridKey hL j hi, keyIndex_gridKey hL j' hi'] at hidx
  obtain ⟨hm, -, -, -⟩ := band_tables L hL
  obtain ⟨-, hw⟩ := band_width L hL
  have hci : i / tilesPerSourceCell L < sourceCellsPerRow L := by
    rw [Nat.div_lt_iff_lt_mul hm, ← hw]; exact hi
  have hci' : i' / tilesPerSourceCell L < sourceCellsPerRow L := by
    rw [Nat.div_lt_iff_lt_mul hm, ← hw]; exact hi'
  have hidxN : j / tilesPerSourceCell L * sourceCellsPerRow L + i / tilesPerSourceCell L =
      j' / tilesPerSourceCell L * sourceCellsPerRow L + i' / tilesPerSourceCell L := by
    exact_mod_cast hidx
  have hdi : i / tilesPerSourceCell L = i' / tilesPerSourceCell L := by
    have h1 := congrArg (fun x => x % sourceCellsPerRow L) hidxN
    simp only [Nat.mul_add_mod', Nat.mod_eq_of_lt hci, Nat.mod_eq_of_lt hci'] at h1
    exact h1
  have hdj : j / tilesPerSourceCell L = j' / tilesPerSourceCell L := by
    rw [hdi] at hidxN
    have h2 := Nat.add_right_cancel hidxN
    exact Nat.eq_of_mul_eq_mul_right (lt_of_le_of_lt (Nat.zero_le _) hci) h2
  have ei : i = i' := by
    rw [← Nat.div_add_mod i (tilesPerSourceCell L), ← Nat.div_add_mod i' (tilesPerSourceCell L),
      hdi, hmi]
  have ej : j = j' := by
    rw [← Nat.div_add_mod j (tilesPerSourceCell L), ← Nat.div_add_mod j' (tilesPerSourceCell L),
      hdj, hmj]
  rw [ei, ej]

theorem card_cellCodes (band : Nat) :
    (cellCodes band).card = if band = 0 then 85 else if band = 1 then 5456
      else if band = 2 then 349184 else 0 := by
  unfold cellCodes
  rw [Finset.card_sigma]
  simp only [Finset.card_product, Finset.card_range]
  by_cases h0 : band = 0
  · subst h0; rfl
  · by_cases h1 : band = 1
    · subst h1; rfl
    · by_cases h2 : band = 2
      · subst h2; rfl
      · rw [if_neg h0, if_neg h1, if_neg h2]
        apply Finset.sum_eq_zero
        intro L hLm
        rw [Finset.mem_filter] at hLm
        have := HGTsourceLookUp_lt L
        omega

/-- Every cell of every level up to 13 is reached from the roots through `split`: a tile
with the key of a grid cell and the degree size of its level is a tile the tree can
hold. -/
theorem treeTile_of_gridKey : ∀ (L : Nat), L ≤ 13 → ∀ (i j : Nat) (t : CTerrainData),
    i < 6 * 2 ^ L → j < 3 * 2 ^ L → keyOf t = gridKey L i j →
    t.degreeSize = LODdegreeSizeLookUp L → TreeTile t := by
  intro L
  induction L with
  | zero =>
    intro _ i j t hi hj hk hd
    have hi' : i < 6 := by simpa using hi
    have hj' : j < 3 := by simpa using hj
    refine TreeTile.root i j hi' hj' t ⟨?_, hd⟩
    rw [requestKey_root hi', hk]
    simp [gridKey, LODdegreeSizeLookUp]
  | succ L ih =>
    intro hL i j t hi hj hk hd
    have hp : TreeTile (gridTileAt L (i / 2) (j / 2)) :=
      ih (by omega) (i / 2) (j / 2) _ (by rw [pow_succ] at hi; omega)
        (by rw [pow_succ] at hj; omega) rfl rfl
    have hLp : (gridTileAt L (i / 2) (j / 2)).LOD < 13 := by
      show ((L : Nat) : Int) < 13
      omega
    obtain ⟨e, r1, r2, r3, r4⟩ := @gridTile_requests (gridTileAt L (i / 2) (j / 2)) L
      (i / 2) (j / 2) rfl rfl rfl rfl
    have hi0 : 2 * (i / 2) < 6 * 2 ^ (L + 1) := by omega
    have hi1 : 2 * (i / 2) + 1 < 6 * 2 ^ (L + 1) := by rw [pow_succ] at hi ⊢; omega
    have g := fun (a : Nat) (ha : a < 6 * 2 ^ (L + 1)) (b : Nat) =>
      requestKey_grid (L + 1) a ((b : Nat) : Int) ha
    simp only [Int.cast_natCast] at g
    rcases Nat.mod_two_eq_zero_or_one i with hi2 | hi2 <;>
      rcases Nat.mod_two_eq_zero_or_one j with hj2 | hj2
    · have ei : i = 2 * (i / 2) := by omega
      have ej : j = 2 * (j / 2) := by omega
      refine TreeTile.NWchild _ hp hLp t ⟨?_, by rw [e]; exact hd⟩
      rw [e, r1, r3, g _ hi0, hk, ei, ej]
      simp only [gridKey, Nat.mul_div_cancel_left _ (by norm_num : 0 < 2)]
    · have ei : i = 2 * (i / 2) := by omega
      have ej : j = 2 * (j / 2) + 1 := by omega
      refine TreeTile.SWchild _ hp hLp t ⟨?_, by rw [e]; exact hd⟩
      rw [e, r1, r4, g _ hi0, hk]
      rw [← ei, ← ej]
      rfl
    · have ei : i = 2 * (i / 2) + 1 := by omega
      have ej : j = 2 * (j / 2) := by omega
      refine TreeTile.NEchild _ hp hLp t ⟨?_, by rw [e]; exact hd⟩
      rw [e, r2, r3, g _ hi1, hk]
      rw [← ei, ← ej]
      rfl
    · have ei : i = 2 * (i / 2) + 1 := by omega
      have ej : j = 2 * (j / 2) + 1 := by omega
      refine TreeTile.SEchild _ hp hLp t ⟨?_, by rw [e]; exact hd⟩
      rw [e, r2, r4, g _ hi1, hk]
      rw [← ei, ← ej]
      rfl

theorem gridKey_injective {L i j i' j' : Nat} (h : gridKey L i j = gridKey L i' j') :
    i = i' ∧ j = j' := by
  have := congrArg gridCoord h
  rw [gridCoord_gridKey, gridCoord_gridKey] at this
  simp only [Prod.mk.injEq, true_and] at this
  exact this

theorem crowdedKeys_card : crowdedKeys.card = 342 := by
  unfold crowdedKeys
  rw [Finset.card_image_of_injOn, Finset.card_range]
  intro a _ b _ hab
  obtain ⟨h1, h2⟩ := gridKey_injective hab
  rw [← Nat.div_add_mod a 64, ← Nat.div_add_mod b 64, h1, h2]

theorem crowdedKeys_mem {k : ℚ × ℚ × Int} (hk : k ∈ crowdedKeys) :
    ∃ n, n < 342 ∧ k = gridKey 8 (n % 64) (n / 64) := by
  unfold crowdedKeys at hk
  rw [Finset.mem_image] at hk
  obtain ⟨n, hn, rfl⟩ := hk
  exact ⟨n, Finset.mem_range.1 hn, rfl⟩

/-- The keys of `crowdedKeys` are keys of tiles the tree can hold, all in the shard 0 of the
band L04-L08. -/
theorem crowdedKeys_in_shard :
    ∀ k ∈ crowdedKeys, (∃ t, TreeTile t ∧ keyOf t = k) ∧ keyBand k = 1 ∧ keyIndex k = 0 := by
  intro k hk
  obtain ⟨n, hn, rfl⟩ := crowdedKeys_mem hk
  have hi : n % 64 < 6 * 2 ^ 8 := by
    have := Nat.mod_lt n (by norm_num : 0 < 64)
    norm_num; omega
  have hj : n / 64 < 3 * 2 ^ 8 := by norm_num; omega
  refine ⟨⟨gridTileAt 8 (n % 64) (n / 64),
    treeTile_of_gridKey 8 (by decide) _ _ _ hi hj rfl rfl, rfl⟩, ?_, ?_⟩
  · rw [keyBand_gridKey]; rfl
  · rw [keyIndex_gridKey (by decide) _ hi]
    have h64 : tilesPerSourceCell 8 = 64 := rfl
    rw [h64, Nat.div_eq_of_lt (Nat.mod_lt n (by norm_num)),
      Nat.div_eq_of_lt (by omega : n / 64 < 64)]
    simp

/-- C29 (as stated, refuted): 342 different keys of level-8 tiles the tree can hold, all of
which `cacheTerrainDataRegister` maps to the shard 0 of the band L04-L08. -/
theorem shard_receives_more_than_341_keys :
    341 < crowdedKeys.card ∧
    ∀ k ∈ crowdedKeys, (∃ t, TreeTile t ∧ keyOf t = k) ∧ keyBand k = 1 ∧ keyIndex k = 0 :=
  ⟨by rw [crowdedKeys_card]; decide, crowdedKeys_in_shard⟩

/-- C29 (amended): for every band and every shard of that band, the keys of tiles the tree
can hold that `cacheTerrainDataRegister` maps to that shard form a set of at most 85 keys
for the band L00-L03, 5456 for the band L04-L08 and 349184 for the band L09-L13. -/
theorem shard_population_bound (S : Finset (ℚ × ℚ × Int)) (band : Nat) (index : Int)
    (h : ∀ k ∈ S, (∃ t, TreeTile t ∧ keyOf t = k) ∧ keyBand k = band ∧ keyIndex k = index) :
    S.card ≤ if band = 0 then 85 else if band = 1 then 5456 else 349184 := by
  have hgrid : ∀ k ∈ S, ∃ L i j : Nat, L ≤ 13 ∧ i < 6 * 2 ^ L ∧ j < 3 * 2 ^ L ∧
      k = gridKey L i j := by
    intro k hk
    obtain ⟨⟨t, ht, rfl⟩, -⟩ := h k hk
    exact gridTile_key (treeTile_grid ht)
  have hle : S.card ≤ (cellCodes band).card := by
    apply Finset.card_le_card_of_injOn cellCode
    · intro k hk
      obtain ⟨L, i, j, hL, hi, hj, rfl⟩ := hgrid k hk
      obtain ⟨hm, -, -, -⟩ := band_tables L hL
      have hb := (h _ hk).2.1
      rw [keyBand_gridKey] at hb
      show cellCode (gridKey L i j) ∈ cellCodes band
      unfold cellCode cellCodes
      rw [gridCoord_gridKey]
      simp only [Finset.mem_sigma, Finset.mem_filter, Finset.mem_range, Finset.mem_product]
      exact ⟨⟨by omega, hb⟩, Nat.mod_lt i hm, Nat.mod_lt j hm⟩
    · intro k hk k' hk' hcode
      obtain ⟨L, i, j, hL, hi, hj, rfl⟩ := hgrid k hk
      obtain ⟨L', i', j', hL', hi', hj', rfl⟩ := hgrid k' hk'
      have hidx : keyIndex (gridKey L i j) = keyIndex (gridKey L' i' j') := by
        rw [(h _ hk).2.2, (h _ hk').2.2]
      exact cellCode_injective hL hL' hi hi' hidx hcode
  rw [card_cellCodes] at hle
  split_ifs at hle ⊢ <;> omega

/-- C29 (amended) at the 342 keys of `crowdedKeys` in the shard 0 of the band L04-L08. -/
theorem shard_population_bound_witness : crowdedKeys.card ≤ 5456 :=
  shard_population_bound crowdedKeys 1 0 crowdedKeys_in_shard

end HgtReader
